import Mathlib

/-!
PTPD-DEV1 power distribution module: control core.

Shallow embedding of `PDMManager.cpp`, `CANHandler.cpp` and the configuration
commands of `UARTHandler.cpp`.

* The file-scope `static` variables of both translation units (and the
  function-local `static`s of `processExternalInputs` and `handleButtonState`)
  are the fields of one `State` record; the four-element arrays are functions
  on `Fin 4`.
* `float` values are modelled by exact rationals `ℚ` (no rounding, no NaN or
  infinity); the quotient `iA / threshold` is therefore only faithful for a
  non-zero threshold.  The telemetry encoder and the CRC byte image, whose
  results depend on single bits, use IEEE-754 binary32 rounding (`f32`), and
  so does the second copy of the fuse engine (`fuseStepF32`, `updateF32`) that
  is used where the score is accumulated over many ticks.
* The EEPROM is a record of typed cells, one per address of the EEPROM map;
  the function-local `static` of `sendTelemetry` is an explicit argument.
* `unsigned long` is 32 bit on the target; `millis()` differences are taken
  modulo `2^32` (`subU32`).  `uint8_t` counters wrap modulo `256`.
* Every hardware read (`millis()`, `analogRead`, `digitalRead`, `CAN.read`) is
  an explicit argument of the function that performs it; `digitalWrite` on a
  switch pin is recorded in `State.switchPin` (`true` = HIGH).
* Logging and serial output have no effect on the control state and are left
  out, except the first word (`OK:` or `ERR:`) of the reply of a configuration
  command.  The console commands work on the configuration alone; a store
  outside a configuration array has no defined effect and is the result `none`.
-/

namespace PDM

/-- Index of one of the four output channels. -/
abbrev Ch := Fin 4

/-- The order in which every `for (uint8_t i = 0; i < 4; i++)` loop runs. -/
def allCh : List Ch := [0, 1, 2, 3]

inductive LEDState where
  | LED_STATE_OFF
  | LED_STATE_GREEN
  | LED_STATE_BLUE
  | LED_STATE_AMBER
  | LED_STATE_RED
  | LED_STATE_RED_FLASH
  deriving DecidableEq, Repr

inductive OutputMode where
  | MODE_LATCH
  | MODE_MOMENTARY
  deriving DecidableEq, Repr

inductive InputMode where
  | INPUT_MODE_NONE
  | INPUT_MODE_DIGITAL
  | INPUT_MODE_CAN_KEYPAD
  | INPUT_MODE_CAN_DIGOUT
  deriving DecidableEq, Repr

/-- A received CAN frame (`CanMsg`): identifier, length and the data bytes. -/
structure CanMsg where
  id : Nat
  data_length : Nat
  data : Fin 8 → Nat

/-- The configuration variables of `PDMManager.cpp` (persisted by `saveConfig`). -/
structure Config where
  ocThresholds : Ch → ℚ
  inrushThresholds : Ch → ℚ
  inrushTimeLimits : Ch → Nat
  underWarnThresholds : Ch → ℚ
  tempWarnThreshold : ℚ
  tempTripThreshold : ℚ
  outputMode : Ch → OutputMode
  outputGroup : Ch → Nat
  canSpeedKbps : Nat
  pdmNodeID : Nat
  keypadNodeID : Nat
  digitalOutCobId : Nat

/-- All mutable program state of the control core. -/
structure State where
  cfg : Config
  -- PDMManager.cpp, "Dynamic"
  overcurrentScore : Ch → ℚ
  inrushScore : Ch → ℚ
  channelOnTime : Ch → Nat
  channelActive : Ch → Bool
  faultOvercurrent : Ch → Bool
  warningUndercurrent : Ch → Bool
  faultThermal : Ch → Bool
  clearedFault : Ch → Bool
  resetButtonTiming : Ch → Bool
  currentLEDStates : Ch → LEDState
  lastTemperature : ℚ
  lastSensorErr : Bool
  lastUpdate : Nat
  filteredTemperature : ℚ
  lastTempUpdate : Nat
  tempSensorInitialized : Bool
  badTempReadingCount : Nat
  -- level last written to switchPins[i] (true = HIGH)
  switchPin : Ch → Bool
  -- statics of processExternalInputs
  lastMask : Nat
  candidateMask : Nat
  changeTime : Nat
  pressStartExt : Ch → Nat
  longDone : Ch → Bool
  -- statics of handleButtonState
  lastState : Ch → Bool
  pressTime : Ch → Nat
  -- CANHandler.cpp
  lastDigOutTime : Nat
  lastDig : Ch → Bool
  lockDig : Ch → Bool
  lastHeartbeatMs : Nat
  canOK : Bool
  digOutWatchdogTriggered : Bool
  lastInputMode : InputMode

/-- Modulus of `unsigned long` arithmetic on the target (32 bit). -/
def U32 : Nat := 4294967296

/-- The `unsigned long` difference `a - b`. -/
def subU32 (a b : Nat) : Nat := (a % U32 + U32 - b % U32) % U32

def voltageReference : ℚ := 5
def analogResolution : ℚ := 1023
def ris : ℚ := 1000
def kILIS : ℚ := 8200
def maxTempChangePerSecond : ℚ := 10
def maxBadReadings : Nat := 3
def extDebounceMs : Nat := 50
def WATCHDOG_TIMEOUT_MS : Nat := 1500

/-- The configuration defaults (static initialisers of `PDMManager.cpp`). -/
def defaultConfig : Config where
  ocThresholds := fun _ => 3
  inrushThresholds := fun _ => 5
  inrushTimeLimits := fun _ => 1000
  underWarnThresholds := fun _ => 1 / 10
  tempWarnThreshold := 70
  tempTripThreshold := 85
  outputMode := fun _ => OutputMode.MODE_LATCH
  outputGroup := fun i => i.val + 1
  canSpeedKbps := 1000
  pdmNodeID := 0x15
  keypadNodeID := 0x15
  digitalOutCobId := 0x680

/-- The state right after the static initialisers ran, before `init()`. -/
def bootState : State where
  cfg := defaultConfig
  overcurrentScore := fun _ => 0
  inrushScore := fun _ => 0
  channelOnTime := fun _ => 0
  channelActive := fun _ => false
  faultOvercurrent := fun _ => false
  warningUndercurrent := fun _ => false
  faultThermal := fun _ => false
  clearedFault := fun _ => false
  resetButtonTiming := fun _ => false
  currentLEDStates := fun _ => LEDState.LED_STATE_OFF
  lastTemperature := 0
  lastSensorErr := false
  lastUpdate := 0
  filteredTemperature := 25
  lastTempUpdate := 0
  tempSensorInitialized := false
  badTempReadingCount := 0
  switchPin := fun _ => false
  lastMask := 0
  candidateMask := 0
  changeTime := 0
  pressStartExt := fun _ => 0
  longDone := fun _ => false
  lastState := fun _ => false
  pressTime := fun _ => 0
  lastDigOutTime := 0
  lastDig := fun _ => false
  lockDig := fun _ => false
  lastHeartbeatMs := 0
  canOK := true
  digOutWatchdogTriggered := false
  lastInputMode := InputMode.INPUT_MODE_NONE

/-- The call `digitalWrite(switchPins[ch], level)`. -/
def digitalWrite (ch : Ch) (level : Bool) (s : State) : State :=
  { s with switchPin := Function.update s.switchPin ch level }

/-- The function `shutdownGroup(ch)`: every channel of the group of `ch` is
switched off and flagged. -/
def shutdownGroup (ch : Ch) (s : State) : State :=
  let grp := s.cfg.outputGroup ch
  allCh.foldl
    (fun s i =>
      if s.cfg.outputGroup i = grp then
        digitalWrite i false
          { s with
            channelActive := Function.update s.channelActive i false
            faultOvercurrent := Function.update s.faultOvercurrent i true }
      else s)
    s

/-- The function `PDMManager::setChannel(ch, on)`; `now` is the value of `millis()`
and `on_` the argument `on`. -/
def setChannel (now : Nat) (ch : Ch) (on_ : Bool) (s : State) : State :=
  let s := { s with channelActive := Function.update s.channelActive ch on_ }
  let s :=
    if on_ then
      { s with
        channelOnTime := Function.update s.channelOnTime ch now
        overcurrentScore := Function.update s.overcurrentScore ch 0
        faultOvercurrent := Function.update s.faultOvercurrent ch false
        faultThermal := Function.update s.faultThermal ch false
        warningUndercurrent := Function.update s.warningUndercurrent ch false
        clearedFault := Function.update s.clearedFault ch false }
    else s
  digitalWrite ch on_ s

/-- The function `PDMManager::clearChannelFault(ch)`. -/
def clearChannelFault (ch : Ch) (s : State) : State :=
  { s with
    faultOvercurrent := Function.update s.faultOvercurrent ch false
    faultThermal := Function.update s.faultThermal ch false
    warningUndercurrent := Function.update s.warningUndercurrent ch false
    clearedFault := Function.update s.clearedFault ch true }

/-- The function `PDMManager::init()`; `loaded` is the configuration that
`loadConfig()` leaves in memory and `now` the value of `millis()`. -/
def init (loaded : Config) (now : Nat) (s : State) : State :=
  let s := { s with cfg := loaded }
  let s := allCh.foldl
    (fun s i =>
      { digitalWrite i false s with
        channelActive := Function.update s.channelActive i false
        faultOvercurrent := Function.update s.faultOvercurrent i false
        warningUndercurrent := Function.update s.warningUndercurrent i false
        faultThermal := Function.update s.faultThermal i false
        clearedFault := Function.update s.clearedFault i false
        currentLEDStates := Function.update s.currentLEDStates i LEDState.LED_STATE_OFF })
    s
  { s with lastUpdate := now }

/-- Load current computed from the ADC reading `rawI` (step 4 of `update`). -/
def measuredCurrent (rawI : Int) : ℚ :=
  let vI : ℚ := (rawI : ℚ) / analogResolution * voltageReference
  vI / ris * kILIS

/-- Temperature computed from the ADC reading of pin A4; `-999` marks a sensor
voltage outside the plausible range. -/
def rawTemperatureOf (rawT : Int) : ℚ :=
  let vT : ℚ := (rawT : ℚ) / analogResolution * voltageReference
  if vT < 0.05 ∨ vT > 2.1 then -999 else (vT - 0.5) / 0.01

/-- The tick duration `dt = (now - lastUpdate) / 1000.0f` of `update`. -/
def tickDt (now : Nat) (s : State) : ℚ := (subU32 now s.lastUpdate : ℚ) / 1000

/-- First part of `PDMManager::update()`: bookkeeping of `lastUpdate` and the
temperature filter, up to and including `lastTemperature = T`. -/
def updateTemperature (now : Nat) (rawT : Int) (s : State) : State :=
  let s := { s with lastUpdate := now }
  let vT : ℚ := (rawT : ℚ) / analogResolution * voltageReference
  let rawTemperature : ℚ := rawTemperatureOf rawT
  let s :=
    if !s.tempSensorInitialized then
      if rawTemperature ≥ -40 ∧ rawTemperature ≤ 150 then
        { s with
          filteredTemperature := rawTemperature
          tempSensorInitialized := true
          lastTempUpdate := now
          badTempReadingCount := 0 }
      else
        { s with
          filteredTemperature := 25
          lastSensorErr := true
          lastTemperature := 25 }
    else s
  let tempDt : ℚ := (subU32 now s.lastTempUpdate : ℚ) / 1000
  let s :=
    if tempDt > 0.1 then
      let s :=
        if rawTemperature ≥ -40 ∧ rawTemperature ≤ 150 ∧ vT > 0.05 ∧ vT < 2.1 then
          let maxChange := maxTempChangePerSecond * tempDt
          let tempDiff := rawTemperature - s.filteredTemperature
          let s :=
            if abs tempDiff > maxChange then
              if tempDiff > 0 then
                { s with filteredTemperature := s.filteredTemperature + maxChange }
              else
                { s with filteredTemperature := s.filteredTemperature - maxChange }
            else
              { s with filteredTemperature := rawTemperature }
          { s with badTempReadingCount := 0, lastSensorErr := false }
        else
          let s := { s with badTempReadingCount := (s.badTempReadingCount + 1) % 256 }
          if s.badTempReadingCount ≥ maxBadReadings then
            { s with lastSensorErr := true }
          else s
      { s with lastTempUpdate := now }
    else s
  { s with lastTemperature := s.filteredTemperature }

/-- The local `sensorError` of `update` (without `BYPASS_TEMP_SENSOR_ERROR`). -/
def sensorError (s : State) : Bool :=
  s.lastSensorErr || decide (s.badTempReadingCount ≥ maxBadReadings)

/-- Steps 7 and 8 of the channel loop: drive the switch HIGH and choose the LED. -/
def driveOn (iA : ℚ) (i : Ch) (s : State) : State :=
  let s := digitalWrite i true s
  let led :=
    if s.faultOvercurrent i then LEDState.LED_STATE_RED
    else if s.warningUndercurrent i then LEDState.LED_STATE_BLUE
    else if iA > s.cfg.ocThresholds i then LEDState.LED_STATE_AMBER
    else LEDState.LED_STATE_GREEN
  { s with currentLEDStates := Function.update s.currentLEDStates i led }

/-- Steps 5 and 6 of the channel loop (the two fuses), followed by steps 7 and 8
when no fuse blows.  `iA` is the measured current, `dt` the tick duration.
The sum `score + dt * ex * ex` is exact here, which describes one tick; the
value that the program accumulates over many ticks is rounded in every tick and
is given by `fuseStepF32`. -/
def fuseStep (now : Nat) (dt : ℚ) (iA : ℚ) (i : Ch) (s : State) : State :=
  let elapsed := subU32 now (s.channelOnTime i)
  if elapsed < s.cfg.inrushTimeLimits i then
    if iA > s.cfg.inrushThresholds i then
      let ex := iA / s.cfg.inrushThresholds i - 1
      let s := { s with
        inrushScore := Function.update s.inrushScore i (s.inrushScore i + dt * ex * ex) }
      if s.inrushScore i ≥ 1 then
        let s := setChannel now i false s
        { s with
          faultOvercurrent := Function.update s.faultOvercurrent i true
          inrushScore := Function.update s.inrushScore i 0 }
      else driveOn iA i s
    else
      driveOn iA i { s with inrushScore := Function.update s.inrushScore i 0 }
  else
    if iA > s.cfg.ocThresholds i then
      let ex2 := iA / s.cfg.ocThresholds i - 1
      let s := { s with
        overcurrentScore :=
          Function.update s.overcurrentScore i (s.overcurrentScore i + dt * ex2 * ex2) }
      if s.overcurrentScore i ≥ 1 then
        let s := setChannel now i false s
        { s with
          faultOvercurrent := Function.update s.faultOvercurrent i true
          overcurrentScore := Function.update s.overcurrentScore i 0
          resetButtonTiming := Function.update s.resetButtonTiming i true }
      else driveOn iA i s
    else
      driveOn iA i { s with overcurrentScore := Function.update s.overcurrentScore i 0 }

/-- The statement `if (channelActive[i] && clearedFault[i]) clearedFault[i] = false;`. -/
def ackCleared (i : Ch) (s : State) : State :=
  if s.channelActive i && s.clearedFault i then
    { s with clearedFault := Function.update s.clearedFault i false }
  else s

/-- Body of the per-channel loop of `update` for channel `i`; `T` is the
filtered temperature and `sensErr` the local `sensorError`. -/
def updateChannel (now : Nat) (dt : ℚ) (T : ℚ) (sensErr : Bool) (rawI : Ch → Int)
    (s : State) (i : Ch) : State :=
  if s.clearedFault i && !s.channelActive i then
    digitalWrite i false
      { s with currentLEDStates := Function.update s.currentLEDStates i LEDState.LED_STATE_OFF }
  else
    let s := ackCleared i s
    if sensErr then shutdownGroup i s
    else if T ≥ s.cfg.tempTripThreshold then shutdownGroup i s
    else if !s.channelActive i then
      let led :=
        if s.faultThermal i then LEDState.LED_STATE_RED_FLASH
        else if s.faultOvercurrent i then LEDState.LED_STATE_RED
        else LEDState.LED_STATE_OFF
      digitalWrite i false
        { s with currentLEDStates := Function.update s.currentLEDStates i led }
    else
      let iA := measuredCurrent (rawI i)
      let s := { s with
        warningUndercurrent :=
          Function.update s.warningUndercurrent i (decide (iA < s.cfg.underWarnThresholds i)) }
      fuseStep now dt iA i s

/-- The function `PDMManager::update()`.  `now` is `millis()`, `rawT` the ADC
reading of the temperature pin and `rawI i` the ADC reading of the current
sense pin of channel `i`. -/
def update (now : Nat) (rawT : Int) (rawI : Ch → Int) (s : State) : State :=
  let dt := tickDt now s
  let s := updateTemperature now rawT s
  allCh.foldl (updateChannel now dt s.filteredTemperature (sensorError s) rawI) s

/-- The loop that clears the faults of every member of group `grp`
(long-press fault clear, used by both button surfaces). -/
def clearGroupFaults (grp : Nat) (s : State) : State :=
  allCh.foldl
    (fun s i =>
      if s.cfg.outputGroup i = grp then
        { s with
          faultOvercurrent := Function.update s.faultOvercurrent i false
          faultThermal := Function.update s.faultThermal i false
          clearedFault := Function.update s.clearedFault i true }
      else s)
    s

/-- Body of the loop of `applyPress` for channel `i`; `grp` is the group of the
pressed button. -/
def applyPressChannel (now : Nat) (grp : Nat) (pressed : Bool) (s : State) (i : Ch) : State :=
  if s.cfg.outputGroup i ≠ grp then s
  else
    let isFaulted := s.faultOvercurrent i || s.faultThermal i
    let justCleared := s.clearedFault i
    if s.cfg.outputMode i = OutputMode.MODE_LATCH then
      if pressed then
        if isFaulted && !justCleared then s
        else
          let s := setChannel now i (!s.channelActive i) s
          if justCleared then
            { s with clearedFault := Function.update s.clearedFault i false }
          else s
      else s
    else
      if isFaulted && !justCleared then setChannel now i false s
      else
        let s := setChannel now i pressed s
        if justCleared then
          { s with
            clearedFault := Function.update s.clearedFault i false
            faultOvercurrent := Function.update s.faultOvercurrent i false
            faultThermal := Function.update s.faultThermal i false }
        else s

/-- The function `applyPress(ch, pressed)`. -/
def applyPress (now : Nat) (ch : Ch) (pressed : Bool) (s : State) : State :=
  allCh.foldl (applyPressChannel now (s.cfg.outputGroup ch) pressed) s

/-- The function `getExtSwitchMask()`; `pinLevel i` is the level read from
`extSwitchPins[i]` (`true` = HIGH, a pressed button reads LOW). -/
def getExtSwitchMask (pinLevel : Ch → Bool) : Nat :=
  allCh.foldl (fun mask i => if pinLevel i = false then mask ||| (1 <<< i.val) else mask) 0

/-- First loop of `processExternalInputs`: fault-induced button timing resets. -/
def extResetTiming (now : Nat) (s : State) : State :=
  allCh.foldl
    (fun s i =>
      if s.resetButtonTiming i then
        { s with
          pressStartExt := Function.update s.pressStartExt i now
          longDone := Function.update s.longDone i false
          resetButtonTiming := Function.update s.resetButtonTiming i false }
      else s)
    s

/-- Press-edge part of the button loop of `processExternalInputs`. -/
def extPressEdge (now : Nat) (nowP wasP : Bool) (ch : Ch) (s : State) : State :=
  if nowP && !wasP then
    let s := { s with
      pressStartExt := Function.update s.pressStartExt ch now
      longDone := Function.update s.longDone ch false }
    if s.cfg.outputMode ch = OutputMode.MODE_MOMENTARY then
      { applyPress now ch true s with lastInputMode := InputMode.INPUT_MODE_DIGITAL }
    else s
  else s

/-- The long-press fault clear of `processExternalInputs`: clear the faults of
the group, call `shutdownGroup(ch)` and set `longDone[ch]`. -/
def extFaultClear (ch : Ch) (s : State) : State :=
  let s := clearGroupFaults (s.cfg.outputGroup ch) s
  let s := shutdownGroup ch s
  { s with longDone := Function.update s.longDone ch true }

/-- Long-press part of the button loop of `processExternalInputs`. -/
def extLongPress (now : Nat) (nowP : Bool) (ch : Ch) (s : State) : State :=
  if nowP && !s.longDone ch && decide (subU32 now (s.pressStartExt ch) ≥ 1000) then
    let allowLongPress :=
      decide (s.cfg.outputMode ch = OutputMode.MODE_LATCH) ||
      (decide (s.cfg.outputMode ch = OutputMode.MODE_MOMENTARY) &&
        (s.faultOvercurrent ch || s.faultThermal ch))
    if allowLongPress then extFaultClear ch s else s
  else s

/-- Short-press action on a release edge: `if (!longDone[ch]) { if LATCH ... }`. -/
def extShortPress (now : Nat) (ch : Ch) (s : State) : State :=
  if !s.longDone ch then
    if s.cfg.outputMode ch = OutputMode.MODE_LATCH then
      { applyPress now ch true s with lastInputMode := InputMode.INPUT_MODE_DIGITAL }
    else s
  else s

/-- Release-edge part of the button loop of `processExternalInputs`. -/
def extRelease (now : Nat) (nowP wasP : Bool) (ch : Ch) (s : State) : State :=
  if !nowP && wasP then
    let s := extShortPress now ch s
    if decide (s.cfg.outputMode ch = OutputMode.MODE_MOMENTARY) && !s.longDone ch then
      applyPress now ch false s
    else s
  else s

/-- Body of the button loop of `processExternalInputs` for button `ch`. -/
def extButtonStep (now : Nat) (s : State) (ch : Ch) : State :=
  let nowP := (s.candidateMask &&& (1 <<< ch.val)) != 0
  let wasP := (s.lastMask &&& (1 <<< ch.val)) != 0
  extRelease now nowP wasP ch (extLongPress now nowP ch (extPressEdge now nowP wasP ch s))

/-- The function `PDMManager::processExternalInputs()`. -/
def processExternalInputs (now : Nat) (pinLevel : Ch → Bool) (s : State) : State :=
  let s := extResetTiming now s
  let raw := getExtSwitchMask pinLevel
  if raw ≠ s.candidateMask then
    { s with candidateMask := raw, changeTime := now }
  else if subU32 now s.changeTime < extDebounceMs then s
  else
    let s := allCh.foldl (extButtonStep now) s
    { s with lastMask := s.candidateMask }

/-- The loop `for i: if (getOutputGroup(i)==grp) setChannel(i, v)`. -/
def setGroup (now : Nat) (grp : Nat) (v : Bool) (s : State) : State :=
  allCh.foldl (fun s i => if s.cfg.outputGroup i = grp then setChannel now i v s else s) s

/-- PRESS EDGE branch of `handleButtonState`; `grp` is the group of `ch`. -/
def keyPressEdge (now : Nat) (grp : Nat) (ch : Ch) (s : State) : State :=
  let s := { s with pressTime := Function.update s.pressTime ch now }
  if s.cfg.outputMode ch = OutputMode.MODE_MOMENTARY then setGroup now grp true s else s

/-- Short-press part of the RELEASE EDGE branch of `handleButtonState`
(`dur < 1000`). -/
def keyShortPress (now : Nat) (grp : Nat) (ch : Ch) (s : State) : State :=
  if s.cfg.outputMode ch = OutputMode.MODE_LATCH then
    let groupFault := allCh.any fun i =>
      decide (s.cfg.outputGroup i = grp) && (s.faultOvercurrent i || s.faultThermal i)
    if !groupFault then
      let anyOn := allCh.any fun i =>
        decide (s.cfg.outputGroup i = grp) && s.channelActive i
      setGroup now grp (!anyOn) s
    else s
  else s

/-- The statement `if (dur>=1000) ... else ...` of the RELEASE EDGE branch. -/
def keyReleaseAction (now : Nat) (grp : Nat) (ch : Ch) (s : State) : State :=
  let dur := subU32 now (s.pressTime ch)
  if dur ≥ 1000 then clearGroupFaults grp s else keyShortPress now grp ch s

/-- RELEASE EDGE branch of `handleButtonState`. -/
def keyReleaseEdge (now : Nat) (grp : Nat) (ch : Ch) (s : State) : State :=
  let s := keyReleaseAction now grp ch s
  if s.cfg.outputMode ch = OutputMode.MODE_MOMENTARY then setGroup now grp false s else s

/-- The two edge branches of `handleButtonState`. -/
def keyEdges (now : Nat) (ch : Ch) (pressed : Bool) (s : State) : State :=
  let was := s.lastState ch
  let grp := s.cfg.outputGroup ch
  if pressed && !was then keyPressEdge now grp ch s
  else if !pressed && was then keyReleaseEdge now grp ch s
  else s

/-- The function `PDMManager::handleButtonState(ch, pressed)`. -/
def handleButtonState (now : Nat) (ch : Ch) (pressed : Bool) (s : State) : State :=
  let s := keyEdges now ch pressed s
  { s with lastState := Function.update s.lastState ch pressed }

/-- Loop of the DIGOUT timeout: every channel off, last-seen bits reset. -/
def digOutAllOff (now : Nat) (s : State) : State :=
  allCh.foldl
    (fun s ch =>
      let s := setChannel now ch false s
      { s with lastDig := Function.update s.lastDig ch false })
    s

/-- DIGOUT timeout branch of `CANHandler::process()`. -/
def digOutTimeout (now : Nat) (s : State) : State :=
  if decide (s.lastInputMode = InputMode.INPUT_MODE_CAN_DIGOUT) &&
      decide (subU32 now s.lastDigOutTime > 2000) then
    let s := digOutAllOff now s
    { s with digOutWatchdogTriggered := true, lastDigOutTime := now }
  else s

/-- The commanded level of channel `ch` in a DIGOUT frame: bit 0 of byte `2*ch`. -/
def newDig (buf : Fin 8 → Nat) (ch : Ch) : Bool :=
  (buf ⟨(2 * ch.val) % 8, Nat.mod_lt _ (by decide)⟩ &&& 0x01) != 0

/-- Rising edge of the DIGITAL-OUT service: turn the channel ON. -/
def digOutRising (now : Nat) (ch : Ch) (s : State) : State :=
  let s := setChannel now ch true s
  { s with lastInputMode := InputMode.INPUT_MODE_CAN_DIGOUT }

/-- Falling edge of the DIGITAL-OUT service: turn OFF and clear lock and fault. -/
def digOutFalling (now : Nat) (ch : Ch) (s : State) : State :=
  let s := setChannel now ch false s
  let s := { s with lockDig := Function.update s.lockDig ch false }
  let s := clearChannelFault ch s
  { s with lastInputMode := InputMode.INPUT_MODE_CAN_DIGOUT }

/-- The `if ... else if ...` edge detection of the DIGITAL-OUT loop. -/
def digOutEdge (now : Nat) (buf : Fin 8 → Nat) (s : State) (ch : Ch) : State :=
  if newDig buf ch && !s.lastDig ch && !s.lockDig ch then digOutRising now ch s
  else if !newDig buf ch && s.lastDig ch then digOutFalling now ch s
  else s

/-- Edge loop body of the DIGITAL-OUT service for channel `ch`. -/
def digOutChannel (now : Nat) (buf : Fin 8 → Nat) (s : State) (ch : Ch) : State :=
  let s := digOutEdge now buf s ch
  { s with lastDig := Function.update s.lastDig ch (newDig buf ch) }

/-- The loop that locks every channel with a latched over-current fault. -/
def digOutLock (s : State) : State :=
  allCh.foldl
    (fun s ch =>
      if s.faultOvercurrent ch then { s with lockDig := Function.update s.lockDig ch true }
      else s)
    s

/-- The DIGITAL-OUT service of `CANHandler::process()` for one matching frame. -/
def digOutService (now : Nat) (buf : Fin 8 → Nat) (s : State) : State :=
  let s := allCh.foldl (digOutChannel now buf) s
  let s := { s with lastDigOutTime := now, digOutWatchdogTriggered := false }
  digOutLock s

/-- Body of the key-state PDO loop for button `ch`. -/
def keypadButton (now : Nat) (buf : Fin 8 → Nat) (s : State) (ch : Ch) : State :=
  let pressed := (buf 0 &&& (1 <<< ch.val)) != 0
  let s := handleButtonState now ch pressed s
  if pressed then { s with lastInputMode := InputMode.INPUT_MODE_CAN_KEYPAD } else s

/-- Key-state PDO handling of `CANHandler::process()`. -/
def keypadPdo (now : Nat) (buf : Fin 8 → Nat) (s : State) : State :=
  allCh.foldl (keypadButton now buf) s

/-- Dispatch of one received frame in `CANHandler::process()`.  The frames
sent on a keypad boot-up change no control state. -/
def canFrame (now : Nat) (rxMsg : CanMsg) (s : State) : State :=
  let id := rxMsg.id
  let len := rxMsg.data_length
  let buf := rxMsg.data
  if id = s.cfg.digitalOutCobId ∧ len ≥ 8 then digOutService now buf s
  else
    let kpID := s.cfg.keypadNodeID
    let pdoID := 0x180 + kpID
    let bootID := 0x700 + kpID
    if id = pdoID ∧ len ≥ 1 then keypadPdo now buf s
    else if id = bootID ∧ len ≥ 1 ∧ buf 0 = 0x00 then s
    else if id = bootID ∧ len ≥ 1 ∧ buf 0 = 0x05 then
      { s with lastHeartbeatMs := now, canOK := true }
    else s

/-- The function `CANHandler::process()`; `frame` is `none` when
`CAN.available()` is false. -/
def canProcess (now : Nat) (frame : Option CanMsg) (s : State) : State :=
  let s := digOutTimeout now s
  match frame with
  | none => s
  | some rxMsg => canFrame now rxMsg s

/-- The loop `for i: setChannel(i, false)` of the watchdogs. -/
def allOff (now : Nat) (s : State) : State :=
  allCh.foldl (fun s i => setChannel now i false s) s

/-- The function `CANHandler::checkWatchdog()`. -/
def checkWatchdog (now : Nat) (s : State) : State :=
  match s.lastInputMode with
  | InputMode.INPUT_MODE_CAN_KEYPAD =>
    if s.lastHeartbeatMs ≠ 0 ∧ subU32 now s.lastHeartbeatMs > WATCHDOG_TIMEOUT_MS then
      let s := if s.canOK then allOff now s else s
      { s with canOK := false }
    else s
  | InputMode.INPUT_MODE_CAN_DIGOUT => s
  | InputMode.INPUT_MODE_DIGITAL => s
  | InputMode.INPUT_MODE_NONE => s

/-- One call of an entry point of the control core together with the
hardware inputs it reads. -/
inductive Op where
  | setChannel (now : Nat) (ch : Ch) (on_ : Bool)
  | clearChannelFault (ch : Ch)
  | handleButtonState (now : Nat) (ch : Ch) (pressed : Bool)
  | processExternalInputs (now : Nat) (pinLevel : Ch → Bool)
  | update (now : Nat) (rawT : Int) (rawI : Ch → Int)
  | canProcess (now : Nat) (frame : Option CanMsg)
  | checkWatchdog (now : Nat)

/-- Effect of one operation on the state. -/
def step (op : Op) (s : State) : State :=
  match op with
  | Op.setChannel now ch v => setChannel now ch v s
  | Op.clearChannelFault ch => clearChannelFault ch s
  | Op.handleButtonState now ch pressed => handleButtonState now ch pressed s
  | Op.processExternalInputs now pinLevel => processExternalInputs now pinLevel s
  | Op.update now rawT rawI => update now rawT rawI s
  | Op.canProcess now frame => canProcess now frame s
  | Op.checkWatchdog now => checkWatchdog now s

/-- Run a list of operations, first to last. -/
def run (ops : List Op) (s : State) : State := ops.foldl (fun s op => step op s) s

/-- States reachable from `PDMManager::init()` on the boot state by any
sequence of operations. -/
inductive Reachable : State → Prop where
  | init (loaded : Config) (now : Nat) : Reachable (init loaded now bootState)
  | step (op : Op) (s : State) : Reachable s → Reachable (step op s)

/-! ### `float` arithmetic of the frame encoders

The byte values of the telemetry frame depend on the rounding of every `float`
operation, so the encoders are modelled in IEEE-754 binary32 arithmetic. -/

/-- Pass the value of `n` on, evaluated once. -/
def evalNat {α : Type} (n : Nat) (k : Nat → α) : α :=
  match n with
  | 0 => k 0
  | m + 1 => k (m + 1)

/-- Pass the value of `z` on, evaluated once. -/
def evalInt {α : Type} (z : Int) (k : Int → α) : α :=
  match z with
  | Int.ofNat n => evalNat n fun n => k (Int.ofNat n)
  | Int.negSucc n => evalNat n fun n => k (Int.negSucc n)

/-- One step of the binary search of `ilog2`: if `n ≥ 2^w`, shift `n` right by
`w` bits and add `w` to the count. -/
def ilog2Step (w : Nat) (p : Nat × Nat) : Nat × Nat :=
  evalNat p.1 fun n => evalNat p.2 fun c => if n ≥ 2 ^ w then (n >>> w, c + w) else (n, c)

/-- Auxiliary recursion of `ilog2`, structural in the first argument: 64 bits
are taken off per step, the rest is a binary search. -/
def ilog2Aux : Nat → Nat → Nat → Nat
  | 0, _, c => c
  | fuel + 1, n, c =>
    if n ≥ 2 ^ 64 then ilog2Aux fuel (n >>> 64) (c + 64)
    else
      (ilog2Step 1 (ilog2Step 2 (ilog2Step 4 (ilog2Step 8 (ilog2Step 16
        (ilog2Step 32 (n, c))))))).2

/-- The integer binary logarithm, `⌊log2 n⌋` for `n ≥ 1`. -/
def ilog2 (n : Nat) : Nat := evalNat n fun n => ilog2Aux n n 0

/-- Quotient `N / D` rounded to the nearest integer, ties to the even one. -/
def divRoundEven (N D : Nat) : Nat :=
  let f := N / D
  let r := N % D
  if 2 * r < D then f
  else if 2 * r > D then f + 1
  else if f % 2 = 0 then f else f + 1

/-- Binary exponent of `a / d` for `a, d ≥ 1`: the `e` with
`2^e ≤ a/d < 2^(e+1)`. -/
def fracExponent (a d : Nat) : Int :=
  if a ≥ d then (ilog2 (a / d) : Int) else -((ilog2 ((d - 1) / a) : Int) + 1)

/-- Exponent of the last significand bit when `a / d` is represented in
binary32: 23 below the binary exponent, which is at least `-126`. -/
def f32Quantum (a d : Nat) : Int := max (fracExponent a d) (-126) - 23

/-- The significand of `a / d` at quantum `2^k`, rounded to nearest, ties to
even. -/
def f32Significand (a d : Nat) (k : Int) : Nat :=
  if k ≥ 0 then divRoundEven a (d * 2 ^ k.toNat) else divRoundEven (a * 2 ^ (-k).toNat) d

/-- The value of a `float` operation whose exact result is `x`: the IEEE-754
binary32 number nearest to `x`, ties to even (24-bit significand, subnormals
below `2^-126`; results beyond the largest finite binary32 number do not occur
here). -/
def f32 (x : ℚ) : ℚ :=
  match x with
  | ⟨num, den, _, _⟩ =>
    evalInt num fun num =>
    evalNat den fun d =>
      if num = 0 then 0
      else
        evalInt (f32Quantum num.natAbs d) fun k =>
        evalNat (f32Significand num.natAbs d k) fun n =>
          let y : ℚ :=
            if k ≥ 0 then ((n * 2 ^ k.toNat : Nat) : ℚ)
            else (n : ℚ) / ((2 ^ (-k).toNat : Nat) : ℚ)
          if num < 0 then -y else y

/-- The four bytes (little-endian) of the binary32 image of `x`. -/
def f32Bytes (x : ℚ) : List Nat :=
  let bits : Nat :=
    if x = 0 then 0
    else
      let a := x.num.natAbs
      let k := f32Quantum a x.den
      let n := f32Significand a x.den k
      -- a significand rounded up to 2^24 moves to the next binade
      let k := if n = 2 ^ 24 then k + 1 else k
      let n := if n = 2 ^ 24 then 2 ^ 23 else n
      let expField : Nat := if n < 2 ^ 23 then 0 else (k + 23 + 127).toNat
      let frac : Nat := if n < 2 ^ 23 then n else n - 2 ^ 23
      (if x < 0 then 2 ^ 31 else 0) + expField * 2 ^ 23 + frac
  [bits % 256, bits / 256 % 256, bits / 65536 % 256, bits / 16777216 % 256]

/-- The C function `round` on a `float`: nearest integer, halves away from zero. -/
def roundHalfAway (x : ℚ) : Int := if x ≥ 0 then ⌊x + 1 / 2⌋ else -⌊-x + 1 / 2⌋

/-- The Arduino macro `constrain(amt, low, high)`. -/
def constrain (amt low high : Int) : Int :=
  if amt < low then low else if amt > high then high else amt

/-! ### Frames sent by `CANHandler.cpp` -/

/-- Byte `i` of a frame, for a channel index `i`. -/
def byteIx (i : Ch) : Fin 8 := ⟨i.val, lt_of_lt_of_le i.isLt (by decide)⟩

/-- Body of the loop of `sendKeypadLEDStatus` for channel `i`. -/
def ledStatusStep (states : Ch → LEDState) (data : Fin 8 → Nat) (i : Ch) : Fin 8 → Nat :=
  let b := (1 <<< i.val) % 256
  match states i with
  | LEDState.LED_STATE_GREEN => Function.update data 1 (data 1 ||| b)
  | LEDState.LED_STATE_BLUE => Function.update data 2 (data 2 ||| b)
  | LEDState.LED_STATE_AMBER =>
    let data := Function.update data 0 (data 0 ||| b)
    Function.update data 1 (data 1 ||| b)
  | LEDState.LED_STATE_RED => Function.update data 0 (data 0 ||| b)
  | _ => data

/-- The function `CANHandler::sendKeypadLEDStatus(states)`: the frame it hands
to `sendMessage`. -/
def sendKeypadLEDStatus (s : State) (states : Ch → LEDState) : CanMsg :=
  let data : Fin 8 → Nat := allCh.foldl (ledStatusStep states) (fun _ => 0)
  { id := 0x200 + s.cfg.keypadNodeID, data_length := 8, data := data }

/-- Body of the loop of `sendKeypadLEDBlinkStatus` for channel `i`. -/
def ledBlinkStep (states : Ch → LEDState) (data : Fin 8 → Nat) (i : Ch) : Fin 8 → Nat :=
  if states i = LEDState.LED_STATE_RED_FLASH then
    Function.update data 0 ((data 0 ||| (1 <<< i.val)) % 256)
  else data

/-- The function `CANHandler::sendKeypadLEDBlinkStatus(states)`: the frame it
hands to `sendMessage`. -/
def sendKeypadLEDBlinkStatus (s : State) (states : Ch → LEDState) : CanMsg :=
  let data : Fin 8 → Nat := allCh.foldl (ledBlinkStep states) (fun _ => 0)
  { id := 0x300 + s.cfg.keypadNodeID, data_length := 8, data := data }

/-- The function `PDMManager::getChannelCurrent(ch)` in `float` arithmetic;
`raw` is the ADC reading of the current sense pin. -/
def getChannelCurrent (raw : Int) : ℚ :=
  let v := f32 (f32 ((raw : ℚ) / analogResolution) * voltageReference)
  f32 (f32 (v / ris) * kILIS)

/-- The function `PDMManager::readBatteryVoltage()` in `float` arithmetic;
`raw` is the ADC reading of pin A5. -/
def readBatteryVoltage (raw : Int) : ℚ :=
  let v := f32 (f32 ((raw : ℚ) / analogResolution) * voltageReference)
  f32 (v * 4)

/-- The loop of `sendTelemetry` that builds the fault mask (a `uint8_t`) from
the undercurrent warnings and the over-current faults. -/
def faultMask (warn fault : Ch → Bool) : Nat :=
  allCh.foldl
    (fun flags i =>
      let flags := if warn i then (flags ||| (1 <<< i.val)) % 256 else flags
      if fault i then (flags ||| (1 <<< (i.val + 4))) % 256 else flags)
    0

/-- The fault mask of `sendTelemetry`, read through `isUndercurrentWarning` and
`isOvercurrentFault`. -/
def telemetryFlags (s : State) : Nat := faultMask s.warningUndercurrent s.faultOvercurrent

/-- The frame built by `CANHandler::sendTelemetry()`; `rawI i` is the ADC reading
of the current sense pin of channel `i`, `rawA5` the one of the battery pin. -/
def telemetryFrame (rawI : Ch → Int) (rawA5 : Int) (s : State) : CanMsg :=
  let cob := 0x380 + s.cfg.pdmNodeID
  let data : Fin 8 → Nat := allCh.foldl
    (fun data i =>
      let iA := getChannelCurrent (rawI i)
      let v := roundHalfAway (f32 (iA * 5))
      Function.update data (byteIx i) ((constrain v 0 255).toNat % 256))
    (fun _ => 0)
  let T := s.lastTemperature
  let data := Function.update data 4 ((constrain (roundHalfAway T) 0 255).toNat % 256)
  let data := Function.update data 5 (telemetryFlags s)
  let vb := readBatteryVoltage rawA5
  let vbit := (roundHalfAway (f32 (vb * 1000))).toNat % 65536
  let data := Function.update data 6 (vbit &&& 0xFF)
  let data := Function.update data 7 ((vbit >>> 8) % 256)
  { id := cob, data_length := 8, data := data }

/-- The function `CANHandler::sendTelemetry()`.  `last` is its function-local
`static unsigned long last`; the result is the frame sent (if any) and the new
value of `last`.  No variable of `State` is written. -/
def sendTelemetry (now : Nat) (rawI : Ch → Int) (rawA5 : Int) (s : State) (last : Nat) :
    Option CanMsg × Nat :=
  if subU32 now last < 250 then (none, last)
  else (some (telemetryFrame rawI rawA5 s), now)

/-! ### Persistent configuration (`saveConfig`, `loadConfig`) -/

/-- The EEPROM cells of the map `ADDR_MAGIC .. ADDR_KP_KEYNODE`, one field per
address used by `EEPROM.put` and `EEPROM.get`.  The cells start at 0, 2, 4, 20,
36, 52, 68, 72, 76, 80, 84, 85, 86 and have 2, 2, 16, 16, 16, 16, 4, 4, 4, 4,
1, 1, 1 bytes, so they do not overlap.  A `float` cell gives back the `float`
that was put in; the cells of the last five fields are bytes. -/
structure Eeprom where
  magic : Nat
  crc : Nat
  oc : Ch → ℚ
  inrush : Ch → ℚ
  inrushTime : Ch → Nat
  underWarn : Ch → ℚ
  tempWarn : ℚ
  tempTrip : ℚ
  mode : Ch → Nat
  group : Ch → Nat
  canSpeed : Nat
  pdmNodeID : Nat
  kpNodeID : Nat

def EEPROM_MAGIC : Nat := 0xBEEF

/-- The function `crc16_update(crc, data)`. -/
def crc16_update (crc data : Nat) : Nat :=
  (List.range 8).foldl
    (fun crc _ =>
      evalNat crc fun crc => if crc &&& 1 ≠ 0 then (crc >>> 1) ^^^ 0xA001 else crc >>> 1)
    (crc ^^^ data)

/-- The function `crc16_update_buffer(crc, data, len)`. -/
def crc16_update_buffer (crc : Nat) (data : List Nat) : Nat := data.foldl crc16_update crc

/-- The four bytes (little-endian) of an `unsigned long`. -/
def u32Bytes (n : Nat) : List Nat :=
  [n % 256, n / 256 % 256, n / 65536 % 256, n / 16777216 % 256]

/-- The value of an `OutputMode` enumerator. -/
def modeValue : OutputMode → Nat
  | OutputMode.MODE_LATCH => 0
  | OutputMode.MODE_MOMENTARY => 1

/-- The bytes hashed by `calculateConfigCRC()`: the in-memory images of the
configuration variables in the order of the calls (little-endian target, an
`OutputMode` occupies one byte, `canSpeedKbps` is a `uint16_t`).
`digitalOutCobId` is not among them. -/
def configBytes (c : Config) : List Nat :=
  (allCh.map fun i => f32Bytes (c.ocThresholds i)).flatten ++
  (allCh.map fun i => f32Bytes (c.inrushThresholds i)).flatten ++
  (allCh.map fun i => u32Bytes (c.inrushTimeLimits i)).flatten ++
  (allCh.map fun i => f32Bytes (c.underWarnThresholds i)).flatten ++
  f32Bytes c.tempWarnThreshold ++
  f32Bytes c.tempTripThreshold ++
  (allCh.map fun i => modeValue (c.outputMode i)) ++
  (allCh.map fun i => c.outputGroup i % 256) ++
  [c.canSpeedKbps % 256, c.canSpeedKbps / 256 % 256] ++
  [c.pdmNodeID % 256] ++
  [c.keypadNodeID % 256]

/-- The function `calculateConfigCRC()`. -/
def calculateConfigCRC (c : Config) : Nat := crc16_update_buffer 0xFFFF (configBytes c)

/-- The function `PDMManager::saveConfig()`: the EEPROM contents after the
call with in-memory configuration `c`. -/
def saveConfig (c : Config) (_e : Eeprom) : Eeprom where
  magic := EEPROM_MAGIC
  oc := c.ocThresholds
  inrush := c.inrushThresholds
  inrushTime := c.inrushTimeLimits
  underWarn := c.underWarnThresholds
  tempWarn := c.tempWarnThreshold
  tempTrip := c.tempTripThreshold
  mode := fun i => modeValue (c.outputMode i) % 256
  group := fun i => c.outputGroup i % 256
  canSpeed := c.canSpeedKbps % 256
  pdmNodeID := c.pdmNodeID % 256
  kpNodeID := c.keypadNodeID % 256
  crc := calculateConfigCRC c

/-- The line that `loadConfig()` prints. -/
inductive LoadMsg where
  | OK_LOADED
  | WARN_CRC_MISMATCH
  | INFO_NO_SAVED_CONFIG
  deriving DecidableEq, Repr

/-- The part of `loadConfig()` that reads the payload into the configuration
variables; `c` is the configuration in memory before. -/
def loadPayload (e : Eeprom) (c : Config) : Config :=
  let sp := e.canSpeed % 256
  { c with
    ocThresholds := e.oc
    inrushThresholds := e.inrush
    inrushTimeLimits := e.inrushTime
    underWarnThresholds := e.underWarn
    tempWarnThreshold := e.tempWarn
    tempTripThreshold := e.tempTrip
    outputMode := fun i =>
      if e.mode i % 256 = modeValue OutputMode.MODE_MOMENTARY then OutputMode.MODE_MOMENTARY
      else OutputMode.MODE_LATCH
    outputGroup := fun i => e.group i % 256
    canSpeedKbps := if sp = 125 ∨ sp = 250 ∨ sp = 500 ∨ sp = 1000 then sp else 1000
    pdmNodeID := e.pdmNodeID % 256
    keypadNodeID := e.kpNodeID % 256 }

/-- The function `PDMManager::loadConfig()`: the in-memory configuration after
the call and the line printed; `c` is the configuration in memory before. -/
def loadConfig (e : Eeprom) (c : Config) : Config × LoadMsg :=
  if e.magic = EEPROM_MAGIC then
    let c := loadPayload e c
    let storedCRC := e.crc
    let calculatedCRC := calculateConfigCRC c
    if storedCRC = calculatedCRC then (c, LoadMsg.OK_LOADED)
    else (c, LoadMsg.WARN_CRC_MISMATCH)
  else (c, LoadMsg.INFO_NO_SAVED_CONFIG)

/-! ### Configuration commands of the serial console -/

/-- First word of the line a configuration setter prints on `Serial`. -/
inductive Reply where
  | OK
  | ERR
  deriving DecidableEq, Repr

/-- The store `array[ch] = v` into a configuration array of four elements,
where `ch` is the value of a `uint8_t`.  `none`: the store lies outside the
array, and the language does not say what it overwrites. -/
def storeAt {α : Type} (arr : Ch → α) (ch : Nat) (v : α) : Option (Ch → α) :=
  if h : ch < 4 then some (Function.update arr ⟨ch, h⟩ v) else none

/-- The function `PDMManager::setOvercurrentThreshold(ch, a)`. -/
def setOvercurrentThreshold (ch : Nat) (a : ℚ) (c : Config) : Option Config × Reply :=
  ((storeAt c.ocThresholds ch a).map fun arr => { c with ocThresholds := arr }, Reply.OK)

/-- The function `PDMManager::setInrushThreshold(ch, a)`. -/
def setInrushThreshold (ch : Nat) (a : ℚ) (c : Config) : Option Config × Reply :=
  ((storeAt c.inrushThresholds ch a).map fun arr => { c with inrushThresholds := arr }, Reply.OK)

/-- The function `PDMManager::setInrushTimeLimit(ch, ms)`. -/
def setInrushTimeLimit (ch : Nat) (ms : Nat) (c : Config) : Option Config × Reply :=
  ((storeAt c.inrushTimeLimits ch ms).map fun arr => { c with inrushTimeLimits := arr }, Reply.OK)

/-- The function `PDMManager::setUndercurrentWarning(ch, a)`. -/
def setUndercurrentWarning (ch : Nat) (a : ℚ) (c : Config) : Option Config × Reply :=
  ((storeAt c.underWarnThresholds ch a).map fun arr => { c with underWarnThresholds := arr },
    Reply.OK)

/-- The function `PDMManager::setOutputMode(ch, m)`. -/
def setOutputMode (ch : Nat) (m : OutputMode) (c : Config) : Option Config × Reply :=
  ((storeAt c.outputMode ch m).map fun arr => { c with outputMode := arr }, Reply.OK)

/-- The function `PDMManager::setOutputGroup(ch, g)`. -/
def setOutputGroup (ch : Nat) (g : Nat) (c : Config) : Option Config × Reply :=
  ((storeAt c.outputGroup ch g).map fun arr => { c with outputGroup := arr }, Reply.OK)

/-- The function `PDMManager::setCANSpeed(kbps)`; `kbps` is the value of the
`uint16_t` parameter. -/
def setCANSpeed (kbps : Nat) (c : Config) : Config × Reply :=
  if kbps = 125 ∨ kbps = 250 ∨ kbps = 500 ∨ kbps = 1000 then
    ({ c with canSpeedKbps := kbps }, Reply.OK)
  else (c, Reply.ERR)

/-- An argument token of a console line, with the values that `String::toInt()`
and `String::toFloat()` return for it (both 0 for a token that does not start
with a number). -/
structure Token where
  text : String
  toInt : Int
  toFloat : ℚ

/-- The configuration commands of `UARTHandler::process` that take a channel
number, and `CANSPEED`. -/
inductive Command where
  | OC
  | INRUSH
  | INRUSHTIME
  | UNDERWARN
  | MODE
  | GROUP
  | CANSPEED
  deriving DecidableEq, Repr

/-- The initialisation `uint8_t ch = a1.toInt() - 1`. -/
def channelIndex (a1 : Token) : Nat := ((a1.toInt - 1) % 256).toNat

/-- The branches of `UARTHandler::process` for the commands of `Command`,
applied to the tokens `a1` and `a2` of the line.  The result is the
configuration after the command (`none` after a store outside an array) and
the first word of the reply. -/
def uartProcess (cmd : Command) (a1 a2 : Token) (c : Config) : Option Config × Reply :=
  match cmd with
  | Command.OC => setOvercurrentThreshold (channelIndex a1) a2.toFloat c
  | Command.INRUSH => setInrushThreshold (channelIndex a1) a2.toFloat c
  | Command.INRUSHTIME => setInrushTimeLimit (channelIndex a1) (a2.toInt % 4294967296).toNat c
  | Command.UNDERWARN => setUndercurrentWarning (channelIndex a1) a2.toFloat c
  | Command.MODE =>
    if a2.text = "LATCH" then setOutputMode (channelIndex a1) OutputMode.MODE_LATCH c
    else if a2.text = "MOMENTARY" then
      setOutputMode (channelIndex a1) OutputMode.MODE_MOMENTARY c
    else (some c, Reply.ERR)
  | Command.GROUP => setOutputGroup (channelIndex a1) (a2.toInt % 256).toNat c
  | Command.CANSPEED =>
    let r := setCANSpeed (a1.toInt % 65536).toNat c
    (some r.1, r.2)

/-! ### The fuse engine in `float` arithmetic

The tick at which a fuse blows depends on the rounding of the running sum
`score += dt * ex * ex`, so the channel loop is also given with every `float`
operation of steps 4 to 6 rounded to binary32 (each operation rounded on its
own, no fused multiply-add).  The temperature stage is the one of `update`. -/

/-- The measured current of step 4 of `update` in `float` arithmetic. -/
def measuredCurrentF32 (rawI : Int) : ℚ :=
  let vI := f32 (f32 ((rawI : ℚ) / analogResolution) * voltageReference)
  f32 (f32 (vI / ris) * kILIS)

/-- The tick duration `dt = (now - lastUpdate) / 1000.0f` as a `float`. -/
def tickDtF32 (now : Nat) (s : State) : ℚ := f32 (f32 (subU32 now s.lastUpdate : ℚ) / 1000)

/-- The expression `(iA / threshold) - 1.0f` as a `float`. -/
def excessF32 (iA thr : ℚ) : ℚ := f32 (f32 (iA / thr) - 1)

/-- The value stored by `score += dt * ex * ex` in `float` arithmetic. -/
def scoreAddF32 (score dt ex : ℚ) : ℚ := f32 (score + f32 (f32 (dt * ex) * ex))

/-- Steps 5 to 8 of the channel loop with the scores computed in `float`
arithmetic. -/
def fuseStepF32 (now : Nat) (dt : ℚ) (iA : ℚ) (i : Ch) (s : State) : State :=
  let elapsed := subU32 now (s.channelOnTime i)
  if elapsed < s.cfg.inrushTimeLimits i then
    if iA > s.cfg.inrushThresholds i then
      let ex := excessF32 iA (s.cfg.inrushThresholds i)
      let s := { s with
        inrushScore := Function.update s.inrushScore i (scoreAddF32 (s.inrushScore i) dt ex) }
      if s.inrushScore i ≥ 1 then
        let s := setChannel now i false s
        { s with
          faultOvercurrent := Function.update s.faultOvercurrent i true
          inrushScore := Function.update s.inrushScore i 0 }
      else driveOn iA i s
    else
      driveOn iA i { s with inrushScore := Function.update s.inrushScore i 0 }
  else
    if iA > s.cfg.ocThresholds i then
      let ex2 := excessF32 iA (s.cfg.ocThresholds i)
      let s := { s with
        overcurrentScore :=
          Function.update s.overcurrentScore i (scoreAddF32 (s.overcurrentScore i) dt ex2) }
      if s.overcurrentScore i ≥ 1 then
        let s := setChannel now i false s
        { s with
          faultOvercurrent := Function.update s.faultOvercurrent i true
          overcurrentScore := Function.update s.overcurrentScore i 0
          resetButtonTiming := Function.update s.resetButtonTiming i true }
      else driveOn iA i s
    else
      driveOn iA i { s with overcurrentScore := Function.update s.overcurrentScore i 0 }

/-- Body of the per-channel loop of `update` for channel `i`, with steps 4 to 6
in `float` arithmetic. -/
def updateChannelF32 (now : Nat) (dt : ℚ) (T : ℚ) (sensErr : Bool) (rawI : Ch → Int)
    (s : State) (i : Ch) : State :=
  if s.clearedFault i && !s.channelActive i then
    digitalWrite i false
      { s with currentLEDStates := Function.update s.currentLEDStates i LEDState.LED_STATE_OFF }
  else
    let s := ackCleared i s
    if sensErr then shutdownGroup i s
    else if T ≥ s.cfg.tempTripThreshold then shutdownGroup i s
    else if !s.channelActive i then
      let led :=
        if s.faultThermal i then LEDState.LED_STATE_RED_FLASH
        else if s.faultOvercurrent i then LEDState.LED_STATE_RED
        else LEDState.LED_STATE_OFF
      digitalWrite i false
        { s with currentLEDStates := Function.update s.currentLEDStates i led }
    else
      let iA := measuredCurrentF32 (rawI i)
      let s := { s with
        warningUndercurrent :=
          Function.update s.warningUndercurrent i (decide (iA < s.cfg.underWarnThresholds i)) }
      fuseStepF32 now dt iA i s

/-- The function `PDMManager::update()` with the tick duration, the measured
currents and the fuse scores in `float` arithmetic. -/
def updateF32 (now : Nat) (rawT : Int) (rawI : Ch → Int) (s : State) : State :=
  let dt := tickDtF32 now s
  let s := updateTemperature now rawT s
  allCh.foldl (updateChannelF32 now dt s.filteredTemperature (sensorError s) rawI) s

/-! ## Vocabulary of the statements -/

/-- The per-channel variables of one channel, read out of the arrays. -/
structure ChanView where
  overcurrentScore : ℚ
  inrushScore : ℚ
  channelOnTime : Nat
  channelActive : Bool
  faultOvercurrent : Bool
  warningUndercurrent : Bool
  faultThermal : Bool
  clearedFault : Bool
  resetButtonTiming : Bool
  currentLEDStates : LEDState
  switchPin : Bool

/-- Element `ch` of every per-channel array of `PDMManager.cpp`. -/
def State.view (s : State) (ch : Ch) : ChanView where
  overcurrentScore := s.overcurrentScore ch
  inrushScore := s.inrushScore ch
  channelOnTime := s.channelOnTime ch
  channelActive := s.channelActive ch
  faultOvercurrent := s.faultOvercurrent ch
  warningUndercurrent := s.warningUndercurrent ch
  faultThermal := s.faultThermal ch
  clearedFault := s.clearedFault ch
  resetButtonTiming := s.resetButtonTiming ch
  currentLEDStates := s.currentLEDStates ch
  switchPin := s.switchPin ch

/-- Channel `ch` gets as far as the fuse step (steps 5/6) of the channel loop in
the call `update(now, rawT, _)` from state `s`: it is active, and at the
decision point neither the sensor error nor the thermal trip holds. -/
def reachesFuse (now : Nat) (rawT : Int) (s : State) (ch : Ch) : Prop :=
  s.channelActive ch = true ∧
  sensorError (updateTemperature now rawT s) = false ∧
  (updateTemperature now rawT s).filteredTemperature < s.cfg.tempTripThreshold

instance (now : Nat) (rawT : Int) (s : State) (ch : Ch) :
    Decidable (reachesFuse now rawT s ch) := by
  unfold reachesFuse; infer_instance

/-- The window `w = now - on_since` of channel `ch` (an `unsigned long`). -/
def elapsedOn (now : Nat) (s : State) (ch : Ch) : Nat := subU32 now (s.channelOnTime ch)

/-- Per-channel safety condition: a latched fault implies the channel is not
active, and both fuse scores lie in `[0, 1)`. -/
def ViewOK (v : ChanView) : Prop :=
  ((v.faultOvercurrent = true ∨ v.faultThermal = true) → v.channelActive = false) ∧
  (0 ≤ v.inrushScore ∧ v.inrushScore < 1) ∧
  (0 ≤ v.overcurrentScore ∧ v.overcurrentScore < 1)

/-- The condition `ViewOK` on every channel. -/
def CoreInv (s : State) : Prop := ∀ ch, ViewOK (s.view ch)

/-- Relation between the state before and after an operation: the
steady-state score of a channel is either 0, or it is unchanged and the
channel was not switched on. -/
def OcRel (s s' : State) : Prop :=
  ∀ ch, s'.overcurrentScore ch = 0 ∨
    (s'.overcurrentScore ch = s.overcurrentScore ch ∧
      (s'.channelActive ch = true → s.channelActive ch = true))

/-- Voltage at the temperature pin computed from the ADC reading `rawT`. -/
def sensorVoltage (rawT : Int) : ℚ := (rawT : ℚ) / analogResolution * voltageReference

/-- The local `rawReadingValid` of `update`. -/
def rawReadingValid (rawT : Int) : Prop :=
  rawTemperatureOf rawT ≥ -40 ∧ rawTemperatureOf rawT ≤ 150 ∧
    sensorVoltage rawT > 0.05 ∧ sensorVoltage rawT < 2.1

instance (rawT : Int) : Decidable (rawReadingValid rawT) := by
  unfold rawReadingValid; infer_instance

/-- The local `tempDt` of `update` for an initialised sensor: seconds since the
last filter update. -/
def filterDt (now : Nat) (s : State) : ℚ := (subU32 now s.lastTempUpdate : ℚ) / 1000

/-- The temperature supervisor's variables (`TemperatureState` of the data model). -/
structure TempView where
  filteredTemperature : ℚ
  lastTempUpdate : Nat
  badTempReadingCount : Nat
  tempSensorInitialized : Bool
  lastSensorErr : Bool
  lastTemperature : ℚ

/-- The temperature variables of a state. -/
def State.tview (s : State) : TempView where
  filteredTemperature := s.filteredTemperature
  lastTempUpdate := s.lastTempUpdate
  badTempReadingCount := s.badTempReadingCount
  tempSensorInitialized := s.tempSensorInitialized
  lastSensorErr := s.lastSensorErr
  lastTemperature := s.lastTemperature

/-- The per-channel variables of one channel seen by the DIGITAL-OUT service:
the channel arrays of `PDMManager.cpp` plus `lastDig` and `lockDig`. -/
structure DigView where
  chan : ChanView
  lastDig : Bool
  lockDig : Bool

/-- Element `ch` of the channel arrays and of `lastDig`, `lockDig`. -/
def State.dview (s : State) (ch : Ch) : DigView where
  chan := s.view ch
  lastDig := s.lastDig ch
  lockDig := s.lockDig ch

/-- The DIGOUT timeout test of `CANHandler::process()`. -/
def digOutExpired (now : Nat) (s : State) : Prop :=
  s.lastInputMode = InputMode.INPUT_MODE_CAN_DIGOUT ∧ subU32 now s.lastDigOutTime > 2000

instance (now : Nat) (s : State) : Decidable (digOutExpired now s) := by
  unfold digOutExpired; infer_instance

/-- Channel `ch` shows a rising edge that is not locked. -/
def risingEdge (buf : Fin 8 → Nat) (s : State) (ch : Ch) : Prop :=
  newDig buf ch = true ∧ s.lastDig ch = false ∧ s.lockDig ch = false

/-- Channel `ch` shows a falling edge. -/
def fallingEdge (buf : Fin 8 → Nat) (s : State) (ch : Ch) : Prop :=
  newDig buf ch = false ∧ s.lastDig ch = true

/-- Each DIGOUT frame of the list is handled at most 2000 ms after the previous
DIGOUT timestamp (`t` for the first one), so the DIGOUT time-out never fires. -/
def timelyFrom (t : Nat) : List (Nat × CanMsg) → Prop
  | [] => True
  | p :: rest => subU32 p.1 t ≤ 2000 ∧ timelyFrom p.1 rest

/-- Decision procedure of `timelyFrom`. -/
def timelyFromDec : (t : Nat) → (fs : List (Nat × CanMsg)) → Decidable (timelyFrom t fs)
  | _, [] => isTrue trivial
  | _, p :: rest => @instDecidableAnd _ _ _ (timelyFromDec p.1 rest)

instance (t : Nat) (fs : List (Nat × CanMsg)) : Decidable (timelyFrom t fs) := timelyFromDec t fs

/-- Successive calls of `CANHandler::process()`, each receiving one frame of
the list at the given time. -/
def processFrames (fs : List (Nat × CanMsg)) (s : State) : State :=
  fs.foldl (fun s p => canProcess p.1 (some p.2) s) s

/-- The variables that decide about input events: `lastInputMode` and the two
button masks of `processExternalInputs`. -/
structure IoView where
  lastInputMode : InputMode
  candidateMask : Nat
  lastMask : Nat

/-- The input-event variables of a state. -/
def State.ioview (s : State) : IoView where
  lastInputMode := s.lastInputMode
  candidateMask := s.candidateMask
  lastMask := s.lastMask

/-- Bit `ch` of the key-state byte of a keypad PDO is set. -/
def keyPressed (buf : Fin 8 → Nat) (ch : Ch) : Prop := ((buf 0 &&& (1 <<< ch.val)) != 0) = true

/-- The debounced level of external button `ch` differs from the level accepted
last: a press edge or a release edge of `processExternalInputs`. -/
def extEdge (s : State) (ch : Ch) : Prop :=
  ((s.candidateMask &&& (1 <<< ch.val)) != 0) ≠ ((s.lastMask &&& (1 <<< ch.val)) != 0)

/-- The input events of an operation on which `lastInputMode` may be written:
a DIGOUT frame with an edge (rising and not locked, or falling), a keypad PDO
with a pressed bit, a debounced edge of an external button. -/
def modeEvent (op : Op) (s : State) : Prop :=
  match op with
  | Op.canProcess now (some rxMsg) =>
    (rxMsg.id = s.cfg.digitalOutCobId ∧ rxMsg.data_length ≥ 8 ∧
      ∃ ch, risingEdge rxMsg.data (digOutTimeout now s) ch ∨
        fallingEdge rxMsg.data (digOutTimeout now s) ch) ∨
    (rxMsg.id = 0x180 + s.cfg.keypadNodeID ∧ rxMsg.data_length ≥ 1 ∧
      ∃ ch, keyPressed rxMsg.data ch)
  | Op.processExternalInputs _ _ => ∃ ch, extEdge s ch
  | _ => False

/-- The LED table of the specification, first matching row, evaluated on the
variables of channel `ch` in state `s` with measured current `iA`. -/
def specLED (s : State) (iA : ℚ) (ch : Ch) : LEDState :=
  if s.channelActive ch = false ∧ s.faultThermal ch = true then LEDState.LED_STATE_RED_FLASH
  else if s.channelActive ch = false ∧ s.faultOvercurrent ch = true then LEDState.LED_STATE_RED
  else if s.channelActive ch = false then LEDState.LED_STATE_OFF
  else if s.faultOvercurrent ch = true then LEDState.LED_STATE_RED
  else if s.warningUndercurrent ch = true then LEDState.LED_STATE_BLUE
  else if iA > s.cfg.ocThresholds ch then LEDState.LED_STATE_AMBER
  else LEDState.LED_STATE_GREEN

/-- The tick `update(now, rawT, _)` from state `s` is a thermal shutdown tick:
at the decision point the sensor error or the thermal trip holds. -/
def thermalTick (now : Nat) (rawT : Int) (s : State) : Prop :=
  sensorError (updateTemperature now rawT s) = true ∨
    (updateTemperature now rawT s).filteredTemperature ≥ s.cfg.tempTripThreshold

instance (now : Nat) (rawT : Int) (s : State) : Decidable (thermalTick now rawT s) := by
  unfold thermalTick; infer_instance

/-- The bytes of the steady LED frame that carry a bit for LED state `v`. -/
def ledLights (v : LEDState) (k : Fin 8) : Bool :=
  (decide (k = 0) && (decide (v = LEDState.LED_STATE_RED) || decide (v = LEDState.LED_STATE_AMBER))) ||
  (decide (k = 1) && (decide (v = LEDState.LED_STATE_GREEN) || decide (v = LEDState.LED_STATE_AMBER))) ||
  (decide (k = 2) && decide (v = LEDState.LED_STATE_BLUE))

/-- The byte of the blink frame that carries a bit for LED state `v`. -/
def ledBlinks (v : LEDState) (k : Fin 8) : Bool :=
  decide (k = 0) && decide (v = LEDState.LED_STATE_RED_FLASH)

/-- One call of `sendTelemetry`: the time and everything the call reads. -/
structure TelemetryCall where
  now : Nat
  rawI : Ch → Int
  rawA5 : Int
  s : State

/-- Successive calls of `sendTelemetry`, starting with the static `last`: the
times at which a frame was sent. -/
def telemetryTimes : List TelemetryCall → Nat → List Nat
  | [], _ => []
  | c :: rest, last =>
    match sendTelemetry c.now c.rawI c.rawA5 c.s last with
    | (some _, last') => c.now :: telemetryTimes rest last'
    | (none, last') => telemetryTimes rest last'

/-- The sum `dt_1 + ... + dt_n` of the tick durations of the sequence, in
seconds, when the previous tick was at `t0`. -/
def accTime : Nat → List (Nat × Int) → ℚ
  | _, [] => 0
  | t0, t :: rest => (subU32 t.1 t0 : ℚ) / 1000 + accTime t.1 rest

/-- The time of the last tick of the sequence (`t0` for the empty sequence). -/
def lastTime : Nat → List (Nat × Int) → Nat
  | t0, [] => t0
  | _, t :: rest => lastTime t.1 rest

/-- The factor `((i / T) - 1)^2` of the steady-state fuse of channel `ch`. -/
def excessSq (rawI : Ch → Int) (s : State) (ch : Ch) : ℚ :=
  (measuredCurrent (rawI ch) / s.cfg.ocThresholds ch - 1) ^ 2

/-- The bad-reading counter has reached `maxBadReadings` only if the error flag
`lastSensorErr` is latched. -/
def ErrLatched (s : State) : Prop :=
  s.badTempReadingCount ≥ maxBadReadings → s.lastSensorErr = true

/-- A sequence of `update` calls, each with its `millis()` value, temperature
reading and current readings. -/
def ticksOf (ts : List (Nat × Int × (Ch → Int))) : List Op :=
  ts.map fun t => Op.update t.1 t.2.1 t.2.2

/-- One pass of the bit loop of `crc16_update`:
`if (crc & 1) crc = (crc >> 1) ^ 0xA001; else crc = crc >> 1;`. -/
def crcBitStep (crc : Nat) : Nat :=
  if crc &&& 1 ≠ 0 then (crc >>> 1) ^^^ 0xA001 else crc >>> 1

/-- A sequence of `update` ticks in `float` arithmetic (the value of `millis()`
and the temperature reading of each) with the current readings `rawI`, first to
last. -/
def runTicksF32 (rawI : Ch → Int) (ts : List (Nat × Int)) (s : State) : State :=
  ts.foldl (fun s t => updateF32 t.1 t.2 rawI s) s


/-- The `float` duration of a tick at `now` when the previous tick was at `t0`. -/
def dtF32 (now t0 : Nat) : ℚ := f32 (f32 (subU32 now t0 : ℚ) / 1000)

/-- The running sum of the steady-state fuse in `float` arithmetic after the
ticks of the sequence: it starts at `score`, the previous tick was at `t0`, and
every tick adds `dt * ex * ex`, rounded as the program rounds it. -/
def accScoreF32 (ex : ℚ) : ℚ → Nat → List (Nat × Int) → ℚ
  | score, _, [] => score
  | score, t0, t :: rest => accScoreF32 ex (scoreAddF32 score (dtF32 t.1 t0) ex) t.1 rest

/-- The value that one tick adds to the score, `dt * ex * ex` as a `float`. -/
def incrementF32 (dt ex : ℚ) : ℚ := f32 (f32 (dt * ex) * ex)

/-- The exact sum of the values that the ticks of the sequence add to the
score, when the previous tick was at `t0`. -/
def sumIncF32 (ex : ℚ) : Nat → List (Nat × Int) → ℚ
  | _, [] => 0
  | t0, t :: rest => incrementF32 (dtF32 t.1 t0) ex + sumIncF32 ex t.1 rest

/-- The running sum stays below 1 after every tick of the sequence. -/
def belowOneF32 (ex : ℚ) : ℚ → Nat → List (Nat × Int) → Prop
  | _, _, [] => True
  | score, t0, t :: rest =>
    scoreAddF32 score (dtF32 t.1 t0) ex < 1 ∧
      belowOneF32 ex (scoreAddF32 score (dtF32 t.1 t0) ex) t.1 rest

/-- Decision procedure of `belowOneF32`. -/
def belowOneF32Dec (ex : ℚ) :
    (score : ℚ) → (t0 : Nat) → (ts : List (Nat × Int)) → Decidable (belowOneF32 ex score t0 ts)
  | _, _, [] => isTrue trivial
  | score, t0, t :: rest =>
    @instDecidableAnd _ _ _ (belowOneF32Dec ex (scoreAddF32 score (dtF32 t.1 t0) ex) t.1 rest)

instance (ex score : ℚ) (t0 : Nat) (ts : List (Nat × Int)) :
    Decidable (belowOneF32 ex score t0 ts) := belowOneF32Dec ex score t0 ts

/-- The temperature supervisor is settled below the trip threshold: the sensor
is initialised, no sensor error is pending and the filtered temperature is
below the trip threshold. -/
def TempQuiet (s : State) : Prop :=
  s.tempSensorInitialized = true ∧ s.lastSensorErr = false ∧ s.badTempReadingCount = 0 ∧
    s.filteredTemperature < s.cfg.tempTripThreshold

instance (s : State) : Decidable (TempQuiet s) := by
  unfold TempQuiet; infer_instance

/-- The temperature reading is valid and below the trip threshold of `s`. -/
def coolReading (s : State) (rawT : Int) : Prop :=
  rawReadingValid rawT ∧ rawTemperatureOf rawT < s.cfg.tempTripThreshold

instance (s : State) (rawT : Int) : Decidable (coolReading s rawT) := by
  unfold coolReading; infer_instance

/-! ## Concrete scenarios -/

/-- Default configuration, channel 0 switched on at time 0 right after `init`. -/
def sOn : State := setChannel 0 0 true (init defaultConfig 0 bootState)

/-- ADC readings of the current-sense pins: channel 0 reads 150 (about 6.01 A),
the other channels read 20 (about 0.8 A). -/
def rawHigh0 : Ch → Int := fun i => if i = 0 then 150 else 20

/-- Default configuration with channels 0 and 1 ganged into group 1. -/
def cfgPair : Config :=
  { defaultConfig with outputGroup := fun i => if i.val ≤ 1 then 1 else i.val + 1 }

/-- Channels 0 and 1 (one group) both switched on at time 0 right after `init`. -/
def sPair : State := setChannel 0 1 true (setChannel 0 0 true (init cfgPair 0 bootState))

/-- Default configuration with every channel in Momentary mode. -/
def cfgMomentary : Config :=
  { defaultConfig with outputMode := fun _ => OutputMode.MODE_MOMENTARY }

/-- Momentary configuration; channel 0 was switched on at time 0 and its
steady-state fuse blew in the tick at 1500 ms, so `fault_oc[0]` is latched. -/
def sLatched : State :=
  update 1500 150 rawHigh0 (setChannel 0 0 true (init cfgMomentary 0 bootState))

/-- Keypad key-state PDO (node id 0x15) reporting button 0 pressed. -/
def framePress0 : CanMsg where
  id := 0x195
  data_length := 1
  data := fun i => if i = 0 then 1 else 0

/-- DIGOUT frame (COB-ID 0x680) commanding channel 0 on, the others off. -/
def frameDig0 : CanMsg where
  id := 0x680
  data_length := 8
  data := fun i => if i = 0 then 1 else 0

/-- Default configuration after channel 0 was switched on at time 0 and its
steady-state fuse blew in the tick at 1500 ms. -/
def sBlown : State := update 1500 150 rawHigh0 sOn

/-- Default configuration, channel 0 on since time 0, after one tick at 100 ms
with about 6.01 A: the inrush score of channel 0 is `4761 / 1162810`. -/
def sWarm : State := update 100 150 rawHigh0 sOn

/-- Default configuration with the inrush thresholds set to 0. -/
def cfgZero : Config := { defaultConfig with inrushThresholds := fun _ => 0 }

/-- Zero inrush threshold, channel 0 switched on at time 0. -/
def sZero : State := setChannel 0 0 true (init cfgZero 0 bootState)

/-- Default configuration, channel 0 on since time 0, after ticks at 900 ms
and 1400 ms with about 6.01 A: both scores of channel 0 are non-zero and no
fuse has blown. -/
def sHalf : State := update 1400 150 rawHigh0 (update 900 150 rawHigh0 sOn)

/-- Default configuration with the trip temperature set to 7950/341 C, the
temperature computed from the ADC reading 150. -/
def cfgTrip : Config := { defaultConfig with tempTripThreshold := 7950 / 341 }

/-- Trip configuration `cfgTrip`, channel 0 switched on at time 0. -/
def sTrip : State := setChannel 0 0 true (init cfgTrip 0 bootState)

/-- Default configuration after a first tick at 100 ms with a valid reading and
three ticks (400, 700, 1000 ms) with the out-of-range ADC reading 0. -/
def sSensorErr : State :=
  update 1000 0 rawHigh0 (update 700 0 rawHigh0 (update 400 0 rawHigh0 sWarm))

/-- Channel 0 switched on at time 0 by a DIGOUT frame right after `init`. -/
def sDigOn : State := canProcess 0 (some frameDig0) (init defaultConfig 0 bootState)

/-- Channel 0 was switched on by a DIGOUT frame at time 0 and its steady-state
fuse blew in the tick at 1500 ms; no DIGOUT frame has been processed since. -/
def sDigBlown : State := update 1500 150 rawHigh0 sDigOn

/-- The same, after the DIGOUT frame was repeated at 1600 ms. -/
def sDigLocked : State := canProcess 1600 (some frameDig0) sDigBlown

/-- DIGOUT frame (COB-ID 0x680) commanding every channel off. -/
def frameDigOff : CanMsg where
  id := 0x680
  data_length := 8
  data := fun _ => 0

/-- Heartbeat of the keypad (node id 0x15): state 0x05, operational. -/
def frameHeartbeat : CanMsg where
  id := 0x715
  data_length := 1
  data := fun i => if i = 0 then 5 else 0

/-- Keypad key-state PDO (node id 0x15) reporting every button released. -/
def frameRelease : CanMsg where
  id := 0x195
  data_length := 1
  data := fun _ => 0

/-- Keypad scenario: heartbeat at 100 ms, button 0 pressed at 200 ms and
released at 300 ms; channel 0 is on, the link is marked good. -/
def sKeypadOn : State :=
  run [Op.canProcess 100 (some frameHeartbeat), Op.canProcess 200 (some framePress0),
    Op.canProcess 300 (some frameRelease)] (init defaultConfig 0 bootState)

/-- The keypad scenario after the watchdog fired at 1700 ms and button 0 was
pressed at 1800 ms and released at 1900 ms, with no further heartbeat. -/
def sKeypadDegraded : State :=
  run [Op.checkWatchdog 1700, Op.canProcess 1800 (some framePress0),
    Op.canProcess 1900 (some frameRelease)] sKeypadOn

/-- An erased EEPROM. -/
def eBlank : Eeprom where
  magic := 0xFFFF
  crc := 0xFFFF
  oc := fun _ => 0
  inrush := fun _ => 0
  inrushTime := fun _ => 0xFFFFFFFF
  underWarn := fun _ => 0
  tempWarn := 0
  tempTrip := 0
  mode := fun _ => 0xFF
  group := fun _ => 0xFF
  canSpeed := 0xFF
  pdmNodeID := 0xFF
  kpNodeID := 0xFF

/-- Default configuration with the CAN speed set to 500 kbps. -/
def cfg500 : Config := { defaultConfig with canSpeedKbps := 500 }

/-- Default configuration with the DIGOUT COB-ID set to 0x681. -/
def cfgCob : Config := { defaultConfig with digitalOutCobId := 0x681 }

/-- The EEPROM written by `saveConfig` from the Momentary configuration, with
the stored CRC overwritten by 0. -/
def eCorrupt : Eeprom := { saveConfig cfgMomentary eBlank with crc := 0 }

/-- The token `5`. -/
def tok5 : Token := { text := "5", toInt := 5, toFloat := 5 }

/-- The token `0`. -/
def tok0 : Token := { text := "0", toInt := 0, toFloat := 0 }

/-- The non-numeric token `x`, for which `toInt()` and `toFloat()` return 0. -/
def tokX : Token := { text := "x", toInt := 0, toFloat := 0 }

/-- The token `257`. -/
def tok257 : Token := { text := "257", toInt := 257, toFloat := 257 }

/-- The token `2.5`. -/
def tok2_5 : Token := { text := "2.5", toInt := 2, toFloat := 5 / 2 }

/-- The token `LATCH`. -/
def tokLatch : Token := { text := "LATCH", toInt := 0, toFloat := 0 }

/-- Pin levels of the external switch inputs with button 0 pressed (LOW). -/
def pinsPress0 : Ch → Bool := fun i => decide (i ≠ 0)

/-- Pin levels of the external switch inputs with no button pressed. -/
def pinsIdle : Ch → Bool := fun _ => true

/-- The state `sBlown` (Latch mode, `fault_oc[0]` latched) after external button
0 was pressed at 2000 ms and accepted by the debounce at 2060 ms. -/
def sHeld : State :=
  processExternalInputs 2060 pinsPress0 (processExternalInputs 2000 pinsPress0 sBlown)

/-- Channels 0 and 1 ganged into group 1, every channel in Momentary mode. -/
def cfgMomentaryPair : Config :=
  { cfgPair with outputMode := fun _ => OutputMode.MODE_MOMENTARY }

/-- ADC readings of the current-sense pins: channel 1 reads 150 (about 6.01 A),
the other channels read 20 (about 0.8 A). -/
def rawHigh1 : Ch → Int := fun i => if i = 1 then 150 else 20

/-- Momentary pair: channel 1 was switched on at time 0 and its fuse blew in
the tick at 1500 ms (`fault_oc[1]` latched, channel 0 without fault); then
external button 0 was pressed at 2000 ms and accepted at 2060 ms. -/
def sHeldMomentary : State :=
  processExternalInputs 2060 pinsPress0
    (processExternalInputs 2000 pinsPress0
      (update 1500 150 rawHigh1 (setChannel 0 1 true (init cfgMomentaryPair 0 bootState))))

/-- Channels 0 and 1 ganged into one group (Latch mode); a DIGOUT frame at time
0 switched channel 0 on and left channel 1 off. -/
def sDigPair : State := canProcess 0 (some frameDig0) (init cfgPair 0 bootState)

/-- The state `sDigPair` after external button 0 was pressed (seen at 100 ms,
accepted at 160 ms) and let go (seen at 300 ms): the release edge is pending. -/
def sReleasePending : State :=
  processExternalInputs 300 pinsIdle
    (processExternalInputs 160 pinsPress0 (processExternalInputs 100 pinsPress0 sDigPair))

/-- ADC readings of the current-sense pins: every channel reads 150 (about
6.01 A). -/
def rawHighAll : Ch → Int := fun _ => 150

/-- Channels 0 and 1 (one group, Latch mode) were switched on at time 0 and
the steady-state fuses of both blew in the tick at 1500 ms. -/
def sPairBlown : State := update 1500 150 rawHighAll sPair

/-- ADC readings of the current-sense pins with no load current on any channel. -/
def rawNoLoad : Ch → Int := fun _ => 0

/-- ADC readings of the current-sense pins: channel 0 reads 120 (about 4.81 A),
the other channels read 20 (about 0.8 A). -/
def rawMid0 : Ch → Int := fun i => if i = 0 then 120 else 20

/-- The ticks number `k+1`, ..., `k+n` after `sSensorErr`, 300 ms apart (tick
`j` at `1000 + 300 j` ms), all with the out-of-range temperature reading 0. -/
def badTicks : Nat → Nat → List (Nat × Int × (Ch → Int))
  | _, 0 => []
  | k, n + 1 => (1000 + 300 * (k + 1), 0, rawHigh0) :: badTicks (k + 1) n

/-- ADC readings of the current-sense pins: every channel reads 20 (about
0.8 A). -/
def rawLow : Ch → Int := fun _ => 20

/-- ADC readings of the current-sense pins: channel 0 reads 91 (about 3.65 A),
the other channels read 20 (about 0.8 A). -/
def raw91 : Ch → Int := fun i => if i = 0 then 91 else 20

/-- Default configuration, channel 0 on since time 0, after a tick at 1000 ms
with 0.8 A on every channel: the inrush window of channel 0 is over, its
steady-state score is 0 and the temperature filter holds the reading 150
(about 23.3 C). -/
def sSteady : State := updateF32 1000 150 rawLow sOn

/-- The `n` ticks at `t0 + p`, `t0 + 2 p`, ..., `t0 + n p` ms, each with the
temperature reading `rawT`. -/
def ticksEvery (p : Nat) (rawT : Int) : Nat → Nat → List (Nat × Int)
  | _, 0 => []
  | t0, n + 1 => (t0 + p, rawT) :: ticksEvery p rawT (t0 + p) n

/-- ADC readings of the current-sense pins: channel 0 reads 84 (about 3.37 A),
the other channels read 20 (about 0.8 A). -/
def raw84 : Ch → Int := fun i => if i = 0 then 84 else 20

/-- Default configuration, channel 0 on since time 0, after one tick at 100 ms
with about 0.8 A on every channel and 23.3 C: channel 0 shows GREEN. -/
def sGreen : State := update 100 150 rawLow sOn

/-! ## Closed forms of the group loops -/

theorem shutdownGroup_eq (ch : Ch) (s : State) :
    shutdownGroup ch s =
      { s with
        channelActive := fun j =>
          if s.cfg.outputGroup j = s.cfg.outputGroup ch then false else s.channelActive j
        faultOvercurrent := fun j =>
          if s.cfg.outputGroup j = s.cfg.outputGroup ch then true else s.faultOvercurrent j
        switchPin := fun j =>
          if s.cfg.outputGroup j = s.cfg.outputGroup ch then false else s.switchPin j } := by
  cases s
  simp only [shutdownGroup, allCh, List.foldl, digitalWrite]
  split_ifs <;> (congr 1 <;> funext j <;> fin_cases j <;> simp_all [Function.update_apply])

/-! ## Closed forms of the small steps -/

theorem ackCleared_eq (i : Ch) (s : State) :
    ackCleared i s =
      { s with
        clearedFault :=
          if (s.channelActive i && s.clearedFault i) = true then
            Function.update s.clearedFault i false
          else s.clearedFault } := by
  unfold ackCleared
  split_ifs <;> rfl

theorem setChannel_eq (now : Nat) (ch : Ch) (v : Bool) (s : State) :
    setChannel now ch v s =
      { s with
        channelActive := Function.update s.channelActive ch v
        channelOnTime := if v = true then Function.update s.channelOnTime ch now else s.channelOnTime
        overcurrentScore :=
          if v = true then Function.update s.overcurrentScore ch 0 else s.overcurrentScore
        faultOvercurrent :=
          if v = true then Function.update s.faultOvercurrent ch false else s.faultOvercurrent
        faultThermal := if v = true then Function.update s.faultThermal ch false else s.faultThermal
        warningUndercurrent :=
          if v = true then Function.update s.warningUndercurrent ch false
          else s.warningUndercurrent
        clearedFault := if v = true then Function.update s.clearedFault ch false else s.clearedFault
        switchPin := Function.update s.switchPin ch v } := by
  cases v <;> rfl

/-! ## Locality of the channel loop of `update` -/

theorem updateTemperature_view (now : Nat) (rawT : Int) (s : State) (ch : Ch) :
    (updateTemperature now rawT s).view ch = s.view ch := by
  simp only [updateTemperature, State.view]
  split_ifs <;> rfl

theorem updateTemperature_cfg (now : Nat) (rawT : Int) (s : State) :
    (updateTemperature now rawT s).cfg = s.cfg := by
  simp only [updateTemperature]
  split_ifs <;> rfl

theorem fuseStep_cfg (now : Nat) (dt iA : ℚ) (i : Ch) (s : State) :
    (fuseStep now dt iA i s).cfg = s.cfg := by
  simp only [fuseStep, driveOn, setChannel_eq, digitalWrite]
  split_ifs <;> rfl

theorem updateChannel_cfg (now : Nat) (dt T : ℚ) (sensErr : Bool) (rawI : Ch → Int)
    (s : State) (i : Ch) : (updateChannel now dt T sensErr rawI s i).cfg = s.cfg := by
  simp only [updateChannel, digitalWrite, shutdownGroup_eq, ackCleared_eq]
  split_ifs <;> simp [fuseStep_cfg]

theorem fuseStep_view_ne (now : Nat) (dt iA : ℚ) (i j : Ch) (s : State) (h : j ≠ i) :
    (fuseStep now dt iA i s).view j = s.view j := by
  simp only [fuseStep, driveOn, setChannel_eq, digitalWrite]
  split_ifs <;> simp [State.view, Function.update_apply, h]

theorem updateChannel_view_ne (now : Nat) (dt T : ℚ) (rawI : Ch → Int)
    (s : State) (i j : Ch) (hT : T < s.cfg.tempTripThreshold) (h : j ≠ i) :
    (updateChannel now dt T false rawI s i).view j = s.view j := by
  have hT2 : ¬ (T ≥ s.cfg.tempTripThreshold) := not_le.mpr hT
  simp only [updateChannel, ackCleared_eq, digitalWrite, hT2, Bool.false_eq_true, if_false]
  split_ifs <;> (try rw [fuseStep_view_ne _ _ _ _ _ _ h]) <;>
    simp [State.view, Function.update_apply, h]

theorem fuseStep_view_congr (now : Nat) (dt iA : ℚ) (i : Ch) (s s' : State)
    (hv : s.view i = s'.view i) (hc : s.cfg = s'.cfg) :
    (fuseStep now dt iA i s).view i = (fuseStep now dt iA i s').view i := by
  simp only [State.view, ChanView.mk.injEq] at hv
  obtain ⟨h1, h2, h3, h4, h5, h6, h7, h8, h9, h10, h11⟩ := hv
  simp only [fuseStep, driveOn, setChannel_eq, digitalWrite, hc, h1, h2, h3, h4, h5, h6, h7, h8,
    h9, h10, h11, Function.update_same]
  split_ifs <;> simp [State.view, *]

theorem updateChannel_view_congr (now : Nat) (dt T : ℚ) (sensErr : Bool) (rawI : Ch → Int)
    (i : Ch) (s s' : State) (hv : s.view i = s'.view i) (hc : s.cfg = s'.cfg)
    (hs : sensErr = false) (hT : T < s.cfg.tempTripThreshold) :
    (updateChannel now dt T sensErr rawI s i).view i =
      (updateChannel now dt T sensErr rawI s' i).view i := by
  have hT2 : ¬ (T ≥ s'.cfg.tempTripThreshold) := by rw [← hc]; exact not_le.mpr hT
  have hv2 := hv
  simp only [State.view, ChanView.mk.injEq] at hv
  obtain ⟨h1, h2, h3, h4, h5, h6, h7, h8, h9, h10, h11⟩ := hv
  subst hs
  simp only [updateChannel, ackCleared_eq, digitalWrite, hc, hT2, h1, h2, h3, h4, h5, h6, h7, h8,
    h9, h10, h11, Bool.false_eq_true, if_false]
  split_ifs <;>
    first
    | (apply fuseStep_view_congr <;> simp [State.view, *])
    | simp_all [State.view]

theorem foldl_updateChannel_cfg (now : Nat) (dt T : ℚ) (sensErr : Bool) (rawI : Ch → Int)
    (l : List Ch) (s : State) :
    (l.foldl (updateChannel now dt T sensErr rawI) s).cfg = s.cfg := by
  induction l generalizing s with
  | nil => rfl
  | cons a l ih => rw [List.foldl_cons, ih, updateChannel_cfg]

theorem foldl_updateChannel_view_notin (now : Nat) (dt T : ℚ) (rawI : Ch → Int) (ch : Ch)
    (l : List Ch) (hl : ch ∉ l) (s : State) (hT : T < s.cfg.tempTripThreshold) :
    (l.foldl (updateChannel now dt T false rawI) s).view ch = s.view ch := by
  induction l generalizing s with
  | nil => rfl
  | cons a l ih =>
    have hne : ch ≠ a := fun h => hl (h ▸ List.mem_cons_self _ _)
    have hnl : ch ∉ l := fun h => hl (List.mem_cons_of_mem _ h)
    rw [List.foldl_cons, ih hnl _ (by rw [updateChannel_cfg]; exact hT),
      updateChannel_view_ne _ _ _ _ _ _ _ hT hne]

theorem foldl_updateChannel_view_split (now : Nat) (dt T : ℚ) (rawI : Ch → Int) (ch : Ch)
    (pre post : List Ch) (hpre : ch ∉ pre) (hpost : ch ∉ post) (s : State)
    (hT : T < s.cfg.tempTripThreshold) :
    ((pre ++ ch :: post).foldl (updateChannel now dt T false rawI) s).view ch =
      (updateChannel now dt T false rawI s ch).view ch := by
  have hc := foldl_updateChannel_cfg now dt T false rawI pre s
  rw [List.foldl_append, List.foldl_cons,
    foldl_updateChannel_view_notin now dt T rawI ch post hpost _
      (by rw [updateChannel_cfg, hc]; exact hT)]
  exact updateChannel_view_congr now dt T false rawI ch _ _
    (foldl_updateChannel_view_notin now dt T rawI ch pre hpre s hT) hc rfl (by rw [hc]; exact hT)

/-- Without a thermal shutdown, the channel loop of `update` treats every
channel independently: the variables of channel `ch` after the whole call are
those after the loop body of `ch` alone run on the entry state. -/
theorem update_view (now : Nat) (rawT : Int) (rawI : Ch → Int) (s : State) (ch : Ch)
    (hs : sensorError (updateTemperature now rawT s) = false)
    (hT : (updateTemperature now rawT s).filteredTemperature < s.cfg.tempTripThreshold) :
    (update now rawT rawI s).view ch =
      (updateChannel now (tickDt now s) (updateTemperature now rawT s).filteredTemperature
        false rawI s ch).view ch := by
  have hc := updateTemperature_cfg now rawT s
  have hT1 : (updateTemperature now rawT s).filteredTemperature <
      (updateTemperature now rawT s).cfg.tempTripThreshold := by rw [hc]; exact hT
  have key : ∀ pre post : List Ch, ch ∉ pre → ch ∉ post → allCh = pre ++ ch :: post →
      (update now rawT rawI s).view ch =
        (updateChannel now (tickDt now s) (updateTemperature now rawT s).filteredTemperature
          false rawI s ch).view ch := by
    intro pre post hpre hpost hall
    unfold update
    simp only [hs, hall]
    rw [foldl_updateChannel_view_split now _ _ rawI ch pre post hpre hpost _ hT1]
    exact updateChannel_view_congr now _ _ false rawI ch _ _
      (updateTemperature_view now rawT s ch) hc rfl hT1
  fin_cases ch
  · exact key [] [1, 2, 3] (by decide) (by decide) rfl
  · exact key [0] [2, 3] (by decide) (by decide) rfl
  · exact key [0, 1] [3] (by decide) (by decide) rfl
  · exact key [0, 1, 2] [] (by decide) (by decide) rfl

/-! ## One channel through the fuse step -/


/-- The state on which the fuse step of channel `i` runs. -/
theorem updateChannel_active (now : Nat) (dt T : ℚ) (rawI : Ch → Int) (s : State) (i : Ch)
    (ha : s.channelActive i = true) (hT : T < s.cfg.tempTripThreshold) :
    updateChannel now dt T false rawI s i =
      fuseStep now dt (measuredCurrent (rawI i)) i
        { s with
          clearedFault := Function.update s.clearedFault i false
          warningUndercurrent := Function.update s.warningUndercurrent i
            (decide (measuredCurrent (rawI i) < s.cfg.underWarnThresholds i)) } := by
  have hT2 : ¬ (T ≥ s.cfg.tempTripThreshold) := not_le.mpr hT
  simp only [updateChannel, ha, hT2, ackCleared_eq]
  cases hc : s.clearedFault i
  · simp [hc]
    congr 2
    funext j
    by_cases hj : j = i
    · subst hj; simp [hc]
    · simp [Function.update_apply, hj]
  · simp [hc]

theorem fuseStep_inrush (now : Nat) (dt iA : ℚ) (i : Ch) (s : State)
    (hw : subU32 now (s.channelOnTime i) < s.cfg.inrushTimeLimits i) :
    (fuseStep now dt iA i s).inrushScore i =
        (if iA > s.cfg.inrushThresholds i then
          (if s.inrushScore i + dt * ((iA / s.cfg.inrushThresholds i) - 1) ^ 2 ≥ 1
            then 0
            else s.inrushScore i + dt * ((iA / s.cfg.inrushThresholds i) - 1) ^ 2)
        else 0) ∧
    (fuseStep now dt iA i s).overcurrentScore i = s.overcurrentScore i ∧
    (fuseStep now dt iA i s).resetButtonTiming i = s.resetButtonTiming i ∧
    (fuseStep now dt iA i s).channelActive i =
      (if iA > s.cfg.inrushThresholds i ∧
          s.inrushScore i + dt * ((iA / s.cfg.inrushThresholds i) - 1) ^ 2 ≥ 1
        then false else s.channelActive i) ∧
    (fuseStep now dt iA i s).faultOvercurrent i =
      (if iA > s.cfg.inrushThresholds i ∧
          s.inrushScore i + dt * ((iA / s.cfg.inrushThresholds i) - 1) ^ 2 ≥ 1
        then true else s.faultOvercurrent i) ∧
    (fuseStep now dt iA i s).switchPin i =
      (if iA > s.cfg.inrushThresholds i ∧
          s.inrushScore i + dt * ((iA / s.cfg.inrushThresholds i) - 1) ^ 2 ≥ 1
        then false else true) := by
  simp only [fuseStep, hw, if_true, driveOn, setChannel_eq, digitalWrite, Function.update_same,
    mul_assoc, ← pow_two, Bool.false_eq_true, if_false]
  by_cases h1 : iA > s.cfg.inrushThresholds i <;>
    by_cases h2 : s.inrushScore i + dt * ((iA / s.cfg.inrushThresholds i) - 1) ^ 2 ≥ 1 <;>
    simp [h1, h2]

theorem fuseStep_steady (now : Nat) (dt iA : ℚ) (i : Ch) (s : State)
    (hw : ¬ subU32 now (s.channelOnTime i) < s.cfg.inrushTimeLimits i) :
    (fuseStep now dt iA i s).overcurrentScore i =
        (if iA > s.cfg.ocThresholds i then
          (if s.overcurrentScore i + dt * ((iA / s.cfg.ocThresholds i) - 1) ^ 2 ≥ 1
            then 0
            else s.overcurrentScore i + dt * ((iA / s.cfg.ocThresholds i) - 1) ^ 2)
        else 0) ∧
    (fuseStep now dt iA i s).inrushScore i = s.inrushScore i ∧
    (fuseStep now dt iA i s).resetButtonTiming i =
      (if iA > s.cfg.ocThresholds i ∧
          s.overcurrentScore i + dt * ((iA / s.cfg.ocThresholds i) - 1) ^ 2 ≥ 1
        then true else s.resetButtonTiming i) ∧
    (fuseStep now dt iA i s).channelActive i =
      (if iA > s.cfg.ocThresholds i ∧
          s.overcurrentScore i + dt * ((iA / s.cfg.ocThresholds i) - 1) ^ 2 ≥ 1
        then false else s.channelActive i) ∧
    (fuseStep now dt iA i s).faultOvercurrent i =
      (if iA > s.cfg.ocThresholds i ∧
          s.overcurrentScore i + dt * ((iA / s.cfg.ocThresholds i) - 1) ^ 2 ≥ 1
        then true else s.faultOvercurrent i) ∧
    (fuseStep now dt iA i s).switchPin i =
      (if iA > s.cfg.ocThresholds i ∧
          s.overcurrentScore i + dt * ((iA / s.cfg.ocThresholds i) - 1) ^ 2 ≥ 1
        then false else true) := by
  simp only [fuseStep, hw, if_false, driveOn, setChannel_eq, digitalWrite, Function.update_same,
    mul_assoc, ← pow_two, Bool.false_eq_true]
  by_cases h1 : iA > s.cfg.ocThresholds i <;>
    by_cases h2 : s.overcurrentScore i + dt * ((iA / s.cfg.ocThresholds i) - 1) ^ 2 ≥ 1 <;>
    simp [h1, h2]


theorem update_fuse_inrush (now : Nat) (rawT : Int) (rawI : Ch → Int) (s : State) (ch : Ch)
    (h : reachesFuse now rawT s ch)
    (hw : elapsedOn now s ch < s.cfg.inrushTimeLimits ch) :
    (update now rawT rawI s).inrushScore ch =
        (if measuredCurrent (rawI ch) > s.cfg.inrushThresholds ch then
          (if s.inrushScore ch +
                tickDt now s * ((measuredCurrent (rawI ch) / s.cfg.inrushThresholds ch) - 1) ^ 2 ≥ 1
            then 0
            else s.inrushScore ch +
                tickDt now s * ((measuredCurrent (rawI ch) / s.cfg.inrushThresholds ch) - 1) ^ 2)
        else 0) ∧
    (update now rawT rawI s).overcurrentScore ch = s.overcurrentScore ch ∧
    (update now rawT rawI s).resetButtonTiming ch = s.resetButtonTiming ch ∧
    (update now rawT rawI s).channelActive ch =
      (if measuredCurrent (rawI ch) > s.cfg.inrushThresholds ch ∧
          s.inrushScore ch +
            tickDt now s * ((measuredCurrent (rawI ch) / s.cfg.inrushThresholds ch) - 1) ^ 2 ≥ 1
        then false else true) ∧
    (update now rawT rawI s).faultOvercurrent ch =
      (if measuredCurrent (rawI ch) > s.cfg.inrushThresholds ch ∧
          s.inrushScore ch +
            tickDt now s * ((measuredCurrent (rawI ch) / s.cfg.inrushThresholds ch) - 1) ^ 2 ≥ 1
        then true else s.faultOvercurrent ch) ∧
    (update now rawT rawI s).switchPin ch =
      (if measuredCurrent (rawI ch) > s.cfg.inrushThresholds ch ∧
          s.inrushScore ch +
            tickDt now s * ((measuredCurrent (rawI ch) / s.cfg.inrushThresholds ch) - 1) ^ 2 ≥ 1
        then false else true) := by
  obtain ⟨ha, hs, hT⟩ := h
  have hv := update_view now rawT rawI s ch hs hT
  rw [updateChannel_active now _ _ rawI s ch ha hT] at hv
  have key := fuseStep_inrush now (tickDt now s) (measuredCurrent (rawI ch)) ch
    { s with
      clearedFault := Function.update s.clearedFault ch false
      warningUndercurrent := Function.update s.warningUndercurrent ch
        (decide (measuredCurrent (rawI ch) < s.cfg.underWarnThresholds ch)) } hw
  simp only [State.view, ChanView.mk.injEq] at hv
  obtain ⟨h1, h2, -, h4, h5, -, -, -, h9, -, h11⟩ := hv
  obtain ⟨k1, k2, k3, k4, k5, k6⟩ := key
  rw [h1, h2, h4, h5, h9, h11]
  refine ⟨k1, k2, k3, ?_, k5, k6⟩
  rw [k4]
  simp only [ha]

theorem update_fuse_steady (now : Nat) (rawT : Int) (rawI : Ch → Int) (s : State) (ch : Ch)
    (h : reachesFuse now rawT s ch)
    (hw : ¬ elapsedOn now s ch < s.cfg.inrushTimeLimits ch) :
    (update now rawT rawI s).overcurrentScore ch =
        (if measuredCurrent (rawI ch) > s.cfg.ocThresholds ch then
          (if s.overcurrentScore ch +
                tickDt now s * ((measuredCurrent (rawI ch) / s.cfg.ocThresholds ch) - 1) ^ 2 ≥ 1
            then 0
            else s.overcurrentScore ch +
                tickDt now s * ((measuredCurrent (rawI ch) / s.cfg.ocThresholds ch) - 1) ^ 2)
        else 0) ∧
    (update now rawT rawI s).inrushScore ch = s.inrushScore ch ∧
    (update now rawT rawI s).resetButtonTiming ch =
      (if measuredCurrent (rawI ch) > s.cfg.ocThresholds ch ∧
          s.overcurrentScore ch +
            tickDt now s * ((measuredCurrent (rawI ch) / s.cfg.ocThresholds ch) - 1) ^ 2 ≥ 1
        then true else s.resetButtonTiming ch) ∧
    (update now rawT rawI s).channelActive ch =
      (if measuredCurrent (rawI ch) > s.cfg.ocThresholds ch ∧
          s.overcurrentScore ch +
            tickDt now s * ((measuredCurrent (rawI ch) / s.cfg.ocThresholds ch) - 1) ^ 2 ≥ 1
        then false else true) ∧
    (update now rawT rawI s).faultOvercurrent ch =
      (if measuredCurrent (rawI ch) > s.cfg.ocThresholds ch ∧
          s.overcurrentScore ch +
            tickDt now s * ((measuredCurrent (rawI ch) / s.cfg.ocThresholds ch) - 1) ^ 2 ≥ 1
        then true else s.faultOvercurrent ch) ∧
    (update now rawT rawI s).switchPin ch =
      (if measuredCurrent (rawI ch) > s.cfg.ocThresholds ch ∧
          s.overcurrentScore ch +
            tickDt now s * ((measuredCurrent (rawI ch) / s.cfg.ocThresholds ch) - 1) ^ 2 ≥ 1
        then false else true) := by
  obtain ⟨ha, hs, hT⟩ := h
  have hv := update_view now rawT rawI s ch hs hT
  rw [updateChannel_active now _ _ rawI s ch ha hT] at hv
  have key := fuseStep_steady now (tickDt now s) (measuredCurrent (rawI ch)) ch
    { s with
      clearedFault := Function.update s.clearedFault ch false
      warningUndercurrent := Function.update s.warningUndercurrent ch
        (decide (measuredCurrent (rawI ch) < s.cfg.underWarnThresholds ch)) } hw
  simp only [State.view, ChanView.mk.injEq] at hv
  obtain ⟨h1, h2, -, h4, h5, -, -, -, h9, -, h11⟩ := hv
  obtain ⟨k1, k2, k3, k4, k5, k6⟩ := key
  rw [h1, h2, h4, h5, h9, h11]
  refine ⟨k1, k2, k3, ?_, k5, k6⟩
  rw [k4]
  simp only [ha]

/-! ## Preservation of the per-channel safety condition -/

theorem foldl_preserves {α β : Type} (P : β → Prop) (f : β → α → β)
    (hf : ∀ b a, P b → P (f b a)) (l : List α) (b : β) (hb : P b) : P (l.foldl f b) := by
  induction l generalizing b with
  | nil => exact hb
  | cons a l ih => exact ih _ (hf b a hb)

theorem coreInv_ite {c : Prop} [Decidable c] {a b : State} (ha : c → CoreInv a)
    (hb : ¬ c → CoreInv b) : CoreInv (if c then a else b) := by
  split_ifs with hc
  · exact ha hc
  · exact hb hc

theorem coreInv_of_view_eq (s s' : State) (h : ∀ ch, s'.view ch = s.view ch)
    (hs : CoreInv s) : CoreInv s' := fun ch => by rw [h ch]; exact hs ch

theorem setChannel_coreInv (now : Nat) (ch : Ch) (v : Bool) (s : State) (h : CoreInv s) :
    CoreInv (setChannel now ch v s) := by
  intro j
  have hj := h j
  simp only [ViewOK, State.view] at hj ⊢
  by_cases e : j = ch
  · subst e
    cases v <;> simp [setChannel, digitalWrite] <;> tauto
  · cases v <;> simp [setChannel, digitalWrite, Function.update_apply, e] <;> tauto

theorem shutdownGroup_coreInv (ch : Ch) (s : State) (h : CoreInv s) :
    CoreInv (shutdownGroup ch s) := by
  intro j
  have hj := h j
  simp only [ViewOK, State.view, shutdownGroup_eq] at hj ⊢
  split_ifs <;> (try simp) <;> tauto

theorem clearChannelFault_coreInv (ch : Ch) (s : State) (h : CoreInv s) :
    CoreInv (clearChannelFault ch s) := by
  intro j
  have hj := h j
  simp only [ViewOK, State.view, clearChannelFault] at hj ⊢
  by_cases e : j = ch
  · subst e; simp; tauto
  · simp [Function.update_apply, e]; tauto

theorem clearGroupFaults_coreInv (grp : Nat) (s : State) (h : CoreInv s) :
    CoreInv (clearGroupFaults grp s) := by
  unfold clearGroupFaults
  apply foldl_preserves CoreInv _ _ _ _ h
  intro b a hb j
  have hj := hb j
  simp only [ViewOK, State.view] at hj ⊢
  split_ifs
  · by_cases e : j = a
    · subst e; simp; tauto
    · simp [Function.update_apply, e]; tauto
  · exact hj

theorem setGroup_coreInv (now : Nat) (grp : Nat) (v : Bool) (s : State) (h : CoreInv s) :
    CoreInv (setGroup now grp v s) := by
  unfold setGroup
  apply foldl_preserves CoreInv _ _ _ _ h
  intro b a hb
  split_ifs
  · exact setChannel_coreInv now a v b hb
  · exact hb

theorem coreInv_of_fields {s s' : State} (hs : CoreInv s)
    (h1 : s'.channelActive = s.channelActive)
    (h2 : s'.faultOvercurrent = s.faultOvercurrent) (h3 : s'.faultThermal = s.faultThermal)
    (h4 : s'.inrushScore = s.inrushScore) (h5 : s'.overcurrentScore = s.overcurrentScore) :
    CoreInv s' := by
  intro j
  have hj := hs j
  simp only [ViewOK, State.view, h1, h2, h3, h4, h5] at hj ⊢
  exact hj

theorem fuseStep_coreInv (now : Nat) (dt iA : ℚ) (i : Ch) (s : State) (hdt : 0 ≤ dt)
    (h : CoreInv s) : CoreInv (fuseStep now dt iA i s) := by
  intro j
  by_cases e : j = i
  · subst e
    have hj := h j
    simp only [ViewOK, State.view] at hj ⊢
    obtain ⟨hf, ⟨hi0, hi1⟩, ⟨ho0, ho1⟩⟩ := hj
    have hsq1 : 0 ≤ dt * (iA / s.cfg.inrushThresholds j - 1) * (iA / s.cfg.inrushThresholds j - 1) := by
      rw [mul_assoc]; exact mul_nonneg hdt (mul_self_nonneg _)
    have hsq2 : 0 ≤ dt * (iA / s.cfg.ocThresholds j - 1) * (iA / s.cfg.ocThresholds j - 1) := by
      rw [mul_assoc]; exact mul_nonneg hdt (mul_self_nonneg _)
    simp only [fuseStep, driveOn, setChannel_eq, digitalWrite, Function.update_same,
      Bool.false_eq_true, if_false]
    split_ifs with hw h1 h2 h1 h2 <;> simp <;>
      first
      | exact ⟨hf, ⟨by linarith, by linarith⟩, ho0, ho1⟩
      | exact ⟨hf, ⟨hi0, hi1⟩, by linarith, by linarith⟩
      | exact ⟨hf, ho0, ho1⟩
      | exact ⟨hf, hi0, hi1⟩
      | exact ⟨hi0, hi1⟩
      | exact ⟨ho0, ho1⟩
  · rw [fuseStep_view_ne now dt iA i j s e]
    exact h j

theorem ackCleared_coreInv (i : Ch) (s : State) (h : CoreInv s) : CoreInv (ackCleared i s) := by
  rw [ackCleared_eq]
  exact coreInv_of_fields h rfl rfl rfl rfl rfl

theorem tickDt_nonneg (now : Nat) (s : State) : 0 ≤ tickDt now s := by
  unfold tickDt
  positivity

theorem updateChannel_coreInv (now : Nat) (dt T : ℚ) (sensErr : Bool) (rawI : Ch → Int)
    (s : State) (i : Ch) (hdt : 0 ≤ dt) (h : CoreInv s) :
    CoreInv (updateChannel now dt T sensErr rawI s i) := by
  have ha := ackCleared_coreInv i s h
  unfold updateChannel
  refine coreInv_ite (fun _ => coreInv_of_fields h rfl rfl rfl rfl rfl) (fun _ => ?_)
  refine coreInv_ite (fun _ => shutdownGroup_coreInv _ _ ha) (fun _ => ?_)
  refine coreInv_ite (fun _ => shutdownGroup_coreInv _ _ ha) (fun _ => ?_)
  refine coreInv_ite (fun _ => coreInv_of_fields ha rfl rfl rfl rfl rfl) (fun _ => ?_)
  exact fuseStep_coreInv _ _ _ _ _ hdt (coreInv_of_fields ha rfl rfl rfl rfl rfl)

theorem update_coreInv (now : Nat) (rawT : Int) (rawI : Ch → Int) (s : State)
    (h : CoreInv s) : CoreInv (update now rawT rawI s) := by
  unfold update
  apply foldl_preserves CoreInv
  · intro b a hb
    exact updateChannel_coreInv _ _ _ _ _ _ _ (tickDt_nonneg now s) hb
  · exact coreInv_of_view_eq _ _ (updateTemperature_view now rawT s) h

theorem clearFaultsAt_coreInv (i : Ch) (c : Ch → Bool) (s : State) (h : CoreInv s) :
    CoreInv { s with
      clearedFault := c
      faultOvercurrent := Function.update s.faultOvercurrent i false
      faultThermal := Function.update s.faultThermal i false } := by
  intro j
  have hj := h j
  simp only [ViewOK, State.view] at hj ⊢
  by_cases e : j = i
  · subst e; simp; tauto
  · simp [Function.update_apply, e]; tauto

theorem applyPressChannel_coreInv (now : Nat) (grp : Nat) (pressed : Bool) (s : State) (i : Ch)
    (h : CoreInv s) : CoreInv (applyPressChannel now grp pressed s i) := by
  unfold applyPressChannel
  refine coreInv_ite (fun _ => h) (fun _ => ?_)
  refine coreInv_ite (fun _ => ?_) (fun _ => ?_)
  · refine coreInv_ite (fun _ => ?_) (fun _ => h)
    refine coreInv_ite (fun _ => h) (fun _ => ?_)
    exact coreInv_ite
      (fun _ => coreInv_of_fields (setChannel_coreInv _ _ _ _ h) rfl rfl rfl rfl rfl)
      (fun _ => setChannel_coreInv _ _ _ _ h)
  · refine coreInv_ite (fun _ => setChannel_coreInv _ _ _ _ h) (fun _ => ?_)
    exact coreInv_ite
      (fun _ => clearFaultsAt_coreInv _ _ _ (setChannel_coreInv _ _ _ _ h))
      (fun _ => setChannel_coreInv _ _ _ _ h)

theorem applyPress_coreInv (now : Nat) (ch : Ch) (pressed : Bool) (s : State) (h : CoreInv s) :
    CoreInv (applyPress now ch pressed s) := by
  unfold applyPress
  exact foldl_preserves CoreInv _ (fun b a hb => applyPressChannel_coreInv _ _ _ b a hb) _ _ h

theorem extResetTiming_coreInv (now : Nat) (s : State) (h : CoreInv s) :
    CoreInv (extResetTiming now s) := by
  unfold extResetTiming
  apply foldl_preserves CoreInv _ _ _ _ h
  intro b a hb
  exact coreInv_ite (fun _ => coreInv_of_fields hb rfl rfl rfl rfl rfl) (fun _ => hb)

theorem extPressEdge_coreInv (now : Nat) (nowP wasP : Bool) (ch : Ch) (s : State)
    (h : CoreInv s) : CoreInv (extPressEdge now nowP wasP ch s) := by
  have hp : CoreInv { s with
      pressStartExt := Function.update s.pressStartExt ch now
      longDone := Function.update s.longDone ch false } :=
    coreInv_of_fields h rfl rfl rfl rfl rfl
  unfold extPressEdge
  refine coreInv_ite (fun _ => ?_) (fun _ => h)
  exact coreInv_ite
    (fun _ => coreInv_of_fields (applyPress_coreInv _ _ _ _ hp) rfl rfl rfl rfl rfl)
    (fun _ => hp)

theorem extFaultClear_coreInv (ch : Ch) (s : State) (h : CoreInv s) :
    CoreInv (extFaultClear ch s) := by
  have h1 := clearGroupFaults_coreInv (s.cfg.outputGroup ch) s h
  have h2 := shutdownGroup_coreInv ch (clearGroupFaults (s.cfg.outputGroup ch) s) h1
  refine coreInv_of_fields h2 ?_ ?_ ?_ ?_ ?_ <;> dsimp only [extFaultClear]

theorem extLongPress_coreInv (now : Nat) (nowP : Bool) (ch : Ch) (s : State)
    (h : CoreInv s) : CoreInv (extLongPress now nowP ch s) := by
  unfold extLongPress
  refine coreInv_ite (fun _ => ?_) (fun _ => h)
  exact coreInv_ite (fun _ => extFaultClear_coreInv ch s h) (fun _ => h)

theorem extShortPress_coreInv (now : Nat) (ch : Ch) (s : State) (h : CoreInv s) :
    CoreInv (extShortPress now ch s) := by
  have h1 := applyPress_coreInv now ch true s h
  unfold extShortPress
  refine coreInv_ite (fun _ => ?_) (fun _ => h)
  exact coreInv_ite (fun _ => coreInv_of_fields h1 rfl rfl rfl rfl rfl) (fun _ => h)

theorem extRelease_coreInv (now : Nat) (nowP wasP : Bool) (ch : Ch) (s : State)
    (h : CoreInv s) : CoreInv (extRelease now nowP wasP ch s) := by
  have h1 := extShortPress_coreInv now ch s h
  have h2 := applyPress_coreInv now ch false (extShortPress now ch s) h1
  unfold extRelease
  refine coreInv_ite (fun _ => ?_) (fun _ => h)
  exact coreInv_ite (fun _ => h2) (fun _ => h1)

theorem extButtonStep_coreInv (now : Nat) (s : State) (ch : Ch) (h : CoreInv s) :
    CoreInv (extButtonStep now s ch) := by
  unfold extButtonStep
  exact extRelease_coreInv _ _ _ _ _ (extLongPress_coreInv _ _ _ _ (extPressEdge_coreInv _ _ _ _ _ h))

theorem processExternalInputs_coreInv (now : Nat) (pinLevel : Ch → Bool) (s : State)
    (h : CoreInv s) : CoreInv (processExternalInputs now pinLevel s) := by
  have h0 := extResetTiming_coreInv now s h
  have h1 : CoreInv (allCh.foldl (extButtonStep now) (extResetTiming now s)) :=
    foldl_preserves CoreInv _ (fun b a hb => extButtonStep_coreInv now b a hb) _ _ h0
  unfold processExternalInputs
  refine coreInv_ite (fun _ => coreInv_of_fields h0 rfl rfl rfl rfl rfl) (fun _ => ?_)
  refine coreInv_ite (fun _ => h0) (fun _ => ?_)
  exact coreInv_of_fields h1 rfl rfl rfl rfl rfl

theorem keyPressEdge_coreInv (now : Nat) (grp : Nat) (ch : Ch) (s : State) (h : CoreInv s) :
    CoreInv (keyPressEdge now grp ch s) := by
  have hp : CoreInv { s with pressTime := Function.update s.pressTime ch now } :=
    coreInv_of_fields h rfl rfl rfl rfl rfl
  have h1 := setGroup_coreInv now grp true _ hp
  unfold keyPressEdge
  exact coreInv_ite (fun _ => h1) (fun _ => hp)

theorem keyShortPress_coreInv (now : Nat) (grp : Nat) (ch : Ch) (s : State) (h : CoreInv s) :
    CoreInv (keyShortPress now grp ch s) := by
  unfold keyShortPress
  refine coreInv_ite (fun _ => ?_) (fun _ => h)
  exact coreInv_ite (fun _ => setGroup_coreInv now grp _ s h) (fun _ => h)

theorem keyReleaseAction_coreInv (now : Nat) (grp : Nat) (ch : Ch) (s : State)
    (h : CoreInv s) : CoreInv (keyReleaseAction now grp ch s) := by
  unfold keyReleaseAction
  exact coreInv_ite (fun _ => clearGroupFaults_coreInv grp s h)
    (fun _ => keyShortPress_coreInv now grp ch s h)

theorem keyReleaseEdge_coreInv (now : Nat) (grp : Nat) (ch : Ch) (s : State) (h : CoreInv s) :
    CoreInv (keyReleaseEdge now grp ch s) := by
  have h1 := keyReleaseAction_coreInv now grp ch s h
  have h2 := setGroup_coreInv now grp false _ h1
  unfold keyReleaseEdge
  exact coreInv_ite (fun _ => h2) (fun _ => h1)

theorem keyEdges_coreInv (now : Nat) (ch : Ch) (pressed : Bool) (s : State) (h : CoreInv s) :
    CoreInv (keyEdges now ch pressed s) := by
  unfold keyEdges
  refine coreInv_ite (fun _ => keyPressEdge_coreInv now _ ch s h) (fun _ => ?_)
  exact coreInv_ite (fun _ => keyReleaseEdge_coreInv now _ ch s h) (fun _ => h)

theorem handleButtonState_coreInv (now : Nat) (ch : Ch) (pressed : Bool) (s : State)
    (h : CoreInv s) : CoreInv (handleButtonState now ch pressed s) := by
  have h1 := keyEdges_coreInv now ch pressed s h
  unfold handleButtonState
  exact coreInv_of_fields h1 rfl rfl rfl rfl rfl

theorem allOff_coreInv (now : Nat) (s : State) (h : CoreInv s) : CoreInv (allOff now s) := by
  unfold allOff
  exact foldl_preserves CoreInv _ (fun b a hb => setChannel_coreInv now a false b hb) _ _ h

theorem digOutAllOff_coreInv (now : Nat) (s : State) (h : CoreInv s) :
    CoreInv (digOutAllOff now s) := by
  unfold digOutAllOff
  apply foldl_preserves CoreInv _ _ _ _ h
  intro b a hb
  exact coreInv_of_fields (setChannel_coreInv now a false b hb) rfl rfl rfl rfl rfl

theorem digOutTimeout_coreInv (now : Nat) (s : State) (h : CoreInv s) :
    CoreInv (digOutTimeout now s) := by
  have h1 := digOutAllOff_coreInv now s h
  unfold digOutTimeout
  exact coreInv_ite (fun _ => coreInv_of_fields h1 rfl rfl rfl rfl rfl) (fun _ => h)

theorem digOutRising_coreInv (now : Nat) (ch : Ch) (s : State) (h : CoreInv s) :
    CoreInv (digOutRising now ch s) := by
  have h1 := setChannel_coreInv now ch true s h
  unfold digOutRising
  exact coreInv_of_fields h1 rfl rfl rfl rfl rfl

theorem digOutFalling_coreInv (now : Nat) (ch : Ch) (s : State) (h : CoreInv s) :
    CoreInv (digOutFalling now ch s) := by
  have h1 := setChannel_coreInv now ch false s h
  have h2 : CoreInv { setChannel now ch false s with
      lockDig := Function.update (setChannel now ch false s).lockDig ch false } :=
    coreInv_of_fields h1 rfl rfl rfl rfl rfl
  have h3 := clearChannelFault_coreInv ch _ h2
  unfold digOutFalling
  exact coreInv_of_fields h3 rfl rfl rfl rfl rfl

theorem digOutEdge_coreInv (now : Nat) (buf : Fin 8 → Nat) (s : State) (ch : Ch)
    (h : CoreInv s) : CoreInv (digOutEdge now buf s ch) := by
  unfold digOutEdge
  refine coreInv_ite (fun _ => digOutRising_coreInv now ch s h) (fun _ => ?_)
  exact coreInv_ite (fun _ => digOutFalling_coreInv now ch s h) (fun _ => h)

theorem digOutChannel_coreInv (now : Nat) (buf : Fin 8 → Nat) (s : State) (ch : Ch)
    (h : CoreInv s) : CoreInv (digOutChannel now buf s ch) := by
  have h1 := digOutEdge_coreInv now buf s ch h
  unfold digOutChannel
  exact coreInv_of_fields h1 rfl rfl rfl rfl rfl

theorem digOutLock_coreInv (s : State) (h : CoreInv s) : CoreInv (digOutLock s) := by
  unfold digOutLock
  apply foldl_preserves CoreInv _ _ _ _ h
  intro b a hb
  exact coreInv_ite (fun _ => coreInv_of_fields hb rfl rfl rfl rfl rfl) (fun _ => hb)

theorem digOutService_coreInv (now : Nat) (buf : Fin 8 → Nat) (s : State) (h : CoreInv s) :
    CoreInv (digOutService now buf s) := by
  have h1 : CoreInv (allCh.foldl (digOutChannel now buf) s) :=
    foldl_preserves CoreInv _ (fun b a hb => digOutChannel_coreInv now buf b a hb) _ _ h
  have h2 : CoreInv { allCh.foldl (digOutChannel now buf) s with
      lastDigOutTime := now, digOutWatchdogTriggered := false } :=
    coreInv_of_fields h1 rfl rfl rfl rfl rfl
  unfold digOutService
  exact digOutLock_coreInv _ h2

theorem keypadButton_coreInv (now : Nat) (buf : Fin 8 → Nat) (s : State) (ch : Ch)
    (h : CoreInv s) : CoreInv (keypadButton now buf s ch) := by
  have h1 := handleButtonState_coreInv now ch ((buf 0 &&& (1 <<< ch.val)) != 0) s h
  unfold keypadButton
  exact coreInv_ite (fun _ => coreInv_of_fields h1 rfl rfl rfl rfl rfl) (fun _ => h1)

theorem keypadPdo_coreInv (now : Nat) (buf : Fin 8 → Nat) (s : State) (h : CoreInv s) :
    CoreInv (keypadPdo now buf s) := by
  unfold keypadPdo
  exact foldl_preserves CoreInv _ (fun b a hb => keypadButton_coreInv now buf b a hb) _ _ h

theorem canFrame_coreInv (now : Nat) (rxMsg : CanMsg) (s : State) (h : CoreInv s) :
    CoreInv (canFrame now rxMsg s) := by
  unfold canFrame
  refine coreInv_ite (fun _ => digOutService_coreInv now _ s h) (fun _ => ?_)
  refine coreInv_ite (fun _ => keypadPdo_coreInv now _ s h) (fun _ => ?_)
  refine coreInv_ite (fun _ => h) (fun _ => ?_)
  exact coreInv_ite (fun _ => coreInv_of_fields h rfl rfl rfl rfl rfl) (fun _ => h)

theorem canProcess_coreInv (now : Nat) (frame : Option CanMsg) (s : State) (h : CoreInv s) :
    CoreInv (canProcess now frame s) := by
  have h1 := digOutTimeout_coreInv now s h
  unfold canProcess
  cases frame with
  | none => exact h1
  | some rxMsg => exact canFrame_coreInv now rxMsg _ h1

theorem checkWatchdog_coreInv (now : Nat) (s : State) (h : CoreInv s) :
    CoreInv (checkWatchdog now s) := by
  have h1 : CoreInv (if s.canOK = true then allOff now s else s) :=
    coreInv_ite (fun _ => allOff_coreInv now s h) (fun _ => h)
  unfold checkWatchdog
  split
  · exact coreInv_ite (fun _ => coreInv_of_fields h1 rfl rfl rfl rfl rfl) (fun _ => h)
  · exact h
  · exact h
  · exact h

theorem init_coreInv (loaded : Config) (now : Nat) : CoreInv (init loaded now bootState) := by
  intro ch
  fin_cases ch <;>
    simp [ViewOK, State.view, init, allCh, digitalWrite, bootState]

theorem step_coreInv (op : Op) (s : State) (h : CoreInv s) : CoreInv (step op s) := by
  cases op with
  | setChannel now ch v => exact setChannel_coreInv now ch v s h
  | clearChannelFault ch => exact clearChannelFault_coreInv ch s h
  | handleButtonState now ch pressed => exact handleButtonState_coreInv now ch pressed s h
  | processExternalInputs now pinLevel => exact processExternalInputs_coreInv now pinLevel s h
  | update now rawT rawI => exact update_coreInv now rawT rawI s h
  | canProcess now frame => exact canProcess_coreInv now frame s h
  | checkWatchdog now => exact checkWatchdog_coreInv now s h

theorem reachable_coreInv (s : State) (h : Reachable s) : CoreInv s := by
  induction h with
  | init loaded now => exact init_coreInv loaded now
  | step op s _ ih => exact step_coreInv op s ih

/-! ## The switch output follows `channelActive` -/

theorem fuseStep_pin (now : Nat) (dt iA : ℚ) (i j : Ch) (s : State)
    (hact : s.channelActive i = true)
    (h : j = i ∨ s.switchPin j = s.channelActive j) :
    (fuseStep now dt iA i s).switchPin j = (fuseStep now dt iA i s).channelActive j := by
  by_cases e : j = i
  · subst e
    by_cases hw : subU32 now (s.channelOnTime j) < s.cfg.inrushTimeLimits j
    · obtain ⟨-, -, -, k4, -, k6⟩ := fuseStep_inrush now dt iA j s hw
      rw [k4, k6, hact]
    · obtain ⟨-, -, -, k4, -, k6⟩ := fuseStep_steady now dt iA j s hw
      rw [k4, k6, hact]
  · have hv := fuseStep_view_ne now dt iA i j s e
    have h1 := congrArg ChanView.switchPin hv
    have h2 := congrArg ChanView.channelActive hv
    simp only [State.view] at h1 h2
    rw [h1, h2]
    exact h.resolve_left e

theorem updateChannel_pin (now : Nat) (dt T : ℚ) (sensErr : Bool) (rawI : Ch → Int)
    (s : State) (i j : Ch) (h : j = i ∨ s.switchPin j = s.channelActive j) :
    (updateChannel now dt T sensErr rawI s i).switchPin j =
      (updateChannel now dt T sensErr rawI s i).channelActive j := by
  unfold updateChannel
  by_cases c1 : (s.clearedFault i && !s.channelActive i) = true
  · rw [if_pos c1]
    by_cases e : j = i
    · subst e
      simp only [Bool.and_eq_true, Bool.not_eq_true'] at c1
      simp [digitalWrite, c1.2]
    · simp [digitalWrite, Function.update_apply, e, h.resolve_left e]
  · rw [if_neg c1]
    have hsd : (shutdownGroup i (ackCleared i s)).switchPin j =
        (shutdownGroup i (ackCleared i s)).channelActive j := by
      simp only [shutdownGroup_eq, ackCleared_eq]
      by_cases e : j = i
      · subst e; simp
      · split_ifs
        · rfl
        · exact h.resolve_left e
    dsimp only
    by_cases c2 : sensErr = true
    · rw [if_pos c2]; exact hsd
    · rw [if_neg c2]
      by_cases c3 : T ≥ (ackCleared i s).cfg.tempTripThreshold
      · rw [if_pos c3]; exact hsd
      · rw [if_neg c3]
        by_cases c4 : (!(ackCleared i s).channelActive i) = true
        · rw [if_pos c4]
          simp only [ackCleared_eq, Bool.not_eq_true'] at c4
          by_cases e : j = i
          · subst e
            simp [digitalWrite, ackCleared_eq, c4]
          · simp [digitalWrite, ackCleared_eq, Function.update_apply, e, h.resolve_left e]
        · rw [if_neg c4]
          simp only [ackCleared_eq, Bool.not_eq_true', Bool.not_eq_false] at c4
          apply fuseStep_pin
          · simp only [ackCleared_eq]; exact c4
          · simp only [ackCleared_eq]; exact h

theorem foldl_updateChannel_pin (now : Nat) (dt T : ℚ) (sensErr : Bool) (rawI : Ch → Int)
    (l : List Ch) (s : State) (h : ∀ j, j ∈ l ∨ s.switchPin j = s.channelActive j) (j : Ch) :
    (l.foldl (updateChannel now dt T sensErr rawI) s).switchPin j =
      (l.foldl (updateChannel now dt T sensErr rawI) s).channelActive j := by
  induction l generalizing s with
  | nil =>
    rcases h j with hj | hj
    · exact absurd hj (List.not_mem_nil _)
    · exact hj
  | cons a l ih =>
    rw [List.foldl_cons]
    apply ih
    intro k
    rcases h k with hk | hk
    · rcases List.mem_cons.mp hk with hka | hkl
      · exact Or.inr (updateChannel_pin _ _ _ _ _ _ _ _ (Or.inl hka))
      · exact Or.inl hkl
    · exact Or.inr (updateChannel_pin _ _ _ _ _ _ _ _ (Or.inr hk))

/-! ## Activations start with a zero steady-state score -/

theorem ocRel_refl (s : State) : OcRel s s := fun _ => Or.inr ⟨rfl, id⟩

theorem ocRel_trans {s s1 s2 : State} (h1 : OcRel s s1) (h2 : OcRel s1 s2) : OcRel s s2 := by
  intro ch
  rcases h2 ch with h | ⟨ha, hb⟩
  · exact Or.inl h
  · rcases h1 ch with h' | ⟨ha', hb'⟩
    · exact Or.inl (ha.trans h')
    · exact Or.inr ⟨ha.trans ha', fun h => hb' (hb h)⟩

theorem ocRel_of_fields {s s' : State} (h1 : s'.channelActive = s.channelActive)
    (h2 : s'.overcurrentScore = s.overcurrentScore) : OcRel s s' := by
  intro ch
  rw [h1, h2]
  exact Or.inr ⟨rfl, id⟩

theorem ocRel_ite {c : Prop} [Decidable c] {s a b : State} (ha : c → OcRel s a)
    (hb : ¬ c → OcRel s b) : OcRel s (if c then a else b) := by
  split_ifs with hc
  · exact ha hc
  · exact hb hc

theorem foldl_ocRel {α : Type} (f : State → α → State) (hf : ∀ b a, OcRel b (f b a))
    (l : List α) (s : State) : OcRel s (l.foldl f s) := by
  induction l generalizing s with
  | nil => exact ocRel_refl s
  | cons a l ih => exact ocRel_trans (hf s a) (ih (f s a))

theorem setChannel_ocRel (now : Nat) (ch : Ch) (v : Bool) (s : State) :
    OcRel s (setChannel now ch v s) := by
  intro j
  by_cases e : j = ch
  · subst e
    cases v <;> simp [setChannel, digitalWrite]
  · cases v <;> simp [setChannel, digitalWrite, Function.update_apply, e]

theorem shutdownGroup_ocRel (ch : Ch) (s : State) : OcRel s (shutdownGroup ch s) := by
  intro j
  rw [shutdownGroup_eq]
  refine Or.inr ⟨rfl, ?_⟩
  dsimp only
  split_ifs <;> simp

theorem clearGroupFaults_ocRel (grp : Nat) (s : State) : OcRel s (clearGroupFaults grp s) := by
  unfold clearGroupFaults
  apply foldl_ocRel
  intro b a
  exact ocRel_ite (fun _ => ocRel_of_fields rfl rfl) (fun _ => ocRel_refl b)

theorem setGroup_ocRel (now : Nat) (grp : Nat) (v : Bool) (s : State) :
    OcRel s (setGroup now grp v s) := by
  unfold setGroup
  apply foldl_ocRel
  intro b a
  exact ocRel_ite (fun _ => setChannel_ocRel now a v b) (fun _ => ocRel_refl b)

theorem clearChannelFault_ocRel (ch : Ch) (s : State) : OcRel s (clearChannelFault ch s) :=
  ocRel_of_fields rfl rfl

theorem applyPressChannel_ocRel (now : Nat) (grp : Nat) (pressed : Bool) (s : State) (i : Ch) :
    OcRel s (applyPressChannel now grp pressed s i) := by
  have hs := fun v => setChannel_ocRel now i v s
  have hc : ∀ v, OcRel s { setChannel now i v s with
      clearedFault := Function.update (setChannel now i v s).clearedFault i false } :=
    fun v => ocRel_trans (hs v) (ocRel_of_fields rfl rfl)
  have hf : ∀ v, OcRel s { setChannel now i v s with
      clearedFault := Function.update (setChannel now i v s).clearedFault i false
      faultOvercurrent := Function.update (setChannel now i v s).faultOvercurrent i false
      faultThermal := Function.update (setChannel now i v s).faultThermal i false } :=
    fun v => ocRel_trans (hs v) (ocRel_of_fields rfl rfl)
  unfold applyPressChannel
  refine ocRel_ite (fun _ => ocRel_refl s) (fun _ => ?_)
  refine ocRel_ite (fun _ => ?_) (fun _ => ?_)
  · refine ocRel_ite (fun _ => ?_) (fun _ => ocRel_refl s)
    refine ocRel_ite (fun _ => ocRel_refl s) (fun _ => ?_)
    exact ocRel_ite (fun _ => hc _) (fun _ => hs _)
  · refine ocRel_ite (fun _ => hs _) (fun _ => ?_)
    exact ocRel_ite (fun _ => hf _) (fun _ => hs _)

theorem applyPress_ocRel (now : Nat) (ch : Ch) (pressed : Bool) (s : State) :
    OcRel s (applyPress now ch pressed s) := by
  unfold applyPress
  exact foldl_ocRel _ (fun b a => applyPressChannel_ocRel _ _ _ b a) _ _

theorem extResetTiming_ocRel (now : Nat) (s : State) : OcRel s (extResetTiming now s) := by
  unfold extResetTiming
  apply foldl_ocRel
  intro b a
  exact ocRel_ite (fun _ => ocRel_of_fields rfl rfl) (fun _ => ocRel_refl b)

theorem extPressEdge_ocRel (now : Nat) (nowP wasP : Bool) (ch : Ch) (s : State) :
    OcRel s (extPressEdge now nowP wasP ch s) := by
  have hp : OcRel s { s with
      pressStartExt := Function.update s.pressStartExt ch now
      longDone := Function.update s.longDone ch false } := ocRel_of_fields rfl rfl
  have h1 := ocRel_trans hp (applyPress_ocRel now ch true _)
  unfold extPressEdge
  refine ocRel_ite (fun _ => ?_) (fun _ => ocRel_refl s)
  refine ocRel_ite (fun _ => ocRel_trans h1 ?_) (fun _ => hp)
  refine ocRel_of_fields ?_ ?_ <;> dsimp only

theorem extFaultClear_ocRel (ch : Ch) (s : State) : OcRel s (extFaultClear ch s) := by
  have h1 := clearGroupFaults_ocRel (s.cfg.outputGroup ch) s
  have h2 := shutdownGroup_ocRel ch (clearGroupFaults (s.cfg.outputGroup ch) s)
  refine ocRel_trans (ocRel_trans h1 h2) ?_
  refine ocRel_of_fields ?_ ?_ <;> dsimp only [extFaultClear]

theorem extLongPress_ocRel (now : Nat) (nowP : Bool) (ch : Ch) (s : State) :
    OcRel s (extLongPress now nowP ch s) := by
  unfold extLongPress
  refine ocRel_ite (fun _ => ?_) (fun _ => ocRel_refl s)
  exact ocRel_ite (fun _ => extFaultClear_ocRel ch s) (fun _ => ocRel_refl s)

theorem extShortPress_ocRel (now : Nat) (ch : Ch) (s : State) :
    OcRel s (extShortPress now ch s) := by
  have h1 := applyPress_ocRel now ch true s
  unfold extShortPress
  refine ocRel_ite (fun _ => ?_) (fun _ => ocRel_refl s)
  refine ocRel_ite (fun _ => ocRel_trans h1 ?_) (fun _ => ocRel_refl s)
  refine ocRel_of_fields ?_ ?_ <;> dsimp only

theorem extRelease_ocRel (now : Nat) (nowP wasP : Bool) (ch : Ch) (s : State) :
    OcRel s (extRelease now nowP wasP ch s) := by
  have h1 := extShortPress_ocRel now ch s
  have h2 := ocRel_trans h1 (applyPress_ocRel now ch false (extShortPress now ch s))
  unfold extRelease
  refine ocRel_ite (fun _ => ?_) (fun _ => ocRel_refl s)
  exact ocRel_ite (fun _ => h2) (fun _ => h1)

theorem extButtonStep_ocRel (now : Nat) (s : State) (ch : Ch) :
    OcRel s (extButtonStep now s ch) := by
  unfold extButtonStep
  exact ocRel_trans (extPressEdge_ocRel _ _ _ _ _)
    (ocRel_trans (extLongPress_ocRel _ _ _ _) (extRelease_ocRel _ _ _ _ _))

theorem processExternalInputs_ocRel (now : Nat) (pinLevel : Ch → Bool) (s : State) :
    OcRel s (processExternalInputs now pinLevel s) := by
  have h0 := extResetTiming_ocRel now s
  have h1 : OcRel s (allCh.foldl (extButtonStep now) (extResetTiming now s)) :=
    ocRel_trans h0 (foldl_ocRel _ (fun b a => extButtonStep_ocRel now b a) _ _)
  unfold processExternalInputs
  refine ocRel_ite (fun _ => ocRel_trans h0 ?_) (fun _ => ?_)
  · refine ocRel_of_fields ?_ ?_ <;> dsimp only
  refine ocRel_ite (fun _ => h0) (fun _ => ocRel_trans h1 ?_)
  refine ocRel_of_fields ?_ ?_ <;> dsimp only

theorem keyPressEdge_ocRel (now : Nat) (grp : Nat) (ch : Ch) (s : State) :
    OcRel s (keyPressEdge now grp ch s) := by
  have hp : OcRel s { s with pressTime := Function.update s.pressTime ch now } :=
    ocRel_of_fields rfl rfl
  have h1 := ocRel_trans hp (setGroup_ocRel now grp true _)
  unfold keyPressEdge
  exact ocRel_ite (fun _ => h1) (fun _ => hp)

theorem keyShortPress_ocRel (now : Nat) (grp : Nat) (ch : Ch) (s : State) :
    OcRel s (keyShortPress now grp ch s) := by
  unfold keyShortPress
  refine ocRel_ite (fun _ => ?_) (fun _ => ocRel_refl s)
  exact ocRel_ite (fun _ => setGroup_ocRel now grp _ s) (fun _ => ocRel_refl s)

theorem keyReleaseAction_ocRel (now : Nat) (grp : Nat) (ch : Ch) (s : State) :
    OcRel s (keyReleaseAction now grp ch s) := by
  unfold keyReleaseAction
  exact ocRel_ite (fun _ => clearGroupFaults_ocRel grp s)
    (fun _ => keyShortPress_ocRel now grp ch s)

theorem keyReleaseEdge_ocRel (now : Nat) (grp : Nat) (ch : Ch) (s : State) :
    OcRel s (keyReleaseEdge now grp ch s) := by
  have h1 := keyReleaseAction_ocRel now grp ch s
  have h2 := ocRel_trans h1 (setGroup_ocRel now grp false _)
  unfold keyReleaseEdge
  exact ocRel_ite (fun _ => h2) (fun _ => h1)

theorem keyEdges_ocRel (now : Nat) (ch : Ch) (pressed : Bool) (s : State) :
    OcRel s (keyEdges now ch pressed s) := by
  unfold keyEdges
  refine ocRel_ite (fun _ => keyPressEdge_ocRel now _ ch s) (fun _ => ?_)
  exact ocRel_ite (fun _ => keyReleaseEdge_ocRel now _ ch s) (fun _ => ocRel_refl s)

theorem handleButtonState_ocRel (now : Nat) (ch : Ch) (pressed : Bool) (s : State) :
    OcRel s (handleButtonState now ch pressed s) := by
  refine ocRel_trans (keyEdges_ocRel now ch pressed s) ?_
  refine ocRel_of_fields ?_ ?_ <;> dsimp only [handleButtonState]

theorem allOff_ocRel (now : Nat) (s : State) : OcRel s (allOff now s) := by
  unfold allOff
  exact foldl_ocRel _ (fun b a => setChannel_ocRel now a false b) _ _

theorem digOutAllOff_ocRel (now : Nat) (s : State) : OcRel s (digOutAllOff now s) := by
  unfold digOutAllOff
  apply foldl_ocRel
  intro b a
  refine ocRel_trans (setChannel_ocRel now a false b) ?_
  refine ocRel_of_fields ?_ ?_ <;> dsimp only

theorem digOutTimeout_ocRel (now : Nat) (s : State) : OcRel s (digOutTimeout now s) := by
  have h1 := digOutAllOff_ocRel now s
  unfold digOutTimeout
  refine ocRel_ite (fun _ => ocRel_trans h1 ?_) (fun _ => ocRel_refl s)
  refine ocRel_of_fields ?_ ?_ <;> dsimp only

theorem digOutRising_ocRel (now : Nat) (ch : Ch) (s : State) :
    OcRel s (digOutRising now ch s) := by
  refine ocRel_trans (setChannel_ocRel now ch true s) ?_
  refine ocRel_of_fields ?_ ?_ <;> dsimp only [digOutRising]

theorem digOutFalling_ocRel (now : Nat) (ch : Ch) (s : State) :
    OcRel s (digOutFalling now ch s) := by
  refine ocRel_trans (setChannel_ocRel now ch false s) ?_
  refine ocRel_of_fields ?_ ?_ <;> dsimp only [digOutFalling, clearChannelFault]

theorem digOutEdge_ocRel (now : Nat) (buf : Fin 8 → Nat) (s : State) (ch : Ch) :
    OcRel s (digOutEdge now buf s ch) := by
  unfold digOutEdge
  refine ocRel_ite (fun _ => digOutRising_ocRel now ch s) (fun _ => ?_)
  exact ocRel_ite (fun _ => digOutFalling_ocRel now ch s) (fun _ => ocRel_refl s)

theorem digOutChannel_ocRel (now : Nat) (buf : Fin 8 → Nat) (s : State) (ch : Ch) :
    OcRel s (digOutChannel now buf s ch) := by
  refine ocRel_trans (digOutEdge_ocRel now buf s ch) ?_
  refine ocRel_of_fields ?_ ?_ <;> dsimp only [digOutChannel]

theorem digOutLock_ocRel (s : State) : OcRel s (digOutLock s) := by
  unfold digOutLock
  apply foldl_ocRel
  intro b a
  exact ocRel_ite (fun _ => ocRel_of_fields rfl rfl) (fun _ => ocRel_refl b)

theorem digOutService_ocRel (now : Nat) (buf : Fin 8 → Nat) (s : State) :
    OcRel s (digOutService now buf s) := by
  have h1 : OcRel s (allCh.foldl (digOutChannel now buf) s) :=
    foldl_ocRel _ (fun b a => digOutChannel_ocRel now buf b a) _ _
  have h2 : OcRel (allCh.foldl (digOutChannel now buf) s)
      { allCh.foldl (digOutChannel now buf) s with
        lastDigOutTime := now, digOutWatchdogTriggered := false } :=
    ocRel_of_fields rfl rfl
  unfold digOutService
  exact ocRel_trans (ocRel_trans h1 h2) (digOutLock_ocRel _)

theorem keypadButton_ocRel (now : Nat) (buf : Fin 8 → Nat) (s : State) (ch : Ch) :
    OcRel s (keypadButton now buf s ch) := by
  have h1 := handleButtonState_ocRel now ch ((buf 0 &&& (1 <<< ch.val)) != 0) s
  unfold keypadButton
  refine ocRel_ite (fun _ => ocRel_trans h1 ?_) (fun _ => h1)
  refine ocRel_of_fields ?_ ?_ <;> dsimp only

theorem keypadPdo_ocRel (now : Nat) (buf : Fin 8 → Nat) (s : State) :
    OcRel s (keypadPdo now buf s) := by
  unfold keypadPdo
  exact foldl_ocRel _ (fun b a => keypadButton_ocRel now buf b a) _ _

theorem canFrame_ocRel (now : Nat) (rxMsg : CanMsg) (s : State) :
    OcRel s (canFrame now rxMsg s) := by
  unfold canFrame
  refine ocRel_ite (fun _ => digOutService_ocRel now _ s) (fun _ => ?_)
  refine ocRel_ite (fun _ => keypadPdo_ocRel now _ s) (fun _ => ?_)
  refine ocRel_ite (fun _ => ocRel_refl s) (fun _ => ?_)
  exact ocRel_ite (fun _ => ocRel_of_fields rfl rfl) (fun _ => ocRel_refl s)

theorem canProcess_ocRel (now : Nat) (frame : Option CanMsg) (s : State) :
    OcRel s (canProcess now frame s) := by
  have h1 := digOutTimeout_ocRel now s
  unfold canProcess
  cases frame with
  | none => exact h1
  | some rxMsg => exact ocRel_trans h1 (canFrame_ocRel now rxMsg _)

theorem checkWatchdog_ocRel (now : Nat) (s : State) : OcRel s (checkWatchdog now s) := by
  have h1 : OcRel s (if s.canOK = true then allOff now s else s) :=
    ocRel_ite (fun _ => allOff_ocRel now s) (fun _ => ocRel_refl s)
  unfold checkWatchdog
  split
  · refine ocRel_ite (fun _ => ocRel_trans h1 ?_) (fun _ => ocRel_refl s)
    refine ocRel_of_fields ?_ ?_ <;> dsimp only
  · exact ocRel_refl s
  · exact ocRel_refl s
  · exact ocRel_refl s

/-! ## `update` never switches a channel on -/

theorem fuseStep_active_mono (now : Nat) (dt iA : ℚ) (i j : Ch) (s : State)
    (h : (fuseStep now dt iA i s).channelActive j = true) : s.channelActive j = true := by
  by_cases e : j = i
  · subst e
    by_cases hw : subU32 now (s.channelOnTime j) < s.cfg.inrushTimeLimits j
    · obtain ⟨-, -, -, k4, -, -⟩ := fuseStep_inrush now dt iA j s hw
      rw [k4] at h
      split_ifs at h
      exact h
    · obtain ⟨-, -, -, k4, -, -⟩ := fuseStep_steady now dt iA j s hw
      rw [k4] at h
      split_ifs at h
      exact h
  · have h2 := congrArg ChanView.channelActive (fuseStep_view_ne now dt iA i j s e)
    simp only [State.view] at h2
    rw [← h2]; exact h

theorem updateChannel_active_mono (now : Nat) (dt T : ℚ) (sensErr : Bool) (rawI : Ch → Int)
    (s : State) (i j : Ch)
    (h : (updateChannel now dt T sensErr rawI s i).channelActive j = true) :
    s.channelActive j = true := by
  have hsd : (shutdownGroup i (ackCleared i s)).channelActive j = true →
      s.channelActive j = true := by
    simp only [shutdownGroup_eq, ackCleared_eq]
    split_ifs
    · intro h; exact absurd h (by decide)
    · exact id
  unfold updateChannel at h
  by_cases c1 : (s.clearedFault i && !s.channelActive i) = true
  · rw [if_pos c1] at h; exact h
  · rw [if_neg c1] at h
    dsimp only at h
    by_cases c2 : sensErr = true
    · rw [if_pos c2] at h; exact hsd h
    · rw [if_neg c2] at h
      by_cases c3 : T ≥ (ackCleared i s).cfg.tempTripThreshold
      · rw [if_pos c3] at h; exact hsd h
      · rw [if_neg c3] at h
        by_cases c4 : (!(ackCleared i s).channelActive i) = true
        · rw [if_pos c4] at h
          simpa [digitalWrite, ackCleared_eq] using h
        · rw [if_neg c4] at h
          have := fuseStep_active_mono _ _ _ _ _ _ h
          simpa [ackCleared_eq] using this

theorem update_active_mono (now : Nat) (rawT : Int) (rawI : Ch → Int) (s : State) (j : Ch)
    (h : (update now rawT rawI s).channelActive j = true) : s.channelActive j = true := by
  have hv := congrArg ChanView.channelActive (updateTemperature_view now rawT s j)
  simp only [State.view] at hv
  rw [← hv]
  unfold update at h
  exact foldl_preserves
    (fun b : State => b.channelActive j = true →
      (updateTemperature now rawT s).channelActive j = true)
    _ (fun b a hb hba => hb (updateChannel_active_mono _ _ _ _ _ _ _ _ hba)) allCh _ id h

theorem step_activation_oc (op : Op) (s : State) (ch : Ch)
    (h0 : s.channelActive ch = false) (h1 : (step op s).channelActive ch = true) :
    (step op s).overcurrentScore ch = 0 := by
  have key : ∀ s' : State, OcRel s s' → s'.channelActive ch = true →
      s'.overcurrentScore ch = 0 := by
    intro s' hr ha
    rcases hr ch with h | ⟨-, hb⟩
    · exact h
    · rw [hb ha] at h0; exact absurd h0 (by decide)
  cases op with
  | setChannel now c v => exact key _ (setChannel_ocRel now c v s) h1
  | clearChannelFault c => exact key _ (clearChannelFault_ocRel c s) h1
  | handleButtonState now c pressed => exact key _ (handleButtonState_ocRel now c pressed s) h1
  | processExternalInputs now pinLevel =>
    exact key _ (processExternalInputs_ocRel now pinLevel s) h1
  | update now rawT rawI =>
    rw [update_active_mono now rawT rawI s ch h1] at h0
    exact absurd h0 (by decide)
  | canProcess now frame => exact key _ (canProcess_ocRel now frame s) h1
  | checkWatchdog now => exact key _ (checkWatchdog_ocRel now s) h1

/-! ## The fuse engine: claims C1 to C3 -/

/-- C2. For an active channel that reaches the fuse step of `update`, with
`w = now - on_since`: if `w < inrush_time_ms` the steady-state score `oc_score`
is unchanged (only `inrush_score` may change); if `w >= inrush_time_ms`, which
includes `w = inrush_time_ms` and every `w` when `inrush_time_ms = 0`, the
inrush score is unchanged (only `oc_score` may change). -/
theorem C2_window_selection (now : Nat) (rawT : Int) (rawI : Ch → Int) (s : State) (ch : Ch)
    (h : reachesFuse now rawT s ch) :
    (elapsedOn now s ch < s.cfg.inrushTimeLimits ch →
      (update now rawT rawI s).overcurrentScore ch = s.overcurrentScore ch) ∧
    (s.cfg.inrushTimeLimits ch ≤ elapsedOn now s ch →
      (update now rawT rawI s).inrushScore ch = s.inrushScore ch) ∧
    (s.cfg.inrushTimeLimits ch = 0 →
      (update now rawT rawI s).inrushScore ch = s.inrushScore ch) :=
  ⟨fun hw => (update_fuse_inrush now rawT rawI s ch h hw).2.1,
   fun hw => (update_fuse_steady now rawT rawI s ch h (not_lt.mpr hw)).2.1,
   fun h0 => (update_fuse_steady now rawT rawI s ch h (by rw [h0]; exact Nat.not_lt_zero _)).2.1⟩

/-- Witness of C2 at the boundary `w = inrush_time_ms = 1000`. -/
theorem C2_window_selection_witness :
    reachesFuse 1000 150 sOn 0 ∧
      (update 1000 150 rawHigh0 sOn).inrushScore 0 = sOn.inrushScore 0 :=
  ⟨by decide!, (C2_window_selection 1000 150 rawHigh0 sOn 0 (by decide!)).2.1 (by decide!)⟩

/-- C7. After every call of `update`, for every channel the switch output is
HIGH exactly when the channel is active (active implies HIGH, inactive implies
LOW), whatever the state before the call and whatever the sensor readings. -/
theorem C7_switch_follows_active (now : Nat) (rawT : Int) (rawI : Ch → Int) (s : State)
    (ch : Ch) :
    ((update now rawT rawI s).switchPin ch = true ↔
      (update now rawT rawI s).channelActive ch = true) := by
  have key : (update now rawT rawI s).switchPin ch = (update now rawT rawI s).channelActive ch := by
    unfold update
    apply foldl_updateChannel_pin
    intro j
    left
    fin_cases j <;> simp [allCh]
  rw [key]

/-- C4 (evaluation at the failing input). Channels 0 and 1 share group 1 and
are both on; in the tick at 1500 ms channel 0 draws about 6.01 A against its
3 A threshold and its steady-state fuse blows.  Channel 0 ends the call off
with `fault_oc` set, but its group peer channel 1 is still active, has no
`fault_oc` and its switch is still HIGH: the fuse path calls
`setChannel(i, false)` and never `shutdownGroup(i)`. -/
theorem C4_group_peer_not_shut_down :
    sPair.cfg.outputGroup 0 = sPair.cfg.outputGroup 1 ∧
    sPair.channelActive 0 = true ∧ sPair.channelActive 1 = true ∧
    (update 1500 150 rawHigh0 sPair).channelActive 0 = false ∧
    (update 1500 150 rawHigh0 sPair).faultOvercurrent 0 = true ∧
    (update 1500 150 rawHigh0 sPair).channelActive 1 = true ∧
    (update 1500 150 rawHigh0 sPair).faultOvercurrent 1 = false ∧
    (update 1500 150 rawHigh0 sPair).switchPin 1 = true := by
  decide!

/-- C5. In every state reachable from `init` by any sequence of `setChannel`,
`clearChannelFault`, `handleButtonState`, `processExternalInputs`, `update`,
`CANHandler::process` and `CANHandler::checkWatchdog`, a channel with
`fault_oc` or `fault_thermal` set is not active. -/
theorem C5_fault_implies_inactive (s : State) (h : Reachable s) (ch : Ch)
    (hf : s.faultOvercurrent ch = true ∨ s.faultThermal ch = true) :
    s.channelActive ch = false :=
  (reachable_coreInv s h ch).1 hf

/-- Witness of C5: the state after `init`, `setChannel(0, true)` and the tick
in which the fuse of channel 0 blows. -/
theorem C5_fault_implies_inactive_witness :
    Reachable sBlown ∧
      (sBlown.faultOvercurrent 0 = true ∨ sBlown.faultThermal 0 = true) ∧
      sBlown.channelActive 0 = false :=
  have hr : Reachable sBlown :=
    Reachable.step (Op.update 1500 150 rawHigh0) _
      (Reachable.step (Op.setChannel 0 0 true) _ (Reachable.init defaultConfig 0))
  ⟨hr, Or.inl (by decide!), C5_fault_implies_inactive sBlown hr 0 (Or.inl (by decide!))⟩

/-- C6 (evaluation at failing inputs). `fault_oc[0]` is latched by a fuse
trip.  (a) In Momentary mode a keypad PDO with button 0 pressed (a press edge,
no long press) switches channel 0 on again and clears the latched fault.
(b) With the default configuration a DIGOUT frame with a rising edge for
channel 0, arriving before any DIGOUT frame has captured the fault into
`lockDig`, does the same. -/
theorem C6_fault_cleared_without_long_press :
    (sLatched.faultOvercurrent 0 = true ∧ sLatched.channelActive 0 = false ∧
      sLatched.cfg.outputMode 0 = OutputMode.MODE_MOMENTARY ∧
      (canProcess 1600 (some framePress0) sLatched).faultOvercurrent 0 = false ∧
      (canProcess 1600 (some framePress0) sLatched).channelActive 0 = true) ∧
    (sBlown.faultOvercurrent 0 = true ∧ sBlown.channelActive 0 = false ∧
      (canProcess 1600 (some frameDig0) sBlown).faultOvercurrent 0 = false ∧
      (canProcess 1600 (some frameDig0) sBlown).channelActive 0 = true) := by
  decide!

/-- C8. In every state reachable from `init` (with positive thresholds; tick
durations are non-negative by construction, being `unsigned long` differences),
after a call of `update` both `inrush_score` and `oc_score` of every channel lie
in `[0, 1)`. -/
theorem C8_scores_in_unit_interval (s : State) (h : Reachable s)
    (_hpos : ∀ ch, 0 < s.cfg.inrushThresholds ch ∧ 0 < s.cfg.ocThresholds ch)
    (now : Nat) (rawT : Int) (rawI : Ch → Int) (ch : Ch) :
    (0 ≤ (update now rawT rawI s).inrushScore ch ∧
      (update now rawT rawI s).inrushScore ch < 1) ∧
    (0 ≤ (update now rawT rawI s).overcurrentScore ch ∧
      (update now rawT rawI s).overcurrentScore ch < 1) :=
  (update_coreInv now rawT rawI s (reachable_coreInv s h) ch).2

/-- Witness of C8: the tick at 100 ms after channel 0 was switched on. -/
theorem C8_scores_in_unit_interval_witness :
    Reachable sOn ∧
      (∀ ch, 0 < sOn.cfg.inrushThresholds ch ∧ 0 < sOn.cfg.ocThresholds ch) ∧
      (0 ≤ (update 100 150 rawHigh0 sOn).inrushScore 0 ∧
        (update 100 150 rawHigh0 sOn).inrushScore 0 < 1) ∧
      (0 ≤ (update 100 150 rawHigh0 sOn).overcurrentScore 0 ∧
        (update 100 150 rawHigh0 sOn).overcurrentScore 0 < 1) :=
  have hr : Reachable sOn :=
    Reachable.step (Op.setChannel 0 0 true) _ (Reachable.init defaultConfig 0)
  ⟨hr, by decide!, C8_scores_in_unit_interval sOn hr (by decide!) 100 150 rawHigh0 0⟩

/-! ## Score resets and the zero threshold: claims C9 and C10 -/

/-- C9 (counterexample). Switching a channel off does not reset its scores:
after `setChannel(0, false)` the inrush score of channel 0 is still
`4761/1162810` (and the steady-state score of `sHalf` is still non-zero), and
the next activation by `setChannel(0, true)` starts with that inrush score. -/
theorem C9_scores_survive_switch_off :
    sWarm.channelActive 0 = true ∧
    (setChannel 200 0 false sWarm).channelActive 0 = false ∧
    (setChannel 200 0 false sWarm).inrushScore 0 = 4761 / 1162810 ∧
    sHalf.channelActive 0 = true ∧
    (setChannel 1500 0 false sHalf).channelActive 0 = false ∧
    (setChannel 1500 0 false sHalf).overcurrentScore 0 ≠ 0 ∧
    (setChannel 300 0 true (setChannel 200 0 false sWarm)).channelActive 0 = true ∧
    (setChannel 300 0 true (setChannel 200 0 false sWarm)).inrushScore 0 = 4761 / 1162810 := by
  decide!

/-- C9 (amended). Every activation of a channel starts with `oc_score = 0`:
whenever a channel that was inactive is active after an operation, its
steady-state score is 0 after that operation.  And when a channel that reached
the fuse step of `update` ends the call inactive (a fuse blow), the score of
the integrator that was active in that tick is 0. -/
theorem C9_activation_and_blow_reset (s : State) (ch : Ch) :
    (∀ op : Op, s.channelActive ch = false → (step op s).channelActive ch = true →
      (step op s).overcurrentScore ch = 0) ∧
    (∀ (now : Nat) (rawT : Int) (rawI : Ch → Int), reachesFuse now rawT s ch →
      (update now rawT rawI s).channelActive ch = false →
      (elapsedOn now s ch < s.cfg.inrushTimeLimits ch →
        (update now rawT rawI s).inrushScore ch = 0) ∧
      (¬ elapsedOn now s ch < s.cfg.inrushTimeLimits ch →
        (update now rawT rawI s).overcurrentScore ch = 0)) := by
  refine ⟨fun op h0 h1 => step_activation_oc op s ch h0 h1, ?_⟩
  intro now rawT rawI h hoff
  constructor
  · intro hw
    obtain ⟨k1, -, -, k4, -, -⟩ := update_fuse_inrush now rawT rawI s ch h hw
    rw [k4] at hoff
    rw [k1]
    split_ifs at hoff with hb
    rw [if_pos hb.1, if_pos hb.2]
  · intro hw
    obtain ⟨k1, -, -, k4, -, -⟩ := update_fuse_steady now rawT rawI s ch h hw
    rw [k4] at hoff
    rw [k1]
    split_ifs at hoff with hb
    rw [if_pos hb.1, if_pos hb.2]

/-- Witness of C9 (amended): switching channel 0 on again after it was switched
off with a non-zero steady-state score, and the fuse blow of the tick at
1500 ms. -/
theorem C9_activation_and_blow_reset_witness :
    ((setChannel 1500 0 false sHalf).channelActive 0 = false ∧
      (step (Op.setChannel 1600 0 true) (setChannel 1500 0 false sHalf)).channelActive 0 = true ∧
      (step (Op.setChannel 1600 0 true) (setChannel 1500 0 false sHalf)).overcurrentScore 0
        = 0) ∧
    (reachesFuse 1500 150 sOn 0 ∧ (update 1500 150 rawHigh0 sOn).channelActive 0 = false ∧
      (update 1500 150 rawHigh0 sOn).overcurrentScore 0 = 0) :=
  ⟨⟨by decide!, by decide!,
    (C9_activation_and_blow_reset (setChannel 1500 0 false sHalf) 0).1
      (Op.setChannel 1600 0 true) (by decide!) (by decide!)⟩,
   ⟨by decide!, by decide!,
    ((C9_activation_and_blow_reset sOn 0).2 1500 150 rawHigh0 (by decide!) (by decide!)).2
      (by decide!)⟩⟩

/-- C10 (counterexample). With the inrush threshold `T = 0` and measured
current `i = 0`, channel 0 reaches the fuse step inside its inrush window and
is still active, with its switch HIGH, after `update`. -/
theorem C10_zero_threshold_channel_stays_on :
    reachesFuse 100 150 sZero 0 ∧
    elapsedOn 100 sZero 0 < sZero.cfg.inrushTimeLimits 0 ∧
    sZero.cfg.inrushThresholds 0 = 0 ∧
    measuredCurrent 0 = 0 ∧
    (update 100 150 (fun _ => 0) sZero).channelActive 0 = true ∧
    (update 100 150 (fun _ => 0) sZero).switchPin 0 = true := by
  decide!

/-- C10 (amended). If the threshold `T` of the integrator that is active for a
channel is 0 and the measured current is `i = 0`, the test `i > T` fails:
`update` resets the active score to 0 and leaves the channel active with its
switch output HIGH. -/
theorem C10_zero_threshold_zero_current (now : Nat) (rawT : Int) (rawI : Ch → Int) (s : State)
    (ch : Ch) (h : reachesFuse now rawT s ch) (hi : measuredCurrent (rawI ch) = 0) :
    (elapsedOn now s ch < s.cfg.inrushTimeLimits ch → s.cfg.inrushThresholds ch = 0 →
      (update now rawT rawI s).channelActive ch = true ∧
      (update now rawT rawI s).inrushScore ch = 0 ∧
      (update now rawT rawI s).switchPin ch = true) ∧
    (¬ elapsedOn now s ch < s.cfg.inrushTimeLimits ch → s.cfg.ocThresholds ch = 0 →
      (update now rawT rawI s).channelActive ch = true ∧
      (update now rawT rawI s).overcurrentScore ch = 0 ∧
      (update now rawT rawI s).switchPin ch = true) := by
  constructor
  · intro hw hT
    obtain ⟨k1, -, -, k4, -, k6⟩ := update_fuse_inrush now rawT rawI s ch h hw
    rw [k1, k4, k6, hi, hT]
    simp
  · intro hw hT
    obtain ⟨k1, -, -, k4, -, k6⟩ := update_fuse_steady now rawT rawI s ch h hw
    rw [k1, k4, k6, hi, hT]
    simp

/-- Witness of C10 (amended): zero inrush threshold, zero current, tick at 100 ms. -/
theorem C10_zero_threshold_zero_current_witness :
    reachesFuse 100 150 sZero 0 ∧ measuredCurrent 0 = 0 ∧
      (update 100 150 (fun _ => 0) sZero).channelActive 0 = true ∧
      (update 100 150 (fun _ => 0) sZero).inrushScore 0 = 0 ∧
      (update 100 150 (fun _ => 0) sZero).switchPin 0 = true :=
  ⟨by decide!, by decide!,
   (C10_zero_threshold_zero_current 100 150 (fun _ => 0) sZero 0 (by decide!) (by decide!)).1
     (by decide!) (by decide!)⟩

/-! ## Thermal shutdown in the channel loop -/

theorem fuseStep_faultThermal (now : Nat) (dt iA : ℚ) (i : Ch) (s : State) :
    (fuseStep now dt iA i s).faultThermal = s.faultThermal := by
  simp only [fuseStep, driveOn, setChannel_eq, digitalWrite, Bool.false_eq_true, if_false]
  split_ifs <;> rfl

theorem updateChannel_faultThermal (now : Nat) (dt T : ℚ) (sensErr : Bool) (rawI : Ch → Int)
    (s : State) (i : Ch) :
    (updateChannel now dt T sensErr rawI s i).faultThermal = s.faultThermal := by
  simp only [updateChannel, digitalWrite, shutdownGroup_eq, ackCleared_eq]
  split_ifs <;> simp [fuseStep_faultThermal]

theorem foldl_updateChannel_faultThermal (now : Nat) (dt T : ℚ) (sensErr : Bool)
    (rawI : Ch → Int) (l : List Ch) (s : State) :
    (l.foldl (updateChannel now dt T sensErr rawI) s).faultThermal = s.faultThermal := by
  induction l generalizing s with
  | nil => rfl
  | cons a l ih => rw [List.foldl_cons, ih, updateChannel_faultThermal]

theorem updateTemperature_faultThermal (now : Nat) (rawT : Int) (s : State) :
    (updateTemperature now rawT s).faultThermal = s.faultThermal := by
  funext ch
  have h := congrArg ChanView.faultThermal (updateTemperature_view now rawT s ch)
  simpa [State.view] using h

theorem update_faultThermal (now : Nat) (rawT : Int) (rawI : Ch → Int) (s : State) :
    (update now rawT rawI s).faultThermal = s.faultThermal := by
  unfold update
  rw [foldl_updateChannel_faultThermal, updateTemperature_faultThermal]

theorem updateChannel_thermal_off (now : Nat) (dt T : ℚ) (sensErr : Bool) (rawI : Ch → Int)
    (s : State) (i : Ch) (h : sensErr = true ∨ T ≥ s.cfg.tempTripThreshold) :
    (updateChannel now dt T sensErr rawI s i).channelActive i = false := by
  have hsd : (shutdownGroup i (ackCleared i s)).channelActive i = false := by
    simp [shutdownGroup_eq]
  unfold updateChannel
  by_cases c1 : (s.clearedFault i && !s.channelActive i) = true
  · rw [if_pos c1]
    simp only [Bool.and_eq_true, Bool.not_eq_true'] at c1
    simpa [digitalWrite] using c1.2
  · rw [if_neg c1]
    dsimp only
    by_cases c2 : sensErr = true
    · rw [if_pos c2]; exact hsd
    · rw [if_neg c2]
      have c3 : T ≥ (ackCleared i s).cfg.tempTripThreshold := by
        simpa [ackCleared_eq] using h.resolve_left c2
      rw [if_pos c3]; exact hsd

theorem foldl_updateChannel_active_mono (now : Nat) (dt T : ℚ) (sensErr : Bool)
    (rawI : Ch → Int) (l : List Ch) (s : State) (j : Ch)
    (h : (l.foldl (updateChannel now dt T sensErr rawI) s).channelActive j = true) :
    s.channelActive j = true := by
  induction l generalizing s with
  | nil => exact h
  | cons a l ih =>
    rw [List.foldl_cons] at h
    exact updateChannel_active_mono _ _ _ _ _ _ _ _ (ih _ h)

theorem foldl_updateChannel_thermal_off (now : Nat) (dt T : ℚ) (sensErr : Bool)
    (rawI : Ch → Int) (l : List Ch) (s : State) (j : Ch) (hj : j ∈ l)
    (h : sensErr = true ∨ T ≥ s.cfg.tempTripThreshold) :
    (l.foldl (updateChannel now dt T sensErr rawI) s).channelActive j = false := by
  induction l generalizing s with
  | nil => exact absurd hj (List.not_mem_nil _)
  | cons a l ih =>
    rw [List.foldl_cons]
    by_cases hja : j = a
    · subst hja
      have h1 := updateChannel_thermal_off now dt T sensErr rawI s j h
      cases hf : (l.foldl (updateChannel now dt T sensErr rawI)
          (updateChannel now dt T sensErr rawI s j)).channelActive j
      · rfl
      · rw [foldl_updateChannel_active_mono _ _ _ _ _ _ _ _ hf] at h1
        exact absurd h1 (by decide)
    · have hjl : j ∈ l := by
        rcases List.mem_cons.mp hj with h' | h'
        · exact absurd h' hja
        · exact h'
      exact ih _ hjl (by rw [updateChannel_cfg]; exact h)

theorem update_thermal_off (now : Nat) (rawT : Int) (rawI : Ch → Int) (s : State) (ch : Ch)
    (h : sensorError (updateTemperature now rawT s) = true ∨
      (updateTemperature now rawT s).filteredTemperature ≥ s.cfg.tempTripThreshold) :
    (update now rawT rawI s).channelActive ch = false ∧
      (update now rawT rawI s).switchPin ch = false := by
  have hmem : ch ∈ allCh := by fin_cases ch <;> simp [allCh]
  have hoff : (update now rawT rawI s).channelActive ch = false := by
    unfold update
    apply foldl_updateChannel_thermal_off _ _ _ _ _ _ _ _ hmem
    rw [updateTemperature_cfg]
    exact h
  have hpin : (update now rawT rawI s).switchPin ch =
      (update now rawT rawI s).channelActive ch := by
    unfold update
    apply foldl_updateChannel_pin
    intro j
    left
    fin_cases j <;> simp [allCh]
  exact ⟨hoff, hpin.trans hoff⟩

/-! ## The temperature filter stage -/

theorem temp_valid_filter (now : Nat) (rawT : Int) (s : State)
    (hinit : s.tempSensorInitialized = true) (hdt : filterDt now s > 0.1)
    (hv : rawReadingValid rawT) :
    (updateTemperature now rawT s).filteredTemperature =
      (if abs (rawTemperatureOf rawT - s.filteredTemperature) >
          maxTempChangePerSecond * filterDt now s then
        if rawTemperatureOf rawT - s.filteredTemperature > 0 then
          s.filteredTemperature + maxTempChangePerSecond * filterDt now s
        else s.filteredTemperature - maxTempChangePerSecond * filterDt now s
      else rawTemperatureOf rawT) ∧
    (updateTemperature now rawT s).badTempReadingCount = 0 ∧
    (updateTemperature now rawT s).lastSensorErr = false ∧
    (updateTemperature now rawT s).tempSensorInitialized = true ∧
    (updateTemperature now rawT s).lastTempUpdate = now := by
  unfold filterDt at hdt
  unfold rawReadingValid sensorVoltage at hv
  unfold filterDt
  simp only [updateTemperature, hinit, Bool.not_true, Bool.false_eq_true, if_false, hdt, hv,
    if_true, and_self]
  split_ifs <;> simp

theorem temp_bad_filter (now : Nat) (rawT : Int) (s : State)
    (hinit : s.tempSensorInitialized = true) (hdt : filterDt now s > 0.1)
    (hv : ¬ rawReadingValid rawT) :
    (updateTemperature now rawT s).filteredTemperature = s.filteredTemperature ∧
    (updateTemperature now rawT s).badTempReadingCount = (s.badTempReadingCount + 1) % 256 ∧
    (updateTemperature now rawT s).lastSensorErr =
      (if (s.badTempReadingCount + 1) % 256 ≥ maxBadReadings then true else s.lastSensorErr) ∧
    (updateTemperature now rawT s).tempSensorInitialized = true ∧
    (updateTemperature now rawT s).lastTempUpdate = now := by
  unfold filterDt at hdt
  unfold rawReadingValid sensorVoltage at hv
  simp only [updateTemperature, hinit, Bool.not_true, Bool.false_eq_true, if_false, hdt, hv,
    if_true]
  split_ifs <;> simp

theorem temp_skip (now : Nat) (rawT : Int) (s : State)
    (hinit : s.tempSensorInitialized = true) (hdt : ¬ filterDt now s > 0.1) :
    (updateTemperature now rawT s).filteredTemperature = s.filteredTemperature ∧
    (updateTemperature now rawT s).badTempReadingCount = s.badTempReadingCount ∧
    (updateTemperature now rawT s).lastSensorErr = s.lastSensorErr ∧
    (updateTemperature now rawT s).tempSensorInitialized = true ∧
    (updateTemperature now rawT s).lastTempUpdate = s.lastTempUpdate := by
  unfold filterDt at hdt
  simp only [updateTemperature, hinit, Bool.not_true, Bool.false_eq_true, if_false, hdt]
  simp

theorem subU32_self (n : Nat) : subU32 n n = 0 := by
  unfold subU32 U32
  omega

theorem temp_uninit_valid (now : Nat) (rawT : Int) (s : State)
    (hinit : s.tempSensorInitialized = false)
    (hr : rawTemperatureOf rawT ≥ -40 ∧ rawTemperatureOf rawT ≤ 150) :
    (updateTemperature now rawT s).filteredTemperature = rawTemperatureOf rawT ∧
    (updateTemperature now rawT s).badTempReadingCount = 0 ∧
    (updateTemperature now rawT s).lastSensorErr = s.lastSensorErr ∧
    (updateTemperature now rawT s).tempSensorInitialized = true ∧
    (updateTemperature now rawT s).lastTempUpdate = now := by
  have h0 : ¬ ((subU32 now now : ℚ) / 1000 > 0.1) := by
    rw [subU32_self]; norm_num
  simp only [updateTemperature, hinit, Bool.not_false, if_true, hr, and_self, h0, if_false]

theorem temp_uninit_bad (now : Nat) (rawT : Int) (s : State)
    (hinit : s.tempSensorInitialized = false)
    (hr : ¬ (rawTemperatureOf rawT ≥ -40 ∧ rawTemperatureOf rawT ≤ 150)) :
    (updateTemperature now rawT s).lastSensorErr = true := by
  have hv : ¬ (rawTemperatureOf rawT ≥ -40 ∧ rawTemperatureOf rawT ≤ 150 ∧
      (rawT : ℚ) / analogResolution * voltageReference > 0.05 ∧
      (rawT : ℚ) / analogResolution * voltageReference < 2.1) :=
    fun h => hr ⟨h.1, h.2.1⟩
  simp only [updateTemperature, hinit, Bool.not_false, if_true, hr, if_false, hv]
  split_ifs <;> simp

theorem fuseStep_tview (now : Nat) (dt iA : ℚ) (i : Ch) (s : State) :
    (fuseStep now dt iA i s).tview = s.tview := by
  simp only [fuseStep, driveOn, setChannel_eq, digitalWrite, Bool.false_eq_true, if_false]
  split_ifs <;> rfl

theorem updateChannel_tview (now : Nat) (dt T : ℚ) (sensErr : Bool) (rawI : Ch → Int)
    (s : State) (i : Ch) :
    (updateChannel now dt T sensErr rawI s i).tview = s.tview := by
  simp only [updateChannel, digitalWrite, shutdownGroup_eq, ackCleared_eq]
  split_ifs <;> first | rfl | (rw [fuseStep_tview]; rfl)

theorem update_tview (now : Nat) (rawT : Int) (rawI : Ch → Int) (s : State) :
    (update now rawT rawI s).tview = (updateTemperature now rawT s).tview := by
  unfold update
  exact foldl_preserves
    (fun b : State => b.tview = (updateTemperature now rawT s).tview) _
    (fun b a hb => (updateChannel_tview _ _ _ _ _ b a).trans hb) allCh _ rfl

theorem update_sensorError (now : Nat) (rawT : Int) (rawI : Ch → Int) (s : State) :
    sensorError (update now rawT rawI s) = sensorError (updateTemperature now rawT s) := by
  have h := update_tview now rawT rawI s
  have h1 := congrArg TempView.lastSensorErr h
  have h2 := congrArg TempView.badTempReadingCount h
  simp only [State.tview] at h1 h2
  unfold sensorError
  rw [h1, h2]

/-! ## Thermal supervisor: claims C11 to C14 -/

/-- C11. If at the decision point of `update` (after the temperature stage)
the sensor error is raised or the filtered temperature satisfies
`T >= temp_trip_c` (equality included), then after that call every channel has
`active = false` and its switch output LOW. -/
theorem C11_thermal_shutdown_all_off (now : Nat) (rawT : Int) (rawI : Ch → Int) (s : State)
    (h : sensorError (updateTemperature now rawT s) = true ∨
      (updateTemperature now rawT s).filteredTemperature ≥ s.cfg.tempTripThreshold)
    (ch : Ch) :
    (update now rawT rawI s).channelActive ch = false ∧
      (update now rawT rawI s).switchPin ch = false :=
  update_thermal_off now rawT rawI s ch h

/-- Witness of C11 at the boundary: the filtered temperature equals the trip
threshold exactly and the active channel 0 is shut down. -/
theorem C11_thermal_shutdown_all_off_witness :
    (updateTemperature 100 150 sTrip).filteredTemperature = sTrip.cfg.tempTripThreshold ∧
      sTrip.channelActive 0 = true ∧
      (update 100 150 rawHigh0 sTrip).channelActive 0 = false ∧
      (update 100 150 rawHigh0 sTrip).switchPin 0 = false :=
  ⟨by decide!, by decide!,
   C11_thermal_shutdown_all_off 100 150 rawHigh0 sTrip (Or.inr (by decide!)) 0⟩

/-- C12 (evaluation at failing inputs). Channel 0 is active.  (a) A tick whose
filtered temperature (86.85 C) is above the 85 C trip threshold and (b) a tick
with the sensor error raised both shut channel 0 down, but it ends the tick
with `fault_thermal = false` and `fault_oc = true`: `shutdownGroup` sets
`faultOvercurrent`.  (c) No call of `update` changes `fault_thermal` of any
channel. -/
theorem C12_thermal_flag_never_set :
    (sOn.channelActive 0 = true ∧
      (updateTemperature 100 280 sOn).filteredTemperature ≥ sOn.cfg.tempTripThreshold ∧
      (update 100 280 rawHigh0 sOn).channelActive 0 = false ∧
      (update 100 280 rawHigh0 sOn).faultThermal 0 = false ∧
      (update 100 280 rawHigh0 sOn).faultOvercurrent 0 = true) ∧
    (sensorError (updateTemperature 100 0 sOn) = true ∧
      (update 100 0 rawHigh0 sOn).channelActive 0 = false ∧
      (update 100 0 rawHigh0 sOn).faultThermal 0 = false ∧
      (update 100 0 rawHigh0 sOn).faultOvercurrent 0 = true) ∧
    (∀ (now : Nat) (rawT : Int) (rawI : Ch → Int) (s : State) (ch : Ch),
      (update now rawT rawI s).faultThermal ch = s.faultThermal ch) :=
  ⟨by decide!, by decide!, fun now rawT rawI s ch => by rw [update_faultThermal]⟩

/-- C13. Slew limit.  For a filter update of `update` (initialised sensor, more
than 100 ms since the last filter update) with a valid raw reading `T_raw`,
previous filtered value `T_old` and elapsed time `dT` seconds: the new filtered
value is `T_raw` when `|T_raw - T_old| <= 10*dT`, and otherwise `T_old + 10*dT`
or `T_old - 10*dT` in the direction of `T_raw`; hence `|T_new - T_old| <= 10*dT`
and `T_new` lies between `T_old` and `T_raw`. -/
theorem C13_slew_limit (now : Nat) (rawT : Int) (rawI : Ch → Int) (s : State)
    (hinit : s.tempSensorInitialized = true) (hdt : filterDt now s > 0.1)
    (hv : rawReadingValid rawT) :
    (abs (rawTemperatureOf rawT - s.filteredTemperature) ≤ 10 * filterDt now s →
      (update now rawT rawI s).filteredTemperature = rawTemperatureOf rawT) ∧
    (abs (rawTemperatureOf rawT - s.filteredTemperature) > 10 * filterDt now s →
      rawTemperatureOf rawT > s.filteredTemperature →
      (update now rawT rawI s).filteredTemperature =
        s.filteredTemperature + 10 * filterDt now s) ∧
    (abs (rawTemperatureOf rawT - s.filteredTemperature) > 10 * filterDt now s →
      rawTemperatureOf rawT < s.filteredTemperature →
      (update now rawT rawI s).filteredTemperature =
        s.filteredTemperature - 10 * filterDt now s) ∧
    abs ((update now rawT rawI s).filteredTemperature - s.filteredTemperature) ≤
      10 * filterDt now s ∧
    min s.filteredTemperature (rawTemperatureOf rawT) ≤
      (update now rawT rawI s).filteredTemperature ∧
    (update now rawT rawI s).filteredTemperature ≤
      max s.filteredTemperature (rawTemperatureOf rawT) := by
  have hu := congrArg TempView.filteredTemperature (update_tview now rawT rawI s)
  simp only [State.tview] at hu
  have hk := (temp_valid_filter now rawT s hinit hdt hv).1
  have hm : maxTempChangePerSecond = 10 := rfl
  rw [hm] at hk
  rw [hu, hk]
  have hpos : (0 : ℚ) < 10 * filterDt now s := by
    have : (0.1 : ℚ) < filterDt now s := hdt
    norm_num at this
    linarith
  generalize rawTemperatureOf rawT = r at *
  generalize s.filteredTemperature = o at *
  generalize 10 * filterDt now s = m at *
  rcases abs_cases (r - o) with ⟨ha, hs⟩ | ⟨ha, hs⟩
  · by_cases hgt : |r - o| > m
    · have hd : r - o > 0 := by rw [ha] at hgt; linarith
      rw [if_pos hgt, if_pos hd]
      refine ⟨fun h => absurd hgt (not_lt.mpr h), fun _ _ => rfl, fun _ h => ?_, ?_, ?_, ?_⟩
      · linarith
      · rw [show o + m - o = m by ring, abs_of_pos hpos]
      · exact min_le_of_left_le (by linarith)
      · rw [ha] at hgt; exact le_max_of_le_right (by linarith)
    · rw [if_neg hgt]
      have hle : |r - o| ≤ m := not_lt.mp hgt
      refine ⟨fun _ => rfl, fun h => absurd h hgt, fun h => absurd h hgt, hle, ?_, ?_⟩
      · exact min_le_right _ _
      · exact le_max_right _ _
  · by_cases hgt : |r - o| > m
    · have hd : ¬ (r - o > 0) := by linarith
      rw [if_pos hgt, if_neg hd]
      refine ⟨fun h => absurd hgt (not_lt.mpr h), fun _ h => ?_, fun _ _ => rfl, ?_, ?_, ?_⟩
      · linarith
      · rw [show o - m - o = -m by ring, abs_neg, abs_of_pos hpos]
      · rw [ha] at hgt; exact min_le_of_right_le (by linarith)
      · exact le_max_of_le_left (by linarith)
    · rw [if_neg hgt]
      have hle : |r - o| ≤ m := not_lt.mp hgt
      refine ⟨fun _ => rfl, fun h => absurd h hgt, fun h => absurd h hgt, hle, ?_, ?_⟩
      · exact min_le_right _ _
      · exact le_max_right _ _

/-- Witness of C13: filtered 23.3 C, raw reading 86.85 C, 0.2 s since the last
filter update: the filtered value rises by exactly 2 C. -/
theorem C13_slew_limit_witness :
    sWarm.tempSensorInitialized = true ∧ filterDt 300 sWarm > 0.1 ∧ rawReadingValid 280 ∧
      (update 300 280 rawHigh0 sWarm).filteredTemperature = sWarm.filteredTemperature + 10 * filterDt 300 sWarm :=
  ⟨by decide!, by decide!, by decide!,
   (C13_slew_limit 300 280 rawHigh0 sWarm (by decide!) (by decide!) (by decide!)).2.1
     (by decide!) (by decide!)⟩

/-- C14 (counterexample). (a) The very first reading after boot is out of range
(ADC 0): the sensor error is raised in that tick and the active channel 0 is
shut down, after a single bad reading.  (b) With the sensor error raised, a
tick with a valid reading that comes less than 100 ms after the last filter
update leaves the error raised. -/
theorem C14_first_bad_reading_raises_error :
    (¬ rawReadingValid 0 ∧ sOn.tempSensorInitialized = false ∧
      sensorError (update 100 0 rawHigh0 sOn) = true ∧
      (update 100 0 rawHigh0 sOn).channelActive 0 = false) ∧
    (rawReadingValid 150 ∧ sensorError (update 1050 150 rawHigh0 sSensorErr) = true) := by
  decide!

/-- C14 (amended). For an initialised sensor: a filter update (more than 100 ms
after the previous one) with a valid reading leaves the sensor error clear; and
from a state with no error pending (`lastSensorErr = false`, bad count below 3)
the sensor error is raised by a tick if and only if that tick is a filter
update with an out-of-range reading and the bad count was already 2, the count
being reset to 0 by a valid filter reading, incremented by a bad one and left
alone by a tick without filter update.  Before the sensor is initialised an
out-of-range reading raises the error at once. -/
theorem C14_sensor_error_hysteresis (now : Nat) (rawT : Int) (rawI : Ch → Int) (s : State) :
    (s.tempSensorInitialized = true → filterDt now s > 0.1 → rawReadingValid rawT →
      sensorError (update now rawT rawI s) = false) ∧
    (s.tempSensorInitialized = true → s.lastSensorErr = false → s.badTempReadingCount < 3 →
      (sensorError (update now rawT rawI s) = true ↔
        (filterDt now s > 0.1 ∧ ¬ rawReadingValid rawT ∧ s.badTempReadingCount = 2)) ∧
      (update now rawT rawI s).badTempReadingCount =
        (if filterDt now s > 0.1 then
          (if rawReadingValid rawT then 0 else s.badTempReadingCount + 1)
        else s.badTempReadingCount) ∧
      (update now rawT rawI s).tempSensorInitialized = true) ∧
    (s.tempSensorInitialized = false →
      ¬ (rawTemperatureOf rawT ≥ -40 ∧ rawTemperatureOf rawT ≤ 150) →
      sensorError (update now rawT rawI s) = true) := by
  have hu := update_tview now rawT rawI s
  have hB := congrArg TempView.badTempReadingCount hu
  have hI := congrArg TempView.tempSensorInitialized hu
  simp only [State.tview] at hB hI
  rw [update_sensorError, hB, hI]
  refine ⟨?_, ?_, ?_⟩
  · intro hinit hdt hv
    obtain ⟨-, k2, k3, -, -⟩ := temp_valid_filter now rawT s hinit hdt hv
    simp [sensorError, k2, k3, maxBadReadings]
  · intro hinit hE hB3
    by_cases hdt : filterDt now s > 0.1
    · by_cases hv : rawReadingValid rawT
      · obtain ⟨-, k2, k3, k4, -⟩ := temp_valid_filter now rawT s hinit hdt hv
        simp [sensorError, k2, k3, k4, maxBadReadings, hdt, hv]
      · obtain ⟨-, k2, k3, k4, -⟩ := temp_bad_filter now rawT s hinit hdt hv
        have hmod : (s.badTempReadingCount + 1) % 256 = s.badTempReadingCount + 1 := by omega
        rw [hmod] at k2 k3
        simp only [sensorError, k2, k3, k4, maxBadReadings, hdt, hv, hE, if_true, if_false,
          not_false_eq_true, true_and, and_true]
        by_cases h2 : s.badTempReadingCount = 2
        · simp [h2]
        · have : ¬ (s.badTempReadingCount + 1 ≥ 3) := by omega
          simp [h2, this]
    · obtain ⟨-, k2, k3, k4, -⟩ := temp_skip now rawT s hinit hdt
      have : ¬ (s.badTempReadingCount ≥ 3) := by omega
      simp [sensorError, k2, k3, k4, maxBadReadings, hdt, hE, this]
  · intro hinit hr
    simp [sensorError, temp_uninit_bad now rawT s hinit hr]

/-- Witness of C14 (amended): a first bad filter reading after a good one does
not raise the error; a valid filter reading clears a raised error. -/
theorem C14_sensor_error_hysteresis_witness :
    (sWarm.tempSensorInitialized = true ∧ sWarm.lastSensorErr = false ∧
      sWarm.badTempReadingCount < 3 ∧
      (sensorError (update 400 0 rawHigh0 sWarm) = true ↔
        (filterDt 400 sWarm > 0.1 ∧ ¬ rawReadingValid 0 ∧ sWarm.badTempReadingCount = 2))) ∧
    (filterDt 1400 sSensorErr > 0.1 ∧ rawReadingValid 150 ∧
      sensorError sSensorErr = true ∧
      sensorError (update 1400 150 rawHigh0 sSensorErr) = false) :=
  ⟨⟨by decide!, by decide!, by decide!,
    ((C14_sensor_error_hysteresis 400 0 rawHigh0 sWarm).2.1
      (by decide!) (by decide!) (by decide!)).1⟩,
   ⟨by decide!, by decide!, by decide!,
    (C14_sensor_error_hysteresis 1400 150 rawHigh0 sSensorErr).1
      (by decide!) (by decide!) (by decide!)⟩⟩

/-! ## The DIGITAL-OUT service, channel by channel -/

theorem foldl_local_notin {V : Type} (view : State → Ch → V) (f : State → Ch → State)
    (hne : ∀ s i j, j ≠ i → view (f s i) j = view s j) (ch : Ch)
    (l : List Ch) (hl : ch ∉ l) (s : State) : view (l.foldl f s) ch = view s ch := by
  induction l generalizing s with
  | nil => rfl
  | cons a l ih =>
    have hne' : ch ≠ a := fun h => hl (h ▸ List.mem_cons_self _ _)
    have hnl : ch ∉ l := fun h => hl (List.mem_cons_of_mem _ h)
    rw [List.foldl_cons, ih hnl, hne _ _ _ hne']

theorem allCh_split (ch : Ch) :
    ∃ pre post : List Ch, ch ∉ pre ∧ ch ∉ post ∧ allCh = pre ++ ch :: post := by
  fin_cases ch
  · exact ⟨[], [1, 2, 3], by decide, by decide, rfl⟩
  · exact ⟨[0], [2, 3], by decide, by decide, rfl⟩
  · exact ⟨[0, 1], [3], by decide, by decide, rfl⟩
  · exact ⟨[0, 1, 2], [], by decide, by decide, rfl⟩

/-- A loop over the four channels whose body only touches the variables of its
own channel treats every channel independently. -/
theorem foldl_local {V : Type} (view : State → Ch → V) (f : State → Ch → State)
    (hne : ∀ s i j, j ≠ i → view (f s i) j = view s j)
    (hcongr : ∀ s s' i, view s i = view s' i → view (f s i) i = view (f s' i) i)
    (s : State) (ch : Ch) : view (allCh.foldl f s) ch = view (f s ch) ch := by
  obtain ⟨pre, post, hpre, hpost, hall⟩ := allCh_split ch
  rw [hall, List.foldl_append, List.foldl_cons, foldl_local_notin view f hne ch post hpost]
  exact hcongr _ _ _ (foldl_local_notin view f hne ch pre hpre s)

/-- A property that the loop body of channel `ch` establishes (depending only on
the variables of `ch`) and that every loop body preserves holds after the loop. -/
theorem foldl_local_establish {V : Type} (view : State → Ch → V) (f : State → Ch → State)
    (hne : ∀ s i j, j ≠ i → view (f s i) j = view s j)
    (P : State → Prop) (hP : ∀ s i, P s → P (f s i))
    (Q : Ch → V → Prop) (hQ : ∀ s i, Q i (view s i) → P (f s i))
    (s : State) (ch : Ch) (hq : Q ch (view s ch)) : P (allCh.foldl f s) := by
  obtain ⟨pre, post, hpre, -, hall⟩ := allCh_split ch
  rw [hall, List.foldl_append, List.foldl_cons]
  apply foldl_preserves P f hP
  apply hQ
  rw [foldl_local_notin view f hne ch pre hpre s]
  exact hq

theorem digOutChannel_dview_ne (now : Nat) (buf : Fin 8 → Nat) (s : State) (i j : Ch)
    (h : j ≠ i) : (digOutChannel now buf s i).dview j = s.dview j := by
  simp only [digOutChannel, digOutEdge, digOutRising, digOutFalling, setChannel_eq,
    clearChannelFault, Bool.false_eq_true, if_false, if_true]
  split_ifs <;> simp [State.dview, State.view, Function.update_apply, h]

theorem digOutChannel_dview_congr (now : Nat) (buf : Fin 8 → Nat) (s s' : State) (i : Ch)
    (h : s.dview i = s'.dview i) :
    (digOutChannel now buf s i).dview i = (digOutChannel now buf s' i).dview i := by
  simp only [State.dview, State.view, DigView.mk.injEq, ChanView.mk.injEq] at h
  obtain ⟨⟨h1, h2, h3, h4, h5, h6, h7, h8, h9, h10, h11⟩, h12, h13⟩ := h
  simp only [digOutChannel, digOutEdge, digOutRising, digOutFalling, setChannel_eq,
    clearChannelFault, Bool.false_eq_true, if_false, if_true, h12, h13]
  split_ifs <;> simp [State.dview, State.view, *]

theorem digOutLoop_dview (now : Nat) (buf : Fin 8 → Nat) (s : State) (ch : Ch) :
    (allCh.foldl (digOutChannel now buf) s).dview ch = (digOutChannel now buf s ch).dview ch :=
  foldl_local State.dview (digOutChannel now buf)
    (fun s i j h => digOutChannel_dview_ne now buf s i j h)
    (fun s s' i h => digOutChannel_dview_congr now buf s s' i h) s ch


theorem digOutLock_eq (s : State) :
    digOutLock s =
      { s with lockDig := fun j => if s.faultOvercurrent j = true then true else s.lockDig j } := by
  cases s
  simp only [digOutLock, allCh, List.foldl]
  split_ifs <;> (congr 1; funext j; fin_cases j <;> simp_all [Function.update_apply])

theorem digOutAllOff_eq (now : Nat) (s : State) :
    digOutAllOff now s =
      { s with
        channelActive := fun _ => false
        switchPin := fun _ => false
        lastDig := fun _ => false } := by
  cases s
  simp only [digOutAllOff, allCh, List.foldl, setChannel_eq, Bool.false_eq_true, if_false]
  congr 1 <;> funext j <;> fin_cases j <;> simp [Function.update_apply]

theorem allOff_eq (now : Nat) (s : State) :
    allOff now s =
      { s with
        channelActive := fun _ => false
        switchPin := fun _ => false } := by
  cases s
  simp only [allOff, allCh, List.foldl, setChannel_eq, Bool.false_eq_true, if_false]
  congr 1 <;> funext j <;> fin_cases j <;> simp [Function.update_apply]

theorem digOutTimeout_fired (now : Nat) (s : State) (h : digOutExpired now s) :
    digOutTimeout now s =
      { s with
        channelActive := fun _ => false
        switchPin := fun _ => false
        lastDig := fun _ => false
        digOutWatchdogTriggered := true
        lastDigOutTime := now } := by
  unfold digOutExpired at h
  simp only [digOutTimeout, h.1, h.2, decide_True, Bool.and_self, if_true, digOutAllOff_eq]

theorem digOutTimeout_idle (now : Nat) (s : State) (h : ¬ digOutExpired now s) :
    digOutTimeout now s = s := by
  unfold digOutExpired at h
  unfold digOutTimeout
  rw [if_neg]
  simpa [Bool.and_eq_true] using h

theorem digOutTimeout_cfg (now : Nat) (s : State) : (digOutTimeout now s).cfg = s.cfg := by
  by_cases h : digOutExpired now s
  · rw [digOutTimeout_fired now s h]
  · rw [digOutTimeout_idle now s h]

theorem digOutTimeout_lockDig (now : Nat) (s : State) :
    (digOutTimeout now s).lockDig = s.lockDig := by
  by_cases h : digOutExpired now s
  · rw [digOutTimeout_fired now s h]
  · rw [digOutTimeout_idle now s h]

theorem digOutTimeout_active_mono (now : Nat) (s : State) (ch : Ch)
    (h : (digOutTimeout now s).channelActive ch = true) : s.channelActive ch = true := by
  by_cases he : digOutExpired now s
  · rw [digOutTimeout_fired now s he] at h
    exact absurd h (by simp)
  · rw [digOutTimeout_idle now s he] at h
    exact h


theorem digOutChannel_rising (now : Nat) (buf : Fin 8 → Nat) (s : State) (i : Ch)
    (h : risingEdge buf s i) :
    (digOutChannel now buf s i).channelActive i = true ∧
    (digOutChannel now buf s i).faultOvercurrent i = false ∧
    (digOutChannel now buf s i).lockDig i = false ∧
    (digOutChannel now buf s i).switchPin i = true ∧
    (digOutChannel now buf s i).lastInputMode = InputMode.INPUT_MODE_CAN_DIGOUT := by
  obtain ⟨h1, h2, h3⟩ := h
  simp [digOutChannel, digOutEdge, digOutRising, setChannel_eq, h1, h2, h3]

theorem digOutChannel_falling (now : Nat) (buf : Fin 8 → Nat) (s : State) (i : Ch)
    (h : fallingEdge buf s i) :
    (digOutChannel now buf s i).channelActive i = false ∧
    (digOutChannel now buf s i).faultOvercurrent i = false ∧
    (digOutChannel now buf s i).lockDig i = false ∧
    (digOutChannel now buf s i).switchPin i = false ∧
    (digOutChannel now buf s i).lastInputMode = InputMode.INPUT_MODE_CAN_DIGOUT := by
  obtain ⟨h1, h2⟩ := h
  simp [digOutChannel, digOutEdge, digOutFalling, setChannel_eq, clearChannelFault, h1, h2]

theorem digOutChannel_noEdge (now : Nat) (buf : Fin 8 → Nat) (s : State) (i : Ch)
    (hr : ¬ risingEdge buf s i) (hf : ¬ fallingEdge buf s i) :
    (digOutChannel now buf s i).view i = s.view i ∧
    (digOutChannel now buf s i).lockDig i = s.lockDig i := by
  have c1 : ¬ ((newDig buf i && !s.lastDig i && !s.lockDig i) = true) := by
    intro h
    simp only [Bool.and_eq_true, Bool.not_eq_true'] at h
    exact hr ⟨h.1.1, h.1.2, h.2⟩
  have c2 : ¬ ((!newDig buf i && s.lastDig i) = true) := by
    intro h
    simp only [Bool.and_eq_true, Bool.not_eq_true'] at h
    exact hf ⟨h.1, h.2⟩
  unfold digOutChannel digOutEdge
  rw [if_neg c1, if_neg c2]
  exact ⟨rfl, rfl⟩

theorem digOutChannel_lastDig (now : Nat) (buf : Fin 8 → Nat) (s : State) (i : Ch) :
    (digOutChannel now buf s i).lastDig i = newDig buf i := by
  simp [digOutChannel]

theorem digOutChannel_mode_keep (now : Nat) (buf : Fin 8 → Nat) (s : State) (i : Ch)
    (h : s.lastInputMode = InputMode.INPUT_MODE_CAN_DIGOUT) :
    (digOutChannel now buf s i).lastInputMode = InputMode.INPUT_MODE_CAN_DIGOUT := by
  simp only [digOutChannel, digOutEdge, digOutRising, digOutFalling]
  split_ifs <;> first | rfl | exact h

theorem digOutChannel_cfg (now : Nat) (buf : Fin 8 → Nat) (s : State) (i : Ch) :
    (digOutChannel now buf s i).cfg = s.cfg := by
  simp only [digOutChannel, digOutEdge, digOutRising, digOutFalling, setChannel_eq,
    clearChannelFault]
  split_ifs <;> rfl

theorem digOutService_cfg (now : Nat) (buf : Fin 8 → Nat) (s : State) :
    (digOutService now buf s).cfg = s.cfg := by
  have h : (allCh.foldl (digOutChannel now buf) s).cfg = s.cfg :=
    foldl_preserves (fun b : State => b.cfg = s.cfg) _
      (fun b a hb => (digOutChannel_cfg now buf b a).trans hb) allCh s rfl
  simp only [digOutService, digOutLock_eq]
  exact h

theorem digOutService_globals (now : Nat) (buf : Fin 8 → Nat) (s : State) :
    (digOutService now buf s).lastDigOutTime = now ∧
    (digOutService now buf s).digOutWatchdogTriggered = false ∧
    (digOutService now buf s).lastInputMode =
      (allCh.foldl (digOutChannel now buf) s).lastInputMode := by
  unfold digOutService
  rw [digOutLock_eq]
  exact ⟨rfl, rfl, rfl⟩

/-- Effect of the DIGITAL-OUT service on the variables of one channel: the edge
body of that channel alone, followed by the lock capture. -/
theorem digOutService_channel (now : Nat) (buf : Fin 8 → Nat) (s : State) (ch : Ch) :
    (digOutService now buf s).view ch = (digOutChannel now buf s ch).view ch ∧
    (digOutService now buf s).lastDig ch = newDig buf ch ∧
    (digOutService now buf s).lockDig ch =
      (if (digOutChannel now buf s ch).faultOvercurrent ch = true then true
        else (digOutChannel now buf s ch).lockDig ch) := by
  have hd := digOutLoop_dview now buf s ch
  simp only [State.dview, DigView.mk.injEq] at hd
  obtain ⟨hv, hl, hk⟩ := hd
  have hf := congrArg ChanView.faultOvercurrent hv
  simp only [State.view] at hf
  simp only [digOutService, digOutLock_eq]
  refine ⟨?_, ?_, ?_⟩
  · exact hv
  · exact hl.trans (digOutChannel_lastDig now buf s ch)
  · show (if (allCh.foldl (digOutChannel now buf) s).faultOvercurrent ch = true then true
        else (allCh.foldl (digOutChannel now buf) s).lockDig ch) = _
    rw [hf, hk]

theorem digOutService_mode (now : Nat) (buf : Fin 8 → Nat) (s : State) (ch : Ch)
    (h : risingEdge buf s ch ∨ fallingEdge buf s ch) :
    (digOutService now buf s).lastInputMode = InputMode.INPUT_MODE_CAN_DIGOUT := by
  rw [(digOutService_globals now buf s).2.2]
  refine foldl_local_establish State.dview (digOutChannel now buf)
    (fun s i j h => digOutChannel_dview_ne now buf s i j h)
    (fun b : State => b.lastInputMode = InputMode.INPUT_MODE_CAN_DIGOUT)
    (fun b i hb => digOutChannel_mode_keep now buf b i hb)
    (fun i v => (newDig buf i = true ∧ v.lastDig = false ∧ v.lockDig = false) ∨
      (newDig buf i = false ∧ v.lastDig = true))
    ?_ s ch h
  intro b i hq
  rcases hq with hq | hq
  · exact (digOutChannel_rising now buf b i hq).2.2.2.2
  · exact (digOutChannel_falling now buf b i hq).2.2.2.2

theorem canProcess_digOut (now : Nat) (rxMsg : CanMsg) (s : State)
    (hid : rxMsg.id = s.cfg.digitalOutCobId) (hlen : rxMsg.data_length ≥ 8) :
    canProcess now (some rxMsg) s = digOutService now rxMsg.data (digOutTimeout now s) := by
  have hc : rxMsg.id = (digOutTimeout now s).cfg.digitalOutCobId ∧ rxMsg.data_length ≥ 8 := by
    rw [digOutTimeout_cfg]; exact ⟨hid, hlen⟩
  simp only [canProcess, canFrame]
  rw [if_pos hc]


theorem view_fields {a b : State} {ch : Ch} (h : a.view ch = b.view ch) :
    a.channelActive ch = b.channelActive ch ∧ a.faultOvercurrent ch = b.faultOvercurrent ch :=
  ⟨congrArg ChanView.channelActive h, congrArg ChanView.faultOvercurrent h⟩

theorem canProcess_digOut_rising (now : Nat) (rxMsg : CanMsg) (s : State) (ch : Ch)
    (hid : rxMsg.id = s.cfg.digitalOutCobId) (hlen : rxMsg.data_length ≥ 8)
    (h : risingEdge rxMsg.data (digOutTimeout now s) ch) :
    (canProcess now (some rxMsg) s).channelActive ch = true ∧
    (canProcess now (some rxMsg) s).faultOvercurrent ch = false ∧
    (canProcess now (some rxMsg) s).lockDig ch = false ∧
    (canProcess now (some rxMsg) s).lastDig ch = true ∧
    (canProcess now (some rxMsg) s).lastInputMode = InputMode.INPUT_MODE_CAN_DIGOUT := by
  rw [canProcess_digOut now rxMsg s hid hlen]
  obtain ⟨hv, hl, hk⟩ := digOutService_channel now rxMsg.data (digOutTimeout now s) ch
  obtain ⟨e1, e2, e3, -, -⟩ := digOutChannel_rising now rxMsg.data (digOutTimeout now s) ch h
  obtain ⟨va, vf⟩ := view_fields hv
  refine ⟨va.trans e1, vf.trans e2, ?_, hl.trans h.1, digOutService_mode now _ _ ch (Or.inl h)⟩
  rw [hk, e2, e3]
  rfl

theorem canProcess_digOut_falling (now : Nat) (rxMsg : CanMsg) (s : State) (ch : Ch)
    (hid : rxMsg.id = s.cfg.digitalOutCobId) (hlen : rxMsg.data_length ≥ 8)
    (h : fallingEdge rxMsg.data (digOutTimeout now s) ch) :
    (canProcess now (some rxMsg) s).channelActive ch = false ∧
    (canProcess now (some rxMsg) s).faultOvercurrent ch = false ∧
    (canProcess now (some rxMsg) s).lockDig ch = false ∧
    (canProcess now (some rxMsg) s).lastDig ch = false ∧
    (canProcess now (some rxMsg) s).lastInputMode = InputMode.INPUT_MODE_CAN_DIGOUT := by
  rw [canProcess_digOut now rxMsg s hid hlen]
  obtain ⟨hv, hl, hk⟩ := digOutService_channel now rxMsg.data (digOutTimeout now s) ch
  obtain ⟨e1, e2, e3, -, -⟩ := digOutChannel_falling now rxMsg.data (digOutTimeout now s) ch h
  obtain ⟨va, vf⟩ := view_fields hv
  refine ⟨va.trans e1, vf.trans e2, ?_, hl.trans h.1, digOutService_mode now _ _ ch (Or.inr h)⟩
  rw [hk, e2, e3]
  rfl

theorem canProcess_digOut_noEdge (now : Nat) (rxMsg : CanMsg) (s : State) (ch : Ch)
    (hid : rxMsg.id = s.cfg.digitalOutCobId) (hlen : rxMsg.data_length ≥ 8)
    (hr : ¬ risingEdge rxMsg.data (digOutTimeout now s) ch)
    (hf : ¬ fallingEdge rxMsg.data (digOutTimeout now s) ch) :
    (canProcess now (some rxMsg) s).view ch = (digOutTimeout now s).view ch ∧
    (canProcess now (some rxMsg) s).lastDig ch = newDig rxMsg.data ch ∧
    (canProcess now (some rxMsg) s).lockDig ch =
      (if (digOutTimeout now s).faultOvercurrent ch = true then true else s.lockDig ch) := by
  rw [canProcess_digOut now rxMsg s hid hlen]
  obtain ⟨hv, hl, hk⟩ := digOutService_channel now rxMsg.data (digOutTimeout now s) ch
  obtain ⟨e1, e2⟩ := digOutChannel_noEdge now rxMsg.data (digOutTimeout now s) ch hr hf
  refine ⟨hv.trans e1, hl, ?_⟩
  rw [hk, (view_fields e1).2, e2, digOutTimeout_lockDig]

theorem canProcess_digOut_cfg (now : Nat) (rxMsg : CanMsg) (s : State)
    (hid : rxMsg.id = s.cfg.digitalOutCobId) (hlen : rxMsg.data_length ≥ 8) :
    (canProcess now (some rxMsg) s).cfg = s.cfg := by
  rw [canProcess_digOut now rxMsg s hid hlen, digOutService_cfg, digOutTimeout_cfg]

theorem canProcess_digOut_globals (now : Nat) (rxMsg : CanMsg) (s : State)
    (hid : rxMsg.id = s.cfg.digitalOutCobId) (hlen : rxMsg.data_length ≥ 8) :
    (canProcess now (some rxMsg) s).lastDigOutTime = now ∧
    (canProcess now (some rxMsg) s).digOutWatchdogTriggered = false := by
  rw [canProcess_digOut now rxMsg s hid hlen]
  exact ⟨(digOutService_globals now _ _).1, (digOutService_globals now _ _).2.1⟩

/-! ## The DIGITAL-OUT service: claims C15 to C19 -/

/-- C15. DIGOUT rising edge: `CANHandler::process` handles a frame with
id = `digitalOutCobId` and length at least 8 whose bit for channel `ch` (bit 0
of byte `2*ch`) is 1.  If the last-seen bit of `ch` is 0 when the frame is
handled and `lockDig[ch]` is false, then `ch` is active afterwards and
`lastInputMode` is `INPUT_MODE_CAN_DIGOUT`.  If `lockDig[ch]` is true, the frame
leaves `channelActive[ch]` as it was when the frame was handled, so a channel
that was inactive stays inactive. -/
theorem C15_digout_rising_edge (now : Nat) (rxMsg : CanMsg) (s : State) (ch : Ch)
    (hid : rxMsg.id = s.cfg.digitalOutCobId) (hlen : rxMsg.data_length ≥ 8)
    (hbit : newDig rxMsg.data ch = true) :
    ((digOutTimeout now s).lastDig ch = false → s.lockDig ch = false →
      (canProcess now (some rxMsg) s).channelActive ch = true ∧
      (canProcess now (some rxMsg) s).lastInputMode = InputMode.INPUT_MODE_CAN_DIGOUT) ∧
    (s.lockDig ch = true →
      (canProcess now (some rxMsg) s).channelActive ch = (digOutTimeout now s).channelActive ch ∧
      (s.channelActive ch = false → (canProcess now (some rxMsg) s).channelActive ch = false)) := by
  constructor
  · intro hlast hlock
    have h : risingEdge rxMsg.data (digOutTimeout now s) ch :=
      ⟨hbit, hlast, by rw [digOutTimeout_lockDig]; exact hlock⟩
    have r := canProcess_digOut_rising now rxMsg s ch hid hlen h
    exact ⟨r.1, r.2.2.2.2⟩
  · intro hlock
    have hr : ¬ risingEdge rxMsg.data (digOutTimeout now s) ch := by
      intro h
      have h3 := h.2.2
      rw [digOutTimeout_lockDig, hlock] at h3
      exact Bool.noConfusion h3
    have hf : ¬ fallingEdge rxMsg.data (digOutTimeout now s) ch := by
      intro h
      have h1 := h.1
      rw [hbit] at h1
      exact Bool.noConfusion h1
    have r := (view_fields (canProcess_digOut_noEdge now rxMsg s ch hid hlen hr hf).1).1
    refine ⟨r, fun hoff => ?_⟩
    rw [r]
    cases hq : (digOutTimeout now s).channelActive ch
    · rfl
    · rw [digOutTimeout_active_mono now s ch hq] at hoff
      exact Bool.noConfusion hoff

/-- Witness of C15: the first DIGOUT frame after `init` with bit 0 set switches
channel 0 on; the same frame at 1700 ms, when channel 0 is locked after a fuse
trip, leaves it off. -/
theorem C15_digout_rising_edge_witness :
    (((canProcess 0 (some frameDig0) (init defaultConfig 0 bootState)).channelActive 0 = true ∧
      (canProcess 0 (some frameDig0) (init defaultConfig 0 bootState)).lastInputMode =
        InputMode.INPUT_MODE_CAN_DIGOUT) ∧
     sDigLocked.lockDig 0 = true ∧ sDigLocked.channelActive 0 = false ∧
     ((canProcess 1700 (some frameDig0) sDigLocked).channelActive 0 =
        (digOutTimeout 1700 sDigLocked).channelActive 0 ∧
      (sDigLocked.channelActive 0 = false →
        (canProcess 1700 (some frameDig0) sDigLocked).channelActive 0 = false))) :=
  ⟨(C15_digout_rising_edge 0 frameDig0 (init defaultConfig 0 bootState) 0
      (by decide!) (by decide!) (by decide!)).1 (by decide!) (by decide!),
   by decide!, by decide!,
   (C15_digout_rising_edge 1700 frameDig0 sDigLocked 0
      (by decide!) (by decide!) (by decide!)).2 (by decide!)⟩

theorem not_expired_of_le (now : Nat) (s : State) (h : subU32 now s.lastDigOutTime ≤ 2000) :
    ¬ digOutExpired now s := fun he => absurd he.2 (Nat.not_lt.mpr h)

/-- A channel with a latched fault and last-seen bit 1 under a frame with bit 1
that arrives before the time-out: nothing changes but the lock, which is set. -/
theorem canProcess_digOut_hold (now : Nat) (rxMsg : CanMsg) (s : State) (ch : Ch)
    (hid : rxMsg.id = s.cfg.digitalOutCobId) (hlen : rxMsg.data_length ≥ 8)
    (hbit : newDig rxMsg.data ch = true) (ht : subU32 now s.lastDigOutTime ≤ 2000)
    (hfault : s.faultOvercurrent ch = true) (hlast : s.lastDig ch = true)
    (hoff : s.channelActive ch = false) :
    (canProcess now (some rxMsg) s).faultOvercurrent ch = true ∧
    (canProcess now (some rxMsg) s).lastDig ch = true ∧
    (canProcess now (some rxMsg) s).channelActive ch = false ∧
    (canProcess now (some rxMsg) s).lockDig ch = true := by
  have hidle := digOutTimeout_idle now s (not_expired_of_le now s ht)
  have hr : ¬ risingEdge rxMsg.data (digOutTimeout now s) ch := by
    intro h
    have h2 := h.2.1
    rw [hidle, hlast] at h2
    exact Bool.noConfusion h2
  have hf : ¬ fallingEdge rxMsg.data (digOutTimeout now s) ch := by
    intro h
    have h1 := h.1
    rw [hbit] at h1
    exact Bool.noConfusion h1
  obtain ⟨hv, hl, hk⟩ := canProcess_digOut_noEdge now rxMsg s ch hid hlen hr hf
  rw [hidle] at hv hk
  obtain ⟨va, vf⟩ := view_fields hv
  refine ⟨vf.trans hfault, hl.trans hbit, va.trans hoff, ?_⟩
  rw [hk, if_pos hfault]

theorem digOutTimeout_lastDig_false (now : Nat) (s : State) (ch : Ch)
    (h : s.lastDig ch = false) : (digOutTimeout now s).lastDig ch = false := by
  by_cases he : digOutExpired now s
  · rw [digOutTimeout_fired now s he]
  · rw [digOutTimeout_idle now s he]
    exact h

theorem processFrames_hold (ch : Ch) (c : Config) (fs tl : List (Nat × CanMsg)) :
    ∀ s : State, s.cfg = c →
      (∀ p ∈ fs, p.2.id = c.digitalOutCobId ∧ p.2.data_length ≥ 8 ∧ newDig p.2.data ch = true) →
      timelyFrom s.lastDigOutTime (fs ++ tl) →
      s.faultOvercurrent ch = true → s.lastDig ch = true → s.channelActive ch = false →
      (processFrames fs s).cfg = c ∧
      (processFrames fs s).faultOvercurrent ch = true ∧
      (processFrames fs s).lastDig ch = true ∧
      (processFrames fs s).channelActive ch = false ∧
      (fs ≠ [] → (processFrames fs s).lockDig ch = true) ∧
      timelyFrom (processFrames fs s).lastDigOutTime tl := by
  induction fs with
  | nil =>
    intro s hc _ ht hfault hlast hoff
    exact ⟨hc, hfault, hlast, hoff, fun h => absurd rfl h, ht⟩
  | cons p rest ih =>
    intro s hc hfs ht hfault hlast hoff
    obtain ⟨hid, hlen, hbit⟩ := hfs p (List.mem_cons_self _ _)
    have hid' : p.2.id = s.cfg.digitalOutCobId := by rw [hc]; exact hid
    obtain ⟨r1, r2, r3, r4⟩ :=
      canProcess_digOut_hold p.1 p.2 s ch hid' hlen hbit ht.1 hfault hlast hoff
    have hc' : (canProcess p.1 (some p.2) s).cfg = c :=
      (canProcess_digOut_cfg p.1 p.2 s hid' hlen).trans hc
    have ht' : timelyFrom (canProcess p.1 (some p.2) s).lastDigOutTime (rest ++ tl) := by
      rw [(canProcess_digOut_globals p.1 p.2 s hid' hlen).1]
      exact ht.2
    have hrest := ih (canProcess p.1 (some p.2) s) hc'
      (fun q hq => hfs q (List.mem_cons_of_mem _ hq)) ht' r1 r2 r3
    refine ⟨hrest.1, hrest.2.1, hrest.2.2.1, hrest.2.2.2.1, fun _ => ?_, hrest.2.2.2.2.2⟩
    by_cases hn : rest = []
    · subst hn
      exact r4
    · exact hrest.2.2.2.2.1 hn

/-- C17 (counterexample). Channel 0 was switched on by a DIGOUT rising edge at
time 0 and its fuse tripped in the tick at 1500 ms (`faultOvercurrent`, last-seen
bit 1, inactive, not yet locked).  The next DIGOUT frame with bit 1 arrives at
2001 ms: the DIGOUT time-out fires first and resets the last-seen bit, the
frame is then a rising edge on an unlocked channel, and channel 0 is active
again with its fault cleared. -/
theorem C17_frame_after_timeout_reactivates :
    sDigOn.channelActive 0 = true ∧
    sDigBlown.faultOvercurrent 0 = true ∧ sDigBlown.lastDig 0 = true ∧
    sDigBlown.channelActive 0 = false ∧ newDig frameDig0.data 0 = true ∧
    (canProcess 2001 (some frameDig0) sDigBlown).channelActive 0 = true ∧
    (canProcess 2001 (some frameDig0) sDigBlown).faultOvercurrent 0 = false ∧
    (canProcess 2001 (some frameDig0) sDigBlown).lockDig 0 = false := by
  decide!

/-- C17 (amended). Channel `ch` has a latched over-current fault, last-seen bit
1 and is inactive.  DIGOUT frames with the bit of `ch` set, each handled at
most 2000 ms after the previous DIGOUT timestamp, leave `ch` inactive and
faulted with last-seen bit 1, and `lockDig[ch]` is true after the first of
them.  The next frame, with bit 0 and again within 2000 ms, clears
`faultOvercurrent[ch]` and `lockDig[ch]` and leaves `ch` inactive; the frame with
bit 1 after that, whenever it is handled, makes `ch` active. -/
theorem C17_digout_rearm (s : State) (ch : Ch) (fs : List (Nat × CanMsg))
    (n0 n1 : Nat) (f0 f1 : CanMsg)
    (hfault : s.faultOvercurrent ch = true) (hlast : s.lastDig ch = true)
    (hoff : s.channelActive ch = false)
    (hfs : ∀ p ∈ fs, p.2.id = s.cfg.digitalOutCobId ∧ p.2.data_length ≥ 8 ∧
      newDig p.2.data ch = true)
    (hne : fs ≠ [])
    (ht : timelyFrom s.lastDigOutTime (fs ++ [(n0, f0)]))
    (hid0 : f0.id = s.cfg.digitalOutCobId) (hlen0 : f0.data_length ≥ 8)
    (hbit0 : newDig f0.data ch = false)
    (hid1 : f1.id = s.cfg.digitalOutCobId) (hlen1 : f1.data_length ≥ 8)
    (hbit1 : newDig f1.data ch = true) :
    ((processFrames fs s).channelActive ch = false ∧
      (processFrames fs s).faultOvercurrent ch = true ∧
      (processFrames fs s).lockDig ch = true) ∧
    ((canProcess n0 (some f0) (processFrames fs s)).channelActive ch = false ∧
      (canProcess n0 (some f0) (processFrames fs s)).faultOvercurrent ch = false ∧
      (canProcess n0 (some f0) (processFrames fs s)).lockDig ch = false) ∧
    (canProcess n1 (some f1) (canProcess n0 (some f0) (processFrames fs s))).channelActive ch
      = true := by
  obtain ⟨hc, hF, hL, hA, hK, hT⟩ :=
    processFrames_hold ch s.cfg fs [(n0, f0)] s rfl hfs ht hfault hlast hoff
  have hidA : f0.id = (processFrames fs s).cfg.digitalOutCobId := by rw [hc]; exact hid0
  have hidle := digOutTimeout_idle n0 _ (not_expired_of_le n0 (processFrames fs s) hT.1)
  have hfall : fallingEdge f0.data (digOutTimeout n0 (processFrames fs s)) ch :=
    ⟨hbit0, by rw [hidle]; exact hL⟩
  obtain ⟨b1, b2, b3, b4, -⟩ :=
    canProcess_digOut_falling n0 f0 (processFrames fs s) ch hidA hlen0 hfall
  have hcB : (canProcess n0 (some f0) (processFrames fs s)).cfg = s.cfg :=
    (canProcess_digOut_cfg n0 f0 _ hidA hlen0).trans hc
  have hidB : f1.id = (canProcess n0 (some f0) (processFrames fs s)).cfg.digitalOutCobId := by
    rw [hcB]; exact hid1
  have hrise : risingEdge f1.data
      (digOutTimeout n1 (canProcess n0 (some f0) (processFrames fs s))) ch :=
    ⟨hbit1, digOutTimeout_lastDig_false n1 _ ch b4, by rw [digOutTimeout_lockDig]; exact b3⟩
  exact ⟨⟨hA, hF, hK hne⟩, ⟨b1, b2, b3⟩,
    (canProcess_digOut_rising n1 f1 _ ch hidB hlen1 hrise).1⟩

/-- Witness of C17: channel 0 tripped at 1500 ms after a DIGOUT rising edge at
time 0; frames with bit 1 at 1600 and 1700 ms keep it off and lock it, the
all-off frame at 1800 ms clears fault and lock, and the frame with bit 1 at
1900 ms switches it on again. -/
theorem C17_digout_rearm_witness :
    sDigBlown.faultOvercurrent 0 = true ∧ sDigBlown.lastDig 0 = true ∧
    sDigBlown.channelActive 0 = false ∧
    ((processFrames [(1600, frameDig0), (1700, frameDig0)] sDigBlown).channelActive 0 = false ∧
      (processFrames [(1600, frameDig0), (1700, frameDig0)] sDigBlown).faultOvercurrent 0 = true ∧
      (processFrames [(1600, frameDig0), (1700, frameDig0)] sDigBlown).lockDig 0 = true) ∧
    ((canProcess 1800 (some frameDigOff)
        (processFrames [(1600, frameDig0), (1700, frameDig0)] sDigBlown)).channelActive 0 = false ∧
      (canProcess 1800 (some frameDigOff)
        (processFrames [(1600, frameDig0), (1700, frameDig0)] sDigBlown)).faultOvercurrent 0
        = false ∧
      (canProcess 1800 (some frameDigOff)
        (processFrames [(1600, frameDig0), (1700, frameDig0)] sDigBlown)).lockDig 0 = false) ∧
    (canProcess 1900 (some frameDig0) (canProcess 1800 (some frameDigOff)
      (processFrames [(1600, frameDig0), (1700, frameDig0)] sDigBlown))).channelActive 0
      = true :=
  ⟨by decide!, by decide!, by decide!,
   C17_digout_rearm sDigBlown 0 [(1600, frameDig0), (1700, frameDig0)] 1800 1900
     frameDigOff frameDig0 (by decide!) (by decide!) (by decide!) (by decide!)
     (List.cons_ne_nil _ _) (by decide!) (by decide!) (by decide!) (by decide!) (by decide!) (by decide!) (by decide!)⟩

theorem digOutChannel_same (now : Nat) (buf : Fin 8 → Nat) (s : State) (i : Ch)
    (h : s.lastDig i = newDig buf i) : digOutChannel now buf s i = s := by
  have c1 : ¬ ((newDig buf i && !s.lastDig i && !s.lockDig i) = true) := by
    rw [h]; cases newDig buf i <;> simp
  have c2 : ¬ ((!newDig buf i && s.lastDig i) = true) := by
    rw [h]; cases newDig buf i <;> simp
  unfold digOutChannel digOutEdge
  rw [if_neg c1, if_neg c2]
  cases s
  simp only at h ⊢
  rw [← h, Function.update_eq_self]

theorem digOutLoop_same (now : Nat) (buf : Fin 8 → Nat) (s : State)
    (h : ∀ ch, s.lastDig ch = newDig buf ch) : allCh.foldl (digOutChannel now buf) s = s := by
  simp only [allCh, List.foldl, digOutChannel_same now buf s _ (h _)]

theorem digOutService_same (now : Nat) (buf : Fin 8 → Nat) (s : State)
    (hsame : ∀ ch, s.lastDig ch = newDig buf ch)
    (hlock : ∀ ch, s.faultOvercurrent ch = true → s.lockDig ch = true)
    (hflag : s.digOutWatchdogTriggered = false) :
    digOutService now buf s = { s with lastDigOutTime := now } := by
  unfold digOutService
  rw [digOutLock_eq, digOutLoop_same now buf s hsame]
  cases s
  simp only at hlock hflag ⊢
  subst hflag
  congr 1
  funext j
  split_ifs with hj
  · exact (hlock j hj).symm
  · rfl

/-- C18 (counterexample). (a) Channel 0 was switched on by the DIGOUT frame
`frameDig0` at time 0 and its fuse tripped in the tick at 1500 ms.  The DIGOUT
frame processed at 1600 ms has the same bytes as the previous DIGOUT frame, its
bits equal the last-seen bits, no time-out is due, and yet it changes
`lockDig[0]` from false to true.  (b) With channel 0 on since the frame at
time 0, the same frame handled at 2001 ms comes after the DIGOUT time-out: the
channel is switched off and on again, and its switch-on time changes from 0
to 2001. -/
theorem C18_identical_frame_changes_state :
    ((∀ ch, sDigBlown.lastDig ch = newDig frameDig0.data ch) ∧
      ¬ digOutExpired 1600 sDigBlown ∧
      sDigBlown.lockDig 0 = false ∧
      (canProcess 1600 (some frameDig0) sDigBlown).lockDig 0 = true) ∧
    ((∀ ch, sDigOn.lastDig ch = newDig frameDig0.data ch) ∧
      sDigOn.channelOnTime 0 = 0 ∧
      (canProcess 2001 (some frameDig0) sDigOn).channelOnTime 0 = 2001) := by
  decide!

/-- C18 (amended). Processing a DIGOUT frame changes nothing but the DIGOUT
watchdog timestamp when the bits of the frame equal the last-seen bits, every
channel with a latched over-current fault is already locked, the
watchdog-triggered flag is clear and the DIGOUT time-out is not due.  These
conditions hold right after a DIGOUT frame was processed: handling the same
frame again at most 2000 ms later, with nothing in between, changes only the
timestamp. -/
theorem C18_repeated_frame (now : Nat) (rxMsg : CanMsg) (s : State)
    (hid : rxMsg.id = s.cfg.digitalOutCobId) (hlen : rxMsg.data_length ≥ 8) :
    ((∀ ch, s.lastDig ch = newDig rxMsg.data ch) →
      (∀ ch, s.faultOvercurrent ch = true → s.lockDig ch = true) →
      s.digOutWatchdogTriggered = false → ¬ digOutExpired now s →
      canProcess now (some rxMsg) s = { s with lastDigOutTime := now }) ∧
    (∀ now2, subU32 now2 now ≤ 2000 →
      canProcess now2 (some rxMsg) (canProcess now (some rxMsg) s) =
        { canProcess now (some rxMsg) s with lastDigOutTime := now2 }) := by
  have key : ∀ (n : Nat) (t : State), rxMsg.id = t.cfg.digitalOutCobId →
      (∀ ch, t.lastDig ch = newDig rxMsg.data ch) →
      (∀ ch, t.faultOvercurrent ch = true → t.lockDig ch = true) →
      t.digOutWatchdogTriggered = false → ¬ digOutExpired n t →
      canProcess n (some rxMsg) t = { t with lastDigOutTime := n } := by
    intro n t hidt hsame hlock hflag hexp
    rw [canProcess_digOut n rxMsg t hidt hlen, digOutTimeout_idle n t hexp]
    exact digOutService_same n rxMsg.data t hsame hlock hflag
  refine ⟨key now s hid, fun now2 h2 => ?_⟩
  have hg := canProcess_digOut_globals now rxMsg s hid hlen
  apply key now2
  · rw [canProcess_digOut_cfg now rxMsg s hid hlen]; exact hid
  · intro ch
    rw [canProcess_digOut now rxMsg s hid hlen]
    exact (digOutService_channel now rxMsg.data _ ch).2.1
  · intro ch hf
    rw [canProcess_digOut now rxMsg s hid hlen] at hf ⊢
    obtain ⟨hv, -, hk⟩ := digOutService_channel now rxMsg.data (digOutTimeout now s) ch
    rw [(view_fields hv).2] at hf
    rw [hk, if_pos hf]
  · exact hg.2
  · apply not_expired_of_le
    rw [hg.1]
    exact h2

/-- Witness of C18: at 1700 ms the frame `frameDig0` is handled in the state
where channel 0 is faulted and already locked; and the frame handled at time 0
after `init` is handled again at 100 ms. -/
theorem C18_repeated_frame_witness :
    (canProcess 1700 (some frameDig0) sDigLocked = { sDigLocked with lastDigOutTime := 1700 }) ∧
    (canProcess 100 (some frameDig0) (canProcess 0 (some frameDig0) (init defaultConfig 0 bootState))
      = { canProcess 0 (some frameDig0) (init defaultConfig 0 bootState) with
          lastDigOutTime := 100 }) :=
  ⟨(C18_repeated_frame 1700 frameDig0 sDigLocked (by decide!) (by decide!)).1
      (by decide!) (by decide!) (by decide!) (by decide!),
   (C18_repeated_frame 0 frameDig0 (init defaultConfig 0 bootState) (by decide!) (by decide!)).2
      100 (by decide!)⟩

/-- C19 (counterexample). Channel 0 was switched on by a DIGOUT frame at time 0
(`lastInputMode = INPUT_MODE_CAN_DIGOUT`, `lastDigOutTime = 0`).  When
`CANHandler::process` runs at exactly 2000 ms with no frame pending, channel 0
stays active, the watchdog flag stays clear and the last-seen bit stays 1; the
time-out fires only at 2001 ms. -/
theorem C19_no_timeout_at_2000 :
    sDigOn.lastInputMode = InputMode.INPUT_MODE_CAN_DIGOUT ∧
    subU32 2000 sDigOn.lastDigOutTime = 2000 ∧
    (canProcess 2000 none sDigOn).channelActive 0 = true ∧
    (canProcess 2000 none sDigOn).digOutWatchdogTriggered = false ∧
    (canProcess 2000 none sDigOn).lastDig 0 = true ∧
    (canProcess 2001 none sDigOn).channelActive 0 = false := by
  decide!

/-- C19 (amended). If `lastInputMode = INPUT_MODE_CAN_DIGOUT` and more than
2000 ms have elapsed since the last DIGOUT timestamp, `CANHandler::process`
with no frame pending leaves all four channels inactive whatever they were,
sets `digOutWatchdogTriggered` and resets the last-seen bit of every channel to
0; `lockDig` is not changed, and a later DIGOUT frame with the bit of a
channel set is a rising edge that activates the channel if it is not locked. -/
theorem C19_digout_watchdog (now : Nat) (s : State)
    (hmode : s.lastInputMode = InputMode.INPUT_MODE_CAN_DIGOUT)
    (hel : subU32 now s.lastDigOutTime > 2000) :
    (∀ ch, (canProcess now none s).channelActive ch = false) ∧
    (canProcess now none s).digOutWatchdogTriggered = true ∧
    (∀ ch, (canProcess now none s).lastDig ch = false) ∧
    (∀ ch, (canProcess now none s).lockDig ch = s.lockDig ch) ∧
    (∀ (now2 : Nat) (rxMsg : CanMsg) (ch : Ch),
      rxMsg.id = s.cfg.digitalOutCobId → rxMsg.data_length ≥ 8 →
      newDig rxMsg.data ch = true → s.lockDig ch = false →
      (canProcess now2 (some rxMsg) (canProcess now none s)).channelActive ch = true) := by
  have hs : canProcess now none s = digOutTimeout now s := rfl
  have hf := digOutTimeout_fired now s ⟨hmode, hel⟩
  rw [hs]
  refine ⟨fun ch => ?_, ?_, fun ch => ?_, fun ch => ?_, ?_⟩
  · rw [hf]
  · rw [hf]
  · rw [hf]
  · rw [digOutTimeout_lockDig]
  · intro now2 rxMsg ch hid hlen hbit hlock
    have hid' : rxMsg.id = (digOutTimeout now s).cfg.digitalOutCobId := by
      rw [digOutTimeout_cfg]; exact hid
    have hl : (digOutTimeout now s).lastDig ch = false := by rw [hf]
    have hrise : risingEdge rxMsg.data (digOutTimeout now2 (digOutTimeout now s)) ch :=
      ⟨hbit, digOutTimeout_lastDig_false now2 _ ch hl, by
        rw [digOutTimeout_lockDig, digOutTimeout_lockDig]; exact hlock⟩
    exact (canProcess_digOut_rising now2 rxMsg _ ch hid' hlen hrise).1

/-- Witness of C19: channel 0 on by DIGOUT since time 0; `process` at 2001 ms
switches everything off, and the frame `frameDig0` at 2500 ms switches channel
0 on again. -/
theorem C19_digout_watchdog_witness :
    sDigOn.channelActive 0 = true ∧
    (∀ ch, (canProcess 2001 none sDigOn).channelActive ch = false) ∧
    (canProcess 2001 none sDigOn).digOutWatchdogTriggered = true ∧
    (∀ ch, (canProcess 2001 none sDigOn).lastDig ch = false) ∧
    (canProcess 2500 (some frameDig0) (canProcess 2001 none sDigOn)).channelActive 0 = true :=
  have h := C19_digout_watchdog 2001 sDigOn (by decide!) (by decide!)
  ⟨by decide!, h.1, h.2.1, h.2.2.1,
   h.2.2.2.2 2500 frameDig0 0 (by decide!) (by decide!) (by decide!) (by decide!)⟩

/-! ## The keypad heartbeat watchdog: claim C20 -/

/-- C20 (counterexample). (a) Keypad mode, heartbeat seen at 100 ms, channel 0
switched on from the keypad: `checkWatchdog` at 1600 ms, exactly 1500 ms after
the heartbeat, leaves channel 0 on and the link marked good.  (b) After the
watchdog has fired at 1700 ms (link degraded, all off) a key press switches
channel 0 on again without a heartbeat; `checkWatchdog` at 5000 ms, 4900 ms
after the last heartbeat, leaves channel 0 on. -/
theorem C20_watchdog_does_not_fire :
    (sKeypadOn.lastInputMode = InputMode.INPUT_MODE_CAN_KEYPAD ∧
      sKeypadOn.lastHeartbeatMs = 100 ∧ sKeypadOn.channelActive 0 = true ∧
      subU32 1600 sKeypadOn.lastHeartbeatMs = 1500 ∧
      (checkWatchdog 1600 sKeypadOn).channelActive 0 = true ∧
      (checkWatchdog 1600 sKeypadOn).canOK = true) ∧
    (sKeypadDegraded.lastInputMode = InputMode.INPUT_MODE_CAN_KEYPAD ∧
      sKeypadDegraded.lastHeartbeatMs = 100 ∧ sKeypadDegraded.canOK = false ∧
      sKeypadDegraded.channelActive 0 = true ∧
      subU32 5000 sKeypadDegraded.lastHeartbeatMs = 4900 ∧
      (checkWatchdog 5000 sKeypadDegraded).channelActive 0 = true) := by
  decide!

/-- C20 (amended). In keypad mode with a heartbeat seen and more than 1500 ms
elapsed since the last heartbeat: if the link is still marked good,
`checkWatchdog` leaves all four channels inactive and marks the link degraded;
if the link is already marked degraded, `checkWatchdog` changes nothing.  When
`lastInputMode` is Digital or None, `checkWatchdog` changes nothing whatever
the elapsed time. -/
theorem C20_keypad_watchdog (now : Nat) (s : State) :
    (s.lastInputMode = InputMode.INPUT_MODE_CAN_KEYPAD → s.lastHeartbeatMs ≠ 0 →
      subU32 now s.lastHeartbeatMs > 1500 → s.canOK = true →
      (∀ ch, (checkWatchdog now s).channelActive ch = false) ∧
      (checkWatchdog now s).canOK = false) ∧
    (s.lastInputMode = InputMode.INPUT_MODE_CAN_KEYPAD → s.lastHeartbeatMs ≠ 0 →
      subU32 now s.lastHeartbeatMs > 1500 → s.canOK = false →
      checkWatchdog now s = s) ∧
    (s.lastInputMode = InputMode.INPUT_MODE_DIGITAL ∨
      s.lastInputMode = InputMode.INPUT_MODE_NONE → checkWatchdog now s = s) := by
  refine ⟨fun hm hb he hok => ?_, fun hm hb he hok => ?_, fun hm => ?_⟩
  · have hc : s.lastHeartbeatMs ≠ 0 ∧ subU32 now s.lastHeartbeatMs > WATCHDOG_TIMEOUT_MS :=
      ⟨hb, he⟩
    simp only [checkWatchdog, hm]
    rw [if_pos hc, if_pos hok, allOff_eq]
    exact ⟨fun _ => rfl, rfl⟩
  · have hc : s.lastHeartbeatMs ≠ 0 ∧ subU32 now s.lastHeartbeatMs > WATCHDOG_TIMEOUT_MS :=
      ⟨hb, he⟩
    have hno : ¬ (s.canOK = true) := by rw [hok]; exact Bool.noConfusion
    simp only [checkWatchdog, hm]
    rw [if_pos hc, if_neg hno]
    cases s
    simp only at hok
    subst hok
    rfl
  · rcases hm with hm | hm <;> simp only [checkWatchdog, hm]

/-- Witness of C20: the keypad scenario of the counterexample at 1700 ms (link
good: all off, link degraded), the degraded scenario at 5000 ms (unchanged),
and the state right after `init` (mode None) at 5000 ms (unchanged). -/
theorem C20_keypad_watchdog_witness :
    ((∀ ch, (checkWatchdog 1700 sKeypadOn).channelActive ch = false) ∧
      (checkWatchdog 1700 sKeypadOn).canOK = false) ∧
    checkWatchdog 5000 sKeypadDegraded = sKeypadDegraded ∧
    checkWatchdog 5000 (init defaultConfig 0 bootState) = init defaultConfig 0 bootState :=
  ⟨(C20_keypad_watchdog 1700 sKeypadOn).1 (by decide!) (by decide!) (by decide!) (by decide!),
   (C20_keypad_watchdog 5000 sKeypadDegraded).2.1
     (by decide!) (by decide!) (by decide!) (by decide!),
   (C20_keypad_watchdog 5000 (init defaultConfig 0 bootState)).2.2 (Or.inr (by decide!))⟩

/-! ## Idempotence of the watchdogs: claim C21 -/

theorem digOutTimeout_idem (now : Nat) (s : State) :
    digOutTimeout now (digOutTimeout now s) = digOutTimeout now s := by
  by_cases he : digOutExpired now s
  · apply digOutTimeout_idle
    rw [digOutTimeout_fired now s he]
    intro h
    have h2 := h.2
    simp only [subU32_self] at h2
    exact absurd h2 (by decide)
  · rw [digOutTimeout_idle now s he, digOutTimeout_idle now s he]

theorem checkWatchdog_idem (now : Nat) (s : State) :
    checkWatchdog now (checkWatchdog now s) = checkWatchdog now s := by
  cases hm : s.lastInputMode
  · simp only [checkWatchdog, hm]
  · simp only [checkWatchdog, hm]
  · by_cases hc : s.lastHeartbeatMs ≠ 0 ∧ subU32 now s.lastHeartbeatMs > WATCHDOG_TIMEOUT_MS
    · have h1 : checkWatchdog now s =
          { (if s.canOK = true then allOff now s else s) with canOK := false } := by
        simp only [checkWatchdog, hm]
        rw [if_pos hc]
      rw [h1]
      by_cases hok : s.canOK = true
      · rw [if_pos hok, allOff_eq]
        simp only [checkWatchdog, hm]
        rw [if_pos hc]
        simp
      · rw [if_neg hok]
        simp only [checkWatchdog, hm]
        rw [if_pos hc]
        simp
    · have h1 : checkWatchdog now s = s := by
        simp only [checkWatchdog, hm]
        rw [if_neg hc]
      rw [h1, h1]
  · simp only [checkWatchdog, hm]

/-- C21. Watchdog firing is idempotent: `checkWatchdog` run twice at the same
`now` gives the same state as run once, and the DIGOUT time-out branch of
`process` (no frame pending) run a second time at the same `now` changes
nothing; in particular after the time-out has fired it is no longer due. -/
theorem C21_watchdog_idempotent (now : Nat) (s : State) :
    checkWatchdog now (checkWatchdog now s) = checkWatchdog now s ∧
    canProcess now none (canProcess now none s) = canProcess now none s ∧
    ¬ digOutExpired now (canProcess now none s) := by
  refine ⟨checkWatchdog_idem now s, digOutTimeout_idem now s, ?_⟩
  show ¬ digOutExpired now (digOutTimeout now s)
  intro h
  by_cases he : digOutExpired now s
  · rw [digOutTimeout_fired now s he] at h
    have h2 := h.2
    simp only [subU32_self] at h2
    exact absurd h2 (by decide)
  · rw [digOutTimeout_idle now s he] at h
    exact he h



/-! ## Writers of `lastInputMode` -/

theorem foldl_ioview {α : Type} (f : State → α → State)
    (hf : ∀ b a, (f b a).ioview = b.ioview) (l : List α) (s : State) :
    (l.foldl f s).ioview = s.ioview :=
  foldl_preserves (fun b : State => b.ioview = s.ioview) f
    (fun b a hb => (hf b a).trans hb) l s rfl

theorem setChannel_ioview (now : Nat) (ch : Ch) (v : Bool) (s : State) :
    (setChannel now ch v s).ioview = s.ioview := by
  rw [setChannel_eq]
  rfl

theorem shutdownGroup_ioview (ch : Ch) (s : State) : (shutdownGroup ch s).ioview = s.ioview := by
  rw [shutdownGroup_eq]
  rfl

theorem clearGroupFaults_ioview (grp : Nat) (s : State) :
    (clearGroupFaults grp s).ioview = s.ioview := by
  unfold clearGroupFaults
  apply foldl_ioview
  intro b a
  split_ifs <;> rfl

theorem setGroup_ioview (now : Nat) (grp : Nat) (v : Bool) (s : State) :
    (setGroup now grp v s).ioview = s.ioview := by
  unfold setGroup
  apply foldl_ioview
  intro b a
  split_ifs
  · exact setChannel_ioview now a v b
  · rfl

theorem applyPressChannel_ioview (now : Nat) (grp : Nat) (pressed : Bool) (s : State) (i : Ch) :
    (applyPressChannel now grp pressed s i).ioview = s.ioview := by
  simp only [applyPressChannel, setChannel_eq]
  split_ifs <;> rfl

theorem applyPress_ioview (now : Nat) (ch : Ch) (pressed : Bool) (s : State) :
    (applyPress now ch pressed s).ioview = s.ioview := by
  unfold applyPress
  exact foldl_ioview _ (fun b a => applyPressChannel_ioview now _ pressed b a) allCh s

theorem allOff_ioview (now : Nat) (s : State) : (allOff now s).ioview = s.ioview := by
  rw [allOff_eq]
  rfl

theorem checkWatchdog_ioview (now : Nat) (s : State) :
    (checkWatchdog now s).ioview = s.ioview := by
  cases hm : s.lastInputMode <;> simp only [checkWatchdog, hm]
  split_ifs
  · exact allOff_ioview now s
  · rfl
  · rfl

theorem digOutTimeout_ioview (now : Nat) (s : State) :
    (digOutTimeout now s).ioview = s.ioview := by
  by_cases he : digOutExpired now s
  · rw [digOutTimeout_fired now s he]
    rfl
  · rw [digOutTimeout_idle now s he]

theorem updateTemperature_ioview (now : Nat) (rawT : Int) (s : State) :
    (updateTemperature now rawT s).ioview = s.ioview := by
  simp only [updateTemperature]
  split_ifs <;> rfl

theorem fuseStep_ioview (now : Nat) (dt iA : ℚ) (i : Ch) (s : State) :
    (fuseStep now dt iA i s).ioview = s.ioview := by
  simp only [fuseStep, driveOn, setChannel_eq, digitalWrite]
  split_ifs <;> rfl

theorem updateChannel_ioview (now : Nat) (dt T : ℚ) (sensErr : Bool) (rawI : Ch → Int)
    (s : State) (i : Ch) : (updateChannel now dt T sensErr rawI s i).ioview = s.ioview := by
  simp only [updateChannel, ackCleared_eq, shutdownGroup_eq, digitalWrite]
  split_ifs <;> first | rfl | exact fuseStep_ioview _ _ _ _ _

theorem update_ioview (now : Nat) (rawT : Int) (rawI : Ch → Int) (s : State) :
    (update now rawT rawI s).ioview = s.ioview := by
  unfold update
  exact (foldl_ioview _ (fun b a => updateChannel_ioview _ _ _ _ _ b a) allCh _).trans
    (updateTemperature_ioview now rawT s)

theorem keyPressEdge_ioview (now : Nat) (grp : Nat) (ch : Ch) (s : State) :
    (keyPressEdge now grp ch s).ioview = s.ioview := by
  unfold keyPressEdge
  dsimp only
  split_ifs
  · exact setGroup_ioview now grp true _
  · rfl

theorem keyShortPress_ioview (now : Nat) (grp : Nat) (ch : Ch) (s : State) :
    (keyShortPress now grp ch s).ioview = s.ioview := by
  unfold keyShortPress
  dsimp only
  split_ifs
  · exact setGroup_ioview now grp _ s
  · rfl
  · rfl

theorem keyReleaseAction_ioview (now : Nat) (grp : Nat) (ch : Ch) (s : State) :
    (keyReleaseAction now grp ch s).ioview = s.ioview := by
  unfold keyReleaseAction
  dsimp only
  split_ifs
  · exact clearGroupFaults_ioview grp s
  · exact keyShortPress_ioview now grp ch s

theorem keyReleaseEdge_ioview (now : Nat) (grp : Nat) (ch : Ch) (s : State) :
    (keyReleaseEdge now grp ch s).ioview = s.ioview := by
  unfold keyReleaseEdge
  dsimp only
  split_ifs
  · exact (setGroup_ioview now grp false _).trans (keyReleaseAction_ioview now grp ch s)
  · exact keyReleaseAction_ioview now grp ch s

theorem keyEdges_ioview (now : Nat) (ch : Ch) (pressed : Bool) (s : State) :
    (keyEdges now ch pressed s).ioview = s.ioview := by
  unfold keyEdges
  dsimp only
  split_ifs
  · exact keyPressEdge_ioview now _ ch s
  · exact keyReleaseEdge_ioview now _ ch s
  · rfl

theorem handleButtonState_ioview (now : Nat) (ch : Ch) (pressed : Bool) (s : State) :
    (handleButtonState now ch pressed s).ioview = s.ioview :=
  keyEdges_ioview now ch pressed s

theorem extResetTiming_ioview (now : Nat) (s : State) :
    (extResetTiming now s).ioview = s.ioview := by
  unfold extResetTiming
  apply foldl_ioview
  intro b a
  split_ifs <;> rfl

theorem extLongPress_ioview (now : Nat) (nowP : Bool) (ch : Ch) (s : State) :
    (extLongPress now nowP ch s).ioview = s.ioview := by
  have h : (extFaultClear ch s).ioview = s.ioview := by
    unfold extFaultClear
    dsimp only
    rw [shutdownGroup_eq]
    exact clearGroupFaults_ioview _ s
  unfold extLongPress
  dsimp only
  split_ifs
  · exact h
  · rfl
  · rfl

theorem extButtonStep_ioview (now : Nat) (s : State) (ch : Ch) (h : ¬ extEdge s ch) :
    (extButtonStep now s ch).ioview = s.ioview := by
  unfold extEdge at h
  simp only [ne_eq, not_not] at h
  unfold extButtonStep
  simp only [h]
  have c1 : ∀ b : Bool, ¬ ((b && !b) = true) := by intro b; cases b <;> simp
  have c2 : ∀ b : Bool, ¬ ((!b && b) = true) := by intro b; cases b <;> simp
  unfold extRelease extPressEdge
  rw [if_neg (c1 _), if_neg (c2 _)]
  exact extLongPress_ioview _ _ _ _

theorem processExternalInputs_mode (now : Nat) (pinLevel : Ch → Bool) (s : State)
    (h : ∀ ch, ¬ extEdge s ch) :
    (processExternalInputs now pinLevel s).lastInputMode = s.lastInputMode := by
  have h0 := extResetTiming_ioview now s
  have hloop : (allCh.foldl (extButtonStep now) (extResetTiming now s)).ioview = s.ioview := by
    apply foldl_preserves (fun b : State => b.ioview = s.ioview) _ _ _ _ h0
    intro b a hb
    have hne : ¬ extEdge b a := by
      have h1 := congrArg IoView.candidateMask hb
      have h2 := congrArg IoView.lastMask hb
      simp only [State.ioview] at h1 h2
      unfold extEdge
      rw [h1, h2]
      exact h a
    exact (extButtonStep_ioview now b a hne).trans hb
  unfold processExternalInputs
  dsimp only
  split_ifs
  · exact congrArg IoView.lastInputMode h0
  · exact congrArg IoView.lastInputMode h0
  · exact congrArg IoView.lastInputMode hloop



theorem foldl_local_keep {V : Type} (view : State → Ch → V) (f : State → Ch → State)
    (hne : ∀ s i j, j ≠ i → view (f s i) j = view s j)
    (P : State → Prop) (Q : Ch → V → Prop) (hP : ∀ s i, Q i (view s i) → P s → P (f s i))
    (l : List Ch) (hl : l.Nodup) :
    ∀ s : State, (∀ ch ∈ l, Q ch (view s ch)) → P s → P (l.foldl f s) := by
  induction l with
  | nil => intro s _ hp; exact hp
  | cons a l ih =>
    intro s hq hp
    rw [List.foldl_cons]
    have hnd := List.nodup_cons.mp hl
    apply ih hnd.2
    · intro ch hch
      have hne' : ch ≠ a := fun e => hnd.1 (e ▸ hch)
      rw [hne s a ch hne']
      exact hq ch (List.mem_cons_of_mem _ hch)
    · exact hP s a (hq a (List.mem_cons_self _ _)) hp

theorem digOutChannel_mode_noEdge (now : Nat) (buf : Fin 8 → Nat) (s : State) (i : Ch)
    (hr : ¬ risingEdge buf s i) (hf : ¬ fallingEdge buf s i) :
    (digOutChannel now buf s i).lastInputMode = s.lastInputMode := by
  have c1 : ¬ ((newDig buf i && !s.lastDig i && !s.lockDig i) = true) := by
    intro h
    simp only [Bool.and_eq_true, Bool.not_eq_true'] at h
    exact hr ⟨h.1.1, h.1.2, h.2⟩
  have c2 : ¬ ((!newDig buf i && s.lastDig i) = true) := by
    intro h
    simp only [Bool.and_eq_true, Bool.not_eq_true'] at h
    exact hf ⟨h.1, h.2⟩
  unfold digOutChannel digOutEdge
  rw [if_neg c1, if_neg c2]

theorem digOutService_mode_noEdge (now : Nat) (buf : Fin 8 → Nat) (s : State)
    (h : ∀ ch, ¬ risingEdge buf s ch ∧ ¬ fallingEdge buf s ch) :
    (digOutService now buf s).lastInputMode = s.lastInputMode := by
  rw [(digOutService_globals now buf s).2.2]
  refine foldl_local_keep State.dview (digOutChannel now buf)
    (fun s i j h => digOutChannel_dview_ne now buf s i j h)
    (fun b : State => b.lastInputMode = s.lastInputMode)
    (fun i v => ¬ (newDig buf i = true ∧ v.lastDig = false ∧ v.lockDig = false) ∧
      ¬ (newDig buf i = false ∧ v.lastDig = true))
    ?_ allCh (by decide) s (fun ch _ => h ch) rfl
  intro b i hq hb
  exact (digOutChannel_mode_noEdge now buf b i hq.1 hq.2).trans hb

theorem keypadPdo_mode_noKey (now : Nat) (buf : Fin 8 → Nat) (s : State)
    (h : ∀ ch, ¬ keyPressed buf ch) :
    (keypadPdo now buf s).lastInputMode = s.lastInputMode := by
  unfold keypadPdo
  apply foldl_preserves (fun b : State => b.lastInputMode = s.lastInputMode) _ _ _ _ rfl
  intro b a hb
  have hk := h a
  unfold keyPressed at hk
  unfold keypadButton
  dsimp only
  rw [if_neg hk]
  exact (congrArg IoView.lastInputMode (handleButtonState_ioview now a _ b)).trans hb

theorem canFrame_mode_other (now : Nat) (rxMsg : CanMsg) (s : State)
    (hd : ¬ (rxMsg.id = s.cfg.digitalOutCobId ∧ rxMsg.data_length ≥ 8))
    (hk : ¬ (rxMsg.id = 0x180 + s.cfg.keypadNodeID ∧ rxMsg.data_length ≥ 1)) :
    (canFrame now rxMsg s).lastInputMode = s.lastInputMode := by
  unfold canFrame
  dsimp only
  rw [if_neg hd, if_neg hk]
  split_ifs <;> rfl

theorem canProcess_mode_changed (now : Nat) (rxMsg : CanMsg) (s : State)
    (h : (canProcess now (some rxMsg) s).lastInputMode ≠ s.lastInputMode) :
    modeEvent (Op.canProcess now (some rxMsg)) s := by
  have h0 : (digOutTimeout now s).lastInputMode = s.lastInputMode :=
    congrArg IoView.lastInputMode (digOutTimeout_ioview now s)
  have hc := digOutTimeout_cfg now s
  by_cases hd : rxMsg.id = s.cfg.digitalOutCobId ∧ rxMsg.data_length ≥ 8
  · left
    refine ⟨hd.1, hd.2, ?_⟩
    by_contra hne
    push_neg at hne
    apply h
    rw [canProcess_digOut now rxMsg s hd.1 hd.2, digOutService_mode_noEdge now _ _ hne, h0]
  · by_cases hk : rxMsg.id = 0x180 + s.cfg.keypadNodeID ∧ rxMsg.data_length ≥ 1
    · right
      refine ⟨hk.1, hk.2, ?_⟩
      by_contra hne
      push_neg at hne
      apply h
      have hd' : ¬ (rxMsg.id = (digOutTimeout now s).cfg.digitalOutCobId ∧
          rxMsg.data_length ≥ 8) := by rw [hc]; exact hd
      have hk' : rxMsg.id = 0x180 + (digOutTimeout now s).cfg.keypadNodeID ∧
          rxMsg.data_length ≥ 1 := by rw [hc]; exact hk
      have e : canProcess now (some rxMsg) s = keypadPdo now rxMsg.data (digOutTimeout now s) := by
        simp only [canProcess, canFrame]
        rw [if_neg hd', if_pos hk']
      rw [e, keypadPdo_mode_noKey now _ _ hne, h0]
    · exfalso
      apply h
      have e : canProcess now (some rxMsg) s = canFrame now rxMsg (digOutTimeout now s) := rfl
      rw [e, canFrame_mode_other now rxMsg _ (by rw [hc]; exact hd) (by rw [hc]; exact hk), h0]

/-! ## The input-mode tracker: claim C22 -/

/-- C22. `lastInputMode` is left unchanged by `checkWatchdog`, by the DIGOUT
time-out branch of `process` (a call with no frame pending), by `update`, and
by processing a keypad heartbeat or boot-up frame (id `0x700 + keypadNodeID`,
not dispatched to the DIGITAL-OUT service).  Whenever an operation of the
control core changes it, the operation is the processing of a DIGOUT frame
with an edge, of a keypad PDO with a pressed bit, or a call of
`processExternalInputs` with a debounced button edge. -/
theorem C22_input_mode_writers (s : State) :
    (∀ now, (checkWatchdog now s).lastInputMode = s.lastInputMode) ∧
    (∀ now, (canProcess now none s).lastInputMode = s.lastInputMode) ∧
    (∀ now rawT rawI, (update now rawT rawI s).lastInputMode = s.lastInputMode) ∧
    (∀ now rxMsg, rxMsg.id = 0x700 + s.cfg.keypadNodeID →
      ¬ (rxMsg.id = s.cfg.digitalOutCobId ∧ rxMsg.data_length ≥ 8) →
      (canProcess now (some rxMsg) s).lastInputMode = s.lastInputMode) ∧
    (∀ op, (step op s).lastInputMode ≠ s.lastInputMode → modeEvent op s) := by
  refine ⟨fun now => congrArg IoView.lastInputMode (checkWatchdog_ioview now s),
    fun now => congrArg IoView.lastInputMode (digOutTimeout_ioview now s),
    fun now rawT rawI => congrArg IoView.lastInputMode (update_ioview now rawT rawI s),
    ?_, ?_⟩
  · intro now rxMsg hid hd
    by_contra hne
    have hev := canProcess_mode_changed now rxMsg s hne
    rcases hev with hev | hev
    · exact hd ⟨hev.1, hev.2.1⟩
    · have h1 := hev.1
      rw [hid] at h1
      omega
  · intro op hne
    cases op with
    | setChannel now ch v =>
      exact absurd (congrArg IoView.lastInputMode (setChannel_ioview now ch v s)) hne
    | clearChannelFault ch => exact absurd rfl hne
    | handleButtonState now ch pressed =>
      exact absurd (congrArg IoView.lastInputMode (handleButtonState_ioview now ch pressed s)) hne
    | processExternalInputs now pinLevel =>
      by_contra hno
      exact hne (processExternalInputs_mode now pinLevel s (fun ch he => hno ⟨ch, he⟩))
    | update now rawT rawI =>
      exact absurd (congrArg IoView.lastInputMode (update_ioview now rawT rawI s)) hne
    | canProcess now frame =>
      cases frame with
      | none => exact absurd (congrArg IoView.lastInputMode (digOutTimeout_ioview now s)) hne
      | some rxMsg => exact canProcess_mode_changed now rxMsg s hne
    | checkWatchdog now =>
      exact absurd (congrArg IoView.lastInputMode (checkWatchdog_ioview now s)) hne

/-- Witness of C22: the heartbeat frame right after `init` leaves the mode at
None; the DIGOUT frame `frameDig0` changes it, and it carries a rising edge
for channel 0. -/
theorem C22_input_mode_writers_witness :
    (canProcess 100 (some frameHeartbeat) (init defaultConfig 0 bootState)).lastInputMode =
      (init defaultConfig 0 bootState).lastInputMode ∧
    (step (Op.canProcess 0 (some frameDig0)) (init defaultConfig 0 bootState)).lastInputMode ≠
      (init defaultConfig 0 bootState).lastInputMode ∧
    modeEvent (Op.canProcess 0 (some frameDig0)) (init defaultConfig 0 bootState) :=
  ⟨(C22_input_mode_writers (init defaultConfig 0 bootState)).2.2.2.1 100 frameHeartbeat
      (by decide!) (by decide!),
   by decide!,
   (C22_input_mode_writers (init defaultConfig 0 bootState)).2.2.2.2
      (Op.canProcess 0 (some frameDig0)) (by decide!)⟩

/-! ## LED selection in `update` -/

theorem update_cfg (now : Nat) (rawT : Int) (rawI : Ch → Int) (s : State) :
    (update now rawT rawI s).cfg = s.cfg := by
  unfold update
  rw [foldl_updateChannel_cfg, updateTemperature_cfg]

theorem driveOn_led (iA : ℚ) (i : Ch) (t : State) (ha : t.channelActive i = true) :
    (driveOn iA i t).channelActive i = true ∧
    (driveOn iA i t).currentLEDStates i = specLED (driveOn iA i t) iA i := by
  unfold driveOn digitalWrite specLED
  dsimp only
  simp only [ha, Bool.true_eq_false, false_and, if_false, Function.update_same, true_and]

theorem fuseStep_shape (now : Nat) (dt iA : ℚ) (i : Ch) (s : State) :
    (∃ t : State, fuseStep now dt iA i s = driveOn iA i t ∧
      t.channelActive i = s.channelActive i) ∨
    ((fuseStep now dt iA i s).channelActive i = false ∧
      (fuseStep now dt iA i s).currentLEDStates i = s.currentLEDStates i) := by
  unfold fuseStep
  dsimp only
  split_ifs
  · right
    rw [setChannel_eq]
    exact ⟨by simp, rfl⟩
  · exact Or.inl ⟨_, rfl, rfl⟩
  · exact Or.inl ⟨_, rfl, rfl⟩
  · right
    rw [setChannel_eq]
    exact ⟨by simp, rfl⟩
  · exact Or.inl ⟨_, rfl, rfl⟩
  · exact Or.inl ⟨_, rfl, rfl⟩

theorem fuseStep_led (now : Nat) (dt iA : ℚ) (i : Ch) (s : State)
    (ha : s.channelActive i = true) :
    ((fuseStep now dt iA i s).channelActive i = true →
      (fuseStep now dt iA i s).currentLEDStates i = specLED (fuseStep now dt iA i s) iA i) ∧
    ((fuseStep now dt iA i s).channelActive i = false →
      (fuseStep now dt iA i s).currentLEDStates i = s.currentLEDStates i) := by
  rcases fuseStep_shape now dt iA i s with ⟨t, ht, hta⟩ | ⟨h1, h2⟩
  · rw [ht]
    have hd := driveOn_led iA i t (hta.trans ha)
    refine ⟨fun _ => hd.2, fun hoff => ?_⟩
    rw [hd.1] at hoff
    exact Bool.noConfusion hoff
  · refine ⟨fun hon => ?_, fun _ => h2⟩
    rw [h1] at hon
    exact Bool.noConfusion hon



theorem specLED_congr (a b : State) (iA : ℚ) (ch : Ch) (hv : a.view ch = b.view ch)
    (hc : a.cfg = b.cfg) : specLED a iA ch = specLED b iA ch := by
  have h1 := congrArg ChanView.channelActive hv
  have h2 := congrArg ChanView.faultThermal hv
  have h3 := congrArg ChanView.faultOvercurrent hv
  have h4 := congrArg ChanView.warningUndercurrent hv
  simp only [State.view] at h1 h2 h3 h4
  unfold specLED
  rw [h1, h2, h3, h4, hc]

theorem updateChannel_inactive_led (now : Nat) (dt T : ℚ) (rawI : Ch → Int) (s : State) (i : Ch)
    (iA : ℚ) (ha : s.channelActive i = false) (hT : T < s.cfg.tempTripThreshold) :
    (updateChannel now dt T false rawI s i).currentLEDStates i =
      (if s.clearedFault i = true then LEDState.LED_STATE_OFF else specLED s iA i) ∧
    specLED (updateChannel now dt T false rawI s i) iA i = specLED s iA i := by
  have hT2 : ¬ (T ≥ s.cfg.tempTripThreshold) := not_le.mpr hT
  unfold updateChannel
  cases hc : s.clearedFault i
  · have c1 : ¬ ((false && !s.channelActive i) = true) := by simp
    rw [if_neg c1]
    simp only [ackCleared_eq, ha, hc, Bool.false_and, Bool.false_eq_true, if_false, hT2,
      Bool.not_false, if_true, digitalWrite, Function.update_same, specLED, true_and]
  · have c1 : (true && !s.channelActive i) = true := by simp [ha]
    rw [if_pos c1]
    simp only [digitalWrite, Function.update_same, if_true, specLED, true_and]

theorem updateChannel_thermal (now : Nat) (dt T : ℚ) (sensErr : Bool) (rawI : Ch → Int)
    (s : State) (i : Ch) (h : sensErr = true ∨ T ≥ s.cfg.tempTripThreshold) :
    updateChannel now dt T sensErr rawI s i =
      if (s.clearedFault i && !s.channelActive i) = true then
        digitalWrite i false
          { s with
            currentLEDStates := Function.update s.currentLEDStates i LEDState.LED_STATE_OFF }
      else shutdownGroup i (ackCleared i s) := by
  unfold updateChannel
  by_cases c1 : (s.clearedFault i && !s.channelActive i) = true
  · rw [if_pos c1, if_pos c1]
  · rw [if_neg c1, if_neg c1]
    dsimp only
    by_cases c2 : sensErr = true
    · rw [if_pos c2]
    · rw [if_neg c2]
      have hT : T ≥ (ackCleared i s).cfg.tempTripThreshold := by
        rw [ackCleared_eq]
        exact h.resolve_left c2
      rw [if_pos hT]

theorem updateChannel_thermal_led (now : Nat) (dt T : ℚ) (sensErr : Bool) (rawI : Ch → Int)
    (s : State) (i ch : Ch) (h : sensErr = true ∨ T ≥ s.cfg.tempTripThreshold)
    (hc : s.clearedFault ch = false) :
    (updateChannel now dt T sensErr rawI s i).currentLEDStates ch = s.currentLEDStates ch ∧
    (updateChannel now dt T sensErr rawI s i).clearedFault ch = false := by
  rw [updateChannel_thermal now dt T sensErr rawI s i h]
  by_cases c1 : (s.clearedFault i && !s.channelActive i) = true
  · rw [if_pos c1]
    have hne : ch ≠ i := by
      intro e
      subst e
      rw [hc] at c1
      simp at c1
    exact ⟨by simp [digitalWrite, Function.update_apply, hne], hc⟩
  · rw [if_neg c1, shutdownGroup_eq, ackCleared_eq]
    refine ⟨rfl, ?_⟩
    dsimp only
    split_ifs
    · by_cases e : ch = i
      · subst e; simp
      · simp [Function.update_apply, e, hc]
    · exact hc

theorem update_thermal_led (now : Nat) (rawT : Int) (rawI : Ch → Int) (s : State) (ch : Ch)
    (h : thermalTick now rawT s) (hc : s.clearedFault ch = false) :
    (update now rawT rawI s).currentLEDStates ch = s.currentLEDStates ch := by
  have hv := updateTemperature_view now rawT s ch
  have hl := congrArg ChanView.currentLEDStates hv
  have hcl := congrArg ChanView.clearedFault hv
  simp only [State.view] at hl hcl
  have hcfg := updateTemperature_cfg now rawT s
  have key := foldl_preserves
    (fun b : State => b.currentLEDStates ch = s.currentLEDStates ch ∧
      b.clearedFault ch = false ∧ b.cfg = s.cfg)
    (updateChannel now (tickDt now s) (updateTemperature now rawT s).filteredTemperature
      (sensorError (updateTemperature now rawT s)) rawI)
    (fun b a hb => by
      have hth : sensorError (updateTemperature now rawT s) = true ∨
          (updateTemperature now rawT s).filteredTemperature ≥ b.cfg.tempTripThreshold := by
        rw [hb.2.2]; exact h
      obtain ⟨r1, r2⟩ := updateChannel_thermal_led now _ _ _ rawI b a ch hth hb.2.1
      exact ⟨r1.trans hb.1, r2, (updateChannel_cfg _ _ _ _ _ _ _).trans hb.2.2⟩)
    allCh (updateTemperature now rawT s) ⟨hl, hcl.trans hc, hcfg⟩
  exact key.1



/-! ## LED states after a tick: claim C23 -/

/-- What `update` stores in `currentLEDStates`: (1) a channel that is active at
the end of the tick has the table row of its end-of-tick state (RED, BLUE,
AMBER or GREEN); (2) in a tick without thermal shutdown, a channel that was
inactive has OFF if its `clearedFault` flag was set and otherwise the table row
of its end-of-tick state (RED_FLASH, RED or OFF); (3) and (4): the branches
that switch a channel off (fuse blow, thermal shutdown with `clearedFault`
clear) leave the loop before the LED is chosen, so the entry is not written. -/
theorem update_led_after_tick (now : Nat) (rawT : Int) (rawI : Ch → Int) (s : State) (ch : Ch) :
    ((update now rawT rawI s).channelActive ch = true →
      (update now rawT rawI s).currentLEDStates ch =
        specLED (update now rawT rawI s) (measuredCurrent (rawI ch)) ch) ∧
    (¬ thermalTick now rawT s → s.channelActive ch = false →
      (update now rawT rawI s).currentLEDStates ch =
        (if s.clearedFault ch = true then LEDState.LED_STATE_OFF
          else specLED (update now rawT rawI s) (measuredCurrent (rawI ch)) ch)) ∧
    (¬ thermalTick now rawT s → s.channelActive ch = true →
      (update now rawT rawI s).channelActive ch = false →
      (update now rawT rawI s).currentLEDStates ch = s.currentLEDStates ch) ∧
    (thermalTick now rawT s → s.clearedFault ch = false →
      (update now rawT rawI s).currentLEDStates ch = s.currentLEDStates ch) := by
  have hcfg := update_cfg now rawT rawI s
  -- the channel loop in a tick without thermal shutdown
  have loc : ¬ thermalTick now rawT s →
      (update now rawT rawI s).view ch =
        (updateChannel now (tickDt now s) (updateTemperature now rawT s).filteredTemperature
          false rawI s ch).view ch ∧
      (updateTemperature now rawT s).filteredTemperature < s.cfg.tempTripThreshold := by
    intro hn
    unfold thermalTick at hn
    push_neg at hn
    have hs : sensorError (updateTemperature now rawT s) = false := by
      cases hq : sensorError (updateTemperature now rawT s)
      · rfl
      · exact absurd hq hn.1
    exact ⟨update_view now rawT rawI s ch hs hn.2, hn.2⟩
  have active : ¬ thermalTick now rawT s → s.channelActive ch = true →
      ((update now rawT rawI s).channelActive ch = true →
        (update now rawT rawI s).currentLEDStates ch =
          specLED (update now rawT rawI s) (measuredCurrent (rawI ch)) ch) ∧
      ((update now rawT rawI s).channelActive ch = false →
        (update now rawT rawI s).currentLEDStates ch = s.currentLEDStates ch) := by
    intro hn ha
    obtain ⟨hv, hT⟩ := loc hn
    obtain ⟨t0, ht0, ht0a, ht0c, ht0l⟩ : ∃ t0 : State,
        updateChannel now (tickDt now s) (updateTemperature now rawT s).filteredTemperature
          false rawI s ch = fuseStep now (tickDt now s) (measuredCurrent (rawI ch)) ch t0 ∧
        t0.channelActive ch = true ∧ t0.cfg = s.cfg ∧
        t0.currentLEDStates ch = s.currentLEDStates ch :=
      ⟨_, updateChannel_active now _ _ rawI s ch ha hT, ha, rfl, rfl⟩
    rw [ht0] at hv
    have hl := congrArg ChanView.currentLEDStates hv
    have hact := congrArg ChanView.channelActive hv
    simp only [State.view] at hl hact
    have hfl := fuseStep_led now (tickDt now s) (measuredCurrent (rawI ch)) ch t0 ht0a
    have hsp := specLED_congr _ _ (measuredCurrent (rawI ch)) ch hv
      (hcfg.trans ((fuseStep_cfg now (tickDt now s) (measuredCurrent (rawI ch)) ch t0).trans
        ht0c).symm)
    constructor
    · intro hon
      rw [hl, hsp]
      exact hfl.1 (hact ▸ hon)
    · intro hoff
      rw [hl, ← ht0l]
      exact hfl.2 (hact ▸ hoff)
  refine ⟨?_, ?_, ?_, ?_⟩
  · intro hon
    have hn : ¬ thermalTick now rawT s := by
      intro hth
      rw [(update_thermal_off now rawT rawI s ch hth).1] at hon
      exact Bool.noConfusion hon
    exact (active hn (update_active_mono now rawT rawI s ch hon)).1 hon
  · intro hn ha
    obtain ⟨hv, hT⟩ := loc hn
    have hl := congrArg ChanView.currentLEDStates hv
    simp only [State.view] at hl
    obtain ⟨r1, r2⟩ := updateChannel_inactive_led now (tickDt now s) _ rawI s ch
      (measuredCurrent (rawI ch)) ha hT
    have hsp := specLED_congr _ _ (measuredCurrent (rawI ch)) ch hv
      (hcfg.trans (updateChannel_cfg _ _ _ _ _ _ _).symm)
    rw [hl, r1, hsp, r2]
  · intro hn ha hoff
    exact (active hn ha).2 hoff
  · intro hth hc
    exact update_thermal_led now rawT rawI s ch hth hc

/-- C23 (code defect). The branches of `update` that switch a channel off leave
the loop before the LED is chosen, so the LED keeps its old value although the
table row is RED.  (a) Channel 0 is on with LED AMBER (6.01 A above the 3 A
threshold); in the tick at 1500 ms its steady-state fuse blows: the channel
ends the tick inactive with `faultOvercurrent`, the table row is RED, but the
LED is still AMBER.  (b) Channel 0 is on with LED OFF; in the tick at 100 ms
the thermal trip shuts it down: the channel ends the tick inactive and flagged,
the table row is RED, but the LED is still OFF.  (c) Default configuration,
channel 0 is on with LED GREEN; the temperature reading 290 (about 91.7 C)
trips the thermal shutdown in the tick at 7100 ms, and after this tick and
after the following ticks at 7200 ms and 7400 ms the channel is inactive and
flagged, the table row is RED, and the LED is still GREEN. -/
theorem C23_led_stale_on_shutdown :
    (sWarm.channelActive 0 = true ∧ sWarm.currentLEDStates 0 = LEDState.LED_STATE_AMBER ∧
      (update 1500 150 rawHigh0 sWarm).channelActive 0 = false ∧
      (update 1500 150 rawHigh0 sWarm).faultOvercurrent 0 = true ∧
      specLED (update 1500 150 rawHigh0 sWarm) (measuredCurrent (rawHigh0 0)) 0 =
        LEDState.LED_STATE_RED ∧
      (update 1500 150 rawHigh0 sWarm).currentLEDStates 0 = LEDState.LED_STATE_AMBER) ∧
    (sTrip.channelActive 0 = true ∧ thermalTick 100 150 sTrip ∧
      (update 100 150 rawHigh0 sTrip).channelActive 0 = false ∧
      (update 100 150 rawHigh0 sTrip).faultOvercurrent 0 = true ∧
      specLED (update 100 150 rawHigh0 sTrip) (measuredCurrent (rawHigh0 0)) 0 =
        LEDState.LED_STATE_RED ∧
      (update 100 150 rawHigh0 sTrip).currentLEDStates 0 = LEDState.LED_STATE_OFF) ∧
    (sGreen.channelActive 0 = true ∧ sGreen.currentLEDStates 0 = LEDState.LED_STATE_GREEN ∧
      thermalTick 7100 290 sGreen ∧
      ∀ s ∈ [update 7100 290 rawLow sGreen,
          update 7200 290 rawLow (update 7100 290 rawLow sGreen),
          update 7400 290 rawLow (update 7200 290 rawLow (update 7100 290 rawLow sGreen))],
        s.channelActive 0 = false ∧ s.faultOvercurrent 0 = true ∧ s.clearedFault 0 = false ∧
        specLED s (measuredCurrent (rawLow 0)) 0 = LEDState.LED_STATE_RED ∧
        s.currentLEDStates 0 = LEDState.LED_STATE_GREEN) := by
  refine ⟨by decide!, by decide!, by decide!, by decide!, by decide!, ?_⟩
  simp only [List.mem_cons, List.mem_singleton, List.not_mem_nil, or_false, forall_eq_or_imp,
    forall_eq]
  decide!

/-! ## LED frame packing: claim C24 -/

theorem ledStatusStep_eq (states : Ch → LEDState) (data : Fin 8 → Nat) (i : Ch) (k : Fin 8) :
    ledStatusStep states data i k =
      data k ||| (if ledLights (states i) k = true then (1 <<< i.val) % 256 else 0) := by
  unfold ledStatusStep
  cases states i <;> fin_cases k <;> simp [ledLights, Function.update_apply]

theorem ledBlinkStep_eq (states : Ch → LEDState) (data : Fin 8 → Nat) (i : Ch) (k : Fin 8) :
    ledBlinkStep states data i k =
      (if ledBlinks (states i) k = true then (data k ||| (1 <<< i.val)) % 256 else data k) := by
  unfold ledBlinkStep ledBlinks
  by_cases h : states i = LEDState.LED_STATE_RED_FLASH
  · fin_cases k <;> simp [h, Function.update_apply]
  · simp [h]

theorem blinkBits_spec : ∀ r0 r1 r2 r3 : Bool,
    let x1 := if r0 = true then (0 ||| (1 <<< 0)) % 256 else 0
    let x2 := if r1 = true then (x1 ||| (1 <<< 1)) % 256 else x1
    let x3 := if r2 = true then (x2 ||| (1 <<< 2)) % 256 else x2
    let x4 := if r3 = true then (x3 ||| (1 <<< 3)) % 256 else x3
    x4.testBit 0 = r0 ∧ x4.testBit 1 = r1 ∧ x4.testBit 2 = r2 ∧ x4.testBit 3 = r3 ∧ x4 < 16 := by
  decide

theorem ledBlinkData_packed (states : Ch → LEDState) (k : Fin 8) :
    (∀ ch : Ch, (allCh.foldl (ledBlinkStep states) (fun _ => 0) k).testBit ch.val =
      ledBlinks (states ch) k) ∧
    allCh.foldl (ledBlinkStep states) (fun _ => 0) k < 16 := by
  simp only [allCh, List.foldl, ledBlinkStep_eq]
  have h := blinkBits_spec (ledBlinks (states 0) k) (ledBlinks (states 1) k)
    (ledBlinks (states 2) k) (ledBlinks (states 3) k)
  refine ⟨fun ch => ?_, h.2.2.2.2⟩
  fin_cases ch
  · exact h.1
  · exact h.2.1
  · exact h.2.2.1
  · exact h.2.2.2.1

theorem orBits_spec : ∀ r0 r1 r2 r3 : Bool,
    let x := (((0 ||| (if r0 = true then (1 <<< 0) % 256 else 0)) |||
      (if r1 = true then (1 <<< 1) % 256 else 0)) |||
      (if r2 = true then (1 <<< 2) % 256 else 0)) |||
      (if r3 = true then (1 <<< 3) % 256 else 0)
    x.testBit 0 = r0 ∧ x.testBit 1 = r1 ∧ x.testBit 2 = r2 ∧ x.testBit 3 = r3 ∧ x < 16 := by
  decide

theorem ledStatusData_packed (states : Ch → LEDState) (k : Fin 8) :
    (∀ ch : Ch, (allCh.foldl (ledStatusStep states) (fun _ => 0) k).testBit ch.val =
      ledLights (states ch) k) ∧
    allCh.foldl (ledStatusStep states) (fun _ => 0) k < 16 := by
  simp only [allCh, List.foldl, ledStatusStep_eq]
  have h := orBits_spec (ledLights (states 0) k) (ledLights (states 1) k)
    (ledLights (states 2) k) (ledLights (states 3) k)
  refine ⟨fun ch => ?_, h.2.2.2.2⟩
  fin_cases ch
  · exact h.1
  · exact h.2.1
  · exact h.2.2.1
  · exact h.2.2.2.1

theorem fin16_zero_of_no_bits :
    ∀ x : Fin 16, (∀ ch : Ch, x.val.testBit ch.val = false) → x.val = 0 := by
  decide

theorem lt16_zero_of_no_bits (x : Nat) (hx : x < 16) (h : ∀ ch : Ch, x.testBit ch.val = false) :
    x = 0 :=
  fin16_zero_of_no_bits ⟨x, hx⟩ h

/-- C24. LED frame packing: for every array of four LED states,
`sendKeypadLEDStatus` emits an 8-byte frame with id `0x200 + keypadNodeID` in
which bit `ch` of byte 0 is set iff `states[ch]` is RED or AMBER, bit `ch` of
byte 1 iff GREEN or AMBER, bit `ch` of byte 2 iff BLUE, and bits 4..7 of these
bytes and bytes 3..7 are zero; `sendKeypadLEDBlinkStatus` emits an 8-byte frame
with id `0x300 + keypadNodeID` in which bit `ch` of byte 0 is set iff
`states[ch]` is RED_FLASH and every other bit is zero. -/
theorem C24_led_frame_packing (s : State) (states : Ch → LEDState) :
    ((sendKeypadLEDStatus s states).id = 0x200 + s.cfg.keypadNodeID ∧
      (sendKeypadLEDStatus s states).data_length = 8 ∧
      (∀ ch : Ch, ((sendKeypadLEDStatus s states).data 0).testBit ch.val = true ↔
        (states ch = LEDState.LED_STATE_RED ∨ states ch = LEDState.LED_STATE_AMBER)) ∧
      (∀ ch : Ch, ((sendKeypadLEDStatus s states).data 1).testBit ch.val = true ↔
        (states ch = LEDState.LED_STATE_GREEN ∨ states ch = LEDState.LED_STATE_AMBER)) ∧
      (∀ ch : Ch, ((sendKeypadLEDStatus s states).data 2).testBit ch.val = true ↔
        states ch = LEDState.LED_STATE_BLUE) ∧
      (sendKeypadLEDStatus s states).data 0 < 16 ∧ (sendKeypadLEDStatus s states).data 1 < 16 ∧
      (sendKeypadLEDStatus s states).data 2 < 16 ∧
      (∀ k : Fin 8, 3 ≤ k.val → (sendKeypadLEDStatus s states).data k = 0)) ∧
    ((sendKeypadLEDBlinkStatus s states).id = 0x300 + s.cfg.keypadNodeID ∧
      (sendKeypadLEDBlinkStatus s states).data_length = 8 ∧
      (∀ ch : Ch, ((sendKeypadLEDBlinkStatus s states).data 0).testBit ch.val = true ↔
        states ch = LEDState.LED_STATE_RED_FLASH) ∧
      (sendKeypadLEDBlinkStatus s states).data 0 < 16 ∧
      (∀ k : Fin 8, 1 ≤ k.val → (sendKeypadLEDBlinkStatus s states).data k = 0)) := by
  have hs := ledStatusData_packed states
  have hb := ledBlinkData_packed states
  refine ⟨⟨rfl, rfl, fun ch => ?_, fun ch => ?_, fun ch => ?_, (hs 0).2, (hs 1).2, (hs 2).2,
    fun k hk => ?_⟩, ⟨rfl, rfl, fun ch => ?_, (hb 0).2, fun k hk => ?_⟩⟩
  · show (allCh.foldl (ledStatusStep states) (fun _ => 0) 0).testBit ch.val = true ↔ _
    rw [(hs 0).1 ch]
    simp [ledLights]
  · show (allCh.foldl (ledStatusStep states) (fun _ => 0) 1).testBit ch.val = true ↔ _
    rw [(hs 1).1 ch]
    simp [ledLights]
  · show (allCh.foldl (ledStatusStep states) (fun _ => 0) 2).testBit ch.val = true ↔ _
    rw [(hs 2).1 ch]
    simp [ledLights]
  · apply lt16_zero_of_no_bits _ (hs k).2
    intro ch
    show (allCh.foldl (ledStatusStep states) (fun _ => 0) k).testBit ch.val = false
    rw [(hs k).1 ch]
    have h0 : k ≠ 0 := by intro e; subst e; simp at hk
    have h1 : k ≠ 1 := by intro e; subst e; simp at hk
    have h2 : k ≠ 2 := by intro e; subst e; simp at hk
    simp [ledLights, h0, h1, h2]
  · show (allCh.foldl (ledBlinkStep states) (fun _ => 0) 0).testBit ch.val = true ↔ _
    rw [(hb 0).1 ch]
    simp [ledBlinks]
  · apply lt16_zero_of_no_bits _ (hb k).2
    intro ch
    show (allCh.foldl (ledBlinkStep states) (fun _ => 0) k).testBit ch.val = false
    rw [(hb k).1 ch]
    have h0 : k ≠ 0 := by intro e; subst e; simp at hk
    simp [ledBlinks, h0]

/-! ## The telemetry frame: claims C25 to C28 -/

set_option maxRecDepth 100000 in
theorem currentByte_exact : ∀ n : Fin 1024,
    constrain (roundHalfAway (f32 (getChannelCurrent (n.val : Int) * 5))) 0 255 =
      constrain (roundHalfAway (5 * measuredCurrent (n.val : Int))) 0 255 := by
  decide!

set_option maxRecDepth 100000 in
theorem batteryField_exact : ∀ n : Fin 1024,
    roundHalfAway (f32 (readBatteryVoltage (n.val : Int) * 1000)) =
      if n.val = 437 then 8544 else roundHalfAway ((n.val : Int) / 1023 * 5 * 4 * 1000 : ℚ) := by
  decide!

set_option maxRecDepth 100000 in
theorem batteryField_range : ∀ n : Fin 1024,
    0 ≤ roundHalfAway ((n.val : Int) / 1023 * 5 * 4 * 1000 : ℚ) ∧
      roundHalfAway ((n.val : Int) / 1023 * 5 * 4 * 1000 : ℚ) ≤ 20000 := by
  decide!

theorem adc_cases (raw : Int) (h0 : 0 ≤ raw) (h1 : raw ≤ 1023) :
    ∃ n : Fin 1024, raw = (n.val : Int) :=
  ⟨⟨raw.toNat, by omega⟩, by simp [Int.toNat_of_nonneg h0]⟩

theorem constrain_range (v : Int) : 0 ≤ constrain v 0 255 ∧ constrain v 0 255 ≤ 255 := by
  unfold constrain
  split_ifs <;> omega

theorem constrain_byte (v : Int) : (constrain v 0 255).toNat % 256 = (constrain v 0 255).toNat := by
  have h := constrain_range v
  omega

theorem u16_split (v : Nat) (h : v < 65536) :
    (v &&& 0xFF) + 256 * ((v >>> 8) % 256) = v := by
  have e : (0xFF : Nat) = 2 ^ 8 - 1 := by norm_num
  have e2 : (2 : Nat) ^ 8 = 256 := by norm_num
  rw [e, Nat.and_pow_two_sub_one_eq_mod, Nat.shiftRight_eq_div_pow, e2]
  omega

theorem roundHalfAway_neg (x : ℚ) (h : x < 0) : roundHalfAway x ≤ 0 := by
  unfold roundHalfAway
  rw [if_neg (not_le.mpr h)]
  have : (0 : Int) ≤ ⌊-x + 1 / 2⌋ := Int.floor_nonneg.mpr (by linarith)
  omega

theorem roundHalfAway_ge (x : ℚ) (n : Int) (hn : 0 ≤ n) (h : (n : ℚ) ≤ x) :
    n ≤ roundHalfAway x := by
  have hx : (0 : ℚ) ≤ x := le_trans (by exact_mod_cast hn) h
  unfold roundHalfAway
  rw [if_pos hx]
  exact Int.le_floor.mpr (by linarith)

theorem roundHalfAway_near (x : ℚ) : |(roundHalfAway x : ℚ) - x| ≤ 1 / 2 := by
  unfold roundHalfAway
  split_ifs with h
  · have h1 := Int.floor_le (x + 1 / 2)
    have h2 := Int.lt_floor_add_one (x + 1 / 2)
    rw [abs_le]
    constructor <;> linarith
  · have h1 := Int.floor_le (-x + 1 / 2)
    have h2 := Int.lt_floor_add_one (-x + 1 / 2)
    push_cast
    rw [abs_le]
    constructor <;> linarith

theorem updateTemperature_last (now : Nat) (rawT : Int) (s : State) :
    (updateTemperature now rawT s).lastTemperature =
      (updateTemperature now rawT s).filteredTemperature := by
  simp only [updateTemperature]

theorem telemetry_currentByte (rawI : Ch → Int) (rawA5 : Int) (s : State) (i : Ch) :
    (telemetryFrame rawI rawA5 s).data (byteIx i) =
      (constrain (roundHalfAway (f32 (getChannelCurrent (rawI i) * 5))) 0 255).toNat % 256 := by
  fin_cases i <;> rfl

/-- C25. Telemetry scaling: in the frame built by `sendTelemetry`, byte `i`
(`i = 0..3`) equals `round(5 * current_i)` clamped to `[0,255]`, where
`current_i` is the load current computed from the ADC reading (`0..1023`) of
channel `i`; the `float` evaluation gives the exactly rounded value for every
reading.  Byte 4 equals `round(T)` clamped to `[0,255]`, where `T` is
`lastTemperature`; after every `update` this is the filtered temperature.
Every negative temperature encodes as 0, every temperature `≥ 255` as 255, and
in between the byte is within 1/2 of `T`. -/
theorem C25_telemetry_scaling (rawI : Ch → Int) (rawA5 : Int) (s : State) :
    (∀ i : Ch, 0 ≤ rawI i → rawI i ≤ 1023 →
      ((telemetryFrame rawI rawA5 s).data (byteIx i) : Int) =
        constrain (roundHalfAway (5 * measuredCurrent (rawI i))) 0 255) ∧
    ((telemetryFrame rawI rawA5 s).data 4 : Int) =
      constrain (roundHalfAway s.lastTemperature) 0 255 ∧
    (s.lastTemperature < 0 → (telemetryFrame rawI rawA5 s).data 4 = 0) ∧
    (s.lastTemperature ≥ 255 → (telemetryFrame rawI rawA5 s).data 4 = 255) ∧
    (0 ≤ s.lastTemperature → s.lastTemperature ≤ 255 →
      |((telemetryFrame rawI rawA5 s).data 4 : ℚ) - s.lastTemperature| ≤ 1 / 2) ∧
    (∀ now rawT rawI0 s0, s = update now rawT rawI0 s0 →
      s.lastTemperature = s.filteredTemperature) := by
  have h4 : (telemetryFrame rawI rawA5 s).data 4 =
      (constrain (roundHalfAway s.lastTemperature) 0 255).toNat % 256 := rfl
  have hT : ((telemetryFrame rawI rawA5 s).data 4 : Int) =
      constrain (roundHalfAway s.lastTemperature) 0 255 := by
    rw [h4, constrain_byte]
    exact Int.toNat_of_nonneg (constrain_range _).1
  refine ⟨fun i h0 h1 => ?_, hT, fun hneg => ?_, fun hbig => ?_, fun h0 h1 => ?_, ?_⟩
  · rw [telemetry_currentByte, constrain_byte]
    obtain ⟨n, hn⟩ := adc_cases (rawI i) h0 h1
    rw [Int.toNat_of_nonneg (constrain_range _).1, hn]
    exact currentByte_exact n
  · have hr := roundHalfAway_neg _ hneg
    have : constrain (roundHalfAway s.lastTemperature) 0 255 = 0 := by
      unfold constrain
      split_ifs <;> omega
    rw [this] at hT
    exact_mod_cast hT
  · have hr := roundHalfAway_ge s.lastTemperature 255 (by norm_num) (by exact_mod_cast hbig)
    have : constrain (roundHalfAway s.lastTemperature) 0 255 = 255 := by
      unfold constrain
      split_ifs <;> omega
    rw [this] at hT
    exact_mod_cast hT
  · have hr0 := roundHalfAway_ge s.lastTemperature 0 le_rfl (by exact_mod_cast h0)
    have hr1 : roundHalfAway s.lastTemperature ≤ 255 := by
      unfold roundHalfAway
      rw [if_pos h0]
      have : ⌊s.lastTemperature + 1 / 2⌋ < 256 := Int.floor_lt.mpr (by push_cast; linarith)
      omega
    have : constrain (roundHalfAway s.lastTemperature) 0 255 = roundHalfAway s.lastTemperature := by
      unfold constrain
      split_ifs <;> omega
    rw [this] at hT
    have hq : ((telemetryFrame rawI rawA5 s).data 4 : ℚ) =
        (roundHalfAway s.lastTemperature : ℚ) := by exact_mod_cast hT
    rw [hq]
    exact roundHalfAway_near _
  · intro now rawT rawI0 s0 hs
    subst hs
    have ht := update_tview now rawT rawI0 s0
    have e1 := congrArg TempView.lastTemperature ht
    have e2 := congrArg TempView.filteredTemperature ht
    simp only [State.tview] at e1 e2
    rw [e1, e2]
    exact updateTemperature_last now rawT s0

/-- Witness of C25: with the ADC reading 150 on channel 0 (6.01 A) byte 0 is 30,
and with the filtered temperature of `sWarm` (23.3 C) byte 4 is 23. -/
theorem C25_telemetry_scaling_witness :
    ((telemetryFrame rawHigh0 512 sWarm).data (byteIx 0) : Int) =
      constrain (roundHalfAway (5 * measuredCurrent (rawHigh0 0))) 0 255 ∧
    (telemetryFrame rawHigh0 512 sWarm).data (byteIx 0) = 30 ∧
    (telemetryFrame rawHigh0 512 sWarm).data 4 = 23 ∧
    |((telemetryFrame rawHigh0 512 sWarm).data 4 : ℚ) - sWarm.lastTemperature| ≤ 1 / 2 ∧
    sWarm.lastTemperature = sWarm.filteredTemperature :=
  have h := C25_telemetry_scaling rawHigh0 512 sWarm
  ⟨h.1 0 (by decide) (by decide), by decide!, by decide!,
   h.2.2.2.2.1 (by decide!) (by decide!), h.2.2.2.2.2 100 150 rawHigh0 sOn rfl⟩

theorem bools_eta (w : Ch → Bool) :
    w = fun i => if i = 0 then w 0 else if i = 1 then w 1 else if i = 2 then w 2 else w 3 := by
  funext i
  fin_cases i <;> rfl

theorem faultMask_bits : ∀ w0 w1 w2 w3 f0 f1 f2 f3 : Bool,
    let w : Ch → Bool := fun i => if i = 0 then w0 else if i = 1 then w1 else if i = 2 then w2 else w3
    let f : Ch → Bool := fun i => if i = 0 then f0 else if i = 1 then f1 else if i = 2 then f2 else f3
    (∀ ch : Ch, (faultMask w f).testBit ch.val = w ch) ∧
    (∀ ch : Ch, (faultMask w f).testBit (ch.val + 4) = f ch) ∧
    faultMask w f < 256 := by
  decide!

/-- C26. Telemetry fault mask: in the frame built by `sendTelemetry`, for every
channel `ch` bit `ch` of byte 5 is set iff `warningUndercurrent[ch]` and bit
`ch + 4` of byte 5 is set iff `faultOvercurrent[ch]`; byte 5 has no other bit,
and the thermal fault flags do not enter the frame. -/
theorem C26_telemetry_fault_mask (rawI : Ch → Int) (rawA5 : Int) (s : State) :
    (∀ ch : Ch, ((telemetryFrame rawI rawA5 s).data 5).testBit ch.val = true ↔
      s.warningUndercurrent ch = true) ∧
    (∀ ch : Ch, ((telemetryFrame rawI rawA5 s).data 5).testBit (ch.val + 4) = true ↔
      s.faultOvercurrent ch = true) ∧
    (telemetryFrame rawI rawA5 s).data 5 < 256 ∧
    (∀ ft : Ch → Bool,
      telemetryFrame rawI rawA5 { s with faultThermal := ft } = telemetryFrame rawI rawA5 s) := by
  have h := faultMask_bits (s.warningUndercurrent 0) (s.warningUndercurrent 1)
    (s.warningUndercurrent 2) (s.warningUndercurrent 3) (s.faultOvercurrent 0)
    (s.faultOvercurrent 1) (s.faultOvercurrent 2) (s.faultOvercurrent 3)
  rw [← bools_eta s.warningUndercurrent, ← bools_eta s.faultOvercurrent] at h
  have h5 : (telemetryFrame rawI rawA5 s).data 5 =
      faultMask s.warningUndercurrent s.faultOvercurrent := rfl
  rw [h5]
  refine ⟨fun ch => ?_, fun ch => ?_, h.2.2, fun ft => rfl⟩
  · rw [h.1 ch]
  · rw [h.2.1 ch]

/-- C27 (counterexample). For the ADC reading 437 the `float` evaluation
`437/1023*5*4*1000` gives exactly 8543.5, which rounds to 8544, while the exact
value 8543.4995... rounds to 8543: bytes 6 and 7 encode 8544. -/
theorem C27_battery_off_by_one :
    f32 (readBatteryVoltage 437 * 1000) = 17087 / 2 ∧
    (telemetryFrame rawHigh0 437 sOn).data 6 + 256 * (telemetryFrame rawHigh0 437 sOn).data 7
      = 8544 ∧
    roundHalfAway ((437 : Int) / 1023 * 5 * 4 * 1000 : ℚ) = 8543 := by
  decide!

/-- C27 (amended). For every ADC reading `raw` in `0..1023`, bytes 6 and 7 of
the telemetry frame hold, little-endian and without truncation, the rounded
`float` value of the battery voltage in millivolts; it equals
`round(raw/1023 * 5 * 4 * 1000)` for every reading except 437, where it is
8544 (one more than the exactly rounded 8543), and it never exceeds 20000. -/
theorem C27_battery_field (rawI : Ch → Int) (rawA5 : Int) (s : State)
    (h0 : 0 ≤ rawA5) (h1 : rawA5 ≤ 1023) :
    (telemetryFrame rawI rawA5 s).data 6 < 256 ∧ (telemetryFrame rawI rawA5 s).data 7 < 256 ∧
    (((telemetryFrame rawI rawA5 s).data 6 + 256 * (telemetryFrame rawI rawA5 s).data 7 : Nat)
        : Int) = roundHalfAway (f32 (readBatteryVoltage rawA5 * 1000)) ∧
    (rawA5 ≠ 437 →
      (((telemetryFrame rawI rawA5 s).data 6 + 256 * (telemetryFrame rawI rawA5 s).data 7 : Nat)
        : Int) = roundHalfAway ((rawA5 : ℚ) / 1023 * 5 * 4 * 1000)) ∧
    (rawA5 = 437 →
      (telemetryFrame rawI rawA5 s).data 6 + 256 * (telemetryFrame rawI rawA5 s).data 7 = 8544) ∧
    (telemetryFrame rawI rawA5 s).data 6 + 256 * (telemetryFrame rawI rawA5 s).data 7 ≤ 20000 := by
  obtain ⟨n, hn⟩ := adc_cases rawA5 h0 h1
  have hex := batteryField_exact n
  have hrg := batteryField_range n
  rw [← hn] at hex hrg
  have h6 : (telemetryFrame rawI rawA5 s).data 6 =
      (roundHalfAway (f32 (readBatteryVoltage rawA5 * 1000))).toNat % 65536 &&& 0xFF := rfl
  have h7 : (telemetryFrame rawI rawA5 s).data 7 =
      (((roundHalfAway (f32 (readBatteryVoltage rawA5 * 1000))).toNat % 65536) >>> 8) % 256 := rfl
  have hb : 0 ≤ roundHalfAway (f32 (readBatteryVoltage rawA5 * 1000)) ∧
      roundHalfAway (f32 (readBatteryVoltage rawA5 * 1000)) ≤ 20000 := by
    rw [hex]
    split_ifs
    · constructor <;> norm_num
    · exact hrg
  generalize roundHalfAway (f32 (readBatteryVoltage rawA5 * 1000)) = r at hex hb h6 h7
  have hlt : r.toNat < 65536 := by omega
  rw [Nat.mod_eq_of_lt hlt] at h6 h7
  have hsum := u16_split r.toNat hlt
  rw [← h6, ← h7] at hsum
  have hr : (r.toNat : Int) = r := Int.toNat_of_nonneg hb.1
  have e : (0xFF : Nat) = 2 ^ 8 - 1 := by norm_num
  refine ⟨?_, ?_, ?_, fun hne => ?_, fun heq => ?_, ?_⟩
  · rw [h6, e, Nat.and_pow_two_sub_one_eq_mod]
    exact Nat.mod_lt _ (by norm_num)
  · rw [h7]
    exact Nat.mod_lt _ (by norm_num)
  · rw [hsum, hr]
  · rw [hsum, hr, hex]
    have hne' : ¬ (n.val = 437) := by
      intro e437
      apply hne
      rw [hn, e437]
      rfl
    rw [if_neg hne']
  · rw [hsum]
    have e437 : n.val = 437 := by
      have : ((n.val : Int)) = 437 := by rw [← hn]; exact heq
      exact_mod_cast this
    rw [if_pos e437] at hex
    omega
  · rw [hsum]
    omega

/-- Witness of C27: the frame built from the battery reading 512. -/
theorem C27_battery_field_witness :
    ((((telemetryFrame rawHigh0 512 sOn).data 6 + 256 * (telemetryFrame rawHigh0 512 sOn).data 7
        : Nat) : Int) = roundHalfAway ((512 : Int) / 1023 * 5 * 4 * 1000 : ℚ)) ∧
    (telemetryFrame rawHigh0 512 sOn).data 6 + 256 * (telemetryFrame rawHigh0 512 sOn).data 7
      ≤ 20000 :=
  have h := C27_battery_field rawHigh0 512 sOn (by decide) (by decide)
  ⟨h.2.2.2.1 (by decide), h.2.2.2.2.2⟩

theorem subU32_le (a b : Nat) (h : b ≤ a) : subU32 a b ≤ a - b := by
  unfold subU32 U32
  omega

theorem telemetryTimes_chain (calls : List TelemetryCall) :
    ∀ last : Nat, List.Chain (fun a b => a ≤ b) last (calls.map TelemetryCall.now) →
      List.Chain (fun a b => a + 250 ≤ b) last (telemetryTimes calls last) := by
  induction calls with
  | nil => intro last _; exact List.Chain.nil
  | cons c rest ih =>
    intro last hch
    rw [List.map_cons, List.chain_cons] at hch
    obtain ⟨hle, hrest⟩ := hch
    unfold telemetryTimes sendTelemetry
    by_cases hq : subU32 c.now last < 250
    · rw [if_pos hq]
      dsimp only
      apply ih
      -- the remaining calls are not earlier than `last`
      cases hr : rest.map TelemetryCall.now with
      | nil => exact List.Chain.nil
      | cons t ts =>
        rw [hr] at hrest
        rw [List.chain_cons] at hrest ⊢
        exact ⟨le_trans hle hrest.1, hrest.2⟩
    · rw [if_neg hq]
      dsimp only
      have h250 : last + 250 ≤ c.now := by
        have := subU32_le c.now last hle
        omega
      exact List.Chain.cons h250 (ih c.now hrest)



/-- C28. Telemetry rate limit: over any sequence of `sendTelemetry` calls at
non-decreasing times (starting at or after the stored time `last` of the
previous emission), each emitted frame is at least 250 ms after the previous
one; and a call made less than 250 ms after the last emission emits nothing
and leaves `last` unchanged (no other variable is written by `sendTelemetry`). -/
theorem C28_telemetry_rate_limit (calls : List TelemetryCall) (last : Nat)
    (h : List.Chain (fun a b => a ≤ b) last (calls.map TelemetryCall.now)) :
    List.Chain (fun a b => a + 250 ≤ b) last (telemetryTimes calls last) ∧
    (∀ (now : Nat) (rawI : Ch → Int) (rawA5 : Int) (s : State),
      last ≤ now → now < last + 250 → sendTelemetry now rawI rawA5 s last = (none, last)) := by
  refine ⟨telemetryTimes_chain calls last h, fun now rawI rawA5 s h1 h2 => ?_⟩
  have hq : subU32 now last < 250 := by
    have := subU32_le now last h1
    omega
  unfold sendTelemetry
  rw [if_pos hq]

/-- Witness of C28: calls at 100, 300, 400, 560 and 900 ms with `last = 0` send
frames at 300, 560 and 900 ms. -/
theorem C28_telemetry_rate_limit_witness :
    telemetryTimes
      [⟨100, rawHigh0, 512, sOn⟩, ⟨300, rawHigh0, 512, sOn⟩, ⟨400, rawHigh0, 512, sOn⟩,
        ⟨560, rawHigh0, 512, sOn⟩, ⟨900, rawHigh0, 512, sOn⟩] 0 = [300, 560, 900] ∧
    List.Chain (fun a b => a + 250 ≤ b) 0
      (telemetryTimes
        [⟨100, rawHigh0, 512, sOn⟩, ⟨300, rawHigh0, 512, sOn⟩, ⟨400, rawHigh0, 512, sOn⟩,
          ⟨560, rawHigh0, 512, sOn⟩, ⟨900, rawHigh0, 512, sOn⟩] 0) :=
  ⟨by decide!,
   (C28_telemetry_rate_limit
      [⟨100, rawHigh0, 512, sOn⟩, ⟨300, rawHigh0, 512, sOn⟩, ⟨400, rawHigh0, 512, sOn⟩,
        ⟨560, rawHigh0, 512, sOn⟩, ⟨900, rawHigh0, 512, sOn⟩] 0 (by simp)).1⟩

/-! ## Persistent configuration: claims C29 and C30 -/

theorem configBytes_cob (c : Config) (id : Nat) :
    configBytes { c with digitalOutCobId := id } = configBytes c := rfl

theorem calculateConfigCRC_cob (c : Config) (id : Nat) :
    calculateConfigCRC { c with digitalOutCobId := id } = calculateConfigCRC c := by
  unfold calculateConfigCRC
  rw [configBytes_cob]

theorem saveConfig_crc (c : Config) (e : Eeprom) :
    (saveConfig c e).crc = calculateConfigCRC c := by
  dsimp only [saveConfig]

theorem loadPayload_saved (c c' : Config) (e : Eeprom)
    (hs : c.canSpeedKbps = 125 ∨ c.canSpeedKbps = 250 ∨ c.canSpeedKbps = 1000)
    (hg : ∀ i, c.outputGroup i < 256) (hp : c.pdmNodeID < 256) (hk : c.keypadNodeID < 256) :
    loadPayload (saveConfig c e) c' = { c with digitalOutCobId := c'.digitalOutCobId } := by
  have hm : (fun i =>
      if modeValue (c.outputMode i) % 256 % 256 = modeValue OutputMode.MODE_MOMENTARY then
        OutputMode.MODE_MOMENTARY
      else OutputMode.MODE_LATCH) = c.outputMode := by
    funext i
    cases c.outputMode i <;> simp [modeValue]
  have hgr : (fun i => c.outputGroup i % 256 % 256) = c.outputGroup := by
    funext i
    have := hg i
    omega
  have hsp : (if c.canSpeedKbps % 256 % 256 = 125 ∨ c.canSpeedKbps % 256 % 256 = 250 ∨
        c.canSpeedKbps % 256 % 256 = 500 ∨ c.canSpeedKbps % 256 % 256 = 1000 then
        c.canSpeedKbps % 256 % 256
      else 1000) = c.canSpeedKbps := by
    rcases hs with h | h | h <;> rw [h] <;> decide
  have hpn : c.pdmNodeID % 256 % 256 = c.pdmNodeID := by omega
  have hkn : c.keypadNodeID % 256 % 256 = c.keypadNodeID := by omega
  unfold loadPayload
  dsimp only [saveConfig]
  rw [hm, hgr, hsp, hpn, hkn]

theorem loadConfig_magic (e : Eeprom) (c : Config) (hm : e.magic = 0xBEEF) :
    loadConfig e c =
      (loadPayload e c,
        if e.crc = calculateConfigCRC (loadPayload e c) then LoadMsg.OK_LOADED
        else LoadMsg.WARN_CRC_MISMATCH) := by
  have hm' : e.magic = EEPROM_MAGIC := hm
  unfold loadConfig
  rw [if_pos hm']
  dsimp only
  by_cases h : e.crc = calculateConfigCRC (loadPayload e c)
  · rw [if_pos h, if_pos h]
  · rw [if_neg h, if_neg h]

theorem loadConfig_saved (c c' : Config) (e : Eeprom)
    (hs : c.canSpeedKbps = 125 ∨ c.canSpeedKbps = 250 ∨ c.canSpeedKbps = 1000)
    (hg : ∀ i, c.outputGroup i < 256) (hp : c.pdmNodeID < 256) (hk : c.keypadNodeID < 256) :
    loadConfig (saveConfig c e) c' =
      ({ c with digitalOutCobId := c'.digitalOutCobId }, LoadMsg.OK_LOADED) := by
  have hc : (saveConfig c e).crc =
      calculateConfigCRC { c with digitalOutCobId := c'.digitalOutCobId } := by
    rw [saveConfig_crc]
    exact (calculateConfigCRC_cob c c'.digitalOutCobId).symm
  rw [loadConfig_magic _ _ rfl, loadPayload_saved c c' e hs hg hp hk, if_pos hc]

/-- C29 (counterexample). (a) The default configuration with
`canSpeedKbps = 500` is saved into an erased EEPROM and loaded again with no
change in between: `saveConfig` stores `(uint8_t)500 = 244`, `loadConfig`
replaces it by 1000, and the recomputed CRC differs from the stored one (the
CRC warning is printed).  (b) The default configuration with
`digitalOutCobId = 0x681` is saved, the COB-ID is set back to 0x680 in memory,
and `loadConfig` leaves it at 0x680. -/
theorem C29_save_load_loses_fields :
    ((saveConfig cfg500 eBlank).canSpeed = 244 ∧
      (loadConfig (saveConfig cfg500 eBlank) cfg500).1.canSpeedKbps = 1000 ∧
      (saveConfig cfg500 eBlank).crc ≠
        calculateConfigCRC (loadConfig (saveConfig cfg500 eBlank) cfg500).1 ∧
      (loadConfig (saveConfig cfg500 eBlank) cfg500).2 = LoadMsg.WARN_CRC_MISMATCH) ∧
    (cfgCob.digitalOutCobId = 0x681 ∧
      (loadConfig (saveConfig cfgCob eBlank) defaultConfig).1.digitalOutCobId = 0x680) := by
  decide!

/-- C29 (amended). For every configuration `c` whose `canSpeedKbps` is 125,
250 or 1000 (node ids and groups are `uint8_t`), `saveConfig` in `c` followed
by `loadConfig`, whatever configuration `c'` is in memory at that time,
restores every configuration variable of `c` except `digitalOutCobId`, which
keeps the value it has in memory, and the stored CRC equals the recomputed CRC
(the line printed is `OK`).  With no change in between the configuration is
`c` again. -/
theorem C29_save_load_round_trip (c c' : Config) (e : Eeprom)
    (hs : c.canSpeedKbps = 125 ∨ c.canSpeedKbps = 250 ∨ c.canSpeedKbps = 1000)
    (hg : ∀ i, c.outputGroup i < 256) (hp : c.pdmNodeID < 256) (hk : c.keypadNodeID < 256) :
    (loadConfig (saveConfig c e) c').1 = { c with digitalOutCobId := c'.digitalOutCobId } ∧
    (loadConfig (saveConfig c e) c').2 = LoadMsg.OK_LOADED ∧
    (saveConfig c e).crc = calculateConfigCRC (loadConfig (saveConfig c e) c').1 ∧
    (loadConfig (saveConfig c e) c).1 = c := by
  have h1 := loadConfig_saved c c' e hs hg hp hk
  have h2 := loadConfig_saved c c e hs hg hp hk
  refine ⟨by rw [h1], by rw [h1], ?_, by rw [h2]⟩
  rw [h1, saveConfig_crc]
  exact (calculateConfigCRC_cob c c'.digitalOutCobId).symm

/-- Witness of C29: the configuration with channels 0 and 1 ganged is saved,
the defaults are put back in memory, and `loadConfig` restores it. -/
theorem C29_save_load_round_trip_witness :
    (loadConfig (saveConfig cfgPair eBlank) defaultConfig).1 =
      { cfgPair with digitalOutCobId := defaultConfig.digitalOutCobId } ∧
    (loadConfig (saveConfig cfgPair eBlank) defaultConfig).2 = LoadMsg.OK_LOADED ∧
    (saveConfig cfgPair eBlank).crc =
      calculateConfigCRC (loadConfig (saveConfig cfgPair eBlank) defaultConfig).1 ∧
    (loadConfig (saveConfig cfgPair eBlank) cfgPair).1 = cfgPair :=
  C29_save_load_round_trip cfgPair defaultConfig eBlank (by decide!) (by decide!) (by decide!)
    (by decide!)

/-- C30 (counterexample). The EEPROM holds the magic `0xBEEF`, the payload of
the Momentary configuration and a stored CRC of 0, which differs from the CRC
of the payload.  `loadConfig` with the defaults in memory prints the CRC
warning, and the output modes in memory are now Momentary: the payload was
not discarded. -/
theorem C30_corrupt_payload_is_loaded :
    eCorrupt.magic = 0xBEEF ∧ eCorrupt.crc = 0 ∧ calculateConfigCRC cfgMomentary = 51878 ∧
    defaultConfig.outputMode 0 = OutputMode.MODE_LATCH ∧
    (loadConfig eCorrupt defaultConfig).2 = LoadMsg.WARN_CRC_MISMATCH ∧
    (loadConfig eCorrupt defaultConfig).1.outputMode 0 = OutputMode.MODE_MOMENTARY := by
  decide!

/-- C30 (amended). If the persistent store holds the magic `0xBEEF`,
`loadConfig` overwrites every persisted configuration variable in memory with
the stored payload (modes and CAN speed normalised) whether or not the CRC
matches, leaves `digitalOutCobId` as it is, and prints the CRC warning exactly
when the stored CRC differs from the CRC recomputed over the configuration
just loaded.  Without the magic nothing is changed. -/
theorem C30_load_with_crc_mismatch (e : Eeprom) (c : Config) :
    (e.magic = 0xBEEF →
      (loadConfig e c).1.ocThresholds = e.oc ∧
      (loadConfig e c).1.inrushThresholds = e.inrush ∧
      (loadConfig e c).1.inrushTimeLimits = e.inrushTime ∧
      (loadConfig e c).1.underWarnThresholds = e.underWarn ∧
      (loadConfig e c).1.tempWarnThreshold = e.tempWarn ∧
      (loadConfig e c).1.tempTripThreshold = e.tempTrip ∧
      (∀ i, (loadConfig e c).1.outputMode i =
        if e.mode i % 256 = 1 then OutputMode.MODE_MOMENTARY else OutputMode.MODE_LATCH) ∧
      (∀ i, (loadConfig e c).1.outputGroup i = e.group i % 256) ∧
      (loadConfig e c).1.canSpeedKbps =
        (if e.canSpeed % 256 = 125 ∨ e.canSpeed % 256 = 250 then e.canSpeed % 256 else 1000) ∧
      (loadConfig e c).1.pdmNodeID = e.pdmNodeID % 256 ∧
      (loadConfig e c).1.keypadNodeID = e.kpNodeID % 256 ∧
      (loadConfig e c).1.digitalOutCobId = c.digitalOutCobId ∧
      ((loadConfig e c).2 = LoadMsg.WARN_CRC_MISMATCH ↔
        e.crc ≠ calculateConfigCRC (loadConfig e c).1)) ∧
    (e.magic ≠ 0xBEEF → loadConfig e c = (c, LoadMsg.INFO_NO_SAVED_CONFIG)) := by
  constructor
  · intro hm
    have hsp : (loadPayload e c).canSpeedKbps =
        (if e.canSpeed % 256 = 125 ∨ e.canSpeed % 256 = 250 then e.canSpeed % 256 else 1000) := by
      have hlt : e.canSpeed % 256 < 256 := Nat.mod_lt _ (by norm_num)
      show (if e.canSpeed % 256 = 125 ∨ e.canSpeed % 256 = 250 ∨ e.canSpeed % 256 = 500 ∨
        e.canSpeed % 256 = 1000 then e.canSpeed % 256 else 1000) = _
      split_ifs with h1 h2 h2
      · rfl
      · omega
      · omega
      · rfl
    rw [loadConfig_magic e c hm]
    refine ⟨rfl, rfl, rfl, rfl, rfl, rfl, fun i => rfl, fun i => rfl, hsp, rfl, rfl, rfl, ?_⟩
    dsimp only
    by_cases h : e.crc = calculateConfigCRC (loadPayload e c)
    · rw [if_pos h]
      exact ⟨fun h' => absurd h' (by decide), fun h' => absurd h h'⟩
    · rw [if_neg h]
      exact ⟨fun _ => h, fun _ => rfl⟩
  · intro hm
    have hm' : ¬ e.magic = EEPROM_MAGIC := hm
    unfold loadConfig
    rw [if_neg hm']

/-- Witness of C30: the corrupted store of the counterexample (warning printed,
payload loaded) and the erased store (nothing changed). -/
theorem C30_load_with_crc_mismatch_witness :
    ((loadConfig eCorrupt defaultConfig).2 = LoadMsg.WARN_CRC_MISMATCH ↔
      eCorrupt.crc ≠ calculateConfigCRC (loadConfig eCorrupt defaultConfig).1) ∧
    loadConfig eBlank defaultConfig = (defaultConfig, LoadMsg.INFO_NO_SAVED_CONFIG) :=
  ⟨((C30_load_with_crc_mismatch eCorrupt defaultConfig).1 (by decide!)).2.2.2.2.2.2.2.2.2.2.2.2,
   (C30_load_with_crc_mismatch eBlank defaultConfig).2 (by decide!)⟩

/-! ## Console configuration commands: claims C31 and C32 -/

/-- C31. `PDMManager::setCANSpeed(k)` answers with an `OK:` line exactly when
`k` is one of 125, 250, 500, 1000; in that case it stores `k` as the CAN speed
and changes nothing else, and for every other `k` it answers with an `ERR:`
line and leaves the whole configuration unchanged. -/
theorem C31_can_speed_validation (k : Nat) (c : Config) :
    ((setCANSpeed k c).2 = Reply.OK ↔ (k = 125 ∨ k = 250 ∨ k = 500 ∨ k = 1000)) ∧
    ((k = 125 ∨ k = 250 ∨ k = 500 ∨ k = 1000) →
      (setCANSpeed k c).1 = { c with canSpeedKbps := k }) ∧
    (¬ (k = 125 ∨ k = 250 ∨ k = 500 ∨ k = 1000) → setCANSpeed k c = (c, Reply.ERR)) := by
  unfold setCANSpeed
  by_cases h : k = 125 ∨ k = 250 ∨ k = 500 ∨ k = 1000
  · rw [if_pos h]
    exact ⟨⟨fun _ => h, fun _ => rfl⟩, fun _ => rfl, fun hn => absurd h hn⟩
  · rw [if_neg h]
    exact ⟨⟨fun e => Reply.noConfusion e, fun hk => absurd hk h⟩, fun hk => absurd hk h,
      fun _ => rfl⟩

/-- Witness of C31: 500 is accepted and stored, 300 is refused. -/
theorem C31_can_speed_validation_witness :
    (setCANSpeed 500 defaultConfig).1 = { defaultConfig with canSpeedKbps := 500 } ∧
    setCANSpeed 300 defaultConfig = (defaultConfig, Reply.ERR) :=
  ⟨(C31_can_speed_validation 500 defaultConfig).2.1 (by decide),
    (C31_can_speed_validation 300 defaultConfig).2.2 (by decide)⟩

/-- No command of `uartProcess` checks the channel number: the setter is
called with the index `channelIndex a1` whatever the token is, and the reply is
`OK` unless the command is `MODE` with a second token other than `LATCH` and
`MOMENTARY`. -/
theorem uartProcess_reply (cmd : Command) (a1 a2 : Token) (c : Config)
    (hc : cmd ≠ Command.CANSPEED)
    (hm : cmd = Command.MODE → a2.text = "LATCH" ∨ a2.text = "MOMENTARY") :
    (uartProcess cmd a1 a2 c).2 = Reply.OK := by
  cases cmd
  · rfl
  · rfl
  · rfl
  · rfl
  · unfold uartProcess
    dsimp only
    rcases hm rfl with h | h
    · rw [if_pos h]; rfl
    · by_cases h1 : a2.text = "LATCH"
      · rw [if_pos h1]; rfl
      · rw [if_neg h1, if_pos h]; rfl
  · rfl
  · exact absurd rfl hc

/-- A channel index of 4 or more makes every per-channel setter store outside
its array. -/
theorem uartProcess_outside (cmd : Command) (a1 a2 : Token) (c : Config)
    (hc : cmd ≠ Command.CANSPEED)
    (hm : cmd = Command.MODE → a2.text = "LATCH" ∨ a2.text = "MOMENTARY")
    (hi : 4 ≤ channelIndex a1) :
    (uartProcess cmd a1 a2 c).1 = none := by
  have hs : ∀ {α : Type} (arr : Ch → α) (v : α), storeAt arr (channelIndex a1) v = none := by
    intro α arr v
    unfold storeAt
    rw [dif_neg (by omega)]
  cases cmd
  · simp only [uartProcess, setOvercurrentThreshold, hs, Option.map_none']
  · simp only [uartProcess, setInrushThreshold, hs, Option.map_none']
  · simp only [uartProcess, setInrushTimeLimit, hs, Option.map_none']
  · simp only [uartProcess, setUndercurrentWarning, hs, Option.map_none']
  · unfold uartProcess
    dsimp only
    rcases hm rfl with h | h
    · rw [if_pos h]; simp only [setOutputMode, hs, Option.map_none']
    · by_cases h1 : a2.text = "LATCH"
      · rw [if_pos h1]; simp only [setOutputMode, hs, Option.map_none']
      · rw [if_neg h1, if_pos h]; simp only [setOutputMode, hs, Option.map_none']
  · simp only [uartProcess, setOutputGroup, hs, Option.map_none']
  · exact absurd rfl hc

/-- C32 (evaluation at failing inputs). The per-channel commands do not check
the channel number.  (a) `OC 5 2.5` answers `OK:` and stores at index 4,
outside the array `ocThresholds`.  (b) `GROUP 0 5` and (c) `MODE x LATCH`, with
the channel tokens `0` and `x`, answer `OK:` and store at index 255.
(d) `OC 257 2.5` answers `OK:` and overwrites the threshold of channel 1
(index 0), because the index is reduced to a `uint8_t`. -/
theorem C32_channel_number_not_checked :
    (channelIndex tok5 = 4 ∧
      (uartProcess Command.OC tok5 tok2_5 defaultConfig).2 = Reply.OK ∧
      (uartProcess Command.OC tok5 tok2_5 defaultConfig).1.isNone = true) ∧
    (channelIndex tok0 = 255 ∧
      (uartProcess Command.GROUP tok0 tok5 defaultConfig).2 = Reply.OK ∧
      (uartProcess Command.GROUP tok0 tok5 defaultConfig).1.isNone = true) ∧
    (channelIndex tokX = 255 ∧
      (uartProcess Command.MODE tokX tokLatch defaultConfig).2 = Reply.OK ∧
      (uartProcess Command.MODE tokX tokLatch defaultConfig).1.isNone = true) ∧
    (channelIndex tok257 = 0 ∧
      (uartProcess Command.OC tok257 tok2_5 defaultConfig).2 = Reply.OK ∧
      (uartProcess Command.OC tok257 tok2_5 defaultConfig).1.map (fun c => c.ocThresholds 0) =
        some (5 / 2) ∧
      defaultConfig.ocThresholds 0 = 3) := by
  decide!

/-! ## Closed forms of the group clear and the group switch -/

theorem clearGroupFaults_eq (grp : Nat) (s : State) :
    clearGroupFaults grp s =
      { s with
        faultOvercurrent := fun j =>
          if s.cfg.outputGroup j = grp then false else s.faultOvercurrent j
        faultThermal := fun j =>
          if s.cfg.outputGroup j = grp then false else s.faultThermal j
        clearedFault := fun j =>
          if s.cfg.outputGroup j = grp then true else s.clearedFault j } := by
  cases s
  simp only [clearGroupFaults, allCh, List.foldl]
  split_ifs <;> (congr 1 <;> funext j <;> fin_cases j <;> simp_all [Function.update_apply])

theorem setGroup_cfg (now : Nat) (grp : Nat) (v : Bool) (s : State) :
    (setGroup now grp v s).cfg = s.cfg := by
  unfold setGroup
  refine foldl_preserves (fun b : State => b.cfg = s.cfg) _ (fun b a hb => ?_) allCh s rfl
  split_ifs
  · rw [setChannel_eq]; exact hb
  · exact hb

/-- Every member of group `grp` is on, without fault flags and without the
cleared mark, after the loop `setChannel(i, true)` over the group. -/
theorem setGroup_on_member (now : Nat) (grp : Nat) (s : State) (j : Ch)
    (hj : s.cfg.outputGroup j = grp) :
    (setGroup now grp true s).channelActive j = true ∧
    (setGroup now grp true s).clearedFault j = false ∧
    (setGroup now grp true s).faultOvercurrent j = false ∧
    (setGroup now grp true s).faultThermal j = false := by
  unfold setGroup
  refine foldl_local_establish (fun (s : State) (i : Ch) => s.cfg.outputGroup i) _ ?_
    (fun b : State => b.channelActive j = true ∧ b.clearedFault j = false ∧
      b.faultOvercurrent j = false ∧ b.faultThermal j = false) ?_
    (fun (i : Ch) (g : Nat) => i = j ∧ g = grp) ?_ s j ⟨rfl, hj⟩
  · intro b i k _
    dsimp only
    split_ifs
    · rw [setChannel_eq]
    · rfl
  · intro b i hb
    dsimp only
    split_ifs
    · rw [setChannel_eq]
      by_cases e : j = i
      · subst e; simp
      · simpa [Function.update_apply, e] using hb
    · exact hb
  · rintro b i ⟨rfl, hg⟩
    dsimp only at hg ⊢
    rw [if_pos hg, setChannel_eq]
    simp

/-! ## Digital long press: claim C33 -/

theorem extFaultClear_eq (ch : Ch) (s : State) :
    extFaultClear ch s =
      { s with
        channelActive := fun j =>
          if s.cfg.outputGroup j = s.cfg.outputGroup ch then false else s.channelActive j
        faultOvercurrent := fun j =>
          if s.cfg.outputGroup j = s.cfg.outputGroup ch then true else s.faultOvercurrent j
        faultThermal := fun j =>
          if s.cfg.outputGroup j = s.cfg.outputGroup ch then false else s.faultThermal j
        clearedFault := fun j =>
          if s.cfg.outputGroup j = s.cfg.outputGroup ch then true else s.clearedFault j
        switchPin := fun j =>
          if s.cfg.outputGroup j = s.cfg.outputGroup ch then false else s.switchPin j
        longDone := Function.update s.longDone ch true } := by
  unfold extFaultClear
  dsimp only
  rw [shutdownGroup_eq, clearGroupFaults_eq]
  dsimp only
  congr 1
  funext j
  split_ifs <;> rfl

/-- The loop body of button `ch` when the button is held (no edge), the long
press has not been handled, the hold time has reached 1000 ms and the mode test
of the long press passes. -/
theorem extButtonStep_long (now : Nat) (s : State) (ch : Ch)
    (hnow : ((s.candidateMask &&& (1 <<< ch.val)) != 0) = true)
    (hwas : ((s.lastMask &&& (1 <<< ch.val)) != 0) = true)
    (hnl : s.longDone ch = false) (hheld : subU32 now (s.pressStartExt ch) ≥ 1000)
    (hallow : s.cfg.outputMode ch = OutputMode.MODE_LATCH ∨
      (s.cfg.outputMode ch = OutputMode.MODE_MOMENTARY ∧
        (s.faultOvercurrent ch = true ∨ s.faultThermal ch = true))) :
    extButtonStep now s ch = extFaultClear ch s := by
  have hal : (decide (s.cfg.outputMode ch = OutputMode.MODE_LATCH) ||
      (decide (s.cfg.outputMode ch = OutputMode.MODE_MOMENTARY) &&
        (s.faultOvercurrent ch || s.faultThermal ch))) = true := by
    rcases hallow with h | ⟨h1, h2 | h2⟩
    · simp [h]
    · simp [h1, h2]
    · simp [h1, h2]
  unfold extButtonStep
  rw [hnow, hwas]
  dsimp only
  have e1 : extPressEdge now true true ch s = s := by
    unfold extPressEdge
    rw [if_neg (by simp)]
  have e2 : extLongPress now true ch s = extFaultClear ch s := by
    unfold extLongPress
    rw [if_pos (by simp [hnl, hheld])]
    dsimp only
    rw [if_pos hal]
  have e3 : ∀ t : State, extRelease now true true ch t = t := by
    intro t
    unfold extRelease
    rw [if_neg (by simp)]
  rw [e1, e2, e3]

theorem applyPressChannel_cfg (now : Nat) (grp : Nat) (pressed : Bool) (s : State) (i : Ch) :
    (applyPressChannel now grp pressed s i).cfg = s.cfg := by
  simp only [applyPressChannel, setChannel_eq]
  split_ifs <;> rfl

theorem applyPressChannel_view_ne (now : Nat) (grp : Nat) (pressed : Bool) (s : State)
    (i j : Ch) (h : j ≠ i) : (applyPressChannel now grp pressed s i).view j = s.view j := by
  simp only [applyPressChannel, setChannel_eq, digitalWrite]
  split_ifs <;> simp [State.view, Function.update_apply, h]

theorem applyPressChannel_view_congr (now : Nat) (grp : Nat) (pressed : Bool) (i : Ch)
    (s t : State) (hv : s.view i = t.view i) (hc : s.cfg = t.cfg) :
    (applyPressChannel now grp pressed s i).view i =
      (applyPressChannel now grp pressed t i).view i := by
  simp only [State.view, ChanView.mk.injEq] at hv
  obtain ⟨h1, h2, h3, h4, h5, h6, h7, h8, h9, h10, h11⟩ := hv
  unfold applyPressChannel
  rw [hc, h4, h5, h7, h8]
  dsimp only
  split_ifs <;>
    simp only [State.view, setChannel_eq, digitalWrite, Function.update_same, h1, h2, h3, h4, h5,
      h6, h7, h8, h9, h10, h11, if_true, Bool.false_eq_true, if_false] <;>
    split_ifs <;>
    simp only [Function.update_same, h1, h2, h3, h4, h5, h6, h7, h8, h9, h10, h11]

/-- The variables of channel `i` after `applyPress(ch, pressed)` are those after
the loop body of channel `i` alone. -/
theorem applyPress_view (now : Nat) (ch : Ch) (pressed : Bool) (s : State) (i : Ch) :
    (applyPress now ch pressed s).view i =
      (applyPressChannel now (s.cfg.outputGroup ch) pressed s i).view i := by
  have h := foldl_local (fun (t : State) (k : Ch) => (t.cfg, t.view k))
    (applyPressChannel now (s.cfg.outputGroup ch) pressed)
    (fun t k j hj => by
      dsimp only
      rw [applyPressChannel_cfg, applyPressChannel_view_ne now _ pressed t k j hj])
    (fun t t2 k hk => by
      dsimp only at hk ⊢
      have hc : t.cfg = t2.cfg := congrArg Prod.fst hk
      have hv : t.view k = t2.view k := congrArg Prod.snd hk
      rw [applyPressChannel_cfg, applyPressChannel_cfg, hc,
        applyPressChannel_view_congr now _ pressed k t t2 hv hc])
    s i
  exact congrArg Prod.snd h

/-- In `applyPress(ch, true)` a group member in Latch mode that is not blocked
by a fault is toggled on its own: its new `active` is the negation of its old
one, whatever the other members of the group do. -/
theorem applyPress_latch_member (now : Nat) (ch : Ch) (s : State) (i : Ch)
    (hg : s.cfg.outputGroup i = s.cfg.outputGroup ch)
    (hm : s.cfg.outputMode i = OutputMode.MODE_LATCH)
    (hf : (s.faultOvercurrent i = false ∧ s.faultThermal i = false) ∨ s.clearedFault i = true) :
    (applyPress now ch true s).channelActive i = !s.channelActive i := by
  have hskip : ¬ (((s.faultOvercurrent i || s.faultThermal i) && !s.clearedFault i) = true) := by
    rcases hf with ⟨h1, h2⟩ | h
    · simp [h1, h2]
    · simp [h]
  have hv := congrArg ChanView.channelActive (applyPress_view now ch true s i)
  simp only [State.view] at hv
  rw [hv]
  unfold applyPressChannel
  rw [if_neg (fun h => h hg)]
  dsimp only
  rw [if_pos hm, if_pos rfl, if_neg hskip, setChannel_eq]
  split_ifs <;> simp

/-- C34 (evaluation at a failing input). Channels 0 and 1 form one group in
Latch mode without faults; channel 0 is on and channel 1 is off (a DIGOUT frame
switched channel 0 on).  On the release edge of a short press of external
button 0 the members are toggled one by one: channel 0 goes off and channel 1
goes on, so the group is not all off afterwards. -/
theorem C34_mixed_group_is_swapped :
    (sReleasePending.cfg.outputGroup 1 = sReleasePending.cfg.outputGroup 0 ∧
      sReleasePending.cfg.outputMode 0 = OutputMode.MODE_LATCH ∧
      sReleasePending.cfg.outputMode 1 = OutputMode.MODE_LATCH ∧
      sReleasePending.longDone 0 = false ∧
      sReleasePending.channelActive 0 = true ∧ sReleasePending.channelActive 1 = false ∧
      sReleasePending.faultOvercurrent 1 = false ∧ sReleasePending.faultThermal 1 = false) ∧
    (processExternalInputs 360 pinsIdle sReleasePending).channelActive 0 = false ∧
    (processExternalInputs 360 pinsIdle sReleasePending).channelActive 1 = true ∧
    (processExternalInputs 360 pinsIdle sReleasePending).switchPin 1 = true := by
  decide!

theorem clearGroupFaults_cfg (grp : Nat) (s : State) : (clearGroupFaults grp s).cfg = s.cfg := by
  rw [clearGroupFaults_eq]

theorem handleButtonState_press_latch (now : Nat) (ch : Ch) (s : State)
    (hl : s.lastState ch = false) (hm : s.cfg.outputMode ch = OutputMode.MODE_LATCH) :
    handleButtonState now ch true s =
      { s with
        pressTime := Function.update s.pressTime ch now
        lastState := Function.update s.lastState ch true } := by
  unfold handleButtonState keyEdges keyPressEdge
  simp [hl, hm]

theorem handleButtonState_release_long (now : Nat) (ch : Ch) (s : State)
    (hl : s.lastState ch = true) (hm : s.cfg.outputMode ch = OutputMode.MODE_LATCH)
    (hd : subU32 now (s.pressTime ch) ≥ 1000) :
    handleButtonState now ch false s =
      { clearGroupFaults (s.cfg.outputGroup ch) s with
        lastState := Function.update s.lastState ch false } := by
  unfold handleButtonState keyEdges keyReleaseEdge keyReleaseAction
  simp only [hl, Bool.false_and, Bool.false_eq_true, if_false, Bool.not_false, Bool.not_true,
    Bool.and_self, if_true, hd, clearGroupFaults_cfg, hm]
  rw [clearGroupFaults_eq]
  rfl

theorem handleButtonState_release_short (now : Nat) (ch : Ch) (s : State)
    (hl : s.lastState ch = true) (hm : s.cfg.outputMode ch = OutputMode.MODE_LATCH)
    (hd : subU32 now (s.pressTime ch) < 1000)
    (hnf : ∀ i, s.cfg.outputGroup i = s.cfg.outputGroup ch →
      s.faultOvercurrent i = false ∧ s.faultThermal i = false)
    (hoff : ∀ i, s.cfg.outputGroup i = s.cfg.outputGroup ch → s.channelActive i = false) :
    handleButtonState now ch false s =
      { setGroup now (s.cfg.outputGroup ch) true s with
        lastState := Function.update (setGroup now (s.cfg.outputGroup ch) true s).lastState ch
          false } := by
  have hgf : (allCh.any fun i =>
      decide (s.cfg.outputGroup i = s.cfg.outputGroup ch) &&
        (s.faultOvercurrent i || s.faultThermal i)) = false := by
    rw [List.any_eq_false]
    intro i _
    by_cases hg : s.cfg.outputGroup i = s.cfg.outputGroup ch
    · simp [(hnf i hg).1, (hnf i hg).2]
    · simp [hg]
  have hon : (allCh.any fun i =>
      decide (s.cfg.outputGroup i = s.cfg.outputGroup ch) && s.channelActive i) = false := by
    rw [List.any_eq_false]
    intro i _
    by_cases hg : s.cfg.outputGroup i = s.cfg.outputGroup ch
    · simp [hoff i hg]
    · simp [hg]
  have hd2 : ¬ (subU32 now (s.pressTime ch) ≥ 1000) := not_le.mpr hd
  unfold handleButtonState keyEdges keyReleaseEdge keyReleaseAction keyShortPress
  simp only [hl, Bool.false_and, Bool.false_eq_true, if_false, Bool.not_false, Bool.not_true,
    Bool.and_self, if_true, hd2, hm, hgf, hon, setGroup_cfg]
  rw [if_neg (by decide)]
  congr 1
  exact setGroup_cfg now _ true s

theorem press_latch_fields (now : Nat) (ch : Ch) (s : State)
    (hl : s.lastState ch = false) (hm : s.cfg.outputMode ch = OutputMode.MODE_LATCH) :
    (handleButtonState now ch true s).cfg = s.cfg ∧
    (handleButtonState now ch true s).lastState ch = true ∧
    (handleButtonState now ch true s).pressTime ch = now ∧
    (handleButtonState now ch true s).channelActive = s.channelActive ∧
    (handleButtonState now ch true s).faultOvercurrent = s.faultOvercurrent ∧
    (handleButtonState now ch true s).faultThermal = s.faultThermal ∧
    (handleButtonState now ch true s).clearedFault = s.clearedFault := by
  rw [handleButtonState_press_latch now ch s hl hm]
  simp

theorem release_long_fields (now : Nat) (ch : Ch) (s : State)
    (hl : s.lastState ch = true) (hm : s.cfg.outputMode ch = OutputMode.MODE_LATCH)
    (hd : subU32 now (s.pressTime ch) ≥ 1000) :
    (handleButtonState now ch false s).cfg = s.cfg ∧
    (handleButtonState now ch false s).lastState ch = false ∧
    (handleButtonState now ch false s).channelActive = s.channelActive ∧
    (∀ i, s.cfg.outputGroup i = s.cfg.outputGroup ch →
      (handleButtonState now ch false s).faultOvercurrent i = false ∧
      (handleButtonState now ch false s).faultThermal i = false ∧
      (handleButtonState now ch false s).clearedFault i = true) := by
  rw [handleButtonState_release_long now ch s hl hm hd, clearGroupFaults_eq]
  refine ⟨rfl, by simp, rfl, fun i hi => ?_⟩
  simp [hi]

theorem release_short_fields (now : Nat) (ch : Ch) (s : State)
    (hl : s.lastState ch = true) (hm : s.cfg.outputMode ch = OutputMode.MODE_LATCH)
    (hd : subU32 now (s.pressTime ch) < 1000)
    (hnf : ∀ i, s.cfg.outputGroup i = s.cfg.outputGroup ch →
      s.faultOvercurrent i = false ∧ s.faultThermal i = false)
    (hoff : ∀ i, s.cfg.outputGroup i = s.cfg.outputGroup ch → s.channelActive i = false)
    (i : Ch) (hi : s.cfg.outputGroup i = s.cfg.outputGroup ch) :
    (handleButtonState now ch false s).channelActive i = true ∧
    (handleButtonState now ch false s).clearedFault i = false := by
  rw [handleButtonState_release_short now ch s hl hm hd hnf hoff]
  have h := setGroup_on_member now (s.cfg.outputGroup ch) s i hi
  exact ⟨h.1, h.2.1⟩

/-! ## Keypad long-press clear and re-activation: claim C35 -/

/-- C35. The members of the group of `ch` are all in Latch mode, inactive and
in `fault_oc`, and keypad button `ch` is not pressed.  A press of button `ch`
at `t0` released at `t1`, at least 1000 ms later, leaves every group member
with `fault_oc = false`, `fault_thermal = false`, `cleared_just_now = true` and
`active = false`; a following press at `t2` released at `t3`, less than
1000 ms later, leaves every group member active with
`cleared_just_now = false`. -/
theorem C35_keypad_clear_then_press (s : State) (ch : Ch) (t0 t1 t2 t3 : Nat)
    (hl : s.lastState ch = false)
    (hg : ∀ i, s.cfg.outputGroup i = s.cfg.outputGroup ch →
      s.cfg.outputMode i = OutputMode.MODE_LATCH ∧ s.channelActive i = false ∧
        s.faultOvercurrent i = true)
    (hlong : subU32 t1 t0 ≥ 1000) (hshort : subU32 t3 t2 < 1000)
    (i : Ch) (hi : s.cfg.outputGroup i = s.cfg.outputGroup ch) :
    ((handleButtonState t1 ch false (handleButtonState t0 ch true s)).faultOvercurrent i = false ∧
      (handleButtonState t1 ch false (handleButtonState t0 ch true s)).faultThermal i = false ∧
      (handleButtonState t1 ch false (handleButtonState t0 ch true s)).clearedFault i = true ∧
      (handleButtonState t1 ch false (handleButtonState t0 ch true s)).channelActive i = false) ∧
    ((handleButtonState t3 ch false (handleButtonState t2 ch true
        (handleButtonState t1 ch false (handleButtonState t0 ch true s)))).channelActive i = true ∧
      (handleButtonState t3 ch false (handleButtonState t2 ch true
        (handleButtonState t1 ch false (handleButtonState t0 ch true s)))).clearedFault i =
          false) := by
  have hm : s.cfg.outputMode ch = OutputMode.MODE_LATCH := (hg ch rfl).1
  -- the press at `t0`
  obtain ⟨c1, l1, p1, a1, -, -, -⟩ := press_latch_fields t0 ch s hl hm
  generalize handleButtonState t0 ch true s = s1 at c1 l1 p1 a1 ⊢
  -- the release at `t1`, a long press
  obtain ⟨c2, l2, a2, g2⟩ := release_long_fields t1 ch s1 l1 (by rw [c1]; exact hm)
    (by rw [p1]; exact hlong)
  generalize handleButtonState t1 ch false s1 = s2 at c2 l2 a2 g2 ⊢
  have hi1 : s1.cfg.outputGroup i = s1.cfg.outputGroup ch := by rw [c1]; exact hi
  refine ⟨⟨(g2 i hi1).1, (g2 i hi1).2.1, (g2 i hi1).2.2, ?_⟩, ?_⟩
  · rw [a2, a1]; exact (hg i hi).2.1
  -- the press at `t2`
  obtain ⟨c3, l3, p3, a3, f3, th3, -⟩ := press_latch_fields t2 ch s2 l2
    (by rw [c2, c1]; exact hm)
  generalize handleButtonState t2 ch true s2 = s3 at c3 l3 p3 a3 f3 th3 ⊢
  -- the release at `t3`, a short press
  have hgrp : ∀ j, s3.cfg.outputGroup j = s3.cfg.outputGroup ch →
      s.cfg.outputGroup j = s.cfg.outputGroup ch := by
    intro j hj
    rw [c3, c2, c1] at hj
    exact hj
  refine release_short_fields t3 ch s3 l3 (by rw [c3, c2, c1]; exact hm)
    (by rw [p3]; exact hshort) ?_ ?_ i (by rw [c3, c2, c1]; exact hi)
  · intro j hj
    have hj1 : s1.cfg.outputGroup j = s1.cfg.outputGroup ch := by
      rw [c1]; exact hgrp j hj
    rw [f3, th3]
    exact ⟨(g2 j hj1).1, (g2 j hj1).2.1⟩
  · intro j hj
    rw [a3, a2, a1]
    exact (hg j (hgrp j hj)).2.1

/-- Witness of C35: both channels of the pair are in `fault_oc`; button 0 is
held from 2000 ms to 3000 ms, then pressed from 3500 ms to 3600 ms; the
statement is read for channel 1. -/
theorem C35_keypad_clear_then_press_witness :
    (sPairBlown.faultOvercurrent 1 = true ∧ sPairBlown.channelActive 1 = false) ∧
    ((handleButtonState 3000 0 false (handleButtonState 2000 0 true sPairBlown)).faultOvercurrent 1
        = false ∧
      (handleButtonState 3000 0 false (handleButtonState 2000 0 true sPairBlown)).faultThermal 1
        = false ∧
      (handleButtonState 3000 0 false (handleButtonState 2000 0 true sPairBlown)).clearedFault 1
        = true ∧
      (handleButtonState 3000 0 false (handleButtonState 2000 0 true sPairBlown)).channelActive 1
        = false) ∧
    ((handleButtonState 3600 0 false (handleButtonState 3500 0 true
        (handleButtonState 3000 0 false (handleButtonState 2000 0 true sPairBlown)))).channelActive
          1 = true ∧
      (handleButtonState 3600 0 false (handleButtonState 3500 0 true
        (handleButtonState 3000 0 false (handleButtonState 2000 0 true sPairBlown)))).clearedFault
          1 = false) :=
  ⟨by decide!,
    C35_keypad_clear_then_press sPairBlown 0 2000 3000 3500 3600 (by decide!) (by decide!)
      (by decide!) (by decide!) 1 (by decide!)⟩

/-! ## Undercurrent warning: claim C36 -/

theorem fuseStep_warn (now : Nat) (dt iA : ℚ) (i : Ch) (s : State) :
    (fuseStep now dt iA i s).warningUndercurrent = s.warningUndercurrent := by
  simp only [fuseStep, driveOn, setChannel_eq, digitalWrite, Bool.false_eq_true, if_false]
  split_ifs <;> rfl

theorem updateChannel_warn_thermal (now : Nat) (dt T : ℚ) (sensErr : Bool) (rawI : Ch → Int)
    (s : State) (i : Ch) (h : sensErr = true ∨ T ≥ s.cfg.tempTripThreshold) :
    (updateChannel now dt T sensErr rawI s i).warningUndercurrent = s.warningUndercurrent := by
  rw [updateChannel_thermal now dt T sensErr rawI s i h]
  split_ifs
  · rfl
  · rw [shutdownGroup_eq, ackCleared_eq]

theorem update_warn_thermal (now : Nat) (rawT : Int) (rawI : Ch → Int) (s : State)
    (h : thermalTick now rawT s) :
    (update now rawT rawI s).warningUndercurrent = s.warningUndercurrent := by
  have hv : (updateTemperature now rawT s).warningUndercurrent = s.warningUndercurrent := by
    funext ch
    have := congrArg ChanView.warningUndercurrent (updateTemperature_view now rawT s ch)
    simpa only [State.view] using this
  have hcfg := updateTemperature_cfg now rawT s
  have key := foldl_preserves
    (fun b : State => b.warningUndercurrent = s.warningUndercurrent ∧ b.cfg = s.cfg)
    (updateChannel now (tickDt now s) (updateTemperature now rawT s).filteredTemperature
      (sensorError (updateTemperature now rawT s)) rawI)
    (fun b a hb => by
      have hth : sensorError (updateTemperature now rawT s) = true ∨
          (updateTemperature now rawT s).filteredTemperature ≥ b.cfg.tempTripThreshold := by
        rw [hb.2]; exact h
      exact ⟨(updateChannel_warn_thermal now _ _ _ rawI b a hth).trans hb.1,
        (updateChannel_cfg _ _ _ _ _ _ _).trans hb.2⟩)
    allCh (updateTemperature now rawT s) ⟨hv, hcfg⟩
  exact key.1

theorem updateChannel_warn_inactive (now : Nat) (dt T : ℚ) (rawI : Ch → Int) (s : State)
    (i : Ch) (ha : s.channelActive i = false) (hT : T < s.cfg.tempTripThreshold) :
    (updateChannel now dt T false rawI s i).warningUndercurrent = s.warningUndercurrent := by
  have hT2 : ¬ (T ≥ s.cfg.tempTripThreshold) := not_le.mpr hT
  unfold updateChannel
  by_cases c1 : (s.clearedFault i && !s.channelActive i) = true
  · rw [if_pos c1]; rfl
  · rw [if_neg c1]
    simp only [ackCleared_eq, ha, Bool.false_and, Bool.false_eq_true, if_false, hT2,
      Bool.not_false, if_true, digitalWrite]

/-- C36 (counter-example of the claim as written). Channel 1 is off and no
load current flows (0 A, below the 0.1 A undercurrent threshold): after
`update` its `warn_uc` is still false, while channel 0, which is on, gets
`warn_uc = true`. -/
theorem C36_inactive_channel_not_evaluated :
    sOn.channelActive 1 = false ∧
    measuredCurrent (rawNoLoad 1) < sOn.cfg.underWarnThresholds 1 ∧
    (update 100 150 rawNoLoad sOn).warningUndercurrent 1 = false ∧
    (update 100 150 rawNoLoad sOn).warningUndercurrent 0 = true := by
  decide!

/-- C36 (amended). After `update`, a channel that was active and reached the
current measurement of the tick (no sensor error and no thermal trip in that
tick) has `warn_uc = (i < under_warn_a)` for the current `i` measured in the
tick, also when its fuse blows in the same tick; for every other channel
(inactive, or the tick is a thermal shutdown tick) `warn_uc` is left as it
was. -/
theorem C36_undercurrent_warning (now : Nat) (rawT : Int) (rawI : Ch → Int) (s : State)
    (ch : Ch) :
    (reachesFuse now rawT s ch →
      (update now rawT rawI s).warningUndercurrent ch =
        decide (measuredCurrent (rawI ch) < s.cfg.underWarnThresholds ch)) ∧
    (¬ reachesFuse now rawT s ch →
      (update now rawT rawI s).warningUndercurrent ch = s.warningUndercurrent ch) := by
  constructor
  · rintro ⟨ha, hs, hT⟩
    have hv := congrArg ChanView.warningUndercurrent (update_view now rawT rawI s ch hs hT)
    rw [updateChannel_active now _ _ rawI s ch ha hT] at hv
    simp only [State.view] at hv
    rw [hv, fuseStep_warn]
    simp
  · intro hn
    by_cases hth : thermalTick now rawT s
    · rw [update_warn_thermal now rawT rawI s hth]
    · unfold thermalTick at hth
      have hs : sensorError (updateTemperature now rawT s) = false := by
        cases h : sensorError (updateTemperature now rawT s)
        · rfl
        · exact absurd (Or.inl h) hth
      have hT : (updateTemperature now rawT s).filteredTemperature < s.cfg.tempTripThreshold :=
        not_le.mp (fun h => hth (Or.inr h))
      have ha : s.channelActive ch = false := by
        cases h : s.channelActive ch
        · rfl
        · exact absurd ⟨h, hs, hT⟩ hn
      have hv := congrArg ChanView.warningUndercurrent (update_view now rawT rawI s ch hs hT)
      simp only [State.view] at hv
      rw [hv, updateChannel_warn_inactive now _ _ rawI s ch ha hT]

/-- Witness of C36: in the tick of `sOn` at 100 ms with no load current,
channel 0 (on) is evaluated and channel 1 (off) keeps its value. -/
theorem C36_undercurrent_warning_witness :
    reachesFuse 100 150 sOn 0 ∧ ¬ reachesFuse 100 150 sOn 1 ∧
    (update 100 150 rawNoLoad sOn).warningUndercurrent 0 =
      decide (measuredCurrent (rawNoLoad 0) < sOn.cfg.underWarnThresholds 0) ∧
    (update 100 150 rawNoLoad sOn).warningUndercurrent 1 = sOn.warningUndercurrent 1 :=
  ⟨by decide!, by decide!,
    (C36_undercurrent_warning 100 150 rawNoLoad sOn 0).1 (by decide!),
    (C36_undercurrent_warning 100 150 rawNoLoad sOn 1).2 (by decide!)⟩

/-! ## Rounding error of one `float` operation -/

theorem evalNat_eq {α : Type} (n : Nat) (k : Nat → α) : evalNat n k = k n := by
  cases n <;> rfl

theorem evalInt_eq {α : Type} (z : Int) (k : Int → α) : evalInt z k = k z := by
  cases z <;> simp [evalInt, evalNat_eq]

/-- The value of `f32` without the evaluation order of its definition. -/
theorem f32_eq (x : ℚ) :
    f32 x =
      if x.num = 0 then 0
      else
        (if x.num < 0 then -1 else 1) *
          (if f32Quantum x.num.natAbs x.den ≥ 0 then
            ((f32Significand x.num.natAbs x.den (f32Quantum x.num.natAbs x.den) *
              2 ^ (f32Quantum x.num.natAbs x.den).toNat : Nat) : ℚ)
          else
            (f32Significand x.num.natAbs x.den (f32Quantum x.num.natAbs x.den) : ℚ) /
              ((2 ^ (-(f32Quantum x.num.natAbs x.den)).toNat : Nat) : ℚ)) := by
  cases x with
  | mk' num den h1 h2 =>
    simp only [f32, evalInt_eq, evalNat_eq]
    split_ifs <;> simp

theorem divRoundEven_err (N D : Nat) (hD : 0 < D) :
    |((divRoundEven N D : Nat) : ℚ) - (N : ℚ) / D| ≤ 1 / 2 := by
  have hD' : (0 : ℚ) < D := by exact_mod_cast hD
  have hN : (N : ℚ) = (D : ℚ) * ((N / D : Nat) : ℚ) + ((N % D : Nat) : ℚ) := by
    exact_mod_cast (Nat.div_add_mod N D).symm
  have hr : ((N % D : Nat) : ℚ) < D := by exact_mod_cast Nat.mod_lt N hD
  have hr0 : (0 : ℚ) ≤ ((N % D : Nat) : ℚ) := by positivity
  have hq : (N : ℚ) / D = ((N / D : Nat) : ℚ) + ((N % D : Nat) : ℚ) / D := by
    rw [hN]; field_simp; ring
  rw [hq, abs_le]
  unfold divRoundEven
  dsimp only
  split_ifs with h1 h2 h3
  · have h1' : 2 * ((N % D : Nat) : ℚ) < D := by exact_mod_cast h1
    have : ((N % D : Nat) : ℚ) / D < 1 / 2 := by
      rw [div_lt_iff₀ hD']; linarith
    have : 0 ≤ ((N % D : Nat) : ℚ) / D := by positivity
    constructor <;> linarith
  · have h2' : (D : ℚ) < 2 * ((N % D : Nat) : ℚ) := by exact_mod_cast h2
    have : 1 / 2 < ((N % D : Nat) : ℚ) / D := by
      rw [lt_div_iff₀ hD']; linarith
    have : ((N % D : Nat) : ℚ) / D < 1 := by
      rw [div_lt_iff₀ hD']; linarith
    push_cast
    constructor <;> linarith
  · have h12 : 2 * (N % D) = D := by omega
    have h12' : 2 * ((N % D : Nat) : ℚ) = D := by exact_mod_cast h12
    have : ((N % D : Nat) : ℚ) / D = 1 / 2 := by
      rw [div_eq_iff (ne_of_gt hD')]; linarith
    constructor <;> linarith
  · have h12 : 2 * (N % D) = D := by omega
    have h12' : 2 * ((N % D : Nat) : ℚ) = D := by exact_mod_cast h12
    have : ((N % D : Nat) : ℚ) / D = 1 / 2 := by
      rw [div_eq_iff (ne_of_gt hD')]; linarith
    push_cast
    constructor <;> linarith

theorem fracExponent_small (a d : Nat) (h : a < 2 * d) :
    fracExponent a d ≤ 0 := by
  unfold fracExponent
  split_ifs with hge
  · have h1 : a / d = 1 := by
      apply Nat.div_eq_of_lt_le <;> omega
    rw [h1]
    decide
  · omega

theorem f32Quantum_small (a d : Nat) (h : a < 2 * d) :
    f32Quantum a d ≤ -23 ∧ -149 ≤ f32Quantum a d := by
  have := fracExponent_small a d h
  unfold f32Quantum
  omega

/-- One `float` operation with an exact result of magnitude below 2 is off by
at most `2^-24`. -/
theorem f32_abs_err (x : ℚ) (hx : |x| < 2) : |f32 x - x| ≤ 1 / 2 ^ 24 := by
  by_cases h0 : x.num = 0
  · have hx0 : x = 0 := Rat.zero_of_num_zero h0
    rw [f32_eq, if_pos h0, hx0]
    norm_num
  have hd : 0 < x.den := x.den_pos
  have hd' : (0 : ℚ) < x.den := by exact_mod_cast hd
  have habs : |x| = (x.num.natAbs : ℚ) / x.den := by
    conv_lhs => rw [← Rat.num_div_den x]
    rw [abs_div, abs_of_pos hd']
    congr 1
    rw [← Int.cast_abs, ← Nat.cast_natAbs]
  have hlt : x.num.natAbs < 2 * x.den := by
    rw [habs, div_lt_iff₀ hd'] at hx
    exact_mod_cast hx
  obtain ⟨hk1, -⟩ := f32Quantum_small x.num.natAbs x.den hlt
  have hkneg : ¬ (f32Quantum x.num.natAbs x.den ≥ 0) := by omega
  obtain ⟨m, hm, hm23⟩ : ∃ m : Nat, (-(f32Quantum x.num.natAbs x.den)).toNat = m ∧ 23 ≤ m :=
    ⟨_, rfl, by omega⟩
  have hsig : f32Significand x.num.natAbs x.den (f32Quantum x.num.natAbs x.den) =
      divRoundEven (x.num.natAbs * 2 ^ m) x.den := by
    unfold f32Significand
    rw [if_neg hkneg, hm]
  have herr := divRoundEven_err (x.num.natAbs * 2 ^ m) x.den hd
  have hpow : (0 : ℚ) < 2 ^ m := by positivity
  have hpow24 : (2 : ℚ) ^ 24 ≤ 2 * 2 ^ m := by
    have : (2 : ℚ) ^ 23 ≤ 2 ^ m := pow_le_pow_right₀ (by norm_num) hm23
    linarith
  have key : |(divRoundEven (x.num.natAbs * 2 ^ m) x.den : ℚ) / 2 ^ m -
      (x.num.natAbs : ℚ) / x.den| ≤ 1 / 2 ^ 24 := by
    have e : (divRoundEven (x.num.natAbs * 2 ^ m) x.den : ℚ) / 2 ^ m -
        (x.num.natAbs : ℚ) / x.den =
        ((divRoundEven (x.num.natAbs * 2 ^ m) x.den : ℚ) -
          ((x.num.natAbs * 2 ^ m : Nat) : ℚ) / x.den) / 2 ^ m := by
      push_cast
      field_simp
      ring
    rw [e, abs_div, abs_of_pos hpow, div_le_div_iff₀ hpow (by positivity)]
    calc |(divRoundEven (x.num.natAbs * 2 ^ m) x.den : ℚ) -
          ((x.num.natAbs * 2 ^ m : Nat) : ℚ) / x.den| * 2 ^ 24
        ≤ 1 / 2 * 2 ^ 24 := by gcongr
      _ ≤ 1 * 2 ^ m := by linarith
  rw [f32_eq, if_neg h0, if_neg hkneg, hsig, hm]
  push_cast
  by_cases hneg : x.num < 0
  · rw [if_pos hneg]
    have hxneg : x = -((x.num.natAbs : ℚ) / x.den) := by
      have hxlt : x < 0 := Rat.num_neg.mp hneg
      rw [← habs, abs_of_neg hxlt, neg_neg]
    generalize ((divRoundEven (x.num.natAbs * 2 ^ m) x.den : Nat) : ℚ) / 2 ^ m = A at key ⊢
    generalize (x.num.natAbs : ℚ) / x.den = B at key hxneg ⊢
    rw [hxneg]
    have e2 : -1 * A - -B = -(A - B) := by ring
    rw [e2, abs_neg]
    exact key
  · rw [if_neg hneg]
    have hxpos : x = (x.num.natAbs : ℚ) / x.den := by
      have hxge : 0 ≤ x := Rat.num_nonneg.mp (not_lt.mp hneg)
      rw [← habs, abs_of_nonneg hxge]
    generalize ((divRoundEven (x.num.natAbs * 2 ^ m) x.den : Nat) : ℚ) / 2 ^ m = A at key ⊢
    generalize (x.num.natAbs : ℚ) / x.den = B at key hxpos ⊢
    rw [hxpos, one_mul]
    exact key

theorem ilog2Step_inv (w n0 : Nat) (p : Nat × Nat) (h1 : 1 ≤ p.1) (h2 : p.1 * 2 ^ p.2 ≤ n0) :
    1 ≤ (ilog2Step w p).1 ∧ (ilog2Step w p).1 * 2 ^ (ilog2Step w p).2 ≤ n0 := by
  unfold ilog2Step
  rw [evalNat_eq, evalNat_eq]
  split_ifs with h
  · dsimp only
    rw [Nat.shiftRight_eq_div_pow]
    have hpos : 0 < 2 ^ w := Nat.pow_pos (by decide)
    refine ⟨(Nat.one_le_div_iff hpos).mpr h, ?_⟩
    calc p.1 / 2 ^ w * 2 ^ (p.2 + w) = (p.1 / 2 ^ w * 2 ^ w) * 2 ^ p.2 := by
          rw [pow_add]; ring
      _ ≤ p.1 * 2 ^ p.2 := Nat.mul_le_mul_right _ (Nat.div_mul_le_self _ _)
      _ ≤ n0 := h2
  · exact ⟨h1, h2⟩

theorem ilog2Aux_le (n0 : Nat) (fuel : Nat) :
    ∀ n c : Nat, 1 ≤ n → n * 2 ^ c ≤ n0 → 2 ^ ilog2Aux fuel n c ≤ n0 := by
  induction fuel with
  | zero =>
    intro n c h1 h2
    unfold ilog2Aux
    calc 2 ^ c = 1 * 2 ^ c := (Nat.one_mul _).symm
      _ ≤ n * 2 ^ c := Nat.mul_le_mul_right _ h1
      _ ≤ n0 := h2
  | succ fuel ih =>
    intro n c h1 h2
    unfold ilog2Aux
    split_ifs with h
    · apply ih
      · rw [Nat.shiftRight_eq_div_pow]
        exact (Nat.one_le_div_iff (Nat.pow_pos (by decide))).mpr h
      · rw [Nat.shiftRight_eq_div_pow]
        calc n / 2 ^ 64 * 2 ^ (c + 64) = (n / 2 ^ 64 * 2 ^ 64) * 2 ^ c := by
              rw [pow_add]; ring
          _ ≤ n * 2 ^ c := Nat.mul_le_mul_right _ (Nat.div_mul_le_self _ _)
          _ ≤ n0 := h2
    · have s32 := ilog2Step_inv 32 n0 (n, c) h1 h2
      have s16 := ilog2Step_inv 16 n0 _ s32.1 s32.2
      have s8 := ilog2Step_inv 8 n0 _ s16.1 s16.2
      have s4 := ilog2Step_inv 4 n0 _ s8.1 s8.2
      have s2 := ilog2Step_inv 2 n0 _ s4.1 s4.2
      have s1 := ilog2Step_inv 1 n0 _ s2.1 s2.2
      calc 2 ^ _ = 1 * 2 ^ _ := (Nat.one_mul _).symm
        _ ≤ _ * 2 ^ _ := Nat.mul_le_mul_right _ s1.1
        _ ≤ n0 := s1.2

/-- The integer logarithm is not too large: `2 ^ ilog2 n ≤ n`. -/
theorem two_pow_ilog2_le (n : Nat) (h : 1 ≤ n) : 2 ^ ilog2 n ≤ n := by
  unfold ilog2
  rw [evalNat_eq]
  exact ilog2Aux_le n n n 0 h (by simp)

theorem divRoundEven_ge (N D : Nat) : N / D ≤ divRoundEven N D := by
  unfold divRoundEven
  dsimp only
  split_ifs <;> omega

/-- A `float` operation with an exact result of at least 2 gives at least 1. -/
theorem f32_ge_one (x : ℚ) (hx : 2 ≤ x) : 1 ≤ f32 x := by
  have hpos : 0 < x := lt_of_lt_of_le (by norm_num) hx
  have hnum : 0 < x.num := Rat.num_pos.mpr hpos
  have hd : 0 < x.den := x.den_pos
  have hd' : (0 : ℚ) < x.den := by exact_mod_cast hd
  obtain ⟨a, ha⟩ : ∃ a : Nat, x.num = a := ⟨x.num.toNat, (Int.toNat_of_nonneg hnum.le).symm⟩
  have hna : x.num.natAbs = a := by rw [ha]; rfl
  have hxa : x = (a : ℚ) / x.den := by
    have h := Rat.num_div_den x
    rw [ha, Int.cast_natCast] at h
    exact h.symm
  have h2d : 2 * x.den ≤ a := by
    rw [hxa, le_div_iff₀ hd'] at hx
    exact_mod_cast hx
  have hdiv2 : 2 ≤ a / x.den := (Nat.le_div_iff_mul_le hd).mpr h2d
  have hge : a ≥ x.den := by omega
  have hfe : fracExponent a x.den = (ilog2 (a / x.den) : Int) := by
    unfold fracExponent
    rw [if_pos hge]
  have hpow : 2 ^ ilog2 (a / x.den) * x.den ≤ a :=
    le_trans (Nat.mul_le_mul_right _ (two_pow_ilog2_le _ (by omega))) (Nat.div_mul_le_self _ _)
  have hq : f32Quantum a x.den = (ilog2 (a / x.den) : Int) - 23 := by
    unfold f32Quantum
    rw [hfe]
    omega
  rw [f32_eq, if_neg (ne_of_gt hnum), if_neg (not_lt.mpr hnum.le), one_mul, hna, hq]
  generalize ilog2 (a / x.den) = e at hpow
  by_cases hk : ((e : Int) - 23) ≥ 0
  · rw [if_pos hk]
    obtain ⟨k, hk2⟩ : ∃ k : Nat, e = k + 23 := ⟨e - 23, by omega⟩
    have hk3 : ((e : Int) - 23).toNat = k := by omega
    rw [hk3]
    have hsig : f32Significand a x.den ((e : Int) - 23) = divRoundEven a (x.den * 2 ^ k) := by
      unfold f32Significand
      rw [if_pos hk, hk3]
    rw [hsig]
    have h1 : 1 ≤ divRoundEven a (x.den * 2 ^ k) := by
      refine le_trans ?_ (divRoundEven_ge _ _)
      apply (Nat.one_le_div_iff (by positivity)).mpr
      calc x.den * 2 ^ k ≤ x.den * 2 ^ e := Nat.mul_le_mul_left _
            (Nat.pow_le_pow_right (by decide) (by omega))
        _ = 2 ^ e * x.den := Nat.mul_comm _ _
        _ ≤ a := hpow
    have h2 : 1 ≤ divRoundEven a (x.den * 2 ^ k) * 2 ^ k :=
      Nat.one_le_iff_ne_zero.mpr (Nat.mul_ne_zero (by omega) (by positivity))
    exact_mod_cast h2
  · rw [if_neg hk]
    obtain ⟨m, hm⟩ : ∃ m : Nat, (-((e : Int) - 23)).toNat = m := ⟨_, rfl⟩
    rw [hm]
    have hsig : f32Significand a x.den ((e : Int) - 23) = divRoundEven (a * 2 ^ m) x.den := by
      unfold f32Significand
      rw [if_neg hk, hm]
    rw [hsig]
    have h1 : 2 ^ m ≤ divRoundEven (a * 2 ^ m) x.den := by
      refine le_trans ?_ (divRoundEven_ge _ _)
      apply (Nat.le_div_iff_mul_le hd).mpr
      calc 2 ^ m * x.den ≤ 2 ^ m * a := Nat.mul_le_mul_left _ hge
        _ = a * 2 ^ m := Nat.mul_comm _ _
    have hp : (0 : ℚ) < ((2 ^ m : Nat) : ℚ) := by positivity
    rw [le_div_iff₀ hp, one_mul]
    exact_mod_cast h1

theorem f32_nonneg (x : ℚ) (hx : 0 ≤ x) : 0 ≤ f32 x := by
  rw [f32_eq]
  split_ifs with h0 hneg hk hk
  · exact le_refl _
  · exact absurd (Rat.num_nonneg.mpr hx) (not_le.mpr hneg)
  · exact absurd (Rat.num_nonneg.mpr hx) (not_le.mpr hneg)
  · positivity
  · positivity

theorem f32_nonpos (x : ℚ) (hx : x ≤ 0) : f32 x ≤ 0 := by
  rw [f32_eq]
  split_ifs with h0 hneg hk hk
  · exact le_refl _
  · have : (0 : ℚ) ≤ ((f32Significand x.num.natAbs x.den (f32Quantum x.num.natAbs x.den) *
        2 ^ (f32Quantum x.num.natAbs x.den).toNat : Nat) : ℚ) := by positivity
    linarith
  · have : (0 : ℚ) ≤ (f32Significand x.num.natAbs x.den (f32Quantum x.num.natAbs x.den) : ℚ) /
        ((2 ^ (-(f32Quantum x.num.natAbs x.den)).toNat : Nat) : ℚ) := by positivity
    linarith
  · have h1 : x.num ≤ 0 := Rat.num_nonpos.mpr hx
    exact absurd (le_antisymm h1 (not_lt.mp hneg)) h0
  · have h1 : x.num ≤ 0 := Rat.num_nonpos.mpr hx
    exact absurd (le_antisymm h1 (not_lt.mp hneg)) h0

theorem updateTemperature_lastUpdate (now : Nat) (rawT : Int) (s : State) :
    (updateTemperature now rawT s).lastUpdate = now := by
  simp only [updateTemperature]
  split_ifs <;> rfl

/-! ## The channel loop in `float` arithmetic -/

theorem fuseStepF32_cfg (now : Nat) (dt iA : ℚ) (i : Ch) (s : State) :
    (fuseStepF32 now dt iA i s).cfg = s.cfg := by
  simp only [fuseStepF32, driveOn, setChannel_eq, digitalWrite]
  split_ifs <;> rfl

theorem updateChannelF32_cfg (now : Nat) (dt T : ℚ) (sensErr : Bool) (rawI : Ch → Int)
    (s : State) (i : Ch) : (updateChannelF32 now dt T sensErr rawI s i).cfg = s.cfg := by
  simp only [updateChannelF32, digitalWrite, shutdownGroup_eq, ackCleared_eq]
  split_ifs <;> simp [fuseStepF32_cfg]

theorem fuseStepF32_view_ne (now : Nat) (dt iA : ℚ) (i j : Ch) (s : State) (h : j ≠ i) :
    (fuseStepF32 now dt iA i s).view j = s.view j := by
  simp only [fuseStepF32, driveOn, setChannel_eq, digitalWrite]
  split_ifs <;> simp [State.view, Function.update_apply, h]

theorem updateChannelF32_view_ne (now : Nat) (dt T : ℚ) (rawI : Ch → Int)
    (s : State) (i j : Ch) (hT : T < s.cfg.tempTripThreshold) (h : j ≠ i) :
    (updateChannelF32 now dt T false rawI s i).view j = s.view j := by
  have hT2 : ¬ (T ≥ s.cfg.tempTripThreshold) := not_le.mpr hT
  simp only [updateChannelF32, ackCleared_eq, digitalWrite, hT2, Bool.false_eq_true, if_false]
  split_ifs <;> (try rw [fuseStepF32_view_ne _ _ _ _ _ _ h]) <;>
    simp [State.view, Function.update_apply, h]

theorem fuseStepF32_view_congr (now : Nat) (dt iA : ℚ) (i : Ch) (s s' : State)
    (hv : s.view i = s'.view i) (hc : s.cfg = s'.cfg) :
    (fuseStepF32 now dt iA i s).view i = (fuseStepF32 now dt iA i s').view i := by
  simp only [State.view, ChanView.mk.injEq] at hv
  obtain ⟨h1, h2, h3, h4, h5, h6, h7, h8, h9, h10, h11⟩ := hv
  simp only [fuseStepF32, driveOn, setChannel_eq, digitalWrite, hc, h1, h2, h3, h4, h5, h6, h7, h8,
    h9, h10, h11, Function.update_same]
  split_ifs <;> simp [State.view, *]

theorem updateChannelF32_view_congr (now : Nat) (dt T : ℚ) (sensErr : Bool) (rawI : Ch → Int)
    (i : Ch) (s s' : State) (hv : s.view i = s'.view i) (hc : s.cfg = s'.cfg)
    (hs : sensErr = false) (hT : T < s.cfg.tempTripThreshold) :
    (updateChannelF32 now dt T sensErr rawI s i).view i =
      (updateChannelF32 now dt T sensErr rawI s' i).view i := by
  have hT2 : ¬ (T ≥ s'.cfg.tempTripThreshold) := by rw [← hc]; exact not_le.mpr hT
  have hv2 := hv
  simp only [State.view, ChanView.mk.injEq] at hv
  obtain ⟨h1, h2, h3, h4, h5, h6, h7, h8, h9, h10, h11⟩ := hv
  subst hs
  simp only [updateChannelF32, ackCleared_eq, digitalWrite, hc, hT2, h1, h2, h3, h4, h5, h6, h7, h8,
    h9, h10, h11, Bool.false_eq_true, if_false]
  split_ifs <;>
    first
    | (apply fuseStepF32_view_congr <;> simp [State.view, *])
    | simp_all [State.view]

theorem foldl_updateChannelF32_cfg (now : Nat) (dt T : ℚ) (sensErr : Bool) (rawI : Ch → Int)
    (l : List Ch) (s : State) :
    (l.foldl (updateChannelF32 now dt T sensErr rawI) s).cfg = s.cfg := by
  induction l generalizing s with
  | nil => rfl
  | cons a l ih => rw [List.foldl_cons, ih, updateChannelF32_cfg]

theorem foldl_updateChannelF32_view_notin (now : Nat) (dt T : ℚ) (rawI : Ch → Int) (ch : Ch)
    (l : List Ch) (hl : ch ∉ l) (s : State) (hT : T < s.cfg.tempTripThreshold) :
    (l.foldl (updateChannelF32 now dt T false rawI) s).view ch = s.view ch := by
  induction l generalizing s with
  | nil => rfl
  | cons a l ih =>
    have hne : ch ≠ a := fun h => hl (h ▸ List.mem_cons_self _ _)
    have hnl : ch ∉ l := fun h => hl (List.mem_cons_of_mem _ h)
    rw [List.foldl_cons, ih hnl _ (by rw [updateChannelF32_cfg]; exact hT),
      updateChannelF32_view_ne _ _ _ _ _ _ _ hT hne]

theorem foldl_updateChannelF32_view_split (now : Nat) (dt T : ℚ) (rawI : Ch → Int) (ch : Ch)
    (pre post : List Ch) (hpre : ch ∉ pre) (hpost : ch ∉ post) (s : State)
    (hT : T < s.cfg.tempTripThreshold) :
    ((pre ++ ch :: post).foldl (updateChannelF32 now dt T false rawI) s).view ch =
      (updateChannelF32 now dt T false rawI s ch).view ch := by
  have hc := foldl_updateChannelF32_cfg now dt T false rawI pre s
  rw [List.foldl_append, List.foldl_cons,
    foldl_updateChannelF32_view_notin now dt T rawI ch post hpost _
      (by rw [updateChannelF32_cfg, hc]; exact hT)]
  exact updateChannelF32_view_congr now dt T false rawI ch _ _
    (foldl_updateChannelF32_view_notin now dt T rawI ch pre hpre s hT) hc rfl (by rw [hc]; exact hT)

/-- Without a thermal shutdown, the channel loop of `updateF32` treats every
channel independently: the variables of channel `ch` after the whole call are
those after the loop body of `ch` alone run on the entry state. -/
theorem updateF32_view (now : Nat) (rawT : Int) (rawI : Ch → Int) (s : State) (ch : Ch)
    (hs : sensorError (updateTemperature now rawT s) = false)
    (hT : (updateTemperature now rawT s).filteredTemperature < s.cfg.tempTripThreshold) :
    (updateF32 now rawT rawI s).view ch =
      (updateChannelF32 now (tickDtF32 now s) (updateTemperature now rawT s).filteredTemperature
        false rawI s ch).view ch := by
  have hc := updateTemperature_cfg now rawT s
  have hT1 : (updateTemperature now rawT s).filteredTemperature <
      (updateTemperature now rawT s).cfg.tempTripThreshold := by rw [hc]; exact hT
  have key : ∀ pre post : List Ch, ch ∉ pre → ch ∉ post → allCh = pre ++ ch :: post →
      (updateF32 now rawT rawI s).view ch =
        (updateChannelF32 now (tickDtF32 now s) (updateTemperature now rawT s).filteredTemperature
          false rawI s ch).view ch := by
    intro pre post hpre hpost hall
    unfold updateF32
    simp only [hs, hall]
    rw [foldl_updateChannelF32_view_split now _ _ rawI ch pre post hpre hpost _ hT1]
    exact updateChannelF32_view_congr now _ _ false rawI ch _ _
      (updateTemperature_view now rawT s ch) hc rfl hT1
  fin_cases ch
  · exact key [] [1, 2, 3] (by decide) (by decide) rfl
  · exact key [0] [2, 3] (by decide) (by decide) rfl
  · exact key [0, 1] [3] (by decide) (by decide) rfl
  · exact key [0, 1, 2] [] (by decide) (by decide) rfl

/-- The state on which the fuse step of channel `i` runs. -/
theorem updateChannelF32_active (now : Nat) (dt T : ℚ) (rawI : Ch → Int) (s : State) (i : Ch)
    (ha : s.channelActive i = true) (hT : T < s.cfg.tempTripThreshold) :
    updateChannelF32 now dt T false rawI s i =
      fuseStepF32 now dt (measuredCurrentF32 (rawI i)) i
        { s with
          clearedFault := Function.update s.clearedFault i false
          warningUndercurrent := Function.update s.warningUndercurrent i
            (decide (measuredCurrentF32 (rawI i) < s.cfg.underWarnThresholds i)) } := by
  have hT2 : ¬ (T ≥ s.cfg.tempTripThreshold) := not_le.mpr hT
  simp only [updateChannelF32, ha, hT2, ackCleared_eq]
  cases hc : s.clearedFault i
  · simp [hc]
    congr 2
    funext j
    by_cases hj : j = i
    · subst hj; simp [hc]
    · simp [Function.update_apply, hj]
  · simp [hc]

theorem updateF32_cfg (now : Nat) (rawT : Int) (rawI : Ch → Int) (s : State) :
    (updateF32 now rawT rawI s).cfg = s.cfg := by
  unfold updateF32
  rw [foldl_updateChannelF32_cfg, updateTemperature_cfg]

theorem fuseStepF32_tview (now : Nat) (dt iA : ℚ) (i : Ch) (s : State) :
    (fuseStepF32 now dt iA i s).tview = s.tview := by
  simp only [fuseStepF32, driveOn, setChannel_eq, digitalWrite, Bool.false_eq_true, if_false]
  split_ifs <;> rfl

theorem updateChannelF32_tview (now : Nat) (dt T : ℚ) (sensErr : Bool) (rawI : Ch → Int)
    (s : State) (i : Ch) :
    (updateChannelF32 now dt T sensErr rawI s i).tview = s.tview := by
  simp only [updateChannelF32, digitalWrite, shutdownGroup_eq, ackCleared_eq]
  split_ifs <;> first | rfl | (rw [fuseStepF32_tview]; rfl)

theorem updateF32_tview (now : Nat) (rawT : Int) (rawI : Ch → Int) (s : State) :
    (updateF32 now rawT rawI s).tview = (updateTemperature now rawT s).tview := by
  unfold updateF32
  exact foldl_preserves
    (fun b : State => b.tview = (updateTemperature now rawT s).tview) _
    (fun b a hb => (updateChannelF32_tview _ _ _ _ _ b a).trans hb) allCh _ rfl

theorem fuseStepF32_lastUpdate (now : Nat) (dt iA : ℚ) (i : Ch) (s : State) :
    (fuseStepF32 now dt iA i s).lastUpdate = s.lastUpdate := by
  simp only [fuseStepF32, driveOn, setChannel_eq, digitalWrite, Bool.false_eq_true, if_false]
  split_ifs <;> rfl

theorem updateChannelF32_lastUpdate (now : Nat) (dt T : ℚ) (sensErr : Bool) (rawI : Ch → Int)
    (s : State) (i : Ch) :
    (updateChannelF32 now dt T sensErr rawI s i).lastUpdate = s.lastUpdate := by
  simp only [updateChannelF32, digitalWrite, shutdownGroup_eq, ackCleared_eq]
  split_ifs <;> first | rfl | (rw [fuseStepF32_lastUpdate])

theorem updateF32_lastUpdate (now : Nat) (rawT : Int) (rawI : Ch → Int) (s : State) :
    (updateF32 now rawT rawI s).lastUpdate = now := by
  unfold updateF32
  exact foldl_preserves (fun b : State => b.lastUpdate = now) _
    (fun b a hb => (updateChannelF32_lastUpdate _ _ _ _ _ b a).trans hb) allCh _
    (updateTemperature_lastUpdate now rawT s)

theorem fuseStepF32_onTime (now : Nat) (dt iA : ℚ) (i : Ch) (s : State) :
    (fuseStepF32 now dt iA i s).channelOnTime = s.channelOnTime := by
  simp only [fuseStepF32, driveOn, setChannel_eq, digitalWrite, Bool.false_eq_true, if_false]
  split_ifs <;> rfl

/-! ## The steady-state fuse over a sequence of ticks, in `float` arithmetic -/

theorem fuseStepF32_steady (now : Nat) (dt iA : ℚ) (i : Ch) (s : State)
    (hw : ¬ subU32 now (s.channelOnTime i) < s.cfg.inrushTimeLimits i)
    (hi : iA > s.cfg.ocThresholds i) :
    (fuseStepF32 now dt iA i s).overcurrentScore i =
      (if scoreAddF32 (s.overcurrentScore i) dt (excessF32 iA (s.cfg.ocThresholds i)) ≥ 1 then 0
        else scoreAddF32 (s.overcurrentScore i) dt (excessF32 iA (s.cfg.ocThresholds i))) ∧
    (fuseStepF32 now dt iA i s).channelActive i =
      (if scoreAddF32 (s.overcurrentScore i) dt (excessF32 iA (s.cfg.ocThresholds i)) ≥ 1
        then false else s.channelActive i) ∧
    (fuseStepF32 now dt iA i s).faultOvercurrent i =
      (if scoreAddF32 (s.overcurrentScore i) dt (excessF32 iA (s.cfg.ocThresholds i)) ≥ 1
        then true else s.faultOvercurrent i) ∧
    (fuseStepF32 now dt iA i s).switchPin i =
      (if scoreAddF32 (s.overcurrentScore i) dt (excessF32 iA (s.cfg.ocThresholds i)) ≥ 1
        then false else true) := by
  simp only [fuseStepF32, hw, if_false, hi, if_true, driveOn, setChannel_eq, digitalWrite,
    Function.update_same, Bool.false_eq_true]
  by_cases h2 :
      scoreAddF32 (s.overcurrentScore i) dt (excessF32 iA (s.cfg.ocThresholds i)) ≥ 1 <;>
    simp [h2]

theorem updateF32_fuse_steady (now : Nat) (rawT : Int) (rawI : Ch → Int) (s : State) (ch : Ch)
    (h : reachesFuse now rawT s ch)
    (hw : ¬ subU32 now (s.channelOnTime ch) < s.cfg.inrushTimeLimits ch)
    (hi : measuredCurrentF32 (rawI ch) > s.cfg.ocThresholds ch) :
    (updateF32 now rawT rawI s).overcurrentScore ch =
      (if scoreAddF32 (s.overcurrentScore ch) (tickDtF32 now s)
          (excessF32 (measuredCurrentF32 (rawI ch)) (s.cfg.ocThresholds ch)) ≥ 1 then 0
        else scoreAddF32 (s.overcurrentScore ch) (tickDtF32 now s)
          (excessF32 (measuredCurrentF32 (rawI ch)) (s.cfg.ocThresholds ch))) ∧
    (updateF32 now rawT rawI s).channelActive ch =
      (if scoreAddF32 (s.overcurrentScore ch) (tickDtF32 now s)
          (excessF32 (measuredCurrentF32 (rawI ch)) (s.cfg.ocThresholds ch)) ≥ 1
        then false else true) ∧
    (updateF32 now rawT rawI s).faultOvercurrent ch =
      (if scoreAddF32 (s.overcurrentScore ch) (tickDtF32 now s)
          (excessF32 (measuredCurrentF32 (rawI ch)) (s.cfg.ocThresholds ch)) ≥ 1
        then true else s.faultOvercurrent ch) ∧
    (updateF32 now rawT rawI s).switchPin ch =
      (if scoreAddF32 (s.overcurrentScore ch) (tickDtF32 now s)
          (excessF32 (measuredCurrentF32 (rawI ch)) (s.cfg.ocThresholds ch)) ≥ 1
        then false else true) ∧
    (updateF32 now rawT rawI s).channelOnTime ch = s.channelOnTime ch := by
  obtain ⟨ha, hs, hT⟩ := h
  have hv := updateF32_view now rawT rawI s ch hs hT
  rw [updateChannelF32_active now _ _ rawI s ch ha hT] at hv
  have key := fuseStepF32_steady now (tickDtF32 now s) (measuredCurrentF32 (rawI ch)) ch
    { s with
      clearedFault := Function.update s.clearedFault ch false
      warningUndercurrent := Function.update s.warningUndercurrent ch
        (decide (measuredCurrentF32 (rawI ch) < s.cfg.underWarnThresholds ch)) } hw hi
  simp only [State.view, ChanView.mk.injEq] at hv
  obtain ⟨h1, -, h3, h4, h5, -, -, -, -, -, h11⟩ := hv
  obtain ⟨k1, k4, k5, k6⟩ := key
  rw [h1, h3, h4, h5, h11, fuseStepF32_onTime]
  refine ⟨k1, ?_, k5, k6, rfl⟩
  rw [k4]
  simp only [ha]

/-- A valid reading below the trip threshold keeps a settled temperature
supervisor settled, and the tick is no thermal shutdown tick. -/
theorem updateTemperature_quiet (now : Nat) (rawT : Int) (s : State) (hq : TempQuiet s)
    (hc : coolReading s rawT) :
    TempQuiet (updateTemperature now rawT s) ∧ ¬ thermalTick now rawT s := by
  obtain ⟨hinit, herr, hcnt, hlt⟩ := hq
  obtain ⟨hv, hcool⟩ := hc
  have hcfg := updateTemperature_cfg now rawT s
  have main : (updateTemperature now rawT s).tempSensorInitialized = true ∧
      (updateTemperature now rawT s).lastSensorErr = false ∧
      (updateTemperature now rawT s).badTempReadingCount = 0 ∧
      (updateTemperature now rawT s).filteredTemperature < s.cfg.tempTripThreshold := by
    by_cases hdt : filterDt now s > 0.1
    · obtain ⟨h1, h2, h3, h4, -⟩ := temp_valid_filter now rawT s hinit hdt hv
      refine ⟨h4, h3, h2, ?_⟩
      rw [h1]
      have hmc : 0 ≤ maxTempChangePerSecond * filterDt now s := by
        have : (0 : ℚ) ≤ filterDt now s := le_of_lt (lt_trans (by norm_num) hdt)
        unfold maxTempChangePerSecond
        positivity
      split_ifs with hbig hpos
      · have : |rawTemperatureOf rawT - s.filteredTemperature| =
            rawTemperatureOf rawT - s.filteredTemperature := abs_of_pos hpos
        rw [this] at hbig
        linarith
      · linarith
      · exact hcool
    · obtain ⟨h1, h2, h3, h4, -⟩ := temp_skip now rawT s hinit hdt
      exact ⟨h4, h3.trans herr, h2.trans hcnt, by rw [h1]; exact hlt⟩
  obtain ⟨m1, m2, m3, m4⟩ := main
  refine ⟨⟨m1, m2, m3, by rw [hcfg]; exact m4⟩, ?_⟩
  unfold thermalTick sensorError
  rw [m2, m3]
  intro h
  rcases h with h | h
  · exact absurd h (by decide)
  · exact absurd m4 (not_lt.mpr h)

theorem updateF32_quiet (now : Nat) (rawT : Int) (rawI : Ch → Int) (s : State)
    (hq : TempQuiet s) (hc : coolReading s rawT) :
    TempQuiet (updateF32 now rawT rawI s) := by
  obtain ⟨⟨q1, q2, q3, q4⟩, -⟩ := updateTemperature_quiet now rawT s hq hc
  have htv := updateF32_tview now rawT rawI s
  have e1 := congrArg TempView.tempSensorInitialized htv
  have e2 := congrArg TempView.lastSensorErr htv
  have e3 := congrArg TempView.badTempReadingCount htv
  have e4 := congrArg TempView.filteredTemperature htv
  simp only [State.tview] at e1 e2 e3 e4
  refine ⟨e1.trans q1, e2.trans q2, e3.trans q3, ?_⟩
  rw [e4, updateF32_cfg, ← updateTemperature_cfg now rawT s]
  exact q4

theorem reachesFuse_of_quiet (now : Nat) (rawT : Int) (s : State) (ch : Ch)
    (ha : s.channelActive ch = true) (hq : TempQuiet s) (hc : coolReading s rawT) :
    reachesFuse now rawT s ch := by
  obtain ⟨-, hth⟩ := updateTemperature_quiet now rawT s hq hc
  unfold thermalTick at hth
  refine ⟨ha, ?_, not_le.mp (fun h => hth (Or.inr h))⟩
  cases h : sensorError (updateTemperature now rawT s)
  · rfl
  · exact absurd (Or.inl h) hth

theorem accScoreF32_append (ex : ℚ) (p q : List (Nat × Int)) :
    ∀ (score : ℚ) (t0 : Nat),
      accScoreF32 ex score t0 (p ++ q) =
        accScoreF32 ex (accScoreF32 ex score t0 p) (lastTime t0 p) q := by
  induction p with
  | nil => intro score t0; rfl
  | cons a l ih => intro score t0; exact ih _ _

theorem belowOneF32_append (ex : ℚ) (p q : List (Nat × Int)) :
    ∀ (score : ℚ) (t0 : Nat), belowOneF32 ex score t0 (p ++ q) → belowOneF32 ex score t0 p := by
  induction p with
  | nil => intro _ _ _; trivial
  | cons a l ih => intro score t0 h; exact ⟨h.1, ih _ _ h.2⟩

theorem runTicksF32_append (rawI : Ch → Int) (p q : List (Nat × Int)) (s : State) :
    runTicksF32 rawI (p ++ q) s = runTicksF32 rawI q (runTicksF32 rawI p s) := by
  unfold runTicksF32
  rw [List.foldl_append]

/-- While the rounded running sum stays below 1 the channel stays on and its
score is the running sum. -/
theorem steady_run_f32 (rawI : Ch → Int) (ch : Ch) (ts : List (Nat × Int)) :
    ∀ s : State, s.channelActive ch = true → TempQuiet s →
      (∀ t ∈ ts, coolReading s t.2) →
      (∀ t ∈ ts, ¬ subU32 t.1 (s.channelOnTime ch) < s.cfg.inrushTimeLimits ch) →
      measuredCurrentF32 (rawI ch) > s.cfg.ocThresholds ch →
      belowOneF32 (excessF32 (measuredCurrentF32 (rawI ch)) (s.cfg.ocThresholds ch))
        (s.overcurrentScore ch) s.lastUpdate ts →
      (runTicksF32 rawI ts s).channelActive ch = true ∧
      (runTicksF32 rawI ts s).overcurrentScore ch =
        accScoreF32 (excessF32 (measuredCurrentF32 (rawI ch)) (s.cfg.ocThresholds ch))
          (s.overcurrentScore ch) s.lastUpdate ts ∧
      (runTicksF32 rawI ts s).faultOvercurrent ch = s.faultOvercurrent ch ∧
      (runTicksF32 rawI ts s).cfg = s.cfg ∧
      (runTicksF32 rawI ts s).lastUpdate = lastTime s.lastUpdate ts ∧
      (runTicksF32 rawI ts s).channelOnTime ch = s.channelOnTime ch ∧
      TempQuiet (runTicksF32 rawI ts s) := by
  induction ts with
  | nil =>
    intro s ha hq _ _ _ _
    exact ⟨ha, rfl, rfl, rfl, rfl, rfl, hq⟩
  | cons t l ih =>
    intro s ha hq hcool hw hi hb
    obtain ⟨hb1, hb2⟩ := hb
    have hc0 := hcool t (List.mem_cons_self _ _)
    have hrf := reachesFuse_of_quiet t.1 t.2 s ch ha hq hc0
    obtain ⟨k1, k4, k5, -, k7⟩ := updateF32_fuse_steady t.1 t.2 rawI s ch hrf
      (hw t (List.mem_cons_self _ _)) hi
    have hcfg := updateF32_cfg t.1 t.2 rawI s
    have hlast := updateF32_lastUpdate t.1 t.2 rawI s
    have hdt : tickDtF32 t.1 s = dtF32 t.1 s.lastUpdate := rfl
    rw [hdt] at k1 k4 k5
    have hn : ¬ (scoreAddF32 (s.overcurrentScore ch) (dtF32 t.1 s.lastUpdate)
        (excessF32 (measuredCurrentF32 (rawI ch)) (s.cfg.ocThresholds ch)) ≥ 1) :=
      not_le.mpr hb1
    rw [if_neg hn] at k1 k4 k5
    obtain ⟨r1, r2, r3, r4, r5, r6, r7⟩ := ih (updateF32 t.1 t.2 rawI s) k4
      (updateF32_quiet t.1 t.2 rawI s hq hc0)
      (fun u hu => by
        have := hcool u (List.mem_cons_of_mem _ hu)
        unfold coolReading at this ⊢
        rw [hcfg]; exact this)
      (fun u hu => by rw [k7, hcfg]; exact hw u (List.mem_cons_of_mem _ hu))
      (by rw [hcfg]; exact hi)
      (by rw [hcfg, k1, hlast]; exact hb2)
    refine ⟨r1, ?_, r3.trans k5, r4.trans hcfg, ?_, r6.trans k7, r7⟩
    · show (runTicksF32 rawI l (updateF32 t.1 t.2 rawI s)).overcurrentScore ch = _
      rw [r2, hcfg, k1, hlast]
      rfl
    · show (runTicksF32 rawI l (updateF32 t.1 t.2 rawI s)).lastUpdate = _
      rw [r5, hlast]
      rfl

/-- The trip tick of the steady-state fuse in `float` arithmetic: the channel
stays on while the rounded running sum is below 1 and is switched off, with
`fault_oc` set and the score reset, by the tick with which the sum reaches 1. -/
theorem trip_tick_f32 (rawI : Ch → Int) (ch : Ch) (s : State) (ts : List (Nat × Int))
    (t : Nat × Int) (ha : s.channelActive ch = true) (h0 : s.overcurrentScore ch = 0)
    (hq : TempQuiet s) (hcool : ∀ u ∈ ts ++ [t], coolReading s u.2)
    (hw : ∀ u ∈ ts ++ [t], ¬ subU32 u.1 (s.channelOnTime ch) < s.cfg.inrushTimeLimits ch)
    (hi : measuredCurrentF32 (rawI ch) > s.cfg.ocThresholds ch)
    (hbelow : belowOneF32 (excessF32 (measuredCurrentF32 (rawI ch)) (s.cfg.ocThresholds ch))
      0 s.lastUpdate ts)
    (hreach : accScoreF32 (excessF32 (measuredCurrentF32 (rawI ch)) (s.cfg.ocThresholds ch))
      0 s.lastUpdate (ts ++ [t]) ≥ 1) :
    (∀ p q : List (Nat × Int), ts = p ++ q →
      (runTicksF32 rawI p s).channelActive ch = true ∧
      (runTicksF32 rawI p s).faultOvercurrent ch = s.faultOvercurrent ch ∧
      (runTicksF32 rawI p s).overcurrentScore ch =
        accScoreF32 (excessF32 (measuredCurrentF32 (rawI ch)) (s.cfg.ocThresholds ch))
          0 s.lastUpdate p) ∧
    (runTicksF32 rawI (ts ++ [t]) s).channelActive ch = false ∧
    (runTicksF32 rawI (ts ++ [t]) s).faultOvercurrent ch = true ∧
    (runTicksF32 rawI (ts ++ [t]) s).overcurrentScore ch = 0 := by
  have hpre : ∀ p q : List (Nat × Int), ts = p ++ q → _ := fun p q hpq =>
    steady_run_f32 rawI ch p s ha hq
      (fun u hu => hcool u (by rw [hpq]; simp [hu]))
      (fun u hu => hw u (by rw [hpq]; simp [hu]))
      hi
      (by
        rw [h0]
        exact belowOneF32_append _ p q _ _ (hpq ▸ hbelow))
  refine ⟨fun p q hpq => ?_, ?_⟩
  · obtain ⟨r1, r2, r3, -, -, -, -⟩ := hpre p q hpq
    rw [h0] at r2
    exact ⟨r1, r3, r2⟩
  · obtain ⟨r1, r2, -, r4, r5, r6, r7⟩ := hpre ts [] (List.append_nil ts).symm
    have hct : coolReading (runTicksF32 rawI ts s) t.2 := by
      have := hcool t (by simp)
      unfold coolReading at this ⊢
      rw [r4]; exact this
    have hrf := reachesFuse_of_quiet t.1 t.2 _ ch r1 r7 hct
    obtain ⟨k1, k4, k5, -, -⟩ := updateF32_fuse_steady t.1 t.2 rawI _ ch hrf
      (by rw [r6, r4]; exact hw t (by simp)) (by rw [r4]; exact hi)
    have hdt : tickDtF32 t.1 (runTicksF32 rawI ts s) = dtF32 t.1 (lastTime s.lastUpdate ts) := by
      unfold tickDtF32 dtF32
      rw [r5]
    rw [accScoreF32_append] at hreach
    have hge : scoreAddF32 ((runTicksF32 rawI ts s).overcurrentScore ch)
        (tickDtF32 t.1 (runTicksF32 rawI ts s))
        (excessF32 (measuredCurrentF32 (rawI ch)) ((runTicksF32 rawI ts s).cfg.ocThresholds ch))
          ≥ 1 := by
      rw [r2, h0, r4, hdt]
      exact hreach
    rw [if_pos hge] at k1 k4 k5
    rw [runTicksF32_append]
    exact ⟨k4, k5, k1⟩

/-! ## Rounding error of the running sum -/

theorem scoreAddF32_eq (score dt ex : ℚ) :
    scoreAddF32 score dt ex = f32 (score + incrementF32 dt ex) := rfl

theorem dtF32_nonneg (now t0 : Nat) : 0 ≤ dtF32 now t0 := by
  unfold dtF32
  apply f32_nonneg
  have : (0 : ℚ) ≤ f32 (subU32 now t0 : ℚ) := f32_nonneg _ (by positivity)
  positivity

theorem incrementF32_nonneg (dt ex : ℚ) (hdt : 0 ≤ dt) : 0 ≤ incrementF32 dt ex := by
  unfold incrementF32
  apply f32_nonneg
  rcases le_total 0 ex with h | h
  · exact mul_nonneg (f32_nonneg _ (mul_nonneg hdt h)) h
  · exact mul_nonneg_of_nonpos_of_nonpos (f32_nonpos _ (mul_nonpos_of_nonneg_of_nonpos hdt h)) h

theorem sumIncF32_append (ex : ℚ) (p q : List (Nat × Int)) :
    ∀ t0 : Nat, sumIncF32 ex t0 (p ++ q) = sumIncF32 ex t0 p + sumIncF32 ex (lastTime t0 p) q := by
  induction p with
  | nil => intro t0; simp [sumIncF32, lastTime]
  | cons a l ih =>
    intro t0
    show incrementF32 (dtF32 a.1 t0) ex + sumIncF32 ex a.1 (l ++ q) =
      (incrementF32 (dtF32 a.1 t0) ex + sumIncF32 ex a.1 l) + sumIncF32 ex (lastTime a.1 l) q
    rw [ih a.1, add_assoc]

/-- One addition of the running sum: if the rounded result is below 1, it is
off by at most `2^-24`. -/
theorem scoreAddF32_err (score dt ex : ℚ) (hs : 0 ≤ score) (hdt : 0 ≤ dt)
    (hlt : scoreAddF32 score dt ex < 1) :
    |scoreAddF32 score dt ex - (score + incrementF32 dt ex)| ≤ 1 / 2 ^ 24 ∧
      0 ≤ scoreAddF32 score dt ex := by
  have hx0 : 0 ≤ score + incrementF32 dt ex := add_nonneg hs (incrementF32_nonneg dt ex hdt)
  rw [scoreAddF32_eq] at hlt ⊢
  have hx2 : score + incrementF32 dt ex < 2 := by
    by_contra h
    have := f32_ge_one _ (not_lt.mp h)
    linarith
  exact ⟨f32_abs_err _ (by rw [abs_of_nonneg hx0]; exact hx2), f32_nonneg _ hx0⟩

/-- While the running sum stays below 1 it differs from the exact sum of the
added values by at most `2^-24` per tick. -/
theorem accScoreF32_err (ex : ℚ) (ts : List (Nat × Int)) :
    ∀ (score : ℚ) (t0 : Nat), 0 ≤ score → score < 1 → belowOneF32 ex score t0 ts →
      |accScoreF32 ex score t0 ts - (score + sumIncF32 ex t0 ts)| ≤ ts.length / 2 ^ 24 ∧
      0 ≤ accScoreF32 ex score t0 ts ∧ accScoreF32 ex score t0 ts < 1 := by
  induction ts with
  | nil =>
    intro score t0 hs hs1 _
    simp [accScoreF32, sumIncF32, hs, hs1]
  | cons t l ih =>
    intro score t0 hs hs1 hb
    obtain ⟨hb1, hb2⟩ := hb
    obtain ⟨e1, e2⟩ := scoreAddF32_err score (dtF32 t.1 t0) ex hs (dtF32_nonneg _ _) hb1
    obtain ⟨r1, r2, r3⟩ := ih _ t.1 e2 hb1 hb2
    refine ⟨?_, r2, r3⟩
    show |accScoreF32 ex (scoreAddF32 score (dtF32 t.1 t0) ex) t.1 l -
      (score + (incrementF32 (dtF32 t.1 t0) ex + sumIncF32 ex t.1 l))| ≤ _
    have hlen : (((t :: l).length : Nat) : ℚ) / 2 ^ 24 = (l.length : ℚ) / 2 ^ 24 + 1 / 2 ^ 24 := by
      rw [List.length_cons]
      push_cast
      ring
    rw [hlen]
    rw [abs_le] at e1 r1 ⊢
    constructor <;> linarith

/-- The trip tick agrees with the exact sum of the added values up to the
rounding of the running sum: if the running sum is below 1 along `ts` and
reaches 1 with the tick `t`, the exact sum is below `1 + n 2^-24` before `t`
and at least `1 - (n + 1) 2^-24` with it, `n` being the length of `ts`. -/
theorem trip_tick_bracket (ex : ℚ) (t0 : Nat) (ts : List (Nat × Int)) (t : Nat × Int)
    (hbelow : belowOneF32 ex 0 t0 ts) (hreach : accScoreF32 ex 0 t0 (ts ++ [t]) ≥ 1) :
    sumIncF32 ex t0 ts < 1 + ts.length / 2 ^ 24 ∧
    sumIncF32 ex t0 (ts ++ [t]) ≥ 1 - (ts.length + 1) / 2 ^ 24 := by
  obtain ⟨r1, r2, r3⟩ := accScoreF32_err ex ts 0 t0 (le_refl _) (by norm_num) hbelow
  rw [zero_add, abs_le] at r1
  rw [accScoreF32_append] at hreach
  rw [sumIncF32_append]
  have hinc := incrementF32_nonneg (dtF32 t.1 (lastTime t0 ts)) ex (dtF32_nonneg _ _)
  have hx : accScoreF32 ex 0 t0 ts + incrementF32 (dtF32 t.1 (lastTime t0 ts)) ex ≥
      1 - 1 / 2 ^ 24 := by
    by_cases h2 : accScoreF32 ex 0 t0 ts + incrementF32 (dtF32 t.1 (lastTime t0 ts)) ex < 2
    · have he := f32_abs_err _ (by rw [abs_of_nonneg (add_nonneg r2 hinc)]; exact h2)
      have hr : f32 (accScoreF32 ex 0 t0 ts +
          incrementF32 (dtF32 t.1 (lastTime t0 ts)) ex) ≥ 1 := hreach
      rw [abs_le] at he
      linarith
    · have : (1 : ℚ) / 2 ^ 24 ≥ 0 := by positivity
      linarith
  have hs1 : sumIncF32 ex (lastTime t0 ts) [t] =
      incrementF32 (dtF32 t.1 (lastTime t0 ts)) ex := by
    simp [sumIncF32]
  rw [hs1]
  constructor
  · linarith
  · have : ((ts.length : ℚ) + 1) / 2 ^ 24 = (ts.length : ℚ) / 2 ^ 24 + 1 / 2 ^ 24 := by ring
    rw [this]
    linarith

/-! ## Steady-state trip time: claim C37 -/

theorem checkWatchdog_active_mono (now : Nat) (s : State) (ch : Ch)
    (h : (checkWatchdog now s).channelActive ch = true) : s.channelActive ch = true := by
  cases hm : s.lastInputMode
  · simpa only [checkWatchdog, hm] using h
  · simpa only [checkWatchdog, hm] using h
  · simp only [checkWatchdog, hm] at h
    by_cases hc : s.lastHeartbeatMs ≠ 0 ∧ subU32 now s.lastHeartbeatMs > WATCHDOG_TIMEOUT_MS
    · rw [if_pos hc] at h
      by_cases hok : s.canOK = true
      · rw [if_pos hok, allOff_eq] at h
        exact absurd h (by simp)
      · rw [if_neg hok] at h
        exact h
    · rw [if_neg hc] at h
      exact h
  · simpa only [checkWatchdog, hm] using h

/-- C38. `PDMManager::update`, `CANHandler::checkWatchdog` and the DIGOUT
time-out branch of `CANHandler::process` (the call with no frame pending) never
turn a channel on: for every state, every time and every sensor input, a
channel that is active after the call was active before it. -/
theorem C38_supervisors_never_switch_on (s : State) (now : Nat) (rawT : Int) (rawI : Ch → Int)
    (ch : Ch)
    (h : (update now rawT rawI s).channelActive ch = true ∨
      (checkWatchdog now s).channelActive ch = true ∨
      (digOutTimeout now s).channelActive ch = true ∨
      (canProcess now none s).channelActive ch = true) :
    s.channelActive ch = true := by
  rcases h with h | h | h | h
  · exact update_active_mono now rawT rawI s ch h
  · exact checkWatchdog_active_mono now s ch h
  · exact digOutTimeout_active_mono now s ch h
  · exact digOutTimeout_active_mono now s ch h

/-- Witness of C38: channel 0 of `sOn` is still on after a tick at 100 ms, and
it was on before. -/
theorem C38_supervisors_never_switch_on_witness :
    (update 100 150 rawHigh0 sOn).channelActive 0 = true ∧ sOn.channelActive 0 = true :=
  ⟨by decide!, C38_supervisors_never_switch_on sOn 100 150 rawHigh0 0 (Or.inl (by decide!))⟩

/-! ## The temperature variables are written by `update` only -/

theorem foldl_tview {α : Type} (f : State → α → State)
    (hf : ∀ b a, (f b a).tview = b.tview) (l : List α) (s : State) :
    (l.foldl f s).tview = s.tview :=
  foldl_preserves (fun b : State => b.tview = s.tview) f
    (fun b a hb => (hf b a).trans hb) l s rfl

theorem setChannel_tview (now : Nat) (ch : Ch) (v : Bool) (s : State) :
    (setChannel now ch v s).tview = s.tview := by
  rw [setChannel_eq]
  rfl

theorem shutdownGroup_tview (ch : Ch) (s : State) : (shutdownGroup ch s).tview = s.tview := by
  rw [shutdownGroup_eq]
  rfl

theorem clearGroupFaults_tview (grp : Nat) (s : State) :
    (clearGroupFaults grp s).tview = s.tview := by
  unfold clearGroupFaults
  apply foldl_tview
  intro b a
  split_ifs <;> rfl

theorem setGroup_tview (now : Nat) (grp : Nat) (v : Bool) (s : State) :
    (setGroup now grp v s).tview = s.tview := by
  unfold setGroup
  apply foldl_tview
  intro b a
  split_ifs
  · exact setChannel_tview now a v b
  · rfl

theorem applyPressChannel_tview (now : Nat) (grp : Nat) (pressed : Bool) (s : State) (i : Ch) :
    (applyPressChannel now grp pressed s i).tview = s.tview := by
  simp only [applyPressChannel, setChannel_eq]
  split_ifs <;> rfl

theorem applyPress_tview (now : Nat) (ch : Ch) (pressed : Bool) (s : State) :
    (applyPress now ch pressed s).tview = s.tview := by
  unfold applyPress
  exact foldl_tview _ (fun b a => applyPressChannel_tview now _ pressed b a) allCh s

theorem checkWatchdog_tview (now : Nat) (s : State) :
    (checkWatchdog now s).tview = s.tview := by
  cases hm : s.lastInputMode <;> simp only [checkWatchdog, hm]
  split_ifs
  · rw [allOff_eq]; rfl
  · rfl
  · rfl

theorem digOutTimeout_tview (now : Nat) (s : State) :
    (digOutTimeout now s).tview = s.tview := by
  by_cases he : digOutExpired now s
  · rw [digOutTimeout_fired now s he]
    rfl
  · rw [digOutTimeout_idle now s he]

theorem handleButtonState_tview (now : Nat) (ch : Ch) (pressed : Bool) (s : State) :
    (handleButtonState now ch pressed s).tview = s.tview := by
  have hrel : ∀ grp, (keyReleaseAction now grp ch s).tview = s.tview := by
    intro grp
    unfold keyReleaseAction keyShortPress
    dsimp only
    split_ifs
    · exact clearGroupFaults_tview grp s
    · exact setGroup_tview now grp _ s
    · rfl
    · rfl
  show (keyEdges now ch pressed s).tview = s.tview
  unfold keyEdges
  dsimp only
  split_ifs
  · unfold keyPressEdge
    dsimp only
    split_ifs
    · exact setGroup_tview now _ true _
    · rfl
  · unfold keyReleaseEdge
    dsimp only
    split_ifs
    · exact (setGroup_tview now _ false _).trans (hrel _)
    · exact hrel _
  · rfl

theorem tview_setMode (s : State) (m : InputMode) :
    ({ s with lastInputMode := m }).tview = s.tview := rfl

theorem extButtonStep_tview (now : Nat) (s : State) (ch : Ch) :
    (extButtonStep now s ch).tview = s.tview := by
  have hp : ∀ (a b : Bool) (t : State), (extPressEdge now a b ch t).tview = t.tview := by
    intro a b t
    unfold extPressEdge
    dsimp only
    split_ifs
    · rw [tview_setMode]
      exact (applyPress_tview now ch true _).trans rfl
    · rfl
    · rfl
  have hc : ∀ t : State, (extFaultClear ch t).tview = t.tview := by
    intro t
    unfold extFaultClear
    dsimp only
    rw [shutdownGroup_eq]
    exact clearGroupFaults_tview _ t
  have hl : ∀ (a : Bool) (t : State), (extLongPress now a ch t).tview = t.tview := by
    intro a t
    unfold extLongPress
    dsimp only
    split_ifs
    · exact hc t
    · rfl
    · rfl
  have hs : ∀ t : State, (extShortPress now ch t).tview = t.tview := by
    intro t
    unfold extShortPress
    split_ifs
    · rw [tview_setMode]
      exact applyPress_tview now ch true t
    · rfl
    · rfl
  have hr : ∀ (a b : Bool) (t : State), (extRelease now a b ch t).tview = t.tview := by
    intro a b t
    unfold extRelease
    dsimp only
    split_ifs
    · exact (applyPress_tview now ch false _).trans (hs t)
    · exact hs t
    · rfl
  unfold extButtonStep
  dsimp only
  exact (hr _ _ _).trans ((hl _ _).trans (hp _ _ _))

theorem processExternalInputs_tview (now : Nat) (pinLevel : Ch → Bool) (s : State) :
    (processExternalInputs now pinLevel s).tview = s.tview := by
  have h0 : (extResetTiming now s).tview = s.tview := by
    unfold extResetTiming
    apply foldl_tview
    intro b a
    split_ifs <;> rfl
  unfold processExternalInputs
  dsimp only
  split_ifs
  · exact h0
  · exact h0
  · exact (foldl_tview _ (fun b a => extButtonStep_tview now b a) allCh _).trans h0

theorem canProcess_tview (now : Nat) (frame : Option CanMsg) (s : State) :
    (canProcess now frame s).tview = s.tview := by
  have hdig : ∀ (buf : Fin 8 → Nat) (t : State), (digOutService now buf t).tview = t.tview := by
    intro buf t
    unfold digOutService
    dsimp only
    rw [digOutLock_eq]
    refine foldl_tview _ (fun b a => ?_) allCh t
    unfold digOutChannel digOutEdge digOutRising digOutFalling clearChannelFault
    simp only [setChannel_eq]
    split_ifs <;> rfl
  have hkey : ∀ (buf : Fin 8 → Nat) (t : State), (keypadPdo now buf t).tview = t.tview := by
    intro buf t
    unfold keypadPdo
    refine foldl_tview _ (fun b a => ?_) allCh t
    unfold keypadButton
    dsimp only
    split_ifs
    · exact handleButtonState_tview now a _ b
    · exact handleButtonState_tview now a _ b
  have hf : ∀ (m : CanMsg) (t : State), (canFrame now m t).tview = t.tview := by
    intro m t
    unfold canFrame
    dsimp only
    split_ifs
    · exact hdig _ t
    · exact hkey _ t
    · rfl
    · rfl
    · rfl
  unfold canProcess
  cases frame with
  | none => exact digOutTimeout_tview now s
  | some m => exact (hf m _).trans (digOutTimeout_tview now s)

theorem updateTemperature_errLatched (now : Nat) (rawT : Int) (s : State) (h : ErrLatched s) :
    ErrLatched (updateTemperature now rawT s) := by
  unfold ErrLatched at *
  cases hinit : s.tempSensorInitialized
  · by_cases hr : rawTemperatureOf rawT ≥ -40 ∧ rawTemperatureOf rawT ≤ 150
    · obtain ⟨-, h2, -, -, -⟩ := temp_uninit_valid now rawT s hinit hr
      rw [h2]
      intro h0
      exact absurd h0 (by decide)
    · intro _
      exact temp_uninit_bad now rawT s hinit hr
  · by_cases hdt : filterDt now s > 0.1
    · by_cases hv : rawReadingValid rawT
      · obtain ⟨-, h2, -, -, -⟩ := temp_valid_filter now rawT s hinit hdt hv
        rw [h2]
        intro h0
        exact absurd h0 (by decide)
      · obtain ⟨-, h2, h3, -, -⟩ := temp_bad_filter now rawT s hinit hdt hv
        rw [h2, h3]
        intro h0
        rw [if_pos h0]
    · obtain ⟨-, h2, h3, -, -⟩ := temp_skip now rawT s hinit hdt
      rw [h2, h3]
      exact h

theorem errLatched_of_tview (s t : State) (ht : t.tview = s.tview) (h : ErrLatched s) :
    ErrLatched t := by
  have h1 := congrArg TempView.lastSensorErr ht
  have h2 := congrArg TempView.badTempReadingCount ht
  simp only [State.tview] at h1 h2
  unfold ErrLatched at *
  rw [h1, h2]
  exact h

theorem step_errLatched (op : Op) (s : State) (h : ErrLatched s) : ErrLatched (step op s) := by
  cases op with
  | setChannel now ch v => exact errLatched_of_tview s _ (setChannel_tview now ch v s) h
  | clearChannelFault ch => exact h
  | handleButtonState now ch pressed =>
    exact errLatched_of_tview s _ (handleButtonState_tview now ch pressed s) h
  | processExternalInputs now pinLevel =>
    exact errLatched_of_tview s _ (processExternalInputs_tview now pinLevel s) h
  | update now rawT rawI =>
    exact errLatched_of_tview _ _ (update_tview now rawT rawI s)
      (updateTemperature_errLatched now rawT s h)
  | canProcess now frame => exact errLatched_of_tview s _ (canProcess_tview now frame s) h
  | checkWatchdog now => exact errLatched_of_tview s _ (checkWatchdog_tview now s) h

theorem reachable_errLatched (s : State) (h : Reachable s) : ErrLatched s := by
  induction h with
  | init loaded now =>
    intro h0
    simp [init, allCh, digitalWrite, bootState, maxBadReadings] at h0
  | step op s _ ih => exact step_errLatched op s ih

theorem reachable_run (ops : List Op) (s : State) (h : Reachable s) : Reachable (run ops s) := by
  induction ops generalizing s with
  | nil => exact h
  | cons op l ih => exact ih _ (Reachable.step op s h)

theorem sensorError_latched (s : State) (hl : ErrLatched s) (he : sensorError s = true) :
    s.lastSensorErr = true := by
  unfold sensorError at he
  rcases Bool.or_eq_true _ _ |>.mp he with h | h
  · exact h
  · exact hl (of_decide_eq_true h)

theorem updateTemperature_keeps_error (now : Nat) (rawT : Int) (s : State)
    (he : s.lastSensorErr = true)
    (hn : ¬ (s.tempSensorInitialized = true ∧ filterDt now s > 0.1 ∧ rawReadingValid rawT)) :
    (updateTemperature now rawT s).lastSensorErr = true := by
  cases hinit : s.tempSensorInitialized
  · by_cases hr : rawTemperatureOf rawT ≥ -40 ∧ rawTemperatureOf rawT ≤ 150
    · obtain ⟨-, -, h3, -, -⟩ := temp_uninit_valid now rawT s hinit hr
      rw [h3]; exact he
    · exact temp_uninit_bad now rawT s hinit hr
  · by_cases hdt : filterDt now s > 0.1
    · have hv : ¬ rawReadingValid rawT := fun hv => hn ⟨hinit, hdt, hv⟩
      obtain ⟨-, -, h3, -, -⟩ := temp_bad_filter now rawT s hinit hdt hv
      rw [h3, he]
      split_ifs <;> rfl
    · obtain ⟨-, -, h3, -, -⟩ := temp_skip now rawT s hinit hdt
      rw [h3]; exact he

theorem update_keeps_error (now : Nat) (rawT : Int) (rawI : Ch → Int) (s : State)
    (he : s.lastSensorErr = true)
    (hn : ¬ (s.tempSensorInitialized = true ∧ filterDt now s > 0.1 ∧ rawReadingValid rawT)) :
    (update now rawT rawI s).lastSensorErr = true := by
  have h1 := congrArg TempView.lastSensorErr (update_tview now rawT rawI s)
  simp only [State.tview] at h1
  rw [h1]
  exact updateTemperature_keeps_error now rawT s he hn

theorem badTicks_bad (k n : Nat) : ∀ t ∈ badTicks k n, ¬ rawReadingValid t.2.1 := by
  induction n generalizing k with
  | zero => intro t ht; exact absurd ht (List.not_mem_nil _)
  | succ n ih =>
    intro t ht
    rcases List.mem_cons.mp ht with h | h
    · rw [h]
      show ¬ rawReadingValid (0 : Int)
      decide!
    · exact ih (k + 1) t h

theorem badTicks_count (n k : Nat) (s : State) (hinit : s.tempSensorInitialized = true)
    (ht : s.lastTempUpdate = 1000 + 300 * k) (hk : 1000 + 300 * (k + n) < U32) :
    (run (ticksOf (badTicks k n)) s).badTempReadingCount = (s.badTempReadingCount + n) % 256 ∨
      n = 0 := by
  induction n generalizing k s with
  | zero => right; rfl
  | succ n ih =>
    left
    have hdt : filterDt (1000 + 300 * (k + 1)) s > 0.1 := by
      unfold filterDt
      rw [ht]
      have : subU32 (1000 + 300 * (k + 1)) (1000 + 300 * k) = 300 := by
        unfold subU32 U32 at *
        omega
      rw [this]
      norm_num
    have hv : ¬ rawReadingValid (0 : Int) := by decide!
    obtain ⟨-, h2, -, h4, h5⟩ := temp_bad_filter (1000 + 300 * (k + 1)) 0 s hinit hdt hv
    have htv := update_tview (1000 + 300 * (k + 1)) 0 rawHigh0 s
    have e2 := congrArg TempView.badTempReadingCount htv
    have e4 := congrArg TempView.tempSensorInitialized htv
    have e5 := congrArg TempView.lastTempUpdate htv
    simp only [State.tview] at e2 e4 e5
    rw [h2] at e2
    rw [h4] at e4
    rw [h5] at e5
    show (run (ticksOf (badTicks (k + 1) n))
      (update (1000 + 300 * (k + 1)) 0 rawHigh0 s)).badTempReadingCount = _
    rcases ih (k + 1) _ e4 e5 (by omega) with h | h
    · rw [h, e2]
      omega
    · subst h
      show (update (1000 + 300 * (k + 1)) 0 rawHigh0 s).badTempReadingCount = _
      rw [e2]

theorem run_ticks_keep_error (ts : List (Nat × Int × (Ch → Int))) (s : State)
    (he : s.lastSensorErr = true) (hbad : ∀ t ∈ ts, ¬ rawReadingValid t.2.1) :
    (run (ticksOf ts) s).lastSensorErr = true := by
  induction ts generalizing s with
  | nil => exact he
  | cons t l ih =>
    have h1 : (update t.1 t.2.1 t.2.2 s).lastSensorErr = true :=
      update_keeps_error t.1 t.2.1 t.2.2 s he
        (fun h => hbad t (List.mem_cons_self _ _) h.2.2)
    exact ih _ h1 (fun u hu => hbad u (List.mem_cons_of_mem _ hu))

/-! ## Sensor error latch: claim C39 -/

/-- C39. In a state reachable from `init` in which the temperature sensor
error is raised, the error is still raised after any sequence of `update` ticks
whose readings are all out of range, however long (the 8-bit bad-reading
counter may wrap), and a single tick clears it only if it is a filter update
(sensor initialised, more than 100 ms since the last filter update) with a
valid reading. -/
theorem C39_sensor_error_latched (s : State) (hr : Reachable s) (he : sensorError s = true) :
    (∀ ts : List (Nat × Int × (Ch → Int)), (∀ t ∈ ts, ¬ rawReadingValid t.2.1) →
      sensorError (run (ticksOf ts) s) = true) ∧
    (∀ (now : Nat) (rawT : Int) (rawI : Ch → Int),
      sensorError (update now rawT rawI s) = false →
        s.tempSensorInitialized = true ∧ filterDt now s > 0.1 ∧ rawReadingValid rawT) := by
  have hl := sensorError_latched s (reachable_errLatched s hr) he
  constructor
  · intro ts hbad
    unfold sensorError
    rw [run_ticks_keep_error ts s hl hbad]
    rfl
  · intro now rawT rawI hclr
    by_contra hn
    have h1 := update_keeps_error now rawT rawI s hl hn
    unfold sensorError at hclr
    rw [h1] at hclr
    exact absurd hclr (by simp)

/-- Witness of C39: from `sSensorErr` (bad count 3, error raised) 253 further
out-of-range readings wrap the 8-bit counter to 0 and the error is still
raised. -/
theorem C39_sensor_error_latched_witness :
    sensorError sSensorErr = true ∧
    (run (ticksOf (badTicks 0 253)) sSensorErr).badTempReadingCount = 0 ∧
    sensorError (run (ticksOf (badTicks 0 253)) sSensorErr) = true :=
  have hr : Reachable sSensorErr :=
    reachable_run
      [Op.setChannel 0 0 true, Op.update 100 150 rawHigh0, Op.update 400 0 rawHigh0,
        Op.update 700 0 rawHigh0, Op.update 1000 0 rawHigh0]
      _ (Reachable.init defaultConfig 0)
  have hc : (run (ticksOf (badTicks 0 253)) sSensorErr).badTempReadingCount = 0 :=
    (badTicks_count 253 0 sSensorErr (by decide!) (by decide!) (by decide)).elim
      (fun h => h.trans (by decide!)) (fun h => absurd h (by decide))
  ⟨by decide!, hc,
    (C39_sensor_error_latched sSensorErr hr (by decide!)).1 (badTicks 0 253)
      (badTicks_bad 0 253)⟩

/-! ## CRC-16 of the configuration: claim C40 -/

theorem crc16_update_eq (crc data : Nat) :
    crc16_update crc data = crcBitStep^[8] (crc ^^^ data) := by
  unfold crc16_update
  have h : (fun (crc : Nat) (_ : Nat) =>
      evalNat crc fun crc => if crc &&& 1 ≠ 0 then (crc >>> 1) ^^^ 0xA001 else crc >>> 1) =
      fun crc _ => crcBitStep crc := by
    funext crc _
    rw [evalNat_eq]
    rfl
  rw [h]
  rfl

theorem crcBitStep_odd (c : Nat) (h : c % 2 = 1) : crcBitStep c = (c / 2) ^^^ 0xA001 := by
  unfold crcBitStep
  rw [Nat.and_one_is_mod, if_pos (by omega), Nat.shiftRight_one]

theorem crcBitStep_even (c : Nat) (h : c % 2 = 0) : crcBitStep c = c / 2 := by
  unfold crcBitStep
  rw [Nat.and_one_is_mod, if_neg (by omega), Nat.shiftRight_one]

theorem xor_poly_ge (x : Nat) (h : x < 32768) : 32768 ≤ x ^^^ 0xA001 := by
  have hb : (x ^^^ 0xA001).testBit 15 = true := by
    rw [Nat.testBit_xor, Nat.testBit_lt_two_pow (by simpa using h)]
    decide
  simpa using Nat.testBit_implies_ge hb

theorem xor_poly_lt (x : Nat) (h : x < 32768) : x ^^^ 0xA001 < 65536 :=
  Nat.xor_lt_two_pow (n := 16) (by omega) (by decide)

theorem crcBitStep_lt (c : Nat) (h : c < 65536) : crcBitStep c < 65536 := by
  rcases Nat.mod_two_eq_zero_or_one c with h0 | h1
  · rw [crcBitStep_even c h0]; omega
  · rw [crcBitStep_odd c h1]; exact xor_poly_lt _ (by omega)

theorem crcBitStep_inj (a b : Nat) (ha : a < 65536) (hb : b < 65536)
    (h : crcBitStep a = crcBitStep b) : a = b := by
  have ha2 : a / 2 < 32768 := by omega
  have hb2 : b / 2 < 32768 := by omega
  rcases Nat.mod_two_eq_zero_or_one a with a0 | a1 <;>
    rcases Nat.mod_two_eq_zero_or_one b with b0 | b1
  · rw [crcBitStep_even a a0, crcBitStep_even b b0] at h
    omega
  · rw [crcBitStep_even a a0, crcBitStep_odd b b1] at h
    have := xor_poly_ge _ hb2
    omega
  · rw [crcBitStep_odd a a1, crcBitStep_even b b0] at h
    have := xor_poly_ge _ ha2
    omega
  · rw [crcBitStep_odd a a1, crcBitStep_odd b b1] at h
    have := Nat.xor_left_injective h
    omega

theorem crcBitStep_iterate_lt (n c : Nat) (h : c < 65536) : crcBitStep^[n] c < 65536 := by
  induction n generalizing c with
  | zero => exact h
  | succ n ih => rw [Function.iterate_succ_apply]; exact ih _ (crcBitStep_lt c h)

theorem crcBitStep_iterate_inj (n a b : Nat) (ha : a < 65536) (hb : b < 65536)
    (h : crcBitStep^[n] a = crcBitStep^[n] b) : a = b := by
  induction n generalizing a b with
  | zero => exact h
  | succ n ih =>
    rw [Function.iterate_succ_apply, Function.iterate_succ_apply] at h
    exact crcBitStep_inj a b ha hb (ih _ _ (crcBitStep_lt a ha) (crcBitStep_lt b hb) h)

theorem xor_byte_lt (c d : Nat) (hc : c < 65536) (hd : d < 256) : c ^^^ d < 65536 :=
  Nat.xor_lt_two_pow (n := 16) (by omega) (by omega)

theorem crc16_update_lt (c d : Nat) (hc : c < 65536) (hd : d < 256) :
    crc16_update c d < 65536 := by
  rw [crc16_update_eq]
  exact crcBitStep_iterate_lt 8 _ (xor_byte_lt c d hc hd)

theorem crc16_update_inj_crc (d c1 c2 : Nat) (hd : d < 256) (h1 : c1 < 65536) (h2 : c2 < 65536)
    (h : crc16_update c1 d = crc16_update c2 d) : c1 = c2 := by
  rw [crc16_update_eq, crc16_update_eq] at h
  exact Nat.xor_left_injective
    (crcBitStep_iterate_inj 8 _ _ (xor_byte_lt c1 d h1 hd) (xor_byte_lt c2 d h2 hd) h)

theorem crc16_update_inj_data (c a b : Nat) (hc : c < 65536) (ha : a < 256) (hb : b < 256)
    (h : crc16_update c a = crc16_update c b) : a = b := by
  rw [crc16_update_eq, crc16_update_eq] at h
  exact Nat.xor_right_injective
    (crcBitStep_iterate_inj 8 _ _ (xor_byte_lt c a hc ha) (xor_byte_lt c b hc hb) h)

theorem crc16_update_buffer_lt (data : List Nat) (c : Nat) (hc : c < 65536)
    (hd : ∀ x ∈ data, x < 256) : crc16_update_buffer c data < 65536 := by
  induction data generalizing c with
  | nil => exact hc
  | cons x l ih =>
    unfold crc16_update_buffer
    rw [List.foldl_cons]
    exact ih _ (crc16_update_lt c x hc (hd x (List.mem_cons_self _ _)))
      (fun y hy => hd y (List.mem_cons_of_mem _ hy))

theorem crc16_update_buffer_inj (data : List Nat) (c1 c2 : Nat) (h1 : c1 < 65536)
    (h2 : c2 < 65536) (hd : ∀ x ∈ data, x < 256)
    (h : crc16_update_buffer c1 data = crc16_update_buffer c2 data) : c1 = c2 := by
  induction data generalizing c1 c2 with
  | nil => exact h
  | cons x l ih =>
    have hx := hd x (List.mem_cons_self _ _)
    unfold crc16_update_buffer at h
    rw [List.foldl_cons, List.foldl_cons] at h
    exact crc16_update_inj_crc x c1 c2 hx h1 h2
      (ih _ _ (crc16_update_lt c1 x h1 hx) (crc16_update_lt c2 x h2 hx)
        (fun y hy => hd y (List.mem_cons_of_mem _ hy)) h)

/-- C40. For a fixed data byte `crc16_update` is injective in its 16-bit `crc`
argument, and two byte sequences of equal length that differ in exactly one
byte (`a` against `b` after the common prefix `pre`, followed by the common
suffix `post`) get different values of `crc16_update_buffer` from the same
16-bit initial value. -/
theorem C40_crc_detects_single_byte (init : Nat) (pre post : List Nat) (a b : Nat)
    (hinit : init < 65536) (hpre : ∀ x ∈ pre, x < 256) (hpost : ∀ x ∈ post, x < 256)
    (ha : a < 256) (hb : b < 256) (hab : a ≠ b) :
    (∀ d c1 c2 : Nat, d < 256 → c1 < 65536 → c2 < 65536 →
      crc16_update c1 d = crc16_update c2 d → c1 = c2) ∧
    (pre ++ a :: post).length = (pre ++ b :: post).length ∧
    crc16_update_buffer init (pre ++ a :: post) ≠
      crc16_update_buffer init (pre ++ b :: post) := by
  refine ⟨fun d c1 c2 hd h1 h2 h => crc16_update_inj_crc d c1 c2 hd h1 h2 h, by simp, ?_⟩
  intro h
  have hc := crc16_update_buffer_lt pre init hinit hpre
  unfold crc16_update_buffer at h hc
  rw [List.foldl_append, List.foldl_append, List.foldl_cons, List.foldl_cons] at h
  have h3 := crc16_update_buffer_inj post _ _ (crc16_update_lt _ a hc ha)
    (crc16_update_lt _ b hc hb) hpost h
  exact hab (crc16_update_inj_data _ a b hc ha hb h3)

/-- Witness of C40: the sequences `01 02 04` and `01 03 04` from the initial
value `0xFFFF`. -/
theorem C40_crc_detects_single_byte_witness :
    crc16_update_buffer 0xFFFF ([1] ++ 2 :: [4]) ≠ crc16_update_buffer 0xFFFF ([1] ++ 3 :: [4]) :=
  (C40_crc_detects_single_byte 0xFFFF [1] [4] 2 3 (by decide) (by decide) (by decide)
    (by decide) (by decide) (by decide)).2.2

end PDM
